import Mathlib

/-!
# Virtual-memory subsystem: frame allocator, address spaces, fault handler

A shallow embedding of `kern/arch/mips/vm/unsw.c`, `kern/vm/vm.c` and
`kern/vm/addrspace.c`.  Machine words are natural numbers reduced modulo
`2^32` where the C arithmetic can wrap.  The frame table is a function from
frame index to entry (reads past the end of the array see whatever memory
holds).  Kernel panics and non-terminating loops are explicit outcomes.
-/

namespace Vm

/-! ## Machine constants (headers `vm.h`, `tlb.h`, `elf.h`, `errno.h`) -/

/-- Word size modulus of the 32-bit MIPS target. -/
def W32 : Nat := 4294967296

def PAGE_BITS : Nat := 12
def PAGE_SIZE : Nat := 4096
def PAGE_FRAME : Nat := 0xfffff000
def MIPS_KSEG0 : Nat := 0x80000000
def USERSTACK : Nat := 0x80000000
def TLBHI_VPAGE : Nat := 0xfffff000
def TLBLO_DIRTY : Nat := 0x400
def TLBLO_VALID : Nat := 0x200
def PF_R : Nat := 4
def PF_W : Nat := 2
def PF_X : Nat := 1
def VM_FAULT_READ : Int := 0
def VM_FAULT_WRITE : Int := 1
def VM_FAULT_READONLY : Int := 2
def ENOMEM : Nat := 3
def EFAULT : Nat := 6
def EINVAL : Nat := 8

/-- Number of descriptors per page-table level (`addrspace.c`: "1024
descriptors in the 1st-level Page Table"). -/
def N_DESCRIPTORS : Nat := 1024

/-- Macro `PADDR_TO_KVADDR(paddr)`: `paddr + MIPS_KSEG0` in 32 bits. -/
def PADDR_TO_KVADDR (paddr : Nat) : Nat := (paddr + MIPS_KSEG0) % W32

/-- Macro `KVADDR_TO_PADDR(vaddr)`: `vaddr - MIPS_KSEG0` in 32 bits. -/
def KVADDR_TO_PADDR (vaddr : Nat) : Nat := (vaddr + (W32 - MIPS_KSEG0)) % W32

/-! ## Outcomes -/

/-- Ways in which the kernel halts instead of returning. -/
inductive Halt where
  | assertion      -- a failed `KASSERT`
  | double_free    -- `panic("Double free error!!")`
  | frame_table    -- `panic("vm: frame table took up all of physical memory")`
  | null_deref     -- store through a NULL pointer in kernel mode
  deriving DecidableEq, Repr

/-- Result of running a piece of kernel code. -/
inductive Outcome (α : Type) where
  | ok (a : α)
  | panic (h : Halt)
  | diverge
  deriving Repr

/-! ## Frame table (`unsw.c`) -/

/-- The struct `ft_entry`. -/
structure ft_entry where
  allocated : Bool
  not_last : Bool
  deriving DecidableEq, Repr

/-- The globals `frame_table`, `first_frame`, `last_frame`. -/
structure Frames where
  frame_table : Nat → ft_entry
  first_frame : Nat
  last_frame : Nat

/-- Store into `frame_table[i]`. -/
def Frames.set (s : Frames) (i : Nat) (e : ft_entry) : Frames :=
  { s with frame_table := Function.update s.frame_table i e }

/-- The loop `for (i = lo; i < hi; i++)` of `ram_bootstrap` marking the
kernel's frames, run for `fuel` iterations. -/
def boot_mark_used (tbl : Nat → ft_entry) : Nat → Nat → Nat → ft_entry
  | 0, _ => tbl
  | fuel + 1, i => boot_mark_used (Function.update tbl i ⟨true, false⟩) fuel (i + 1)

/-- The loop of `ram_bootstrap` marking the remaining frames free; only
`allocated` is written, `not_last` keeps whatever the memory held. -/
def boot_mark_free (tbl : Nat → ft_entry) : Nat → Nat → Nat → ft_entry
  | 0, _ => tbl
  | fuel + 1, i =>
    boot_mark_free (Function.update tbl i ⟨false, (tbl i).not_last⟩) fuel (i + 1)

/-- Macro `ROUNDUP(a, b)`. -/
def ROUNDUP (a b : Nat) : Nat := (a + (b - 1)) / b * b

/-- The function `ram_bootstrap`.  `ramsize` is `mainbus_ramsize()`,
`firstfree` the global set by `start.S`, `raw` the uninitialised memory that
becomes the frame table; `sizeof(ft_entry_t)` is 4. -/
def ram_bootstrap (ramsize firstfree : Nat) (raw : Nat → ft_entry) : Outcome Frames :=
  let ramsize := if ramsize > 512 * 1024 * 1024 then 512 * 1024 * 1024 else ramsize
  let lastpaddr := ramsize
  let firstpaddr := (firstfree + (W32 - MIPS_KSEG0)) % W32
  if firstpaddr &&& PAGE_FRAME ≠ firstpaddr then .panic .assertion
  else if lastpaddr &&& PAGE_FRAME ≠ lastpaddr then .panic .assertion
  else
    let npages := lastpaddr / PAGE_SIZE
    let frametable_size := ROUNDUP (npages * 4 % W32) PAGE_SIZE % W32
    let firstpaddr := (firstpaddr + frametable_size) % W32
    if firstpaddr ≥ lastpaddr then .panic .frame_table
    else
      let t1 := boot_mark_used raw (firstpaddr >>> PAGE_BITS) 0
      let first_frame := firstpaddr >>> PAGE_BITS
      let t2 := boot_mark_free t1 ((lastpaddr >>> PAGE_BITS) - first_frame) first_frame
      .ok ⟨t2, first_frame, npages⟩

/-- The scan of `alloc_one_frame`: first index in `[i, i + fuel)` whose frame
is not allocated. -/
def alloc_one_scan (tbl : Nat → ft_entry) : Nat → Nat → Option Nat
  | 0, _ => none
  | fuel + 1, i =>
    if (tbl i).allocated = false then some i else alloc_one_scan tbl fuel (i + 1)

/-- The function `alloc_one_frame`; returns the new table and the physical
address (0 on failure). -/
def alloc_one_frame (s : Frames) (npages : Nat) : Outcome (Frames × Nat) :=
  if npages ≠ 1 then .panic .assertion
  else
    match alloc_one_scan s.frame_table (s.last_frame - s.first_frame) s.first_frame with
    | some i => .ok (s.set i ⟨true, false⟩, (i <<< PAGE_BITS) % W32)
    | none => .ok (s, 0)

/-- The `while` loop of `alloc_multiple_frames`, from the state `(i, j)`;
`limit` is `last_frame - npages` in unsigned arithmetic.  Returns the final
`(i, j)`, or `none` when the fuel runs out. -/
def alloc_multi_scan (tbl : Nat → ft_entry) (limit npages : Nat) :
    Nat → Nat → Nat → Option (Nat × Nat)
  | 0, _, _ => none
  | fuel + 1, i, j =>
    if i < limit ∧ j < npages then
      if (tbl ((i + j) % W32)).allocated = true then
        alloc_multi_scan tbl limit npages fuel ((i + j + 1) % W32) 0
      else
        alloc_multi_scan tbl limit npages fuel i ((j + 1) % W32)
    else some (i, j)

/-- The marking loop `for (j = i; j < i + npages - 1; j++)` of
`alloc_multiple_frames`; returns the table and the final `j`. -/
def alloc_multi_mark (tbl : Nat → ft_entry) (bound : Nat) :
    Nat → Nat → (Nat → ft_entry) × Nat
  | 0, j => (tbl, j)
  | fuel + 1, j =>
    if j < bound then
      alloc_multi_mark (Function.update tbl j ⟨true, true⟩) bound fuel ((j + 1) % W32)
    else (tbl, j)

/-- The function `alloc_multiple_frames`.  The scan is given `2^32 + npages`
steps; a scan that has not left the loop by then is reported as divergence. -/
def alloc_multiple_frames (s : Frames) (npages : Nat) : Outcome (Frames × Nat) :=
  let limit := (s.last_frame + (W32 - npages % W32)) % W32
  match alloc_multi_scan s.frame_table limit npages (W32 + npages) s.first_frame 0 with
  | none => .diverge
  | some (i, j) =>
    if j = npages then
      let bound := (i + npages + (W32 - 1)) % W32
      let r := alloc_multi_mark s.frame_table bound npages i
      .ok ({ s with frame_table := Function.update r.1 r.2 ⟨true, false⟩ },
           (i <<< PAGE_BITS) % W32)
    else .ok (s, 0)

/-- The `while` loop of `free_frames` from index `i`. -/
def free_loop (tbl : Nat → ft_entry) : Nat → Nat → Option (Nat → ft_entry)
  | 0, _ => none
  | fuel + 1, i =>
    if (tbl i).allocated = true then
      let tbl1 := Function.update tbl i ⟨false, (tbl i).not_last⟩
      if (tbl i).not_last = true then free_loop tbl1 fuel ((i + 1) % W32)
      else free_loop tbl1 fuel i
    else some tbl

/-- The function `free_frames`.  The index is a `uint32_t`, so the loop can
clear at most `2^32` entries before it meets one it has already cleared. -/
def free_frames (s : Frames) (vaddr : Nat) : Outcome Frames :=
  if vaddr = 0 then .panic .assertion
  else
    let paddr := KVADDR_TO_PADDR vaddr
    let i := paddr >>> PAGE_BITS
    if (s.frame_table i).allocated = false then .panic .double_free
    else
      match free_loop s.frame_table (W32 + 1) i with
      | none => .diverge
      | some tbl => .ok { s with frame_table := tbl }

/-- The function `alloc_kpages`; returns the kernel virtual address (0 on
failure). -/
def alloc_kpages (s : Frames) (npages : Nat) : Outcome (Frames × Nat) :=
  match (if npages > 1 then alloc_multiple_frames s npages else alloc_one_frame s npages) with
  | .ok (s1, paddr) => if paddr = 0 then .ok (s1, 0) else .ok (s1, PADDR_TO_KVADDR paddr)
  | .panic h => .panic h
  | .diverge => .diverge

/-- The function `free_kpages`. -/
def free_kpages (s : Frames) (addr : Nat) : Outcome Frames := free_frames s addr

/-! ## Allocation histories -/

/-- Frame index of the page at kernel virtual address `va`, as computed by
`free_frames`. -/
def frameOf (va : Nat) : Nat := KVADDR_TO_PADDR va >>> PAGE_BITS

/-- Two allocations `(address, page count)` share no frame. -/
def BlocksDisjoint (b c : Nat × Nat) : Prop :=
  ∀ k < b.2, ∀ m < c.2, frameOf b.1 + k ≠ frameOf c.1 + m

/-- States reachable from the table `s0` left by `ram_bootstrap` through
`alloc_kpages` and `free_kpages` of live allocations, together with the list
of live allocations (address returned, number of pages requested). -/
inductive Reach (s0 : Frames) : Frames → List (Nat × Nat) → Prop where
  | boot : Reach s0 s0 []
  | alloc (s s1 : Frames) (L : List (Nat × Nat)) (n va : Nat) :
      Reach s0 s L → 1 ≤ n → n ≤ s.last_frame →
      alloc_kpages s n = Outcome.ok (s1, va) → va ≠ 0 → Reach s0 s1 ((va, n) :: L)
  | alloc_fail (s s1 : Frames) (L : List (Nat × Nat)) (n : Nat) :
      Reach s0 s L → 1 ≤ n → n ≤ s.last_frame →
      alloc_kpages s n = Outcome.ok (s1, 0) → Reach s0 s1 L
  | free (s s1 : Frames) (L : List (Nat × Nat)) (b : Nat × Nat) :
      Reach s0 s L → b ∈ L → free_kpages s b.1 = Outcome.ok s1 → Reach s0 s1 (L.erase b)

/-- A live allocation is recorded in the frame table as one block: every frame
allocated, `not_last` set on all but the last. -/
def BlockOk (s : Frames) (b : Nat × Nat) : Prop :=
  b.1 ≠ 0 ∧ 1 ≤ b.2 ∧ frameOf b.1 + b.2 ≤ s.last_frame ∧
  ∀ k < b.2, s.frame_table (frameOf b.1 + k) = ⟨true, decide (k + 1 < b.2)⟩

/-- Invariant of allocation histories. -/
def AllocInv (s : Frames) (L : List (Nat × Nat)) : Prop :=
  s.last_frame ≤ 131072 ∧ (∀ b ∈ L, BlockOk s b) ∧ L.Pairwise BlocksDisjoint

/-- Value of an outcome, with a default for runs that halt. -/
def Outcome.get {α : Type} (d : α) : Outcome α → α
  | .ok a => a
  | _ => d

/-! ### Concrete allocator states used in the examples -/

/-- Memory in which every frame-table word reads as zero. -/
def raw0 : Nat → ft_entry := fun _ => ⟨false, false⟩

/-- A frame table covering 2^20 frames, none of them allocated. -/
def emptyTable : Frames := ⟨raw0, 1, 1048576⟩

/-- Boot of a machine with 64 KB of RAM whose kernel image ends at 16 KB:
frames 0..4 are reserved, frames 5..15 are free. -/
def boot0 : Frames := Outcome.get emptyTable (ram_bootstrap 65536 0x80004000 raw0)

/-- After `alloc_kpages(3)` on `boot0`. -/
def run1 : Frames := (Outcome.get (emptyTable, 0) (alloc_kpages boot0 3)).1

/-- After a further `alloc_kpages(1)`. -/
def run2 : Frames := (Outcome.get (emptyTable, 0) (alloc_kpages run1 1)).1

/-- After freeing the three-page block again. -/
def run3 : Frames := Outcome.get emptyTable (free_kpages run2 0x80005000)

/-- After a last `alloc_kpages(1)`. -/
def run4 : Frames := (Outcome.get (emptyTable, 0) (alloc_kpages run3 1)).1

/-- Boot of a machine with 32 KB of RAM whose kernel image ends at 20 KB:
frames 0..5 are reserved, frames 6 and 7 are free. -/
def boot1 : Frames := Outcome.get emptyTable (ram_bootstrap 32768 0x80005000 raw0)

/-- After `alloc_kpages(1)` on `boot1`. -/
def full1a : Frames := (Outcome.get (emptyTable, 0) (alloc_kpages boot1 1)).1

/-- After a second `alloc_kpages(1)`: no free frame is left. -/
def full1 : Frames := (Outcome.get (emptyTable, 0) (alloc_kpages full1a 1)).1

/-- After `free_kpages(0x80006000)` on `full1`. -/
def full1b : Frames := Outcome.get emptyTable (free_kpages full1 0x80006000)

/-- After a further `alloc_kpages(1)`. -/
def full1c : Frames := (Outcome.get (emptyTable, 0) (alloc_kpages full1b 1)).1

/-- A live allocation starts at a managed frame and its address is the kernel
address of that frame. -/
def AddrOk (s : Frames) (b : Nat × Nat) : Prop :=
  s.first_frame ≤ frameOf b.1 ∧
  b.1 = PADDR_TO_KVADDR ((frameOf b.1 <<< PAGE_BITS) % W32) ∧
  (frameOf b.1 <<< PAGE_BITS) % W32 ≠ 0


/-! ## Kernel state, address spaces and page tables (`addrspace.c`, `vm.c`) -/

/-- The struct `region`; the `next` pointer is the tail of the list that holds
the node. -/
structure region where
  as_vbase : Nat
  size : Nat
  flags : Nat
  oldFlags : Nat
  deriving DecidableEq, Repr

/-- A second-level page table: the kernel address `kmalloc` returned for it
and the `N_DESCRIPTORS` words stored there.  The words are carried in this
value and not in `Kernel.mem`, so a store into a table does not show in the
bytes of the table's frame.  This follows the C code as long as the frame of a
table is not handed out as a page while the directory still points to the
table; it no longer does after the roll-back of `vm_fault`, which releases the
table and leaves the pointer (`fault_rollback`): there the next page can take
the table's frame, and the C code writes the new entry into the page it has
just cleared.  Statements about the bytes of a newly mapped page therefore
require the frames of the directory and of the table to be allocated. -/
structure PTable where
  addr : Nat
  entry : Nat → Nat

/-- The first-level table `as_pte`: the kernel address of its page and the
pointers stored there (`none` is NULL). -/
structure PageDir where
  base : Nat
  slot : Nat → Option PTable

/-- The struct `addrspace`; `as_pte = none` is a NULL directory pointer. -/
structure addrspace where
  as_heapStart : Nat
  as_heapEnd : Nat
  as_stack : Nat
  as_regions : List region
  as_pte : Option PageDir

/-- Everything outside the address spaces that the VM code reads or writes:
the frame table, the bytes of physical memory (frame, offset), the number of
small heap objects `kmalloc` can still hand out, the words and pointers found
in storage that has not been written yet (by kernel address), and the pairs
passed to `tlb_random` since the TLB was last invalidated, latest first. -/
structure Kernel where
  frames : Frames
  mem : Nat → Nat → Nat
  heap : Nat
  junk : Nat → Nat → Nat
  junkdir : Nat → Nat → Option PTable
  tlb : List (Nat × Nat)

/-- Modelled from the spec: `kmalloc` is not among the sources.  A request for
one page-sized table "allocates its own storage from the Frame Allocator",
that is, it is `alloc_kpages(1)`; the result 0 is NULL. -/
def kmalloc_page (k : Kernel) : Outcome (Kernel × Nat) :=
  match alloc_kpages k.frames 1 with
  | .ok (f, va) => .ok ({ k with frames := f }, va)
  | .panic h => .panic h
  | .diverge => .diverge

/-- Modelled from the spec: `kfree` of a page-sized table or of the directory
page returns its frame to the Frame Allocator (`free_kpages`). -/
def kfree_page (k : Kernel) (va : Nat) : Outcome Kernel :=
  match free_kpages k.frames va with
  | .ok f => .ok { k with frames := f }
  | .panic h => .panic h
  | .diverge => .diverge

/-- Modelled from the spec: `kmalloc` of a small object (a `struct addrspace`
or a `region`) succeeds while the heap has objects left; `false` is NULL. -/
def kmalloc_small (k : Kernel) : Kernel × Bool :=
  if k.heap = 0 then (k, false) else ({ k with heap := k.heap - 1 }, true)

/-- Modelled from the spec: `kfree` of a small object. -/
def kfree_small (k : Kernel) : Kernel := { k with heap := k.heap + 1 }

/-- The call `bzero((void *)vbase, PAGE_SIZE)` on a page. -/
def bzero_page (mem : Nat → Nat → Nat) (vbase : Nat) : Nat → Nat → Nat :=
  Function.update mem (frameOf vbase) (fun _ => 0)

/-- The call `memmove(dst, src, PAGE_SIZE)` between two pages. -/
def memmove_page (mem : Nat → Nat → Nat) (dst src : Nat) : Nat → Nat → Nat :=
  Function.update mem (frameOf dst) (mem (frameOf src))

/-- The loop `for (i = 0; i < N_DESCRIPTORS; i++) t[i] = 0`. -/
def zero_fill (t : Nat → Nat) : Nat → Nat → Nat → Nat
  | 0, _ => t
  | fuel + 1, i => zero_fill (Function.update t i 0) fuel (i + 1)

/-- The loop `for (i = 0; i < N_DESCRIPTORS; i++) as_pte[i] = NULL`. -/
def null_fill (d : Nat → Option PTable) : Nat → Nat → Nat → Option PTable
  | 0, _ => d
  | fuel + 1, i => null_fill (Function.update d i none) fuel (i + 1)

/-- The function `vm_initPT`; returns the directory and the result code. -/
def vm_initPT (k : Kernel) (oldPTE : PageDir) (msb : Nat) : Outcome (Kernel × PageDir × Nat) :=
  match kmalloc_page k with
  | .ok (k1, va) =>
    if va = 0 then
      .ok (k1, { oldPTE with slot := Function.update oldPTE.slot msb none }, ENOMEM)
    else
      let t : PTable := ⟨va, zero_fill (k1.junk va) N_DESCRIPTORS 0⟩
      .ok (k1, { oldPTE with slot := Function.update oldPTE.slot msb (some t) }, 0)
  | .panic h => .panic h
  | .diverge => .diverge

/-- The function `vm_addPTE`.  The store `oldPTE[msb][lsb] = ...` updates the
table value; the bytes of the table's frame in `Kernel.mem` are not touched
(see `PTable`), which agrees with the C code when the frame just allocated is
not the one the table lives in. -/
def vm_addPTE (k : Kernel) (oldPTE : PageDir) (msb lsb dirty : Nat) :
    Outcome (Kernel × PageDir × Nat) :=
  match alloc_kpages k.frames 1 with
  | .ok (f, vbase) =>
    if vbase = 0 then .ok ({ k with frames := f }, oldPTE, ENOMEM)
    else
      let k1 : Kernel := { k with frames := f, mem := bzero_page k.mem vbase }
      let pbase := KVADDR_TO_PADDR vbase
      match oldPTE.slot msb with
      | none => .panic .null_deref
      | some t =>
        let e := (pbase &&& PAGE_FRAME) ||| dirty ||| TLBLO_VALID
        let t1 : PTable := { t with entry := Function.update t.entry lsb e }
        .ok (k1, { oldPTE with slot := Function.update oldPTE.slot msb (some t1) }, 0)
  | .panic h => .panic h
  | .diverge => .diverge

/-- The inner loop of `vm_copyPTE` over `j`, filling the table `t` stored at
kernel address `va` (0 when the unchecked `kmalloc` returned NULL) from the
entries `old` of the source table.  `memmove` returns its destination, which
is non-NULL here, so the branch calling `vm_freePTE` is never taken. -/
def vm_copyPTE_inner (old : Nat → Nat) (va : Nat) :
    Nat → Nat → Kernel → (Nat → Nat) → Outcome (Kernel × (Nat → Nat) × Nat)
  | 0, _, k, t => .ok (k, t, 0)
  | fuel + 1, j, k, t =>
    if old j = 0 then
      if va = 0 then .panic .null_deref
      else vm_copyPTE_inner old va fuel (j + 1) k (Function.update t j 0)
    else
      match alloc_kpages k.frames 1 with
      | .ok (f, newframe) =>
        if newframe = 0 then .ok ({ k with frames := f }, t, ENOMEM)
        else
          let m1 := bzero_page k.mem newframe
          let m2 := memmove_page m1 newframe (PADDR_TO_KVADDR (old j &&& PAGE_FRAME))
          let dirty := old j &&& TLBLO_DIRTY
          if va = 0 then .panic .null_deref
          else
            vm_copyPTE_inner old va fuel (j + 1) { k with frames := f, mem := m2 }
              (Function.update t j
                ((KVADDR_TO_PADDR newframe &&& PAGE_FRAME) ||| dirty ||| TLBLO_VALID))
      | .panic h => .panic h
      | .diverge => .diverge

/-- The outer loop of `vm_copyPTE` over `i`. -/
def vm_copyPTE_outer (old : Nat → Option PTable) :
    Nat → Nat → Kernel → PageDir → Outcome (Kernel × PageDir × Nat)
  | 0, _, k, newPTE => .ok (k, newPTE, 0)
  | fuel + 1, i, k, newPTE =>
    match old i with
    | none => vm_copyPTE_outer old fuel (i + 1) k newPTE
    | some ot =>
      match kmalloc_page k with
      | .ok (k1, va) =>
        match vm_copyPTE_inner ot.entry va N_DESCRIPTORS 0 k1 (k1.junk va) with
        | .ok (k2, t, r) =>
          let slot1 := Function.update newPTE.slot i (if va = 0 then none else some ⟨va, t⟩)
          if r ≠ 0 then .ok (k2, { newPTE with slot := slot1 }, r)
          else vm_copyPTE_outer old fuel (i + 1) k2 { newPTE with slot := slot1 }
        | .panic h => .panic h
        | .diverge => .diverge
      | .panic h => .panic h
      | .diverge => .diverge

/-- The function `vm_copyPTE`; a NULL source directory is dereferenced. -/
def vm_copyPTE (k : Kernel) (oldPTE : Option PageDir) (newPTE : PageDir) :
    Outcome (Kernel × PageDir × Nat) :=
  match oldPTE with
  | none => .panic .null_deref
  | some o => vm_copyPTE_outer o.slot N_DESCRIPTORS 0 k newPTE

/-- The statement `if (oldPTE[i][j] != 0) free_kpages(PADDR_TO_KVADDR(oldPTE[i][j]
& PAGE_FRAME))` of `vm_freePTE`, for the entry `e`. -/
def vm_freePTE_entry (k : Kernel) (e : Nat) : Outcome Kernel :=
  if e ≠ 0 then
    match free_kpages k.frames (PADDR_TO_KVADDR (e &&& PAGE_FRAME)) with
    | .ok f => .ok { k with frames := f }
    | .panic h => .panic h
    | .diverge => .diverge
  else .ok k

/-- The inner loop of `vm_freePTE` over `j`. -/
def vm_freePTE_inner (t : Nat → Nat) : Nat → Nat → Kernel → Outcome Kernel
  | 0, _, k => .ok k
  | fuel + 1, j, k =>
    match vm_freePTE_entry k (t j) with
    | .ok k1 => vm_freePTE_inner t fuel (j + 1) k1
    | .panic h => .panic h
    | .diverge => .diverge

/-- The outer loop of `vm_freePTE` over `i`. -/
def vm_freePTE_outer (d : Nat → Option PTable) : Nat → Nat → Kernel → Outcome Kernel
  | 0, _, k => .ok k
  | fuel + 1, i, k =>
    match d i with
    | none => vm_freePTE_outer d fuel (i + 1) k
    | some t =>
      match vm_freePTE_inner t.entry N_DESCRIPTORS 0 k with
      | .ok k1 =>
        match kfree_page k1 t.addr with
        | .ok k2 => vm_freePTE_outer d fuel (i + 1) k2
        | .panic h => .panic h
        | .diverge => .diverge
      | .panic h => .panic h
      | .diverge => .diverge

/-- The function `vm_freePTE`. -/
def vm_freePTE (k : Kernel) (oldPTE : Option PageDir) : Outcome Kernel :=
  match oldPTE with
  | none => .panic .null_deref
  | some o =>
    match vm_freePTE_outer o.slot N_DESCRIPTORS 0 k with
    | .ok k1 => kfree_page k1 o.base
    | .panic h => .panic h
    | .diverge => .diverge

/-- The function `as_create`; `none` is the NULL result. -/
def as_create (k : Kernel) : Outcome (Kernel × Option addrspace) :=
  match kmalloc_small k with
  | (k1, false) => .ok (k1, none)
  | (k1, true) =>
    match alloc_kpages k1.frames 1 with
    | .ok (f, va) =>
      let k2 : Kernel := { k1 with frames := f }
      if va = 0 then .ok (kfree_small k2, none)
      else
        .ok (k2, some { as_heapStart := 0, as_heapEnd := 0, as_stack := USERSTACK,
                        as_regions := [],
                        as_pte := some ⟨va, null_fill (k2.junkdir va) N_DESCRIPTORS 0⟩ })
    | .panic h => .panic h
    | .diverge => .diverge

/-- The loop of `as_destroy` releasing the region nodes. -/
def as_destroy_regions : List region → Kernel → Kernel
  | [], k => k
  | _ :: rs, k => as_destroy_regions rs (kfree_small k)

/-- The function `as_destroy`. -/
def as_destroy (k : Kernel) (as : Option addrspace) : Outcome Kernel :=
  match as with
  | none => .ok k
  | some a =>
    match vm_freePTE (as_destroy_regions a.as_regions k) a.as_pte with
    | .ok k1 => .ok (kfree_small k1)
    | .panic h => .panic h
    | .diverge => .diverge

/-- One pass of the body of the region loop of `as_copy`, after `temp` has
been filled in: `nRegions` still points at the first node of the new list (it
is assigned only when the list is empty), so `nRegions->next = temp` makes
`temp` the second node. -/
def as_copy_link (newRegions : List region) (temp : region) : List region :=
  match newRegions with
  | [] => [temp]
  | first :: _ => [first, temp]

/-- The region loop of `as_copy`; `false` reports a failed `kmalloc`. -/
def as_copy_regions : List region → Kernel → List region → Kernel × List region × Bool
  | [], k, acc => (k, acc, true)
  | o :: os, k, acc =>
    match kmalloc_small k with
    | (k1, false) => (k1, acc, false)
    | (k1, true) =>
      as_copy_regions os k1
        (as_copy_link acc
          { as_vbase := o.as_vbase, size := o.size, flags := o.flags, oldFlags := o.oldFlags })

/-- The function `as_copy`; returns the result code and, on success, `*ret`. -/
def as_copy (k : Kernel) (old : addrspace) : Outcome (Kernel × Option addrspace × Nat) :=
  match as_create k with
  | .ok (k1, none) => .ok (k1, none, ENOMEM)
  | .ok (k1, some newas) =>
    let newas : addrspace :=
      { newas with as_heapStart := old.as_heapStart, as_heapEnd := old.as_heapEnd,
                   as_stack := old.as_stack, as_regions := [] }
    match as_copy_regions old.as_regions k1 [] with
    | (k2, regs, false) =>
      match as_destroy k2 (some { newas with as_regions := regs }) with
      | .ok k3 => .ok (k3, none, ENOMEM)
      | .panic h => .panic h
      | .diverge => .diverge
    | (k2, regs, true) =>
      match newas.as_pte with
      | none => .panic .null_deref
      | some npd =>
        match vm_copyPTE k2 old.as_pte npd with
        | .ok (k3, npd1, result) =>
          let newas1 : addrspace := { newas with as_regions := regs, as_pte := some npd1 }
          if result ≠ 0 then
            match as_destroy k3 (some newas1) with
            | .ok k4 => .ok (k4, none, result)
            | .panic h => .panic h
            | .diverge => .diverge
          else .ok (k3, some newas1, 0)
        | .panic h => .panic h
        | .diverge => .diverge
  | .panic h => .panic h
  | .diverge => .diverge

/-- The first region scan of `vm_fault`: the node at which the loop breaks.
The subtraction is only evaluated when `faultaddress >= as_vbase`, so it does
not wrap. -/
def region_scan (faultaddress : Nat) : List region → Option region
  | [] => none
  | curr :: rest =>
    if faultaddress ≥ curr.as_vbase ∧ faultaddress - curr.as_vbase < curr.size then some curr
    else region_scan faultaddress rest

/-- The stack test of `vm_fault`, `stack_size` being `16 * PAGE_SIZE`. -/
def in_stack_window (as_stack faultaddress : Nat) : Bool :=
  decide (faultaddress < as_stack ∧
    faultaddress > (as_stack + (W32 - 16 * PAGE_SIZE)) % W32)

/-- The directory index `msb` computed by `vm_fault`. -/
def fault_msb (faultaddress : Nat) : Nat := KVADDR_TO_PADDR faultaddress >>> 22

/-- The table index `lsb` computed by `vm_fault`. -/
def fault_lsb (faultaddress : Nat) : Nat :=
  ((KVADDR_TO_PADDR faultaddress <<< 10) % W32) >>> 22

/-- The statement `if (flag) kfree(as->as_pte[msb])` of `vm_fault`: the
table is released, the directory slot keeps its pointer. -/
def fault_rollback (k : Kernel) (pd : PageDir) (msb : Nat) (flag : Bool) : Outcome Kernel :=
  if flag then
    match pd.slot msb with
    | none => .ok k
    | some t => kfree_page k t.addr
  else .ok k

/-- The end of `vm_fault`: load the entry and hand it to `tlb_random`. -/
def fault_install (k : Kernel) (a : addrspace) (pd : PageDir) (faultaddress msb lsb : Nat) :
    Outcome (Kernel × Option addrspace × Nat) :=
  match pd.slot msb with
  | none => .panic .null_deref
  | some t =>
    .ok ({ k with tlb := (faultaddress &&& TLBHI_VPAGE, t.entry lsb) :: k.tlb },
         some { a with as_pte := some pd }, 0)

/-- The part of `vm_fault` after region location, for the page-aligned
`faultaddress`: create the second-level table and the entry if absent, then
install the translation.  In the permission loop the `continue` does not
advance `oRegions`, so the loop either leaves at its first node or never. -/
def fault_ensure (k : Kernel) (a : addrspace) (pd : PageDir) (faultaddress : Nat) :
    Outcome (Kernel × Option addrspace × Nat) :=
  let msb := fault_msb faultaddress
  let lsb := fault_lsb faultaddress
  let step1 : Outcome (Kernel × PageDir × Nat × Bool) :=
    match pd.slot msb with
    | none =>
      match vm_initPT k pd msb with
      | .ok (k1, pd1, result) => .ok (k1, pd1, result, true)
      | .panic h => .panic h
      | .diverge => .diverge
    | some _ => .ok (k, pd, 0, false)
  match step1 with
  | .panic h => .panic h
  | .diverge => .diverge
  | .ok (k1, pd1, result, flag) =>
    if result ≠ 0 then .ok (k1, some { a with as_pte := some pd1 }, result)
    else
      match pd1.slot msb with
      | none => .panic .null_deref
      | some t =>
        if t.entry lsb = 0 then
          match a.as_regions with
          | [] =>
            match fault_rollback k1 pd1 msb flag with
            | .ok k2 => .ok (k2, some { a with as_pte := some pd1 }, EFAULT)
            | .panic h => .panic h
            | .diverge => .diverge
          | oRegions :: _ =>
            if faultaddress ≥ (oRegions.as_vbase + oRegions.size * PAGE_SIZE % W32) % W32
                ∧ faultaddress < oRegions.as_vbase then .diverge
            else
              let dirty := if oRegions.flags &&& PF_W ≠ PF_W then 0 else TLBLO_DIRTY
              match vm_addPTE k1 pd1 msb lsb dirty with
              | .ok (k2, pd2, result) =>
                if result ≠ 0 then
                  match fault_rollback k2 pd2 msb flag with
                  | .ok k3 => .ok (k3, some { a with as_pte := some pd2 }, result)
                  | .panic h => .panic h
                  | .diverge => .diverge
                else fault_install k2 a pd2 faultaddress msb lsb
              | .panic h => .panic h
              | .diverge => .diverge
        else fault_install k1 a pd1 faultaddress msb lsb

/-- The function `vm_fault`.  `curproc` tells whether `curproc` is non-NULL,
`as` is the result of `proc_getas()` (the address space is updated in place,
so it is returned), `faulttype` is a C `int`. -/
def vm_fault (k : Kernel) (curproc : Bool) (as : Option addrspace) (faulttype : Int)
    (faultaddress : Nat) : Outcome (Kernel × Option addrspace × Nat) :=
  if curproc = false then .ok (k, as, EFAULT)
  else if faultaddress = 0 then .ok (k, as, EFAULT)
  else
    let faultaddress := faultaddress &&& PAGE_FRAME
    if faulttype = VM_FAULT_READONLY then .ok (k, as, EFAULT)
    else if faulttype ≠ VM_FAULT_READ ∧ faulttype ≠ VM_FAULT_WRITE then .ok (k, as, EINVAL)
    else
      match as with
      | none => .ok (k, as, EFAULT)
      | some a =>
        match a.as_regions with
        | [] => .ok (k, as, EFAULT)
        | _ :: _ =>
          match a.as_pte with
          | none => .ok (k, as, EFAULT)
          | some pd =>
            if (region_scan faultaddress a.as_regions).isNone
                ∧ in_stack_window a.as_stack faultaddress = false then .ok (k, as, EFAULT)
            else fault_ensure k a pd faultaddress

/-- Frame referenced by a page-table entry, as `vm_freePTE` and `vm_copyPTE`
recover it: `PADDR_TO_KVADDR(e & PAGE_FRAME)` seen by the frame table. -/
def pteFrame (e : Nat) : Nat := frameOf (PADDR_TO_KVADDR (e &&& PAGE_FRAME))

/-! ## Predicates used to state what a copy has done -/

/-- Only frames that were free have been taken between `k` and `k1`: bounds
are the same and every frame allocated in `k` keeps its table entry and its
bytes. -/
def Grow (k k1 : Kernel) : Prop :=
  k1.frames.first_frame = k.frames.first_frame ∧
  k1.frames.last_frame = k.frames.last_frame ∧
  ∀ x, (k.frames.frame_table x).allocated = true →
    k1.frames.frame_table x = k.frames.frame_table x ∧ k1.mem x = k.mem x

/-- Frame `c` was free in `k` and is a single allocated frame in `k1`. -/
def Fresh (k k1 : Kernel) (c : Nat) : Prop :=
  c < 131072 ∧ (k.frames.frame_table c).allocated = false ∧
  k1.frames.frame_table c = ⟨true, false⟩

/-- The clone entry `en` is the copy of the source entry `eo` made between the
states `k` and `k1`. -/
def CopiedEntry (k k1 : Kernel) (eo en : Nat) : Prop :=
  (eo = 0 → en = 0) ∧
  (eo ≠ 0 → en ≠ 0 ∧ Fresh k k1 (pteFrame en) ∧
    PADDR_TO_KVADDR (en &&& PAGE_FRAME) ≠ 0 ∧
    en &&& TLBLO_VALID = TLBLO_VALID ∧ en &&& TLBLO_DIRTY = eo &&& TLBLO_DIRTY ∧
    ((k.frames.frame_table (pteFrame eo)).allocated = true →
      k1.mem (pteFrame en) = k.mem (pteFrame eo)))

/-- The clone slot `n1` is the copy of the source slot `o` made between `k`
and `k1`; an absent source slot leaves the clone slot as it was (`n0`). -/
def SlotCopied (k k1 : Kernel) (o n0 n1 : Option PTable) : Prop :=
  (o = none → n1 = n0) ∧
  (∀ ot, o = some ot → ∃ tn, n1 = some tn ∧ tn.addr ≠ 0 ∧
    ∀ y, y < N_DESCRIPTORS → CopiedEntry k k1 (ot.entry y) (tn.entry y))

/-! ### Concrete kernels and address spaces used in the examples -/

/-- The kernel just after boot on the 64 KB machine: frames 5..15 free. -/
def kern0 : Kernel := ⟨boot0, fun _ _ => 0xAB, 8, fun _ _ => 0xdeadbeef, fun _ _ => none, []⟩

/-- The same machine with frames 5..14 taken: frame 15 is the only free one. -/
def kernFull : Kernel :=
  { kern0 with frames := (Outcome.get (emptyTable, 0) (alloc_kpages boot0 10)).1 }

/-- A read/execute text region of one page. -/
def regText : region := ⟨0x400000, 0x1000, 5, 5⟩

/-- A read/write data region of two pages. -/
def regData : region := ⟨0x500000, 0x2000, 6, 6⟩

/-- A read-only region of one page. -/
def regRo : region := ⟨0x600000, 0x1000, 4, 4⟩

/-- An address space with text defined first and data second (so data is
the head of the list), no page resident. -/
def as2 : addrspace :=
  ⟨0x502000, 0x502000, USERSTACK, [regData, regText], some ⟨0x80004000, fun _ => none⟩⟩

/-- An address space with three regions, no page resident. -/
def as3 : addrspace :=
  ⟨0x601000, 0x601000, USERSTACK, [regRo, regData, regText],
    some ⟨0x80004000, fun _ => none⟩⟩

/-- Result of `as_copy` on `as3`. -/
def copy3 : Kernel × Option addrspace × Nat :=
  Outcome.get (kern0, none, 1) (as_copy kern0 as3)

/-- Result of a read fault at 0x400123 (in the text region) on `as2`. -/
def faultText : Kernel × Option addrspace × Nat :=
  Outcome.get (kern0, none, 1) (vm_fault kern0 true (some as2) VM_FAULT_READ 0x400123)

/-- Result of the same fault when only one frame is free. -/
def faultFull : Kernel × Option addrspace × Nat :=
  Outcome.get (kern0, none, 1) (vm_fault kernFull true (some as2) VM_FAULT_READ 0x400123)

/-- The page-table entry of an address space at `(msb, lsb)`, if its table
exists. -/
def entryAt (as : Option addrspace) (msb lsb : Nat) : Option Nat :=
  match as with
  | none => none
  | some a =>
    match a.as_pte with
    | none => none
    | some pd => (pd.slot msb).map (fun t => t.entry lsb)

/-- The pointer stored in directory slot `msb` of an address space. -/
def slotAddr (as : Option addrspace) (msb : Nat) : Option Nat :=
  match as with
  | none => none
  | some a =>
    match a.as_pte with
    | none => none
    | some pd => (pd.slot msb).map (fun t => t.addr)

/-! ### A parent address space with three resident pages -/

/-- Frames 0..9 in use (kernel, directory at 5, table at 6, pages at 7, 8, 9),
frames 10..15 free. -/
def parentFrames : Frames :=
  ⟨fun i => if i < 10 then ⟨true, false⟩ else ⟨false, false⟩, 5, 16⟩

/-- Physical memory in which every byte of frame `f` holds the value `f`. -/
def parentKernel : Kernel :=
  ⟨parentFrames, fun f _ => f, 8, fun _ _ => 0xdeadbeef, fun _ _ => none, []⟩

/-- The second-level table of the parent: three present entries. -/
def parentTable : PTable :=
  ⟨0x80006000, fun j => if j = 0 then 0x7600 else if j = 1 then 0x8200 else if j = 2 then 0x9600
    else 0⟩

/-- The parent: one region of three pages at 0x400000, all three resident. -/
def parentAs : addrspace :=
  ⟨0x403000, 0x403000, USERSTACK, [⟨0x400000, 0x3000, 6, 6⟩],
    some ⟨0x80005000, fun i => if i = 513 then some parentTable else none⟩⟩

/-- Result of `as_copy` on the parent. -/
def childRun : Kernel × Option addrspace × Nat :=
  Outcome.get (parentKernel, none, 1) (as_copy parentKernel parentAs)

/-- The child address space. -/
def childAs : addrspace := childRun.2.1.getD parentAs

/-! ### The parent on a machine that runs out of frames during the copy -/

/-- The parent's machine with frames 13..15 taken as well: frames 10, 11 and
12 are the only free ones. -/
def lowFrames : Frames :=
  ⟨fun i => if i < 10 ∨ (13 ≤ i ∧ i < 16) then ⟨true, false⟩ else ⟨false, false⟩, 5, 16⟩

/-- The parent's kernel on that machine; unwritten table storage reads
0xdeadbeef. -/
def lowKernel : Kernel :=
  ⟨lowFrames, fun f _ => f, 8, fun _ _ => 0xdeadbeef, fun _ _ => none, []⟩

/-- The same kernel when the last word of unwritten table storage reads
0x7600, the parent's entry for frame 7, and every other word reads zero. -/
def lowKernelStale : Kernel :=
  { lowKernel with junk := fun _ idx => if idx = 1023 then 0x7600 else 0 }

/-- The kernel after the `as_create` inside `as_copy` of the parent on `k`. -/
def lowCreate (k : Kernel) : Kernel := (Outcome.get (k, none) (as_create k)).1

/-- The directory `as_create` builds in frame 10. -/
def lowDir : PageDir := ⟨0x8000a000, null_fill (fun _ => none) N_DESCRIPTORS 0⟩

/-- The region loop of that `as_copy`. -/
def lowRegions (k : Kernel) : Kernel × List region × Bool :=
  as_copy_regions parentAs.as_regions (lowCreate k) []

/-- The `vm_copyPTE` of that `as_copy`. -/
def lowCopy (k : Kernel) : Kernel × PageDir × Nat :=
  Outcome.get (k, lowDir, 0) (vm_copyPTE (lowRegions k).1 parentAs.as_pte lowDir)

/-- The second-level table `vm_copyPTE` left in slot 513 of the clone. -/
def lowTable (k : Kernel) : PTable := ((lowCopy k).2.1.slot 513).getD ⟨0, fun _ => 0⟩

/-- The inner loop of `vm_freePTE` over that table, run by `as_destroy`. -/
def lowInner (k : Kernel) : Outcome Kernel :=
  vm_freePTE_inner (lowTable k).entry N_DESCRIPTORS 0
    (as_destroy_regions (lowRegions k).2.1 (lowCopy k).1)

/-- The kernel at the end of that `as_destroy`: table pages, table, directory
and structure released. -/
def lowFinal (k : Kernel) : Kernel :=
  let k1 := Outcome.get k (lowInner k)
  let k2 := Outcome.get k (kfree_page k1 (lowTable k).addr)
  let k3 := Outcome.get k (kfree_page k2 0x8000a000)
  kfree_small k3

/-- The tail of `vm_freePTE` for one table: release its pages, then the
table. -/
def free_table (t : PTable) (k : Kernel) : Outcome Kernel :=
  match vm_freePTE_inner t.entry N_DESCRIPTORS 0 k with
  | .ok k1 => kfree_page k1 t.addr
  | .panic h => .panic h
  | .diverge => .diverge

/-- What a page table refers to: its directory page, the second-level table in
slot `i`, or the page of entry `j` of that table. -/
inductive PtRef where
  | dir
  | table (i : Nat)
  | page (i j : Nat)
  deriving DecidableEq

/-- Frame behind a reference of the page table `pd`, when the reference is
present. -/
def refFrame (pd : PageDir) : PtRef → Option Nat
  | .dir => some (frameOf pd.base)
  | .table i =>
    if i < N_DESCRIPTORS then (pd.slot i).map (fun t => frameOf t.addr) else none
  | .page i j =>
    if i < N_DESCRIPTORS ∧ j < N_DESCRIPTORS then
      (pd.slot i).bind (fun t => if t.entry j ≠ 0 then some (pteFrame (t.entry j)) else none)
    else none

/-- Frames released with the table in slot `i` of a directory: the table's own
page and the pages of its present entries. -/
def SlotFrames (d : Nat → Option PTable) (i x : Nat) : Prop :=
  ∃ t, d i = some t ∧
    (frameOf t.addr = x ∨ ∃ j, j < N_DESCRIPTORS ∧ t.entry j ≠ 0 ∧ pteFrame (t.entry j) = x)

/-- The page directory of the parent. -/
def parentDir : PageDir := ⟨0x80005000, fun i => if i = 513 then some parentTable else none⟩

/-! ### Region operations and the reachable states of the VM system -/

/-- The function `as_define_region`; `vaddr` and `memsize` are 32-bit values,
`readable`, `writeable` and `executable` are C `int`s.  Returns the kernel,
the address space (updated in place) and the result code. -/
def as_define_region (k : Kernel) (as : Option addrspace) (vaddr memsize : Nat)
    (readable writeable executable : Int) : Kernel × Option addrspace × Nat :=
  match as with
  | none => (k, none, EFAULT)
  | some a =>
    if (vaddr + memsize) % W32 ≥ a.as_stack then (k, some a, ENOMEM)
    else
      let memsize1 := (memsize + (vaddr &&& (W32 - 1 - PAGE_FRAME))) % W32
      let vaddr1 := vaddr &&& PAGE_FRAME
      let memsize2 := ((memsize1 + (PAGE_SIZE - 1)) % W32) &&& PAGE_FRAME
      match kmalloc_small k with
      | (k1, false) => (k1, some a, ENOMEM)
      | (k1, true) =>
        let f0 := 0
        let f1 := if readable ≠ 0 then f0 ||| PF_R else f0
        let f2 := if writeable ≠ 0 then f1 ||| PF_W else f1
        let f3 := if executable ≠ 0 then f2 ||| PF_X else f2
        let heap := (vaddr1 + memsize2) % W32
        (k1, some { a with as_regions := ⟨vaddr1, memsize2, f3, f3⟩ :: a.as_regions,
                           as_heapStart := heap, as_heapEnd := heap }, 0)

/-- The function `as_prepare_load`: every region without `PF_W` gets it. -/
def as_prepare_load (as : Option addrspace) : Option addrspace × Nat :=
  match as with
  | none => (none, EFAULT)
  | some a =>
    (some { a with as_regions := a.as_regions.map (fun r =>
        if r.flags &&& PF_W ≠ PF_W then { r with flags := r.flags ||| PF_W } else r) }, 0)

/-- The function `as_complete_load`: every region gets its `oldFlags` back and
all TLB entries are invalidated. -/
def as_complete_load (k : Kernel) (as : Option addrspace) : Kernel × Option addrspace × Nat :=
  match as with
  | none => (k, none, EFAULT)
  | some a =>
    ({ k with tlb := [] },
     some { a with as_regions := a.as_regions.map (fun r =>
        if r.flags = r.oldFlags then r else { r with flags := r.oldFlags }) }, 0)

/-- Entry `e` is present at slot `i`, index `j` of the page table of `a`. -/
def EntryOf (a : addrspace) (i j e : Nat) : Prop :=
  ∃ pd t, a.as_pte = some pd ∧ i < N_DESCRIPTORS ∧ j < N_DESCRIPTORS ∧
    pd.slot i = some t ∧ t.entry j = e ∧ e ≠ 0

/-- Every present entry of `a` has the valid bit and references a frame marked
allocated in `k`. -/
def Owned (k : Kernel) (a : addrspace) : Prop :=
  ∀ i j e, EntryOf a i j e →
    e &&& TLBLO_VALID = TLBLO_VALID ∧ (k.frames.frame_table (pteFrame e)).allocated = true

/-- No two present entries of `a` reference the same frame. -/
def NoAlias (a : addrspace) : Prop :=
  ∀ i j e i2 j2 e2, EntryOf a i j e → EntryOf a i2 j2 e2 → pteFrame e = pteFrame e2 →
    i = i2 ∧ j = j2

/-- No present entry of `a` references the frame of a present entry of `b`. -/
def Separate (a b : addrspace) : Prop :=
  ∀ i j e i2 j2 e2, EntryOf a i j e → EntryOf b i2 j2 e2 → pteFrame e ≠ pteFrame e2

/-- One operation of the VM system on the kernel state and the list of live
address spaces: `as_create`, `as_define_region`, `as_prepare_load`,
`as_complete_load`, a `vm_fault` that returns 0 or `EFAULT`, or a successful
`as_copy`. -/
inductive VmStep : Kernel × List addrspace → Kernel × List addrspace → Prop where
  | create (k k1 : Kernel) (L : List addrspace) (a : addrspace) :
      as_create k = Outcome.ok (k1, some a) → VmStep (k, L) (k1, a :: L)
  | define_region (k k1 : Kernel) (l1 l2 : List addrspace) (a a1 : addrspace)
      (vaddr memsize : Nat) (r w x : Int) (res : Nat) :
      as_define_region k (some a) vaddr memsize r w x = (k1, some a1, res) →
      VmStep (k, l1 ++ a :: l2) (k1, l1 ++ a1 :: l2)
  | prepare_load (k : Kernel) (l1 l2 : List addrspace) (a a1 : addrspace) (res : Nat) :
      as_prepare_load (some a) = (some a1, res) →
      VmStep (k, l1 ++ a :: l2) (k, l1 ++ a1 :: l2)
  | complete_load (k k1 : Kernel) (l1 l2 : List addrspace) (a a1 : addrspace) (res : Nat) :
      as_complete_load k (some a) = (k1, some a1, res) →
      VmStep (k, l1 ++ a :: l2) (k1, l1 ++ a1 :: l2)
  | fault (k k1 : Kernel) (l1 l2 : List addrspace) (a a1 : addrspace) (faulttype : Int)
      (faultaddress res : Nat) :
      vm_fault k true (some a) faulttype faultaddress = Outcome.ok (k1, some a1, res) →
      (res = 0 ∨ res = EFAULT) →
      VmStep (k, l1 ++ a :: l2) (k1, l1 ++ a1 :: l2)
  | copy (k k1 : Kernel) (L : List addrspace) (a new : addrspace) :
      a ∈ L → as_copy k a = Outcome.ok (k1, some new, 0) → VmStep (k, L) (k1, new :: L)

/-- States reachable from the kernel state `k0` with no address space by the
operations of `VmStep`. -/
inductive VmReach (k0 : Kernel) : Kernel × List addrspace → Prop where
  | start : VmReach k0 (k0, [])
  | step (s s1 : Kernel × List addrspace) : VmReach k0 s → VmStep s s1 → VmReach k0 s1

/-- The entry `vm_addPTE` stores for the page at kernel address `vbase`. -/
def new_entry (vbase dirty : Nat) : Nat :=
  (KVADDR_TO_PADDR vbase &&& PAGE_FRAME) ||| dirty ||| TLBLO_VALID

/-- The page-table/frame-table invariant of a kernel state and its live
address spaces. -/
def PtInv (k : Kernel) (L : List addrspace) : Prop :=
  k.frames.last_frame ≤ 131072 ∧ (∀ a ∈ L, Owned k a ∧ NoAlias a) ∧ L.Pairwise Separate

/-- The writable region of the scenario: base 0x1000, 8192 bytes, R+W. -/
def regW : region := ⟨0x1000, 0x2000, 6, 6⟩

/-- An address space whose only region is `regW`, no page resident and no
second-level table yet. -/
def asW : addrspace := ⟨0x3000, 0x3000, USERSTACK, [regW], some ⟨0x80004000, fun _ => none⟩⟩

/-- Result of a write fault at 0x1000 on `asW` when frame 15 is the only free
frame. -/
def faultW : Kernel × Option addrspace × Nat :=
  Outcome.get (kern0, none, 1) (vm_fault kernFull true (some asW) VM_FAULT_WRITE 0x1000)

/-- Result of `as_create` on the freshly booted kernel. -/
def stepCreate : Kernel × Option addrspace := Outcome.get (kern0, none) (as_create kern0)

/-- The address space `as_create` returned. -/
def stepAs0 : addrspace := stepCreate.2.getD as2

/-- Result of `as_define_region(as, 0x400000, 0x1000, 1, 0, 1)` on it. -/
def stepDefine : Kernel × Option addrspace × Nat :=
  as_define_region stepCreate.1 (some stepAs0) 0x400000 0x1000 1 0 1

/-- The address space with its text region. -/
def stepAs1 : addrspace := stepDefine.2.1.getD as2

/-- Result of a read fault at 0x400123 on it. -/
def stepFault : Kernel × Option addrspace × Nat :=
  Outcome.get (kern0, none, 1) (vm_fault stepDefine.1 true (some stepAs1) VM_FAULT_READ 0x400123)

/-- The address space with one resident page. -/
def stepAs2 : addrspace := stepFault.2.1.getD as2

/-! ### Region definition, the load bracket and the slots of the TLB -/

/-- One successful `as_define_region` call taking the address space `a` to
`a1`. -/
inductive Defines : addrspace → addrspace → Prop where
  | mk (k k1 : Kernel) (a a1 : addrspace) (vaddr memsize : Nat) (r w x : Int) :
      as_define_region k (some a) vaddr memsize r w x = (k1, some a1, 0) → Defines a a1

/-- Address spaces built by `as_create` followed by any number of successful
`as_define_region` calls. -/
inductive Built : addrspace → Prop where
  | create (k k1 : Kernel) (a : addrspace) :
      as_create k = Outcome.ok (k1, some a) → Built a
  | define (a a1 : addrspace) : Built a → Defines a a1 → Built a1

/-- The R/W/X encoding of the three permission arguments of
`as_define_region`. -/
def rwx (readable writeable executable : Int) : Nat :=
  (if readable ≠ 0 then PF_R else 0) ||| (if writeable ≠ 0 then PF_W else 0)
    ||| (if executable ≠ 0 then PF_X else 0)

/-- Result of `as_define_region(as2, 0xFFFFF000, 0x2000, 1, 1, 0)`: the sum
wraps to 0x1000. -/
def defineWrap : Kernel × Option addrspace × Nat :=
  as_define_region kern0 (some as2) 0xFFFFF000 0x2000 1 1 0

/-- Result of `as_define_region(as2, 0x7FFFE001, 0x1FFE, 1, 1, 0)`: the
request ends at 0x7FFFFFFF, one byte below the stack top. -/
def defineEdge : Kernel × Option addrspace × Nat :=
  as_define_region kern0 (some as2) 0x7FFFE001 0x1FFE 1 1 0

/-- Result of `as_define_region(as2, 0x10234, 0x1000, 1, 0, 0)`: a region
below the two that `as2` already has. -/
def defineLow : Kernel × Option addrspace × Nat :=
  as_define_region kern0 (some as2) 0x10234 0x1000 1 0 0

/-- The address space after that call. -/
def defineLowAs : addrspace := defineLow.2.1.getD as2

/-- Result of `as_prepare_load` on `as3`. -/
def prepAs3 : addrspace := (as_prepare_load (some as3)).1.getD as2

/-- Modelled from the spec: `tlb.h` is not among the sources.  `NUM_TLB`, the
number of slots of the "small hardware-managed cache"; 64 on this MIPS. -/
def NUM_TLB : Nat := 64

/-- Modelled from the spec: `tlb.h` is not among the sources.  Macro
`TLBHI_INVALID(entryno)`, the entry-high of an invalidated slot:
`(0x80000 + entryno) << 12`, an address of the unmapped kernel segment,
different for every slot. -/
def TLBHI_INVALID (entryno : Nat) : Nat := ((0x80000 + entryno) <<< 12) % W32

/-- Modelled from the spec: `tlb.h` is not among the sources.  Macro
`TLBLO_INVALID()`, the entry-low of an invalidated slot: no bit set. -/
def TLBLO_INVALID : Nat := 0

/-- Modelled from the spec: the hardware primitive
`tlb_write(entryhi, entrylo, index)` is not among the sources; it is the raw
write of one hardware-cache slot.  The TLB is a function from slot number to
the pair (entry-high, entry-low) the slot holds. -/
def tlb_write (tlb : Nat → Nat × Nat) (entryhi entrylo index : Nat) : Nat → Nat × Nat :=
  Function.update tlb index (entryhi, entrylo)

/-- The loop `for (i = 0; i < NUM_TLB; i++) tlb_write(TLBHI_INVALID(i),
TLBLO_INVALID(), i)` of `as_activate` and `as_complete_load`, with `fuel`
iterations left at index `i`. -/
def tlb_invalidate (tlb : Nat → Nat × Nat) : Nat → Nat → Nat → Nat × Nat
  | 0, _ => tlb
  | fuel + 1, i => tlb_invalidate (tlb_write tlb (TLBHI_INVALID i) TLBLO_INVALID i) fuel (i + 1)

/-- The function `as_activate` on the slots of the TLB; `as` is the result of
`proc_getas()`. -/
def as_activate (tlb : Nat → Nat × Nat) (as : Option addrspace) : Nat → Nat × Nat :=
  match as with
  | none => tlb
  | some _ => tlb_invalidate tlb NUM_TLB 0

/-- The function `as_deactivate`: it calls `as_activate`. -/
def as_deactivate (tlb : Nat → Nat × Nat) (as : Option addrspace) : Nat → Nat × Nat :=
  as_activate tlb as

/-- What `as_complete_load` does to the slots of the TLB: nothing when `as` is
NULL (it returns `EFAULT` first), the invalidation loop otherwise. -/
def as_complete_load_tlb (tlb : Nat → Nat × Nat) (as : Option addrspace) : Nat → Nat × Nat :=
  match as with
  | none => tlb
  | some _ => tlb_invalidate tlb NUM_TLB 0

/-- A TLB in which every slot holds a valid, writable translation. -/
def tlbBusy : Nat → Nat × Nat := fun i => (0x400000 + i * 4096, 0x7600 + i * 4096)

/-- Result of `as_prepare_load` on the address space with the read/execute
text region (0x400000, 0x1000). -/
def loadPrep : Option addrspace × Nat := as_prepare_load (some stepAs1)

/-- The address space while the program is being loaded. -/
def loadAs1 : addrspace := loadPrep.1.getD as2

/-- Result of the loader's write fault at 0x400000 during the load. -/
def loadFault : Kernel × Option addrspace × Nat :=
  Outcome.get (kern0, none, 1) (vm_fault stepDefine.1 true (some loadAs1) VM_FAULT_WRITE 0x400000)

/-- The address space with the text page resident. -/
def loadAs2 : addrspace := loadFault.2.1.getD as2

/-- Result of `as_complete_load` after the load. -/
def loadDone : Kernel × Option addrspace × Nat := as_complete_load loadFault.1 (some loadAs2)

/-- The address space after the load. -/
def loadAs3 : addrspace := loadDone.2.1.getD as2

/-- Result of a read fault at 0x400000 after the load. -/
def laterRead : Kernel × Option addrspace × Nat :=
  Outcome.get (kern0, none, 1) (vm_fault loadDone.1 true (some loadAs3) VM_FAULT_READ 0x400000)

/-- Result of a write fault at 0x400abc after the load. -/
def laterWrite : Kernel × Option addrspace × Nat :=
  Outcome.get (kern0, none, 1) (vm_fault loadDone.1 true (some loadAs3) VM_FAULT_WRITE 0x400abc)

/-! ### Scenarios for the stack window, the permission loop and oversized requests -/

/-- An address space with a page directory and no region. -/
def asEmpty : addrspace := ⟨0, 0, USERSTACK, [], some ⟨0x80004000, fun _ => none⟩⟩

/-- Result of a write fault at 0x7FFFFFF0, just below the stack top, on
`as2`. -/
def faultStack : Kernel × Option addrspace × Nat :=
  Outcome.get (kern0, none, 1) (vm_fault kern0 true (some as2) VM_FAULT_WRITE 0x7FFFFFF0)

/-- An address space whose head region is the read/execute text region, the
data region having been defined first; no page resident. -/
def asTextHead : addrspace :=
  ⟨0x401000, 0x401000, USERSTACK, [regText, regData], some ⟨0x80004000, fun _ => none⟩⟩

/-- Result of a write fault at 0x7FFFFFF0, just below the stack top, on
`asTextHead`. -/
def faultStackRo : Kernel × Option addrspace × Nat :=
  Outcome.get (kern0, none, 1) (vm_fault kern0 true (some asTextHead) VM_FAULT_WRITE 0x7FFFFFF0)

/-- Result of a read fault at 0x7FFF1000, the second lowest page of the
sixteen below the stack top, on `as2`. -/
def faultWindowLow : Kernel × Option addrspace × Nat :=
  Outcome.get (kern0, none, 1) (vm_fault kern0 true (some as2) VM_FAULT_READ 0x7FFF1000)

/-- A region of 255 pages at 0x10000000: `size * PAGE_SIZE` is 0xFF000000 and
`as_vbase + size * PAGE_SIZE` wraps to 0x0F000000. -/
def regBig : region := ⟨0x10000000, 0xFF000, 6, 6⟩

/-- A one-page region at 0x0F800000. -/
def regSmall : region := ⟨0x0F800000, 0x1000, 6, 6⟩

/-- An address space in which `regSmall` was defined first and `regBig`
second; no page resident. -/
def asSpin : addrspace :=
  ⟨0x100FF000, 0x100FF000, USERSTACK, [regBig, regSmall], some ⟨0x80004000, fun _ => none⟩⟩

/-- Result of `as_define_region(as2, 0x400800, 0x1000, 1, 1, 0)`: the request
overlaps the text region of `as2`. -/
def defineOverlap : Kernel × Option addrspace × Nat :=
  as_define_region kern0 (some as2) 0x400800 0x1000 1 1 0

/-- Result of `alloc_multiple_frames(17)` on the freshly booted 64 KB machine,
which has 16 frames, 11 of them managed. -/
def overRun : Frames × Nat := Outcome.get (emptyTable, 1) (alloc_multiple_frames boot0 17)

/-- Result of `alloc_kpages(17)` on the same machine. -/
def overAlloc : Frames × Nat := Outcome.get (emptyTable, 0) (alloc_kpages boot0 17)

/-! ### Scenario: a block past the end of the frame table -/

/-- A sequence of `alloc_kpages` calls, one per request size of the list;
returns the final frame table and the addresses handed out, in order. -/
def alloc_seq : List Nat → Frames → Outcome (Frames × List Nat)
  | [], s => .ok (s, [])
  | n :: ns, s =>
    match alloc_kpages s n with
    | .ok (s1, a) =>
      match alloc_seq ns s1 with
      | .ok (s2, l) => .ok (s2, a :: l)
      | .panic h => .panic h
      | .diverge => .diverge
    | .panic h => .panic h
    | .diverge => .diverge

/-- The 64 KB machine after eleven `alloc_kpages(1)` and one
`alloc_kpages(17)`. -/
def packed : Frames × List Nat :=
  Outcome.get (emptyTable, []) (alloc_seq [1, 1, 1, 1, 1, 1, 1, 1, 1, 1, 1, 17] boot0)

/-- The state `packed` after `free_kpages(0x80010000)`. -/
def packedFreed : Frames := Outcome.get emptyTable (free_kpages packed.1 0x80010000)

/-! ### Scenario: destruction after a fault that ran out of frames -/

/-- The 64 KB machine with frames 5..13 taken: frames 14 and 15 are free. -/
def kernTwo : Kernel :=
  { kern0 with frames := (Outcome.get (emptyTable, 0) (alloc_kpages boot0 9)).1 }

/-- Result of `as_create` on `kernTwo`: the directory takes frame 14. -/
def twoCreate : Kernel × Option addrspace := Outcome.get (kern0, none) (as_create kernTwo)

/-- Result of `as_define_region(as, 0x400000, 0x1000, 1, 0, 1)` on it. -/
def twoDefine : Kernel × Option addrspace × Nat :=
  as_define_region twoCreate.1 twoCreate.2 0x400000 0x1000 1 0 1

/-- Result of a read fault at 0x400123 on it: the table takes frame 15 and no
frame is left for the page. -/
def twoFault : Kernel × Option addrspace × Nat :=
  Outcome.get (kern0, none, 1) (vm_fault twoDefine.1 true twoDefine.2.1 VM_FAULT_READ 0x400123)

/-- The second-level table that fault created in frame 15. -/
def twoTable : PTable := ⟨0x8000f000, zero_fill (kern0.junk 0x8000f000) N_DESCRIPTORS 0⟩

/-- The page directory after that fault. -/
def twoDir : PageDir :=
  ⟨0x8000e000, Function.update (null_fill (kern0.junkdir 0x8000e000) N_DESCRIPTORS 0) 513
    (some twoTable)⟩

/-! ### Scenario: a fault after the roll-back of a copy -/

/-- Result of a read fault at 0x400123 on the parent after the failed
`as_copy` on `lowKernelStale` has released frame 7. -/
def staleFault : Kernel × Option addrspace × Nat :=
  Outcome.get (kern0, none, 1)
    (vm_fault (lowFinal lowKernelStale) true (some parentAs) VM_FAULT_READ 0x400123)

/-- Result of the `alloc_kpages(1)` that follows that fault. -/
def staleNext : Frames × Nat := Outcome.get (emptyTable, 0) (alloc_kpages staleFault.1.frames 1)

/-! ### Scenario: a second copy after the roll-back of the first -/

/-- The second-level table of a parent with two resident pages, in frames 13
and 14. -/
def pairTable : PTable :=
  ⟨0x80006000, fun j => if j = 0 then 0xd600 else if j = 1 then 0xe600 else 0⟩

/-- That parent: one region of two pages at 0x400000, both resident;
directory in frame 5, table in frame 6. -/
def pairAs : addrspace :=
  ⟨0x402000, 0x402000, USERSTACK, [⟨0x400000, 0x2000, 6, 6⟩],
    some ⟨0x80005000, fun i => if i = 513 then some pairTable else none⟩⟩

/-- The machine of `lowKernel` (frames 10, 11 and 12 free, every byte of frame
`f` holding `f`) when the last word of unwritten table storage reads 0xd600,
the parent's entry for frame 13, and every other word reads zero. -/
def pairKernel : Kernel :=
  { lowKernel with junk := fun _ idx => if idx = 1023 then 0xd600 else 0 }

/-- The region loop of `as_copy` of that parent on `pairKernel`. -/
def pairRegions : Kernel × List region × Bool :=
  as_copy_regions pairAs.as_regions (lowCreate pairKernel) []

/-- The `vm_copyPTE` of that `as_copy`. -/
def pairCopy : Kernel × PageDir × Nat :=
  Outcome.get (pairKernel, lowDir, 0) (vm_copyPTE pairRegions.1 pairAs.as_pte lowDir)

/-- The second-level table `vm_copyPTE` left in slot 513 of the clone. -/
def pairChild : PTable := (pairCopy.2.1.slot 513).getD ⟨0, fun _ => 0⟩

/-- The inner loop of `vm_freePTE` over that table, run by `as_destroy`. -/
def pairInner : Outcome Kernel :=
  vm_freePTE_inner pairChild.entry N_DESCRIPTORS 0
    (as_destroy_regions pairRegions.2.1 pairCopy.1)

/-- The kernel at the end of that `as_destroy`. -/
def pairFinal : Kernel :=
  let k1 := Outcome.get pairKernel pairInner
  let k2 := Outcome.get pairKernel (kfree_page k1 pairChild.addr)
  let k3 := Outcome.get pairKernel (kfree_page k2 0x8000a000)
  kfree_small k3

/-- Result of the second `as_copy` of the parent, on `pairFinal`. -/
def pairSecond : Kernel × Option addrspace × Nat :=
  Outcome.get (kern0, none, 1) (as_copy pairFinal pairAs)

/-! ### Scenario: the first write fault of a fresh address space -/

/-- Result of `as_define_region(as, 0x1000, 0x2000, 1, 1, 0)` on the address
space `as_create` returned on the freshly booted machine. -/
def zeroDefine : Kernel × Option addrspace × Nat :=
  as_define_region stepCreate.1 (some stepAs0) 0x1000 0x2000 1 1 0

/-- The address space with that writable region. -/
def zeroAs : addrspace := zeroDefine.2.1.getD as2

/-- Its page directory, in frame 5, all slots NULL. -/
def zeroDir : PageDir := ⟨0x80005000, null_fill (kern0.junkdir 0x80005000) N_DESCRIPTORS 0⟩

/-- Result of a write fault at 0x1000 on it. -/
def zeroFault : Kernel × Option addrspace × Nat :=
  Outcome.get (kern0, none, 1) (vm_fault zeroDefine.1 true (some zeroAs) VM_FAULT_WRITE 0x1000)

/-! # Theorems -/

/-! ## Address arithmetic -/

theorem frameOf_kvaddr (i : Nat) (hi : i ≤ 131072) :
    frameOf (PADDR_TO_KVADDR ((i <<< PAGE_BITS) % W32)) = i := by
  unfold frameOf KVADDR_TO_PADDR PADDR_TO_KVADDR W32 MIPS_KSEG0 PAGE_BITS
  rw [Nat.shiftLeft_eq, Nat.shiftRight_eq_div_pow]
  omega

theorem kvaddr_ne_zero (i : Nat) (hi : i ≤ 131072) :
    PADDR_TO_KVADDR ((i <<< PAGE_BITS) % W32) ≠ 0 := by
  unfold PADDR_TO_KVADDR W32 MIPS_KSEG0 PAGE_BITS
  rw [Nat.shiftLeft_eq]
  omega

theorem paddr_eq_zero (i : Nat) (hi : i ≤ 131072) (h : (i <<< PAGE_BITS) % W32 = 0) : i = 0 := by
  unfold W32 PAGE_BITS at h
  rw [Nat.shiftLeft_eq] at h
  omega

/-! ## The scans -/

theorem alloc_one_scan_some (tbl : Nat → ft_entry) :
    ∀ (fuel i k : Nat), alloc_one_scan tbl fuel i = some k →
      i ≤ k ∧ k < i + fuel ∧ (tbl k).allocated = false
      ∧ ∀ m, i ≤ m → m < k → (tbl m).allocated = true := by
  intro fuel
  induction fuel with
  | zero => intro i k h; simp [alloc_one_scan] at h
  | succ f ih =>
    intro i k h
    unfold alloc_one_scan at h
    by_cases hf : (tbl i).allocated = false
    · rw [if_pos hf] at h
      injection h with h
      subst h
      exact ⟨le_refl _, by omega, hf, by intro m h1 h2; omega⟩
    · rw [if_neg hf] at h
      obtain ⟨h1, h2, h3, h4⟩ := ih (i + 1) k h
      refine ⟨by omega, by omega, h3, ?_⟩
      intro m hm1 hm2
      by_cases hmi : m = i
      · subst hmi; simpa using hf
      · exact h4 m (by omega) hm2

theorem alloc_one_scan_none (tbl : Nat → ft_entry) :
    ∀ (fuel i : Nat), alloc_one_scan tbl fuel i = none →
      ∀ m, i ≤ m → m < i + fuel → (tbl m).allocated = true := by
  intro fuel
  induction fuel with
  | zero => intro i _ m h1 h2; omega
  | succ f ih =>
    intro i h m h1 h2
    unfold alloc_one_scan at h
    by_cases hf : (tbl i).allocated = false
    · rw [if_pos hf] at h; cases h
    · rw [if_neg hf] at h
      by_cases hmi : m = i
      · subst hmi; simpa using hf
      · exact ih (i + 1) h m (by omega) (by omega)

theorem alloc_multi_scan_some (tbl : Nat → ft_entry) (limit npages : Nat)
    (hlim : limit + npages < W32) :
    ∀ (fuel i j i1 j1 : Nat), alloc_multi_scan tbl limit npages fuel i j = some (i1, j1) →
      j ≤ npages → (0 < j → i < limit) →
      (∀ k < j, (tbl (i + k)).allocated = false) →
      (∀ k < j1, (tbl (i1 + k)).allocated = false) ∧ j1 ≤ npages ∧ (0 < j1 → i1 < limit)
        ∧ i ≤ i1 := by
  intro fuel
  induction fuel with
  | zero => intro i j i1 j1 h; simp [alloc_multi_scan] at h
  | succ f ih =>
    intro i j i1 j1 h hj hij hfree
    unfold alloc_multi_scan at h
    by_cases hc : i < limit ∧ j < npages
    · rw [if_pos hc] at h
      have e1 : (i + j) % W32 = i + j := Nat.mod_eq_of_lt (by omega)
      have e2 : (i + j + 1) % W32 = i + j + 1 := Nat.mod_eq_of_lt (by omega)
      have e3 : (j + 1) % W32 = j + 1 := Nat.mod_eq_of_lt (by omega)
      rw [e1, e2, e3] at h
      by_cases ha : (tbl (i + j)).allocated = true
      · rw [if_pos ha] at h
        obtain ⟨h1, h2, h3, h4⟩ := ih (i + j + 1) 0 i1 j1 h (by omega) (by omega)
          (by intro k hk; omega)
        exact ⟨h1, h2, h3, by omega⟩
      · rw [if_neg ha] at h
        refine ih i (j + 1) i1 j1 h (by omega) (fun _ => hc.1) ?_
        intro k hk
        by_cases hkj : k = j
        · subst hkj; simpa using ha
        · exact hfree k (by omega)
    · rw [if_neg hc] at h
      injection h with h
      injection h with h1 h2
      subst h1; subst h2
      exact ⟨hfree, hj, hij, le_refl _⟩

theorem alloc_multi_mark_spec (bound : Nat) (hb : bound < W32) :
    ∀ (fuel j : Nat) (tbl : Nat → ft_entry), j ≤ bound → bound ≤ j + fuel →
      (alloc_multi_mark tbl bound fuel j).2 = bound ∧
      ∀ x, (alloc_multi_mark tbl bound fuel j).1 x
        = if j ≤ x ∧ x < bound then ⟨true, true⟩ else tbl x := by
  intro fuel
  induction fuel with
  | zero =>
    intro j tbl h1 h2
    have : j = bound := by omega
    subst this
    refine ⟨rfl, fun x => ?_⟩
    simp only [alloc_multi_mark]
    rw [if_neg (by omega)]
  | succ f ih =>
    intro j tbl h1 h2
    unfold alloc_multi_mark
    by_cases hj : j < bound
    · rw [if_pos hj]
      have e : (j + 1) % W32 = j + 1 := Nat.mod_eq_of_lt (by omega)
      rw [e]
      obtain ⟨r1, r2⟩ := ih (j + 1) (Function.update tbl j ⟨true, true⟩) (by omega) (by omega)
      refine ⟨r1, fun x => ?_⟩
      rw [r2 x]
      by_cases hx : x = j
      · subst hx
        rw [if_neg (by omega), if_pos ⟨le_refl _, hj⟩, Function.update_same]
      · rw [Function.update_noteq hx]
        by_cases hx2 : j + 1 ≤ x ∧ x < bound
        · rw [if_pos hx2, if_pos ⟨by omega, hx2.2⟩]
        · rw [if_neg hx2, if_neg (by omega)]
    · rw [if_neg hj]
      have : j = bound := by omega
      subst this
      exact ⟨rfl, fun x => by rw [if_neg (by omega)]⟩

theorem free_loop_block :
    ∀ (m fuel i : Nat) (tbl : Nat → ft_entry), m + 2 ≤ fuel → i + m + 1 < W32 →
      (∀ k, k ≤ m → tbl (i + k) = ⟨true, decide (k < m)⟩) →
      ∃ tbl1, free_loop tbl fuel i = some tbl1 ∧
        ∀ x, tbl1 x = if i ≤ x ∧ x ≤ i + m then ⟨false, (tbl x).not_last⟩ else tbl x := by
  intro m
  induction m with
  | zero =>
    intro fuel i tbl hf _ hb
    obtain ⟨f, rfl⟩ : ∃ f, fuel = f + 2 := ⟨fuel - 2, by omega⟩
    have h0 := hb 0 (le_refl _)
    simp only [Nat.add_zero, Nat.lt_irrefl, decide_False] at h0
    refine ⟨Function.update tbl i ⟨false, (tbl i).not_last⟩, ?_, ?_⟩
    · simp [free_loop, h0]
    · intro x
      by_cases hx : x = i
      · subst hx; simp
      · rw [Function.update_noteq hx, if_neg (by omega)]
  | succ m ih =>
    intro fuel i tbl hf hi hb
    obtain ⟨f, rfl⟩ : ∃ f, fuel = f + 1 := ⟨fuel - 1, by omega⟩
    have h0 := hb 0 (by omega)
    simp only [Nat.add_zero, Nat.zero_lt_succ, decide_True] at h0
    have e : (i + 1) % W32 = i + 1 := Nat.mod_eq_of_lt (by omega)
    have hnl : (tbl i).not_last = true := by rw [h0]
    obtain ⟨t, ht1, ht2⟩ := ih f (i + 1) (Function.update tbl i ⟨false, true⟩)
      (by omega) (by omega) (by
        intro k hk
        rw [Function.update_noteq (by omega)]
        have := hb (k + 1) (by omega)
        rw [show i + (k + 1) = i + 1 + k by omega] at this
        rw [this]
        simp)
    refine ⟨t, ?_, ?_⟩
    · unfold free_loop
      simp only [h0, if_true, e]
      exact ht1
    · intro x
      rw [ht2 x]
      by_cases hx : x = i
      · subst hx
        rw [if_neg (by omega), if_pos (by omega), Function.update_same, hnl]
      · rw [Function.update_noteq hx]
        by_cases hx2 : i + 1 ≤ x ∧ x ≤ i + 1 + m
        · rw [if_pos hx2, if_pos (by omega)]
        · rw [if_neg hx2, if_neg (by omega)]

theorem alloc_kpages_spec (s s1 : Frames) (n va : Nat) (hl : s.last_frame ≤ 131072)
    (h1 : 1 ≤ n) (h2 : n ≤ s.last_frame) (h : alloc_kpages s n = Outcome.ok (s1, va)) :
    s1.first_frame = s.first_frame ∧ s1.last_frame = s.last_frame ∧
    ((s1.frame_table = s.frame_table ∧ va = 0) ∨
     ∃ i, s.first_frame ≤ i ∧ i + n ≤ s.last_frame ∧
       (∀ k < n, (s.frame_table (i + k)).allocated = false) ∧
       (∀ x, s1.frame_table x
          = if i ≤ x ∧ x < i + n then ⟨true, decide (x + 1 < i + n)⟩ else s.frame_table x) ∧
       (va ≠ 0 → frameOf va = i) ∧ (va = 0 → i = 0)) := by
  unfold alloc_kpages at h
  by_cases hn : n > 1
  · -- several frames
    rw [if_pos hn] at h
    unfold alloc_multiple_frames at h
    have elim : (s.last_frame + (W32 - n % W32)) % W32 = s.last_frame - n := by
      unfold W32; omega
    simp only [elim] at h
    cases hscan : alloc_multi_scan s.frame_table (s.last_frame - n) n (W32 + n) s.first_frame 0 with
    | none => rw [hscan] at h; simp at h
    | some p =>
      obtain ⟨i, j⟩ := p
      rw [hscan] at h
      obtain ⟨hfree, _, hlt, hle⟩ := alloc_multi_scan_some s.frame_table (s.last_frame - n) n
        (by unfold W32; omega) _ _ _ _ _ hscan (by omega) (by omega) (by intro k hk; omega)
      by_cases hj : j = n
      · subst hj
        have hil : i < s.last_frame - j := hlt (by omega)
        have eb : (i + j + (W32 - 1)) % W32 = i + j - 1 := by unfold W32; omega
        simp only [if_true, eb] at h
        obtain ⟨m1, m2⟩ := alloc_multi_mark_spec (i + j - 1) (by unfold W32; omega) j i
          s.frame_table (by omega) (by omega)
        have key : ∀ x, Function.update (alloc_multi_mark s.frame_table (i + j - 1) j i).1
            (alloc_multi_mark s.frame_table (i + j - 1) j i).2 ⟨true, false⟩ x
            = if i ≤ x ∧ x < i + j then ⟨true, decide (x + 1 < i + j)⟩ else s.frame_table x := by
          intro x
          rw [m1]
          by_cases hx : x = i + j - 1
          · subst hx
            rw [Function.update_same, if_pos (by omega)]
            simp; omega
          · rw [Function.update_noteq hx, m2 x]
            by_cases hx2 : i ≤ x ∧ x < i + j - 1
            · rw [if_pos hx2, if_pos (by omega)]
              simp; omega
            · rw [if_neg hx2, if_neg (by omega)]
        by_cases hp : (i <<< PAGE_BITS) % W32 = 0
        · rw [if_pos hp] at h
          injection h with h
          injection h with hs hv
          subst hs; subst hv
          refine ⟨rfl, rfl, Or.inr ⟨i, hle, by omega, hfree, ?_, by simp, fun _ =>
            paddr_eq_zero i (by omega) hp⟩⟩
          exact key
        · rw [if_neg hp] at h
          injection h with h
          injection h with hs hv
          subst hs; subst hv
          refine ⟨rfl, rfl, Or.inr ⟨i, hle, by omega, hfree, ?_,
            fun _ => frameOf_kvaddr i (by omega),
            fun h0 => absurd h0 (kvaddr_ne_zero i (by omega))⟩⟩
          exact key
      · simp only [hj, if_false, if_true] at h
        injection h with h
        injection h with hs hv
        subst hs; subst hv
        exact ⟨rfl, rfl, Or.inl ⟨rfl, rfl⟩⟩
  · -- a single frame
    have hn1 : n = 1 := by omega
    subst hn1
    rw [if_neg hn] at h
    unfold alloc_one_frame at h
    simp only [ne_eq, not_true_eq_false, if_false] at h
    cases hscan : alloc_one_scan s.frame_table (s.last_frame - s.first_frame) s.first_frame with
    | none =>
      rw [hscan] at h
      simp only [if_true] at h
      injection h with h
      injection h with hs hv
      subst hs; subst hv
      exact ⟨rfl, rfl, Or.inl ⟨rfl, rfl⟩⟩
    | some i =>
      rw [hscan] at h
      obtain ⟨a1, a2, a3, _⟩ := alloc_one_scan_some _ _ _ _ hscan
      have key : ∀ x, (s.set i ⟨true, false⟩).frame_table x
          = if i ≤ x ∧ x < i + 1 then ⟨true, decide (x + 1 < i + 1)⟩ else s.frame_table x := by
        intro x
        unfold Frames.set
        by_cases hx : x = i
        · subst hx
          simp
        · simp only [Function.update_noteq hx]
          rw [if_neg (by omega)]
      have hfr : ∀ k < 1, (s.frame_table (i + k)).allocated = false := by
        intro k hk
        have : k = 0 := by omega
        subst this
        exact a3
      by_cases hp : (i <<< PAGE_BITS) % W32 = 0
      · simp only [hp, if_true] at h
        injection h with h
        injection h with hs hv
        subst hs; subst hv
        exact ⟨rfl, rfl, Or.inr ⟨i, a1, by omega, hfr, key, by simp, fun _ =>
          paddr_eq_zero i (by omega) hp⟩⟩
      · simp only [hp, if_false] at h
        injection h with h
        injection h with hs hv
        subst hs; subst hv
        exact ⟨rfl, rfl, Or.inr ⟨i, a1, by omega, hfr, key,
          fun _ => frameOf_kvaddr i (by omega),
          fun h0 => absurd h0 (kvaddr_ne_zero i (by omega))⟩⟩

theorem BlocksDisjoint.symm {b c : Nat × Nat} (h : BlocksDisjoint b c) : BlocksDisjoint c b :=
  fun k hk m hm e => h m hm k hk e.symm

theorem ram_bootstrap_last_frame (ramsize firstfree : Nat) (raw : Nat → ft_entry) (s : Frames)
    (h : ram_bootstrap ramsize firstfree raw = Outcome.ok s) : s.last_frame ≤ 131072 := by
  unfold ram_bootstrap at h
  simp only at h
  split_ifs at h <;> (injection h with h; subst h; simp only [PAGE_SIZE]; omega)

theorem free_frames_eq (s : Frames) (va : Nat) :
    free_frames s va =
      if va = 0 then Outcome.panic Halt.assertion
      else if (s.frame_table (frameOf va)).allocated = false then Outcome.panic Halt.double_free
      else match free_loop s.frame_table (W32 + 1) (frameOf va) with
        | none => Outcome.diverge
        | some tbl => Outcome.ok { s with frame_table := tbl } := by
  unfold free_frames frameOf
  rfl

theorem BlockOk.transfer {s s1 : Frames} {b : Nat × Nat} (h : BlockOk s b)
    (hl : s1.last_frame = s.last_frame)
    (ht : ∀ k < b.2, s1.frame_table (frameOf b.1 + k) = s.frame_table (frameOf b.1 + k)) :
    BlockOk s1 b := by
  obtain ⟨a1, a2, a3, a4⟩ := h
  refine ⟨a1, a2, by omega, fun k hk => ?_⟩
  rw [ht k hk, a4 k hk]

theorem alloc_step (s s1 : Frames) (L : List (Nat × Nat)) (n va : Nat) (hinv : AllocInv s L)
    (h1 : 1 ≤ n) (h2 : n ≤ s.last_frame) (h : alloc_kpages s n = Outcome.ok (s1, va)) :
    AllocInv s1 L ∧
    (va ≠ 0 → BlockOk s1 (va, n) ∧ ∀ b ∈ L, BlocksDisjoint (va, n) b) := by
  obtain ⟨hl, hb, hp⟩ := hinv
  obtain ⟨e1, e2, hcase⟩ := alloc_kpages_spec s s1 n va hl h1 h2 h
  rcases hcase with ⟨ht, hv⟩ | ⟨i, _, hin, hfree, htbl, hfr, _⟩
  · refine ⟨⟨by omega, fun b hbL => (hb b hbL).transfer e2 (fun k _ => by rw [ht]), hp⟩, ?_⟩
    intro hne
    exact absurd hv hne
  · have keep : ∀ b ∈ L, ∀ k < b.2,
        s1.frame_table (frameOf b.1 + k) = s.frame_table (frameOf b.1 + k) := by
      intro b hbL k hk
      rw [htbl]
      by_cases hx : i ≤ frameOf b.1 + k ∧ frameOf b.1 + k < i + n
      · exfalso
        have hf := hfree (frameOf b.1 + k - i) (by omega)
        rw [show i + (frameOf b.1 + k - i) = frameOf b.1 + k by omega] at hf
        rw [(hb b hbL).2.2.2 k hk] at hf
        cases hf
      · rw [if_neg hx]
    refine ⟨⟨by omega, fun b hbL => (hb b hbL).transfer e2 (keep b hbL), hp⟩, ?_⟩
    intro hne
    have hfo := hfr hne
    refine ⟨⟨hne, h1, ?_, ?_⟩, ?_⟩
    · show frameOf va + n ≤ s1.last_frame
      rw [hfo]; omega
    · intro k hk
      show s1.frame_table (frameOf va + k) = ⟨true, decide (k + 1 < n)⟩
      rw [hfo, htbl, if_pos (by omega)]
      congr 1
      simp only [decide_eq_decide]
      omega
    · intro b hbL k hk m hm e
      change frameOf va + k = frameOf b.1 + m at e
      rw [hfo] at e
      have hf := hfree k hk
      rw [e, (hb b hbL).2.2.2 m hm] at hf
      cases hf

theorem free_step (s s1 : Frames) (L : List (Nat × Nat)) (b : Nat × Nat) (hinv : AllocInv s L)
    (hbL : b ∈ L) (h : free_kpages s b.1 = Outcome.ok s1) : AllocInv s1 (L.erase b) := by
  obtain ⟨hl, hb, hp⟩ := hinv
  obtain ⟨a1, a2, a3, a4⟩ := hb b hbL
  have h0 := a4 0 (by omega)
  rw [Nat.add_zero] at h0
  have hf1 : b.2 - 1 + 2 ≤ W32 + 1 := by unfold W32; omega
  have hf2 : frameOf b.1 + (b.2 - 1) + 1 < W32 := by unfold W32; omega
  obtain ⟨t, ht1, ht2⟩ := free_loop_block (b.2 - 1) (W32 + 1) (frameOf b.1) s.frame_table
    hf1 hf2 (by
      intro k hk
      rw [a4 k (by omega)]
      congr 1
      simp; omega)
  unfold free_kpages at h
  rw [free_frames_eq, if_neg a1, if_neg (by rw [h0]; simp), ht1] at h
  simp only [Outcome.ok.injEq] at h
  have et : s1.frame_table = t := by rw [← h]
  have el : s1.last_frame = s.last_frame := by rw [← h]
  have hnd : L.Nodup := by
    refine List.Pairwise.imp_of_mem ?_ hp
    intro c d hc _ hcd e
    subst e
    exact hcd 0 (hb c hc).2.1 0 (hb c hc).2.1 rfl
  refine ⟨by omega, ?_, hp.sublist (List.erase_sublist b L)⟩
  intro c hc
  have hcL : c ∈ L := List.mem_of_mem_erase hc
  have hne : c ≠ b := ((hnd.mem_erase_iff).1 hc).1
  have hdis : BlocksDisjoint c b :=
    hp.forall (fun _ _ hxy => BlocksDisjoint.symm hxy) hcL hbL hne
  refine (hb c hcL).transfer el ?_
  intro k hk
  rw [et, ht2, if_neg]
  intro hx
  exact hdis k hk (frameOf c.1 + k - frameOf b.1) (by omega) (by omega)

theorem reach_inv (s0 : Frames) (h0 : s0.last_frame ≤ 131072) (s : Frames)
    (L : List (Nat × Nat)) (hr : Reach s0 s L) : AllocInv s L := by
  induction hr with
  | boot => exact ⟨h0, fun b hb => absurd hb (List.not_mem_nil b), List.Pairwise.nil⟩
  | alloc s s1 L n va _ h1 h2 h hva ih =>
    obtain ⟨⟨i1, i2, i3⟩, hnew⟩ := alloc_step s s1 L n va ih h1 h2 h
    obtain ⟨n1, n2⟩ := hnew hva
    refine ⟨i1, ?_, List.pairwise_cons.2 ⟨n2, i3⟩⟩
    intro b hb
    rcases List.mem_cons.1 hb with rfl | hb
    · exact n1
    · exact i2 b hb
  | alloc_fail s s1 L n _ h1 h2 h ih => exact (alloc_step s s1 L n 0 ih h1 h2 h).1
  | free s s1 L b _ hbL h ih => exact free_step s s1 L b ih hbL h

/-! ## Page-table copy -/

/-! ## Page-table entry bits -/

theorem and_page_frame_of_aligned (c : Nat) (hc : c < 1048576) :
    (c * 4096) &&& PAGE_FRAME = c * 4096 := by
  have h1 : (c * 4096) &&& (2 ^ 32 - 1) = c * 4096 := by
    rw [Nat.and_pow_two_sub_one_eq_mod]; omega
  have h2 : (c * 4096) &&& (2 ^ 12 - 1) = 0 := by
    rw [Nat.and_pow_two_sub_one_eq_mod]; omega
  have h3 : (2 ^ 32 - 1 : Nat) = PAGE_FRAME ||| (2 ^ 12 - 1) := by decide
  rw [h3, Nat.and_or_distrib_left, h2, Nat.or_zero] at h1
  exact h1

theorem entry_and_valid (p x : Nat) :
    ((p &&& PAGE_FRAME) ||| (x &&& TLBLO_DIRTY) ||| TLBLO_VALID) &&& TLBLO_VALID = TLBLO_VALID := by
  rw [Nat.and_distrib_right, Nat.and_distrib_right, Nat.and_assoc, Nat.and_assoc]
  have a : PAGE_FRAME &&& TLBLO_VALID = 0 := by decide
  have b : TLBLO_DIRTY &&& TLBLO_VALID = 0 := by decide
  rw [a, b, Nat.and_zero, Nat.and_zero, Nat.and_self, Nat.zero_or, Nat.zero_or]

theorem entry_and_dirty (p x : Nat) :
    ((p &&& PAGE_FRAME) ||| (x &&& TLBLO_DIRTY) ||| TLBLO_VALID) &&& TLBLO_DIRTY
      = x &&& TLBLO_DIRTY := by
  rw [Nat.and_distrib_right, Nat.and_distrib_right, Nat.and_assoc, Nat.and_assoc]
  have a : PAGE_FRAME &&& TLBLO_DIRTY = 0 := by decide
  have b : TLBLO_VALID &&& TLBLO_DIRTY = 0 := by decide
  rw [a, b, Nat.and_zero, Nat.and_self, Nat.zero_or, Nat.or_zero]

theorem entry_and_frame (p x : Nat) :
    ((p &&& PAGE_FRAME) ||| (x &&& TLBLO_DIRTY) ||| TLBLO_VALID) &&& PAGE_FRAME
      = p &&& PAGE_FRAME := by
  rw [Nat.and_distrib_right, Nat.and_distrib_right, Nat.and_assoc, Nat.and_assoc]
  have a : TLBLO_DIRTY &&& PAGE_FRAME = 0 := by decide
  have b : TLBLO_VALID &&& PAGE_FRAME = 0 := by decide
  rw [a, b, Nat.and_zero, Nat.and_self, Nat.or_zero, Nat.or_zero]

theorem entry_ne_zero (p x : Nat) :
    (p &&& PAGE_FRAME) ||| (x &&& TLBLO_DIRTY) ||| TLBLO_VALID ≠ 0 := by
  intro h
  have := entry_and_valid p x
  rw [h] at this
  revert this
  decide

theorem frameOf_kvaddr_mul (c : Nat) (hc : c ≤ 131072) :
    frameOf (PADDR_TO_KVADDR (c * 4096)) = c := by
  unfold frameOf KVADDR_TO_PADDR PADDR_TO_KVADDR W32 MIPS_KSEG0 PAGE_BITS
  rw [Nat.shiftRight_eq_div_pow]
  omega

theorem kvaddr_mul_ne_zero (c : Nat) (hc : c ≤ 131072) : PADDR_TO_KVADDR (c * 4096) ≠ 0 := by
  unfold PADDR_TO_KVADDR W32 MIPS_KSEG0
  omega

theorem Grow.refl (k : Kernel) : Grow k k := ⟨rfl, rfl, fun _ _ => ⟨rfl, rfl⟩⟩

theorem Grow.trans {k k1 k2 : Kernel} (h1 : Grow k k1) (h2 : Grow k1 k2) : Grow k k2 := by
  obtain ⟨a1, a2, a3⟩ := h1
  obtain ⟨b1, b2, b3⟩ := h2
  refine ⟨by rw [b1, a1], by rw [b2, a2], fun x hx => ?_⟩
  obtain ⟨c1, c2⟩ := a3 x hx
  obtain ⟨d1, d2⟩ := b3 x (by rw [c1]; exact hx)
  exact ⟨by rw [d1, c1], by rw [d2, c2]⟩

theorem Grow.free_of_free {k k1 : Kernel} (h : Grow k k1) {c : Nat}
    (hc : (k1.frames.frame_table c).allocated = false) :
    (k.frames.frame_table c).allocated = false := by
  cases hk : (k.frames.frame_table c).allocated with
  | false => rfl
  | true =>
    have := (h.2.2 c hk).1
    rw [this, hk] at hc
    cases hc

theorem Fresh.widen {k ka kb k1 : Kernel} {c : Nat} (h : Fresh ka kb c)
    (h1 : Grow k ka) (h2 : Grow kb k1) : Fresh k k1 c := by
  obtain ⟨a1, a2, a3⟩ := h
  refine ⟨a1, h1.free_of_free a2, ?_⟩
  rw [(h2.2.2 c (by rw [a3])).1, a3]

theorem CopiedEntry.transport {k ka kb k1 : Kernel} {eo en : Nat} (h : CopiedEntry ka kb eo en)
    (h1 : Grow k ka) (h2 : Grow kb k1) : CopiedEntry k k1 eo en := by
  obtain ⟨z, nz⟩ := h
  refine ⟨z, fun hne => ?_⟩
  obtain ⟨b1, b2, b3, b4, b5, b6⟩ := nz hne
  refine ⟨b1, b2.widen h1 h2, b3, b4, b5, fun hsrc => ?_⟩
  obtain ⟨s1, s2⟩ := h1.2.2 _ hsrc
  have hb := b6 (by rw [s1]; exact hsrc)
  rw [(h2.2.2 _ (by rw [b2.2.2])).2, hb, s2]

theorem kv_roundtrip (i : Nat) (hi : i ≤ 131072) :
    KVADDR_TO_PADDR (PADDR_TO_KVADDR ((i <<< PAGE_BITS) % W32)) = i * 4096 := by
  unfold KVADDR_TO_PADDR PADDR_TO_KVADDR W32 MIPS_KSEG0 PAGE_BITS
  rw [Nat.shiftLeft_eq]
  omega

theorem alloc_one_page_spec (f f1 : Frames) (va : Nat) (hl : f.last_frame ≤ 131072)
    (h : alloc_kpages f 1 = Outcome.ok (f1, va)) :
    f1.first_frame = f.first_frame ∧ f1.last_frame = f.last_frame ∧
    (∀ x, (f.frame_table x).allocated = true → f1.frame_table x = f.frame_table x) ∧
    (va ≠ 0 → ∃ c, c < 131072 ∧ KVADDR_TO_PADDR va = c * 4096 ∧ frameOf va = c ∧
      (f.frame_table c).allocated = false ∧ f1.frame_table c = ⟨true, false⟩ ∧
      ∀ x, x ≠ c → f1.frame_table x = f.frame_table x) := by
  unfold alloc_kpages at h
  rw [if_neg (by omega)] at h
  unfold alloc_one_frame at h
  simp only [ne_eq, not_true_eq_false, if_false] at h
  cases hscan : alloc_one_scan f.frame_table (f.last_frame - f.first_frame) f.first_frame with
  | none =>
    rw [hscan] at h
    simp only [if_true, Outcome.ok.injEq, Prod.mk.injEq] at h
    obtain ⟨hs, hv⟩ := h
    rw [← hs]
    exact ⟨rfl, rfl, fun _ _ => rfl, fun hne => absurd hv.symm hne⟩
  | some i =>
    rw [hscan] at h
    obtain ⟨a1, a2, a3, _⟩ := alloc_one_scan_some _ _ _ _ hscan
    have hi : i < 131072 := by omega
    have hset : ∀ x, x ≠ i → (f.set i ⟨true, false⟩).frame_table x = f.frame_table x := by
      intro x hx
      unfold Frames.set
      exact Function.update_noteq hx _ _
    have hset2 : (f.set i ⟨true, false⟩).frame_table i = ⟨true, false⟩ := by
      unfold Frames.set
      exact Function.update_same _ _ _
    have hkeep : ∀ x, (f.frame_table x).allocated = true →
        (f.set i ⟨true, false⟩).frame_table x = f.frame_table x := by
      intro x hx
      apply hset
      intro e
      rw [e, a3] at hx
      cases hx
    by_cases hp : (i <<< PAGE_BITS) % W32 = 0
    · simp only [hp, if_true, Outcome.ok.injEq, Prod.mk.injEq] at h
      obtain ⟨hs, hv⟩ := h
      rw [← hs]
      exact ⟨rfl, rfl, hkeep, fun hne => absurd hv.symm hne⟩
    · simp only [hp, if_false, Outcome.ok.injEq, Prod.mk.injEq] at h
      obtain ⟨hs, hv⟩ := h
      rw [← hs, ← hv]
      refine ⟨rfl, rfl, hkeep, fun _ => ⟨i, hi, kv_roundtrip i (by omega),
        frameOf_kvaddr i (by omega), a3, hset2, hset⟩⟩

theorem entry_facts (c x : Nat) (hc : c < 131072) :
    pteFrame (((c * 4096) &&& PAGE_FRAME) ||| (x &&& TLBLO_DIRTY) ||| TLBLO_VALID) = c ∧
    ((c * 4096) &&& PAGE_FRAME) ||| (x &&& TLBLO_DIRTY) ||| TLBLO_VALID ≠ 0 ∧
    PADDR_TO_KVADDR
      ((((c * 4096) &&& PAGE_FRAME) ||| (x &&& TLBLO_DIRTY) ||| TLBLO_VALID) &&& PAGE_FRAME) ≠ 0 ∧
    (((c * 4096) &&& PAGE_FRAME) ||| (x &&& TLBLO_DIRTY) ||| TLBLO_VALID) &&& TLBLO_VALID
      = TLBLO_VALID ∧
    (((c * 4096) &&& PAGE_FRAME) ||| (x &&& TLBLO_DIRTY) ||| TLBLO_VALID) &&& TLBLO_DIRTY
      = x &&& TLBLO_DIRTY := by
  have hf := entry_and_frame (c * 4096) x
  have ha := and_page_frame_of_aligned c (by omega)
  refine ⟨?_, entry_ne_zero _ _, ?_, entry_and_valid _ _, entry_and_dirty _ _⟩
  · unfold pteFrame
    rw [hf, ha]
    exact frameOf_kvaddr_mul c (by omega)
  · rw [hf, ha]
    exact kvaddr_mul_ne_zero c (by omega)

theorem copy_inner_spec (old : Nat → Nat) (va : Nat) :
    ∀ (fuel j : Nat) (k : Kernel) (t : Nat → Nat) (k1 : Kernel) (t1 : Nat → Nat) (r : Nat),
      k.frames.last_frame ≤ 131072 →
      vm_copyPTE_inner old va fuel j k t = Outcome.ok (k1, t1, r) →
      Grow k k1 ∧ (∀ x, x < j → t1 x = t x) ∧
      (r = 0 → (0 < fuel → va ≠ 0) ∧
        (∀ x, j ≤ x → x < j + fuel → CopiedEntry k k1 (old x) (t1 x)) ∧
        (∀ x y, j ≤ x → x < y → y < j + fuel → old x ≠ 0 → old y ≠ 0 →
          pteFrame (t1 x) ≠ pteFrame (t1 y))) := by
  intro fuel
  induction fuel with
  | zero =>
    intro j k t k1 t1 r _ h
    unfold vm_copyPTE_inner at h
    simp only [Outcome.ok.injEq, Prod.mk.injEq] at h
    obtain ⟨hk, ht, _⟩ := h
    rw [← hk, ← ht]
    refine ⟨Grow.refl k, fun _ _ => rfl, fun _ => ⟨fun h0 => absurd h0 (Nat.lt_irrefl 0), ?_, ?_⟩⟩
    · intro x h1 h2; omega
    · intro x y h1 h2 h3; omega
  | succ n ih =>
    intro j k t k1 t1 r hl h
    unfold vm_copyPTE_inner at h
    by_cases h0 : old j = 0
    · rw [if_pos h0] at h
      by_cases hva : va = 0
      · rw [if_pos hva] at h; cases h
      · rw [if_neg hva] at h
        obtain ⟨g, fr, rest⟩ := ih (j + 1) k (Function.update t j 0) k1 t1 r hl h
        have hj : t1 j = 0 := by
          rw [fr j (by omega)]
          exact Function.update_same _ _ _
        refine ⟨g, ?_, fun hr => ?_⟩
        · intro x hx
          rw [fr x (by omega)]
          exact Function.update_noteq (by omega) _ _
        · obtain ⟨_, ents, dis⟩ := rest hr
          refine ⟨fun _ => hva, ?_, ?_⟩
          · intro x h1 h2
            by_cases hxj : x = j
            · rw [hxj, hj]
              exact ⟨fun _ => rfl, fun hne => absurd h0 hne⟩
            · exact ents x (by omega) (by omega)
          · intro x y h1 h2 h3 hx hy
            by_cases hxj : x = j
            · rw [hxj] at hx; exact absurd h0 hx
            · exact dis x y (by omega) h2 (by omega) hx hy
    · rw [if_neg h0] at h
      cases hal : alloc_kpages k.frames 1 with
      | panic e => rw [hal] at h; cases h
      | diverge => rw [hal] at h; cases h
      | ok p =>
        obtain ⟨f, newframe⟩ := p
        rw [hal] at h
        obtain ⟨e1, e2, keep, hnew⟩ := alloc_one_page_spec k.frames f newframe hl hal
        by_cases hnf : newframe = 0
        · simp only [hnf, if_true, Outcome.ok.injEq, Prod.mk.injEq] at h
          obtain ⟨hk, ht, hr⟩ := h
          rw [← hk, ← ht, ← hr]
          exact ⟨⟨e1, e2, fun x hx => ⟨keep x hx, rfl⟩⟩, fun _ _ => rfl,
            fun hc => absurd hc (by decide)⟩
        · simp only [hnf, if_false] at h
          by_cases hva : va = 0
          · simp only [hva, if_true] at h; cases h
          · simp only [hva, if_false] at h
            obtain ⟨c, hc, hpa, hfo, hfree, hnewc, hother⟩ := hnew hnf
            rw [hpa] at h
            obtain ⟨fa1, fa2, fa3, fa4, fa5⟩ := entry_facts c (old j) hc
            -- the state after this pass
            have g1 : Grow k { k with frames := f, mem := (memmove_page (bzero_page k.mem newframe) newframe (PADDR_TO_KVADDR (old j &&& PAGE_FRAME))) } := by
              refine ⟨e1, e2, fun x hx => ⟨keep x hx, ?_⟩⟩
              have hxc : x ≠ c := by
                intro e; rw [e, hfree] at hx; cases hx
              show memmove_page (bzero_page k.mem newframe) newframe _ x = k.mem x
              unfold memmove_page bzero_page
              rw [hfo, Function.update_noteq hxc, Function.update_noteq hxc]
            obtain ⟨g, fr, rest⟩ := ih (j + 1) _ _ k1 t1 r (by show f.last_frame ≤ _; omega) h
            have hj : t1 j = ((c * 4096) &&& PAGE_FRAME) ||| (old j &&& TLBLO_DIRTY) ||| TLBLO_VALID := by
              rw [fr j (by omega)]
              exact Function.update_same _ _ _
            have hfr : Fresh k k1 c := by
              refine ⟨hc, hfree, ?_⟩
              have := (g.2.2 c (by show (f.frame_table c).allocated = true; rw [hnewc])).1
              rw [this]
              exact hnewc
            refine ⟨g1.trans g, ?_, fun hr => ?_⟩
            · intro x hx
              rw [fr x (by omega)]
              exact Function.update_noteq (by omega) _ _
            · obtain ⟨_, ents, dis⟩ := rest hr
              refine ⟨fun _ => hva, ?_, ?_⟩
              · intro x h1 h2
                by_cases hxj : x = j
                · rw [hxj, hj]
                  refine ⟨fun hz => absurd hz h0, fun _ => ⟨fa2, ?_, fa3, fa4, fa5, fun hsrc => ?_⟩⟩
                  · rw [fa1]; exact hfr
                  · rw [fa1]
                    have hsc : pteFrame (old j) ≠ c := by
                      intro e; rw [e, hfree] at hsrc; cases hsrc
                    have hm := (g.2.2 c (by show (f.frame_table c).allocated = true; rw [hnewc])).2
                    rw [hm]
                    show memmove_page (bzero_page k.mem newframe) newframe _ c = _
                    unfold memmove_page bzero_page
                    rw [hfo, Function.update_same]
                    exact Function.update_noteq hsc _ _
                · exact (ents x (by omega) (by omega)).transport g1 (Grow.refl k1)
              · intro x y h1 h2 h3 hx hy
                by_cases hxj : x = j
                · rw [hxj, hj, fa1]
                  intro e
                  have hy2 := ((ents y (by omega) (by omega)).2 hy).2.1
                  rw [← e] at hy2
                  have := hy2.2.1
                  have hc2 : (f.frame_table c).allocated = false := this
                  rw [hnewc] at hc2
                  cases hc2
                · exact dis x y (by omega) h2 (by omega) hx hy

theorem kmalloc_page_spec (k ka : Kernel) (va : Nat) (hl : k.frames.last_frame ≤ 131072)
    (h : kmalloc_page k = Outcome.ok (ka, va)) :
    Grow k ka ∧ ka.junk = k.junk := by
  unfold kmalloc_page at h
  cases hal : alloc_kpages k.frames 1 with
  | panic e => rw [hal] at h; cases h
  | diverge => rw [hal] at h; cases h
  | ok p =>
    obtain ⟨f, v⟩ := p
    rw [hal] at h
    simp only [Outcome.ok.injEq, Prod.mk.injEq] at h
    obtain ⟨hk, _⟩ := h
    obtain ⟨e1, e2, keep, _⟩ := alloc_one_page_spec k.frames f v hl hal
    rw [← hk]
    exact ⟨⟨e1, e2, fun x hx => ⟨keep x hx, rfl⟩⟩, rfl⟩

theorem copy_outer_spec (old : Nat → Option PTable) :
    ∀ (fuel i : Nat) (k : Kernel) (nw : PageDir) (k1 : Kernel) (nw1 : PageDir) (r : Nat),
      k.frames.last_frame ≤ 131072 →
      vm_copyPTE_outer old fuel i k nw = Outcome.ok (k1, nw1, r) →
      Grow k k1 ∧ (∀ x, x < i → nw1.slot x = nw.slot x) ∧
      (r = 0 →
        (∀ x, i ≤ x → x < i + fuel → SlotCopied k k1 (old x) (nw.slot x) (nw1.slot x)) ∧
        (∀ x x2 ot ot2 tn tn2 y y2, i ≤ x → x < x2 → x2 < i + fuel →
          old x = some ot → old x2 = some ot2 → nw1.slot x = some tn → nw1.slot x2 = some tn2 →
          y < N_DESCRIPTORS → y2 < N_DESCRIPTORS → ot.entry y ≠ 0 → ot2.entry y2 ≠ 0 →
          pteFrame (tn.entry y) ≠ pteFrame (tn2.entry y2)) ∧
        (∀ x ot tn y y2, i ≤ x → x < i + fuel → old x = some ot → nw1.slot x = some tn →
          y < y2 → y2 < N_DESCRIPTORS → ot.entry y ≠ 0 → ot.entry y2 ≠ 0 →
          pteFrame (tn.entry y) ≠ pteFrame (tn.entry y2))) := by
  intro fuel
  induction fuel with
  | zero =>
    intro i k nw k1 nw1 r _ h
    unfold vm_copyPTE_outer at h
    simp only [Outcome.ok.injEq, Prod.mk.injEq] at h
    obtain ⟨hk, hn, _⟩ := h
    rw [← hk, ← hn]
    refine ⟨Grow.refl k, fun _ _ => rfl, fun _ => ⟨?_, ?_, ?_⟩⟩
    · intro x h1 h2; omega
    · intro x x2 ot ot2 tn tn2 y y2 h1 h2 h3; omega
    · intro x ot tn y y2 h1 h2; omega
  | succ n ih =>
    intro i k nw k1 nw1 r hl h
    unfold vm_copyPTE_outer at h
    cases ho : old i with
    | none =>
      rw [ho] at h
      simp only at h
      obtain ⟨g, fr, rest⟩ := ih (i + 1) k nw k1 nw1 r hl h
      refine ⟨g, fun x hx => fr x (by omega), fun hr => ?_⟩
      obtain ⟨sl, d1, d2⟩ := rest hr
      refine ⟨?_, ?_, ?_⟩
      · intro x h1 h2
        by_cases hxi : x = i
        · rw [hxi, ho]
          exact ⟨fun _ => fr i (by omega), fun ot hc => by cases hc⟩
        · exact sl x (by omega) (by omega)
      · intro x x2 ot ot2 tn tn2 y y2 h1 h2 h3 hox
        by_cases hxi : x = i
        · rw [hxi, ho] at hox; cases hox
        · exact d1 x x2 ot ot2 tn tn2 y y2 (by omega) h2 (by omega) hox
      · intro x ot tn y y2 h1 h2 hox
        by_cases hxi : x = i
        · rw [hxi, ho] at hox; cases hox
        · exact d2 x ot tn y y2 (by omega) (by omega) hox
    | some ot0 =>
      rw [ho] at h
      simp only at h
      cases hkm : kmalloc_page k with
      | panic e => rw [hkm] at h; cases h
      | diverge => rw [hkm] at h; cases h
      | ok p =>
        obtain ⟨ka, va⟩ := p
        rw [hkm] at h
        simp only at h
        obtain ⟨ga, _⟩ := kmalloc_page_spec k ka va hl hkm
        have hla : ka.frames.last_frame ≤ 131072 := by rw [ga.2.1]; exact hl
        cases hin : vm_copyPTE_inner ot0.entry va N_DESCRIPTORS 0 ka (ka.junk va) with
        | panic e => rw [hin] at h; cases h
        | diverge => rw [hin] at h; cases h
        | ok q =>
          obtain ⟨kb, t, r0⟩ := q
          rw [hin] at h
          obtain ⟨gb, _, inner⟩ := copy_inner_spec ot0.entry va N_DESCRIPTORS 0 ka (ka.junk va)
            kb t r0 hla hin
          have hlb : kb.frames.last_frame ≤ 131072 := by rw [gb.2.1]; exact hla
          by_cases hr0 : r0 = 0
          · obtain ⟨hva0, ents, dis⟩ := inner hr0
            have hva : va ≠ 0 := hva0 (by decide)
            simp only [hr0, ne_eq, not_true_eq_false, if_false, hva] at h
            obtain ⟨g, fr, rest⟩ := ih (i + 1) kb _ k1 nw1 r hlb h
            have hsi : nw1.slot i = some ⟨va, t⟩ := by
              rw [fr i (by omega)]
              exact Function.update_same _ _ _
            have gab : Grow k kb := ga.trans gb
            refine ⟨gab.trans g, ?_, fun hr => ?_⟩
            · intro x hx
              rw [fr x (by omega)]
              exact Function.update_noteq (by omega) _ _
            · obtain ⟨sl, d1, d2⟩ := rest hr
              refine ⟨?_, ?_, ?_⟩
              · intro x h1 h2
                by_cases hxi : x = i
                · rw [hxi, ho, hsi]
                  refine ⟨fun hc => Option.noConfusion hc, fun ot hot => ⟨⟨va, t⟩, rfl, hva, fun y hy => ?_⟩⟩
                  simp only [Option.some.injEq] at hot
                  rw [← hot]
                  exact (ents y (by omega) (by omega)).transport ga g
                · obtain ⟨s1, s2⟩ := sl x (by omega) (by omega)
                  refine ⟨fun hn => ?_, fun ot hot => ?_⟩
                  · rw [s1 hn]
                    exact Function.update_noteq hxi _ _
                  · obtain ⟨tn, t1, t2, t3⟩ := s2 ot hot
                    exact ⟨tn, t1, t2, fun y hy => (t3 y hy).transport gab (Grow.refl k1)⟩
              · intro x x2 ot ot2 tn tn2 y y2 h1 h2 h3 hox hox2 hnx hnx2 hy hy2 hey hey2
                by_cases hxi : x = i
                · -- a frame of table `i` against a frame of a later table
                  rw [hxi, ho] at hox
                  rw [hxi, hsi] at hnx
                  simp only [Option.some.injEq] at hox hnx
                  rw [← hnx]
                  rw [← hox] at hey
                  have f1 := ((ents y (by omega) (by omega)).2 hey).2.1
                  obtain ⟨s1, s2⟩ := sl x2 (by omega) (by omega)
                  obtain ⟨tn', t1, t2, t3⟩ := s2 ot2 hox2
                  rw [hnx2] at t1
                  simp only [Option.some.injEq] at t1
                  have f2 := ((t3 y2 hy2).2 hey2).2.1
                  rw [← t1] at f2
                  intro e
                  have a1 := f1.2.2
                  have a2 := f2.2.1
                  rw [← e, a1] at a2
                  cases a2
                · exact d1 x x2 ot ot2 tn tn2 y y2 (by omega) h2 (by omega) hox hox2 hnx hnx2
                    hy hy2 hey hey2
              · intro x ot tn y y2 h1 h2 hox hnx hyy hy2 hey hey2
                by_cases hxi : x = i
                · rw [hxi, ho] at hox
                  rw [hxi, hsi] at hnx
                  simp only [Option.some.injEq] at hox hnx
                  rw [← hnx]
                  rw [← hox] at hey hey2
                  exact dis y y2 (by omega) hyy (by omega) hey hey2
                · exact d2 x ot tn y y2 (by omega) (by omega) hox hnx hyy hy2 hey hey2
          · simp only [hr0, ne_eq, not_false_eq_true, if_true, Outcome.ok.injEq,
              Prod.mk.injEq] at h
            obtain ⟨hk, hn, hr⟩ := h
            rw [← hk, ← hn, ← hr]
            refine ⟨ga.trans gb, ?_, fun hc => absurd hc hr0⟩
            intro x hx
            exact Function.update_noteq (by omega) _ _

theorem null_fill_below : ∀ (fuel i : Nat) (d : Nat → Option PTable) (x : Nat),
    x < i → null_fill d fuel i x = d x := by
  intro fuel
  induction fuel with
  | zero => intro i d x _; rfl
  | succ n ih =>
    intro i d x hx
    unfold null_fill
    rw [ih (i + 1) _ x (by omega)]
    exact Function.update_noteq (by omega) _ _

theorem null_fill_spec : ∀ (fuel i : Nat) (d : Nat → Option PTable) (x : Nat),
    i ≤ x → x < i + fuel → null_fill d fuel i x = none := by
  intro fuel
  induction fuel with
  | zero => intro i d x h1 h2; omega
  | succ n ih =>
    intro i d x h1 h2
    unfold null_fill
    by_cases hx : x = i
    · rw [hx, null_fill_below n (i + 1) _ i (by omega)]
      exact Function.update_same _ _ _
    · exact ih (i + 1) _ x (by omega) (by omega)

theorem kmalloc_small_spec (k k1 : Kernel) (b : Bool) (h : kmalloc_small k = (k1, b)) :
    k1.frames = k.frames ∧ k1.mem = k.mem ∧ k1.junk = k.junk ∧ k1.junkdir = k.junkdir
      ∧ k1.tlb = k.tlb := by
  unfold kmalloc_small at h
  by_cases h0 : k.heap = 0
  · rw [if_pos h0] at h
    simp only [Prod.mk.injEq] at h
    rw [← h.1]
    exact ⟨rfl, rfl, rfl, rfl, rfl⟩
  · rw [if_neg h0] at h
    simp only [Prod.mk.injEq] at h
    rw [← h.1]
    exact ⟨rfl, rfl, rfl, rfl, rfl⟩

theorem as_copy_regions_spec : ∀ (L : List region) (k : Kernel) (acc : List region)
    (k1 : Kernel) (regs : List region) (b : Bool),
    as_copy_regions L k acc = (k1, regs, b) → k1.frames = k.frames ∧ k1.mem = k.mem := by
  intro L
  induction L with
  | nil =>
    intro k acc k1 regs b h
    unfold as_copy_regions at h
    simp only [Prod.mk.injEq] at h
    rw [← h.1]
    exact ⟨rfl, rfl⟩
  | cons o os ih =>
    intro k acc k1 regs b h
    unfold as_copy_regions at h
    cases hk : kmalloc_small k with
    | mk ka ok =>
      obtain ⟨e1, e2, _⟩ := kmalloc_small_spec k ka ok hk
      rw [hk] at h
      cases ok with
      | false =>
        simp only [Prod.mk.injEq] at h
        rw [← h.1]
        exact ⟨e1, e2⟩
      | true =>
        simp only at h
        obtain ⟨a1, a2⟩ := ih ka _ k1 regs b h
        exact ⟨by rw [a1, e1], by rw [a2, e2]⟩

theorem as_create_spec (k k1 : Kernel) (a : addrspace) (hl : k.frames.last_frame ≤ 131072)
    (h : as_create k = Outcome.ok (k1, some a)) :
    Grow k k1 ∧ a.as_regions = [] ∧
    ∃ pd, a.as_pte = some pd ∧ ∀ x, x < N_DESCRIPTORS → pd.slot x = none := by
  unfold as_create at h
  cases hk : kmalloc_small k with
  | mk ka ok =>
    obtain ⟨e1, e2, _⟩ := kmalloc_small_spec k ka ok hk
    rw [hk] at h
    cases ok with
    | false => simp only [Outcome.ok.injEq, Prod.mk.injEq] at h; cases h.2
    | true =>
      simp only at h
      cases hal : alloc_kpages ka.frames 1 with
      | panic e => rw [hal] at h; cases h
      | diverge => rw [hal] at h; cases h
      | ok p =>
        obtain ⟨f, va⟩ := p
        rw [hal] at h
        simp only at h
        obtain ⟨b1, b2, keep, _⟩ := alloc_one_page_spec ka.frames f va (by rw [e1]; exact hl) hal
        by_cases hva : va = 0
        · simp only [hva, if_true, Outcome.ok.injEq, Prod.mk.injEq] at h; cases h.2
        · simp only [hva, if_false, Outcome.ok.injEq, Prod.mk.injEq, Option.some.injEq] at h
          obtain ⟨hk1, ha⟩ := h
          rw [← hk1, ← ha]
          refine ⟨⟨by show f.first_frame = _; rw [b1, e1], by show f.last_frame = _; rw [b2, e1],
            fun x hx => ⟨?_, by show ka.mem x = k.mem x; rw [e2]⟩⟩, rfl,
            ⟨va, null_fill (ka.junkdir va) N_DESCRIPTORS 0⟩, rfl, ?_⟩
          · show f.frame_table x = _
            rw [keep x (by rw [e1]; exact hx), e1]
          · intro x hx
            have h2 : x < 0 + N_DESCRIPTORS := by rw [Nat.zero_add]; exact hx
            dsimp only
            exact null_fill_spec N_DESCRIPTORS 0 (ka.junkdir va) x (Nat.zero_le x) h2

/-- What a successful `as_copy` has done. -/
theorem as_copy_spec (k : Kernel) (old : addrspace) (k1 : Kernel) (new : addrspace)
    (hl : k.frames.last_frame ≤ 131072)
    (h : as_copy k old = Outcome.ok (k1, some new, 0)) :
    Grow k k1 ∧
    new.as_heapStart = old.as_heapStart ∧ new.as_heapEnd = old.as_heapEnd ∧
    new.as_stack = old.as_stack ∧
    (∃ ka kb, as_copy_regions old.as_regions ka [] = (kb, new.as_regions, true)) ∧
    ∃ opd npd, old.as_pte = some opd ∧ new.as_pte = some npd ∧
      (∀ x, x < N_DESCRIPTORS → SlotCopied k k1 (opd.slot x) none (npd.slot x)) ∧
      (∀ x x2 ot ot2 tn tn2 y y2, x < x2 → x2 < N_DESCRIPTORS →
        opd.slot x = some ot → opd.slot x2 = some ot2 → npd.slot x = some tn →
        npd.slot x2 = some tn2 → y < N_DESCRIPTORS → y2 < N_DESCRIPTORS →
        ot.entry y ≠ 0 → ot2.entry y2 ≠ 0 → pteFrame (tn.entry y) ≠ pteFrame (tn2.entry y2)) ∧
      (∀ x ot tn y y2, x < N_DESCRIPTORS → opd.slot x = some ot → npd.slot x = some tn →
        y < y2 → y2 < N_DESCRIPTORS → ot.entry y ≠ 0 → ot.entry y2 ≠ 0 →
        pteFrame (tn.entry y) ≠ pteFrame (tn.entry y2)) := by
  unfold as_copy at h
  cases hc : as_create k with
  | panic e => rw [hc] at h; cases h
  | diverge => rw [hc] at h; cases h
  | ok p =>
    obtain ⟨ka, oa⟩ := p
    rw [hc] at h
    cases oa with
    | none => simp only [Outcome.ok.injEq, Prod.mk.injEq] at h; cases h.2.1
    | some a0 =>
      simp only at h
      obtain ⟨ga, _, pd0, hpd0, hnone⟩ := as_create_spec k ka a0 hl hc
      cases hr : as_copy_regions old.as_regions ka [] with
      | mk kb rest =>
        obtain ⟨regs, b⟩ := rest
        obtain ⟨r1, r2⟩ := as_copy_regions_spec _ _ _ _ _ _ hr
        have gb : Grow ka kb :=
          ⟨by rw [r1], by rw [r1], fun x _ => ⟨by rw [r1], by rw [r2]⟩⟩
        rw [hr] at h
        cases b with
        | false =>
          simp only at h
          split at h <;> first
            | (simp only [Outcome.ok.injEq, Prod.mk.injEq] at h; cases h.2.1)
            | cases h
        | true =>
          simp only [hpd0] at h
          cases hold : old.as_pte with
          | none =>
            rw [hold] at h
            unfold vm_copyPTE at h
            cases h
          | some opd =>
            rw [hold] at h
            unfold vm_copyPTE at h
            simp only at h
            cases hout : vm_copyPTE_outer opd.slot N_DESCRIPTORS 0 kb pd0 with
            | panic e => rw [hout] at h; cases h
            | diverge => rw [hout] at h; cases h
            | ok q =>
              obtain ⟨kc, npd, r⟩ := q
              rw [hout] at h
              simp only at h
              have hlb : kb.frames.last_frame ≤ 131072 := by
                rw [gb.2.1, ga.2.1]; exact hl
              obtain ⟨gc, fr, spec⟩ := copy_outer_spec opd.slot N_DESCRIPTORS 0 kb pd0 kc npd r
                hlb hout
              by_cases hr0 : r = 0
              · simp only [hr0, ne_eq, not_true_eq_false, if_false, Outcome.ok.injEq,
                  Prod.mk.injEq, Option.some.injEq] at h
                obtain ⟨hk1, hnew, _⟩ := h
                obtain ⟨sl, d1, d2⟩ := spec hr0
                have gab : Grow k kb := ga.trans gb
                rw [← hk1, ← hnew]
                refine ⟨gab.trans gc, rfl, rfl, rfl, ⟨ka, kb, hr⟩, opd, npd, rfl, rfl, ?_, ?_, ?_⟩
                · intro x hx
                  obtain ⟨s1, s2⟩ := sl x (by omega) (by omega)
                  refine ⟨fun hn => ?_, fun ot hot => ?_⟩
                  · rw [s1 hn]; exact hnone x hx
                  · obtain ⟨tn, t1, t2, t3⟩ := s2 ot hot
                    exact ⟨tn, t1, t2, fun y hy => (t3 y hy).transport gab (Grow.refl kc)⟩
                · intro x x2 ot ot2 tn tn2 y y2 h1 h2
                  exact d1 x x2 ot ot2 tn tn2 y y2 (by omega) h1 (by omega)
                · intro x ot tn y y2 h1
                  exact d2 x ot tn y y2 (by omega) (by omega)
              · simp only [hr0, ne_eq, not_false_eq_true, if_true] at h
                split at h <;> first
                  | (simp only [Outcome.ok.injEq, Prod.mk.injEq] at h; cases h.2.1)
                  | cases h

theorem free_single_frame (f : Frames) (va : Nat) (hva : va ≠ 0)
    (hc : f.frame_table (frameOf va) = ⟨true, false⟩) :
    ∃ f1, free_kpages f va = Outcome.ok f1 ∧
      (f1.frame_table (frameOf va)).allocated = false ∧
      ∀ x, x ≠ frameOf va → f1.frame_table x = f.frame_table x := by
  have hall : ¬ (f.frame_table (frameOf va)).allocated = false := by
    rw [hc]; intro h; cases h
  have hlt : frameOf va < 1048576 := by
    unfold frameOf KVADDR_TO_PADDR W32 MIPS_KSEG0 PAGE_BITS
    rw [Nat.shiftRight_eq_div_pow]
    omega
  generalize hfo : frameOf va = c at hc hall hlt
  obtain ⟨t, ht1, ht2⟩ := free_loop_block 0 (W32 + 1) c f.frame_table
    (by unfold W32; omega) (by unfold W32; omega) (by
      intro m hm
      have : m = 0 := by omega
      rw [this, Nat.add_zero, hc]
      rfl)
  refine ⟨{ f with frame_table := t }, ?_, ?_, ?_⟩
  · unfold free_kpages
    rw [free_frames_eq, if_neg hva, hfo, if_neg hall, ht1]
  · show (t c).allocated = false
    rw [ht2 c, if_pos (by omega)]
  · intro x hx
    show t x = _
    rw [ht2 x, if_neg (by omega)]


theorem parent_entries_allocated :
    ∀ opd, parentAs.as_pte = some opd → ∀ i, i < N_DESCRIPTORS → ∀ ot, opd.slot i = some ot →
      ∀ j, j < N_DESCRIPTORS → ot.entry j ≠ 0 →
        (parentKernel.frames.frame_table (pteFrame (ot.entry j))).allocated = true := by
  intro opd hopd i _ ot hot j _ hne
  simp only [parentAs, Option.some.injEq] at hopd
  rw [← hopd] at hot
  simp only at hot
  split_ifs at hot
  simp only [Option.some.injEq] at hot
  rw [← hot] at hne ⊢
  simp only [parentTable] at hne ⊢
  split_ifs at hne ⊢
  · decide
  · decide
  · decide
  · exact absurd rfl hne


/-! ## Fault handler: rejected faults -/

theorem region_scan_none (x : Nat) :
    ∀ (L : List region), (∀ r ∈ L, ¬ (r.as_vbase ≤ x ∧ x < r.as_vbase + r.size)) →
      region_scan x L = none := by
  intro L
  induction L with
  | nil => intro _; rfl
  | cons r rs ih =>
    intro h
    unfold region_scan
    have hr := h r (List.mem_cons_self r rs)
    rw [if_neg (by intro hc; exact hr ⟨hc.1, by omega⟩)]
    exact ih (fun q hq => h q (List.mem_cons_of_mem r hq))

theorem in_stack_window_false (stack x : Nat) (hs : stack < W32)
    (h : ¬ ((stack : Int) - 16 * (PAGE_SIZE : Int) < (x : Int) ∧ x < stack)) :
    in_stack_window stack x = false := by
  unfold in_stack_window
  rw [decide_eq_false_iff_not]
  intro hc
  apply h
  unfold W32 PAGE_SIZE at *
  omega

/-! ## Frame allocator claims -/

/-- C1: no double-issue.  From the frame table left by `ram_bootstrap`, along
any history of `alloc_kpages(n)` with `1 ≤ n ≤ last_frame` and `free_kpages`
of live allocations, the frames of a successful allocation are disjoint from
the frames of every allocation that is live at that moment. -/
theorem no_double_issue (ramsize firstfree : Nat) (raw : Nat → ft_entry) (s0 : Frames)
    (hboot : ram_bootstrap ramsize firstfree raw = Outcome.ok s0)
    (s : Frames) (L : List (Nat × Nat)) (hr : Reach s0 s L)
    (n : Nat) (h1 : 1 ≤ n) (h2 : n ≤ s.last_frame) (s1 : Frames) (va : Nat)
    (h : alloc_kpages s n = Outcome.ok (s1, va)) (hva : va ≠ 0) :
    ∀ b ∈ L, ∀ k < n, ∀ m < b.2, frameOf va + k ≠ frameOf b.1 + m :=
  ((alloc_step s s1 L n va
      (reach_inv s0 (ram_bootstrap_last_frame ramsize firstfree raw s0 hboot) s L hr)
      h1 h2 h).2 hva).2

/-- Witness for C1: boot, allocate three pages, allocate one page, free the
three pages, allocate one page; the last allocation reuses frame 5 and is
disjoint from the live single page at frame 8. -/
theorem no_double_issue_witness :
    ram_bootstrap 65536 0x80004000 raw0 = Outcome.ok boot0 ∧
    Reach boot0 run3 [(0x80008000, 1)] ∧
    alloc_kpages run3 1 = Outcome.ok (run4, 0x80005000) ∧
    ∀ b ∈ [((0x80008000 : Nat), (1 : Nat))], ∀ k < 1, ∀ m < b.2,
      frameOf 0x80005000 + k ≠ frameOf b.1 + m :=
  have hr : Reach boot0 run3 [(0x80008000, 1)] :=
    Reach.free run2 run3 [(0x80008000, 1), (0x80005000, 3)] (0x80005000, 3)
      (Reach.alloc run1 run2 [(0x80005000, 3)] 1 0x80008000
        (Reach.alloc boot0 run1 [] 3 0x80005000 Reach.boot (by decide) (by decide) rfl
          (by decide))
        (by decide) (by decide) rfl (by decide))
      (by decide) rfl
  ⟨rfl, hr, rfl,
    no_double_issue 65536 0x80004000 raw0 boot0 rfl run3 [(0x80008000, 1)] hr 1
      (by decide) (by decide) run4 0x80005000 rfl (by decide)⟩

/-- C2 (as amended): for every frame table and every address whose frame is
marked not allocated, `free_frames` halts the kernel before touching the
table: with the `Double free error` panic when the address is non-NULL, and on
the assertion `vaddr != NULL` when the address is NULL. -/
theorem free_unallocated_panics (s : Frames) (vaddr : Nat)
    (h : (s.frame_table (frameOf vaddr)).allocated = false) :
    free_kpages s vaddr =
      if vaddr = 0 then Outcome.panic Halt.assertion else Outcome.panic Halt.double_free := by
  unfold free_kpages
  rw [free_frames_eq]
  by_cases hv : vaddr = 0
  · rw [if_pos hv, if_pos hv]
  · rw [if_neg hv, if_neg hv, if_pos h]

/-- Witness for C2 (as amended): freeing frame 5 of the empty table. -/
theorem free_unallocated_panics_witness :
    (emptyTable.frame_table (frameOf 0x80005000)).allocated = false ∧
    free_kpages emptyTable 0x80005000 = Outcome.panic Halt.double_free :=
  ⟨rfl, free_unallocated_panics emptyTable 0x80005000 rfl⟩

/-- Counterexample to C2 as stated: the frame of the NULL address (frame
0x80000) is marked not allocated in `emptyTable`, yet `free_kpages` ends on the
failed assertion, not on the double-free panic. -/
theorem free_null_not_double_free :
    (emptyTable.frame_table (frameOf 0)).allocated = false ∧
    frameOf 0 < emptyTable.last_frame ∧
    free_kpages emptyTable 0 = Outcome.panic Halt.assertion ∧
    free_kpages emptyTable 0 ≠ Outcome.panic Halt.double_free :=
  ⟨rfl, by decide, rfl, fun h => by
    have h2 : (Outcome.panic Halt.assertion : Outcome Frames) = Outcome.panic Halt.double_free := h
    cases h2⟩

/-! ## Address-space copy claims -/

set_option maxRecDepth 100000

/-- Byte-identical copy of a well-formed source.  When `as_copy` succeeds on a
source whose present entries reference allocated frames, for every present
source entry the clone has a present entry at the same indices whose frame
holds, byte for byte over the page, what the source frame held at the time of
the call, and the source frame's bytes are unchanged.  The hypothesis on the
source is needed: a source entry on a free frame can have its frame handed to
the copy. -/
theorem as_copy_bytes (k : Kernel) (old : addrspace) (k1 : Kernel) (new : addrspace)
    (hl : k.frames.last_frame ≤ 131072)
    (hsrc : ∀ opd, old.as_pte = some opd → ∀ i, i < N_DESCRIPTORS → ∀ ot, opd.slot i = some ot →
      ∀ j, j < N_DESCRIPTORS → ot.entry j ≠ 0 →
        (k.frames.frame_table (pteFrame (ot.entry j))).allocated = true)
    (h : as_copy k old = Outcome.ok (k1, some new, 0)) :
    ∃ opd npd, old.as_pte = some opd ∧ new.as_pte = some npd ∧
      ∀ i, i < N_DESCRIPTORS → ∀ ot, opd.slot i = some ot →
        ∀ j, j < N_DESCRIPTORS → ot.entry j ≠ 0 →
          ∃ tn, npd.slot i = some tn ∧ tn.entry j ≠ 0 ∧
            (∀ off, off < PAGE_SIZE →
              k1.mem (pteFrame (tn.entry j)) off = k.mem (pteFrame (ot.entry j)) off) ∧
            (∀ off, off < PAGE_SIZE →
              k1.mem (pteFrame (ot.entry j)) off = k.mem (pteFrame (ot.entry j)) off) := by
  obtain ⟨g, _, _, _, _, opd, npd, ho, hn, sl, _, _⟩ := as_copy_spec k old k1 new hl h
  refine ⟨opd, npd, ho, hn, fun i hi ot hot j hj hne => ?_⟩
  obtain ⟨tn, t1, _, t3⟩ := (sl i hi).2 ot hot
  have hal := hsrc opd ho i hi ot hot j hj hne
  obtain ⟨e1, _, _, _, _, hm⟩ := (t3 j hj).2 hne
  refine ⟨tn, t1, e1, fun off _ => ?_, fun off _ => ?_⟩
  · rw [hm hal]
  · rw [(g.2.2 _ hal).2]

/-- Example for `as_copy_bytes`: the copy of the parent with three resident
pages. -/
theorem as_copy_bytes_witness :
    parentKernel.frames.last_frame ≤ 131072 ∧
    as_copy parentKernel parentAs = Outcome.ok (childRun.1, some childAs, 0) ∧
    (childRun.1.mem 12 0, childRun.1.mem 13 4095, childRun.1.mem 14 7) = (7, 8, 9) ∧
    (∃ opd npd, parentAs.as_pte = some opd ∧ childAs.as_pte = some npd ∧
      ∀ i, i < N_DESCRIPTORS → ∀ ot, opd.slot i = some ot →
        ∀ j, j < N_DESCRIPTORS → ot.entry j ≠ 0 →
          ∃ tn, npd.slot i = some tn ∧ tn.entry j ≠ 0 ∧
            (∀ off, off < PAGE_SIZE →
              childRun.1.mem (pteFrame (tn.entry j)) off = parentKernel.mem (pteFrame (ot.entry j)) off) ∧
            (∀ off, off < PAGE_SIZE →
              childRun.1.mem (pteFrame (ot.entry j)) off = parentKernel.mem (pteFrame (ot.entry j)) off)) :=
  ⟨by decide, rfl, by decide,
    as_copy_bytes parentKernel parentAs childRun.1 childAs (by decide)
      parent_entries_allocated rfl⟩

/-- C6 fails on the code: copying the address space `as3`, whose region list
is `[regRo, regData, regText]`, succeeds, and the clone's region list is
`[regRo, regText]`: two regions instead of three, the middle one lost. -/
theorem as_copy_drops_middle_region :
    as_copy kern0 as3 = Outcome.ok (copy3.1, copy3.2.1, 0) ∧
    as3.as_regions = [regRo, regData, regText] ∧
    copy3.2.1.map (fun a => a.as_regions) = some [regRo, regText] ∧
    copy3.2.1.map (fun a => a.as_regions.length) ≠ some as3.as_regions.length :=
  ⟨rfl, rfl, by decide, by decide⟩

/-! ## Fault handler claims -/

/-- C7 fails on the code: in `as2` the page at 0x400000 lies in the text
region, whose flags have no write permission, and in no other region; a read
fault there returns 0 and creates the entry 0x6600, whose dirty bit is set
(the flags of the head region `regData` were used). -/
theorem fault_dirty_from_head_region :
    vm_fault kern0 true (some as2) VM_FAULT_READ 0x400123
      = Outcome.ok (faultText.1, faultText.2.1, 0) ∧
    entryAt (some as2) (fault_msb 0x400000) (fault_lsb 0x400000) = none ∧
    region_scan (0x400123 &&& PAGE_FRAME) as2.as_regions = some regText ∧
    (∀ r ∈ as2.as_regions, r.as_vbase ≤ 0x400000 ∧ 0x400000 < r.as_vbase + r.size → r = regText) ∧
    regText.flags &&& PF_W = 0 ∧
    entryAt faultText.2.1 (fault_msb 0x400000) (fault_lsb 0x400000) = some 0x6600 ∧
    0x6600 &&& TLBLO_DIRTY = TLBLO_DIRTY :=
  ⟨rfl, by decide, by decide, by decide, by decide, by decide, by decide⟩

/-- C8: a read or write fault whose page-aligned address lies in no region
and outside the stack-growth window returns `EFAULT` and leaves the kernel
state (frame table, memory, TLB log) and the address space (page table,
region list) exactly as they were.  The window is taken as the open interval
`(as_stack - 16 * PAGE_SIZE, as_stack)`; `as_stack` is a 32-bit address. -/
theorem vm_fault_bad_address (k : Kernel) (curproc : Bool) (as : Option addrspace)
    (faulttype : Int) (faultaddress : Nat)
    (hkind : faulttype = VM_FAULT_READ ∨ faulttype = VM_FAULT_WRITE)
    (hout : ∀ a, as = some a → a.as_stack < W32 ∧
      (∀ r ∈ a.as_regions, ¬ (r.as_vbase ≤ faultaddress &&& PAGE_FRAME
          ∧ faultaddress &&& PAGE_FRAME < r.as_vbase + r.size)) ∧
      ¬ ((a.as_stack : Int) - 16 * (PAGE_SIZE : Int) < ((faultaddress &&& PAGE_FRAME : Nat) : Int)
          ∧ faultaddress &&& PAGE_FRAME < a.as_stack)) :
    vm_fault k curproc as faulttype faultaddress = Outcome.ok (k, as, EFAULT) := by
  unfold vm_fault
  generalize faultaddress &&& PAGE_FRAME = x at hout ⊢
  by_cases h1 : curproc = false
  · rw [if_pos h1]
  · rw [if_neg h1]
    by_cases h2 : faultaddress = 0
    · rw [if_pos h2]
    · rw [if_neg h2]
      have e1 : ¬ faulttype = VM_FAULT_READONLY := by
        rcases hkind with h | h <;> rw [h] <;> decide
      have e2 : ¬ (faulttype ≠ VM_FAULT_READ ∧ faulttype ≠ VM_FAULT_WRITE) := by
        rcases hkind with h | h
        · exact fun hc => hc.1 h
        · exact fun hc => hc.2 h
      simp only [e1, e2, if_false]
      cases as with
      | none => rfl
      | some a =>
        obtain ⟨hs, hr, hw⟩ := hout a rfl
        simp only
        cases hregs : a.as_regions with
        | nil => rfl
        | cons r rs =>
          simp only
          cases hpte : a.as_pte with
          | none => rfl
          | some pd =>
            simp only
            rw [hregs] at hr
            rw [region_scan_none x (r :: rs) hr, in_stack_window_false a.as_stack x hs hw]
            simp

/-- Witness for C8: a read fault at 0x700123 on `as2`. -/
theorem vm_fault_bad_address_witness :
    vm_fault kern0 true (some as2) VM_FAULT_READ 0x700123 = Outcome.ok (kern0, some as2, EFAULT) :=
  vm_fault_bad_address kern0 true (some as2) VM_FAULT_READ 0x700123 (Or.inl rfl)
    (fun a ha => by
      simp only [Option.some.injEq] at ha
      rw [← ha]
      exact ⟨by decide, by decide, by decide⟩)

/-- C9: for every kernel state, address space and faulting address, a fault
of kind `VM_FAULT_READONLY` returns `EFAULT` and leaves the kernel state
(frame table, TLB log) and the address space (page table) unchanged. -/
theorem vm_fault_readonly (k : Kernel) (curproc : Bool) (as : Option addrspace)
    (faultaddress : Nat) :
    vm_fault k curproc as VM_FAULT_READONLY faultaddress = Outcome.ok (k, as, EFAULT) := by
  unfold vm_fault
  by_cases h1 : curproc = false
  · rw [if_pos h1]
  · rw [if_neg h1]
    by_cases h2 : faultaddress = 0
    · rw [if_pos h2]
    · rw [if_neg h2]
      simp only [if_true]

/-- C10 fails on the code: with frame 15 the only free frame, a read fault at
0x400123 on `as2` creates the second-level table for slot 513 in frame 15,
fails to allocate the page and returns `ENOMEM`; frame 15 is free again, but
directory slot 513, empty before the fault, still holds the pointer
0x8000f000 to the released table. -/
theorem fault_rollback_leaves_pointer :
    vm_fault kernFull true (some as2) VM_FAULT_READ 0x400123
      = Outcome.ok (faultFull.1, faultFull.2.1, ENOMEM) ∧
    slotAddr (some as2) (fault_msb 0x400000) = none ∧
    slotAddr faultFull.2.1 (fault_msb 0x400000) = some 0x8000f000 ∧
    frameOf 0x8000f000 = 15 ∧
    (kernFull.frames.frame_table 15).allocated = false ∧
    (faultFull.1.frames.frame_table 15).allocated = false :=
  ⟨rfl, by decide, by decide, by decide, by decide, by decide⟩

/-! ## First-fit scans, block release and bootstrap -/

/-! ## First fit -/

theorem alloc_one_scan_first (tbl : Nat → ft_entry) :
    ∀ (fuel lo i : Nat), lo ≤ i → i < lo + fuel → (tbl i).allocated = false →
      (∀ x, lo ≤ x → x < i → (tbl x).allocated = true) →
      alloc_one_scan tbl fuel lo = some i := by
  intro fuel
  induction fuel with
  | zero => intro lo i h1 h2; omega
  | succ n ih =>
    intro lo i h1 h2 hf hb
    unfold alloc_one_scan
    by_cases hi : i = lo
    · rw [← hi, if_pos hf]
    · have hlo : ¬ (tbl lo).allocated = false := by
        rw [hb lo (le_refl _) (by omega)]; intro h; cases h
      rw [if_neg hlo]
      exact ih (lo + 1) i (by omega) (by omega) hf (fun x hx1 hx2 => hb x (by omega) hx2)

theorem alloc_multi_scan_first (tbl : Nat → ft_entry) (limit npages lo : Nat)
    (hlim : limit + npages < W32) :
    ∀ (fuel i j i1 j1 : Nat), alloc_multi_scan tbl limit npages fuel i j = some (i1, j1) →
      j ≤ npages →
      (∀ x, lo ≤ x → x < i → ¬ ∀ m, m < npages → (tbl (x + m)).allocated = false) →
      (∀ x, lo ≤ x → x < i1 → ¬ ∀ m, m < npages → (tbl (x + m)).allocated = false) := by
  intro fuel
  induction fuel with
  | zero => intro i j i1 j1 h; simp [alloc_multi_scan] at h
  | succ f ih =>
    intro i j i1 j1 h hj hno
    unfold alloc_multi_scan at h
    by_cases hc : i < limit ∧ j < npages
    · rw [if_pos hc] at h
      have e1 : (i + j) % W32 = i + j := Nat.mod_eq_of_lt (by omega)
      have e2 : (i + j + 1) % W32 = i + j + 1 := Nat.mod_eq_of_lt (by omega)
      have e3 : (j + 1) % W32 = j + 1 := Nat.mod_eq_of_lt (by omega)
      rw [e1, e2, e3] at h
      by_cases ha : (tbl (i + j)).allocated = true
      · rw [if_pos ha] at h
        refine ih (i + j + 1) 0 i1 j1 h (by omega) ?_
        intro x hx1 hx2 hrun
        by_cases hxi : x < i
        · exact hno x hx1 hxi hrun
        · have := hrun (i + j - x) (by omega)
          rw [show x + (i + j - x) = i + j by omega, ha] at this
          cases this
      · rw [if_neg ha] at h
        exact ih i (j + 1) i1 j1 h (by omega) hno
    · rw [if_neg hc] at h
      simp only [Option.some.injEq, Prod.mk.injEq] at h
      rw [← h.1]
      exact hno

/-! ## Addresses returned by the allocator -/

theorem kvaddr_frame_roundtrip (i : Nat) :
    PADDR_TO_KVADDR ((frameOf (PADDR_TO_KVADDR ((i <<< PAGE_BITS) % W32)) <<< PAGE_BITS) % W32)
      = PADDR_TO_KVADDR ((i <<< PAGE_BITS) % W32) ∧
    ((i <<< PAGE_BITS) % W32 ≠ 0 →
      (frameOf (PADDR_TO_KVADDR ((i <<< PAGE_BITS) % W32)) <<< PAGE_BITS) % W32 ≠ 0) := by
  unfold frameOf KVADDR_TO_PADDR PADDR_TO_KVADDR W32 MIPS_KSEG0 PAGE_BITS
  rw [Nat.shiftLeft_eq, Nat.shiftLeft_eq, Nat.shiftRight_eq_div_pow]
  omega

theorem alloc_kpages_inner (s s1 : Frames) (n va : Nat)
    (h : alloc_kpages s n = Outcome.ok (s1, va)) :
    ∃ paddr, (if n > 1 then alloc_multiple_frames s n else alloc_one_frame s n)
        = Outcome.ok (s1, paddr) ∧
      va = if paddr = 0 then 0 else PADDR_TO_KVADDR paddr := by
  unfold alloc_kpages at h
  cases hr : (if n > 1 then alloc_multiple_frames s n else alloc_one_frame s n) with
  | panic e => rw [hr] at h; cases h
  | diverge => rw [hr] at h; cases h
  | ok p =>
    obtain ⟨s2, paddr⟩ := p
    rw [hr] at h
    refine ⟨paddr, ?_, ?_⟩
    · by_cases hp : paddr = 0
      · simp only [hp, if_true, Outcome.ok.injEq, Prod.mk.injEq] at h
        rw [h.1, hp]
      · simp only [hp, if_false, Outcome.ok.injEq, Prod.mk.injEq] at h
        rw [h.1]
    · by_cases hp : paddr = 0
      · simp only [hp, if_true, Outcome.ok.injEq, Prod.mk.injEq] at h
        rw [if_pos hp]; exact h.2.symm
      · simp only [hp, if_false, Outcome.ok.injEq, Prod.mk.injEq] at h
        rw [if_neg hp]; exact h.2.symm

theorem alloc_multiple_frames_cases (s s1 : Frames) (n paddr : Nat)
    (h : alloc_multiple_frames s n = Outcome.ok (s1, paddr)) :
    ∃ i j, alloc_multi_scan s.frame_table ((s.last_frame + (W32 - n % W32)) % W32) n (W32 + n)
        s.first_frame 0 = some (i, j) ∧
      ((j ≠ n ∧ s1 = s ∧ paddr = 0) ∨
       (j = n ∧ paddr = (i <<< PAGE_BITS) % W32 ∧ s1.first_frame = s.first_frame ∧
        s1.last_frame = s.last_frame ∧
        s1.frame_table = Function.update
          (alloc_multi_mark s.frame_table ((i + n + (W32 - 1)) % W32) n i).1
          (alloc_multi_mark s.frame_table ((i + n + (W32 - 1)) % W32) n i).2 ⟨true, false⟩)) := by
  unfold alloc_multiple_frames at h
  simp only at h
  cases hscan : alloc_multi_scan s.frame_table ((s.last_frame + (W32 - n % W32)) % W32) n
      (W32 + n) s.first_frame 0 with
  | none => rw [hscan] at h; cases h
  | some p =>
    obtain ⟨i, j⟩ := p
    rw [hscan] at h
    refine ⟨i, j, rfl, ?_⟩
    by_cases hj : j = n
    · simp only [hj, if_true, Outcome.ok.injEq, Prod.mk.injEq] at h
      refine Or.inr ⟨hj, h.2.symm, ?_, ?_, ?_⟩
      · rw [← h.1]
      · rw [← h.1]
      · rw [← h.1]
    · simp only [hj, if_false, Outcome.ok.injEq, Prod.mk.injEq] at h
      exact Or.inl ⟨hj, h.1.symm, h.2.symm⟩

theorem alloc_one_frame_cases (s s1 : Frames) (paddr : Nat)
    (h : alloc_one_frame s 1 = Outcome.ok (s1, paddr)) :
    (alloc_one_scan s.frame_table (s.last_frame - s.first_frame) s.first_frame = none ∧
      s1 = s ∧ paddr = 0) ∨
    ∃ i, alloc_one_scan s.frame_table (s.last_frame - s.first_frame) s.first_frame = some i ∧
      s1 = s.set i ⟨true, false⟩ ∧ paddr = (i <<< PAGE_BITS) % W32 := by
  unfold alloc_one_frame at h
  simp only [ne_eq, not_true_eq_false, if_false] at h
  cases hscan : alloc_one_scan s.frame_table (s.last_frame - s.first_frame) s.first_frame with
  | none =>
    rw [hscan] at h
    simp only [Outcome.ok.injEq, Prod.mk.injEq] at h
    exact Or.inl ⟨rfl, h.1.symm, h.2.symm⟩
  | some i =>
    rw [hscan] at h
    simp only [Outcome.ok.injEq, Prod.mk.injEq] at h
    exact Or.inr ⟨i, rfl, h.1.symm, h.2.symm⟩

theorem alloc_kpages_addr (s s1 : Frames) (n va : Nat) (h1 : 1 ≤ n)
    (h : alloc_kpages s n = Outcome.ok (s1, va)) (hva : va ≠ 0) :
    ∃ i, va = PADDR_TO_KVADDR ((i <<< PAGE_BITS) % W32) ∧ (i <<< PAGE_BITS) % W32 ≠ 0 := by
  obtain ⟨paddr, hin, hv⟩ := alloc_kpages_inner s s1 n va h
  have hp : paddr ≠ 0 := by
    intro hp; rw [if_pos hp] at hv; exact hva hv
  rw [if_neg hp] at hv
  by_cases hn : n > 1
  · rw [if_pos hn] at hin
    obtain ⟨i, j, _, hc⟩ := alloc_multiple_frames_cases s s1 n paddr hin
    rcases hc with ⟨_, _, h0⟩ | ⟨_, hpa, _⟩
    · exact absurd h0 hp
    · exact ⟨i, by rw [hv, hpa], by rw [← hpa]; exact hp⟩
  · rw [if_neg hn] at hin
    have hn1 : n = 1 := by omega
    rw [hn1] at hin
    rcases alloc_one_frame_cases s s1 paddr hin with ⟨_, _, h0⟩ | ⟨i, _, _, hpa⟩
    · exact absurd h0 hp
    · exact ⟨i, by rw [hv, hpa], by rw [← hpa]; exact hp⟩

theorem alloc_kpages_one_none (s : Frames)
    (h : alloc_one_scan s.frame_table (s.last_frame - s.first_frame) s.first_frame = none) :
    alloc_kpages s 1 = Outcome.ok (s, 0) := by
  unfold alloc_kpages alloc_one_frame
  rw [if_neg (by omega)]
  simp only [ne_eq, not_true_eq_false, if_false, h, if_true]

theorem alloc_kpages_one_some (s : Frames) (i : Nat)
    (h : alloc_one_scan s.frame_table (s.last_frame - s.first_frame) s.first_frame = some i)
    (hp : (i <<< PAGE_BITS) % W32 ≠ 0) :
    alloc_kpages s 1
      = Outcome.ok (s.set i ⟨true, false⟩, PADDR_TO_KVADDR ((i <<< PAGE_BITS) % W32)) := by
  unfold alloc_kpages alloc_one_frame
  rw [if_neg (by omega)]
  simp only [ne_eq, not_true_eq_false, if_false, h, hp]

theorem shift_page (i : Nat) (hi : i ≤ 131072) : (i <<< PAGE_BITS) % W32 = i * PAGE_SIZE := by
  unfold PAGE_BITS W32 PAGE_SIZE
  rw [Nat.shiftLeft_eq]
  omega

theorem free_block_spec (s : Frames) (b : Nat × Nat) (hl : s.last_frame ≤ 131072)
    (hb : BlockOk s b) :
    ∃ s1, free_kpages s b.1 = Outcome.ok s1 ∧
      s1.first_frame = s.first_frame ∧ s1.last_frame = s.last_frame ∧
      ∀ x, s1.frame_table x =
        if frameOf b.1 ≤ x ∧ x < frameOf b.1 + b.2 then ⟨false, (s.frame_table x).not_last⟩
        else s.frame_table x := by
  obtain ⟨a1, a2, a3, a4⟩ := hb
  have h0 := a4 0 (by omega)
  rw [Nat.add_zero] at h0
  generalize hc : frameOf b.1 = c at a3 a4 h0
  have hf1 : b.2 - 1 + 2 ≤ W32 + 1 := by unfold W32; omega
  have hf2 : c + (b.2 - 1) + 1 < W32 := by unfold W32; omega
  obtain ⟨t, ht1, ht2⟩ := free_loop_block (b.2 - 1) (W32 + 1) c s.frame_table
    hf1 hf2 (by
      intro k hk
      rw [a4 k (by omega)]
      congr 1
      simp only [decide_eq_decide]
      omega)
  refine ⟨{ s with frame_table := t }, ?_, rfl, rfl, ?_⟩
  · unfold free_kpages
    rw [free_frames_eq, if_neg a1, hc, if_neg (by rw [h0]; intro h; cases h), ht1]
  · intro x
    show t x = _
    rw [ht2 x]
    by_cases hx : c ≤ x ∧ x ≤ c + (b.2 - 1)
    · rw [if_pos hx, if_pos (by omega)]
    · rw [if_neg hx, if_neg (by omega)]

theorem free_kpages_bounds (s s1 : Frames) (va : Nat) (h : free_kpages s va = Outcome.ok s1) :
    s1.first_frame = s.first_frame ∧ s1.last_frame = s.last_frame := by
  unfold free_kpages at h
  rw [free_frames_eq] at h
  split_ifs at h
  cases hloop : free_loop s.frame_table (W32 + 1) (frameOf va) with
  | none => rw [hloop] at h; cases h
  | some t =>
    rw [hloop] at h
    simp only [Outcome.ok.injEq] at h
    rw [← h]
    exact ⟨rfl, rfl⟩

theorem reach_addr (s0 : Frames) (h0 : s0.last_frame ≤ 131072) (s : Frames)
    (L : List (Nat × Nat)) (hr : Reach s0 s L) :
    ∀ b ∈ L, AddrOk s b := by
  induction hr with
  | boot => intro b hb; exact absurd hb (List.not_mem_nil b)
  | alloc s s1 L n va hr h1 h2 h hva ih =>
    have hinv := reach_inv s0 h0 s L hr
    obtain ⟨e1, _, hcase⟩ := alloc_kpages_spec s s1 n va hinv.1 h1 h2 h
    intro b hb
    rcases List.mem_cons.1 hb with rfl | hb
    · rcases hcase with ⟨_, hv⟩ | ⟨i, hlo, _, _, _, hfr, _⟩
      · exact absurd hv hva
      · obtain ⟨i2, hv2, hp2⟩ := alloc_kpages_addr s s1 n va h1 h hva
        obtain ⟨r1, r2⟩ := kvaddr_frame_roundtrip i2
        refine ⟨?_, ?_, ?_⟩
        · show s1.first_frame ≤ frameOf va
          rw [hfr hva, e1]; exact hlo
        · show va = PADDR_TO_KVADDR ((frameOf va <<< PAGE_BITS) % W32)
          rw [hv2, r1]
        · show (frameOf va <<< PAGE_BITS) % W32 ≠ 0
          rw [hv2]; exact r2 hp2
    · obtain ⟨b1, b2, b3⟩ := ih b hb
      exact ⟨by rw [e1]; exact b1, b2, b3⟩
  | alloc_fail s s1 L n hr h1 h2 h ih =>
    have hinv := reach_inv s0 h0 s L hr
    obtain ⟨e1, _, _⟩ := alloc_kpages_spec s s1 n 0 hinv.1 h1 h2 h
    intro b hb
    obtain ⟨b1, b2, b3⟩ := ih b hb
    exact ⟨by rw [e1]; exact b1, b2, b3⟩
  | free s s1 L b _ hbL h ih =>
    intro c hc
    obtain ⟨b1, b2, b3⟩ := ih c (List.mem_of_mem_erase hc)
    exact ⟨by rw [(free_kpages_bounds s s1 b.1 h).1]; exact b1, b2, b3⟩

theorem boot_mark_used_spec : ∀ (fuel : Nat) (tbl : Nat → ft_entry) (i x : Nat),
    boot_mark_used tbl fuel i x = if i ≤ x ∧ x < i + fuel then ⟨true, false⟩ else tbl x
  | 0, tbl, i, x => by
    rw [boot_mark_used, if_neg (by omega)]
  | fuel + 1, tbl, i, x => by
    rw [boot_mark_used, boot_mark_used_spec fuel]
    by_cases h : i + 1 ≤ x ∧ x < i + 1 + fuel
    · rw [if_pos h, if_pos (by omega)]
    · rw [if_neg h]
      by_cases hx : x = i
      · subst hx
        rw [Function.update_same, if_pos (by omega)]
      · rw [Function.update_noteq hx, if_neg (by omega)]

theorem boot_mark_free_spec : ∀ (fuel : Nat) (tbl : Nat → ft_entry) (i x : Nat),
    boot_mark_free tbl fuel i x =
      if i ≤ x ∧ x < i + fuel then ⟨false, (tbl x).not_last⟩ else tbl x
  | 0, tbl, i, x => by
    rw [boot_mark_free, if_neg (by omega)]
  | fuel + 1, tbl, i, x => by
    rw [boot_mark_free, boot_mark_free_spec fuel]
    by_cases h : i + 1 ≤ x ∧ x < i + 1 + fuel
    · rw [if_pos h, if_pos (by omega), Function.update_noteq (by omega)]
    · rw [if_neg h]
      by_cases hx : x = i
      · subst hx
        rw [Function.update_same, if_pos (by omega)]
      · rw [Function.update_noteq hx, if_neg (by omega)]

theorem roundup_bounds (a : Nat) : a ≤ ROUNDUP a PAGE_SIZE ∧ ROUNDUP a PAGE_SIZE ≤ a + 4095 ∧
    (0 < a → 4096 ≤ ROUNDUP a PAGE_SIZE) := by
  unfold ROUNDUP PAGE_SIZE
  refine ⟨?_, ?_, ?_⟩ <;> omega

theorem ram_bootstrap_spec (ramsize firstfree : Nat) (raw : Nat → ft_entry) (s : Frames)
    (hk : MIPS_KSEG0 ≤ firstfree) (hw : firstfree < W32)
    (h : ram_bootstrap ramsize firstfree raw = Outcome.ok s) :
    s.first_frame =
      (firstfree - MIPS_KSEG0 + ROUNDUP (min ramsize (512 * 1024 * 1024) / PAGE_SIZE * 4) PAGE_SIZE)
        / PAGE_SIZE ∧
    s.last_frame = min ramsize (512 * 1024 * 1024) / PAGE_SIZE ∧
    1 ≤ s.first_frame ∧ s.first_frame < s.last_frame ∧
    (∀ x, x < s.first_frame → s.frame_table x = ⟨true, false⟩) ∧
    (∀ x, s.first_frame ≤ x → x < s.last_frame → (s.frame_table x).allocated = false) := by
  unfold ram_bootstrap at h
  simp only [] at h
  have hram : (if ramsize > 512 * 1024 * 1024 then 512 * 1024 * 1024 else ramsize)
      = min ramsize (512 * 1024 * 1024) := by
    split_ifs <;> omega
  rw [hram] at h
  generalize hR : min ramsize (512 * 1024 * 1024) = R at h ⊢
  have hRle : R ≤ 512 * 1024 * 1024 := by omega
  have hfp : (firstfree + (W32 - MIPS_KSEG0)) % W32 = firstfree - MIPS_KSEG0 := by
    unfold W32 MIPS_KSEG0 at *; omega
  rw [hfp] at h
  have hfpb : firstfree - MIPS_KSEG0 < 2147483648 := by
    unfold W32 MIPS_KSEG0 at *; omega
  generalize firstfree - MIPS_KSEG0 = fp at h hfpb ⊢
  have hnp : R / PAGE_SIZE ≤ 131072 := by unfold PAGE_SIZE; omega
  have hm1 : R / PAGE_SIZE * 4 % W32 = R / PAGE_SIZE * 4 := by
    apply Nat.mod_eq_of_lt; unfold W32; omega
  rw [hm1] at h
  obtain ⟨r1, r2, r3⟩ := roundup_bounds (R / PAGE_SIZE * 4)
  generalize ROUNDUP (R / PAGE_SIZE * 4) PAGE_SIZE = ft at h r1 r2 r3 ⊢
  have hm2 : ft % W32 = ft := by apply Nat.mod_eq_of_lt; unfold W32; omega
  rw [hm2] at h
  have hm3 : (fp + ft) % W32 = fp + ft := by apply Nat.mod_eq_of_lt; unfold W32; omega
  rw [hm3] at h
  split_ifs at h with c1 c2 c3
  simp only [Outcome.ok.injEq] at h
  rw [← h]
  have hs1 : (fp + ft) >>> PAGE_BITS = (fp + ft) / PAGE_SIZE := by
    rw [Nat.shiftRight_eq_div_pow]; rfl
  have hs2 : R >>> PAGE_BITS = R / PAGE_SIZE := by
    rw [Nat.shiftRight_eq_div_pow]; rfl
  rw [hs1, hs2]
  have hal : R % 4096 = 0 := by
    have c2' : R &&& PAGE_FRAME = R := not_not.1 c2
    have hb : R &&& (2 ^ 12 - 1) = 0 := by
      rw [← c2', Nat.and_assoc]
      have : PAGE_FRAME &&& (2 ^ 12 - 1) = 0 := by decide
      rw [this, Nat.and_zero]
    rw [Nat.and_pow_two_sub_one_eq_mod] at hb
    exact hb
  have c3' : fp + ft < R := by omega
  clear c1 c2 c3 hm1 hm2 hm3 hs1 hs2 hfp h hram hR
  have hlt2 : (fp + ft) / PAGE_SIZE < R / PAGE_SIZE := by
    unfold PAGE_SIZE at *; omega
  have hge : 1 ≤ (fp + ft) / PAGE_SIZE := by
    have := r3 (by unfold PAGE_SIZE at *; omega)
    unfold PAGE_SIZE at *; omega
  generalize (fp + ft) / PAGE_SIZE = F at hlt2 hge ⊢
  generalize R / PAGE_SIZE = N at hlt2 ⊢
  refine ⟨rfl, rfl, hge, hlt2, ?_, ?_⟩
  · intro x hx
    have hx1 : x < F := hx
    show boot_mark_free _ _ _ x = _
    rw [boot_mark_free_spec, if_neg (by omega), boot_mark_used_spec, if_pos (by omega)]
  · intro x hx1 hx2
    have hx3 : F ≤ x := hx1
    have hx4 : x < N := hx2
    show (boot_mark_free _ _ _ x).allocated = false
    rw [boot_mark_free_spec, if_pos (by omega)]

theorem full1_all_allocated :
    ∀ x, full1.first_frame ≤ x → x < full1.last_frame → (full1.frame_table x).allocated = true := by
  intro x h1 h2
  have e1 : full1.first_frame = 6 := rfl
  have e2 : full1.last_frame = 8 := rfl
  have hx : x = 6 ∨ x = 7 := by omega
  rcases hx with rfl | rfl <;> rfl

/-- What `alloc_kpages(1)` does on a frame table whose managed range starts
above frame 0 and ends within 512 MB. -/
theorem alloc_one_frame_first (s : Frames) (h1 : 1 ≤ s.first_frame)
    (hl : s.last_frame ≤ 131072) :
    ∃ s1 va, alloc_kpages s 1 = Outcome.ok (s1, va) ∧
      (va = 0 ↔
        ∀ x, s.first_frame ≤ x → x < s.last_frame → (s.frame_table x).allocated = true) ∧
      (va = 0 → s1 = s) ∧
      (va ≠ 0 → ∃ i, va = PADDR_TO_KVADDR (i * PAGE_SIZE) ∧
        s.first_frame ≤ i ∧ i < s.last_frame ∧
        (s.frame_table i).allocated = false ∧
        (∀ x, s.first_frame ≤ x → x < i → (s.frame_table x).allocated = true) ∧
        s1.frame_table i = ⟨true, false⟩ ∧
        (∀ x, x ≠ i → s1.frame_table x = s.frame_table x) ∧
        s1.first_frame = s.first_frame ∧ s1.last_frame = s.last_frame) := by
  cases hscan : alloc_one_scan s.frame_table (s.last_frame - s.first_frame) s.first_frame with
  | none =>
    refine ⟨s, 0, alloc_kpages_one_none s hscan, ?_, fun _ => rfl, fun h => absurd rfl h⟩
    refine ⟨fun _ x hx1 hx2 => ?_, fun _ => rfl⟩
    exact alloc_one_scan_none _ _ _ hscan x hx1 (by omega)
  | some i =>
    obtain ⟨a1, a2, a3, a4⟩ := alloc_one_scan_some _ _ _ _ hscan
    have hsh := shift_page i (by omega)
    have hp : (i <<< PAGE_BITS) % W32 ≠ 0 := by
      rw [hsh]; unfold PAGE_SIZE; omega
    have hva : PADDR_TO_KVADDR ((i <<< PAGE_BITS) % W32) ≠ 0 := kvaddr_ne_zero i (by omega)
    refine ⟨_, _, alloc_kpages_one_some s i hscan hp, ?_, fun h => absurd h hva, fun _ => ?_⟩
    · refine ⟨fun h => absurd h hva, fun hall => ?_⟩
      have := hall i a1 (by omega)
      rw [a3] at this
      cases this
    · refine ⟨i, by rw [hsh], a1, by omega, a3, a4, ?_, ?_, rfl, rfl⟩
      · unfold Frames.set
        exact Function.update_same _ _ _
      · intro x hx
        unfold Frames.set
        exact Function.update_noteq hx _ _

/-! ## First-fit, release and bootstrap claims -/

/-- C14: single-frame allocation is first-fit.  On every frame table with
`first_frame ≥ 1` and `last_frame ≤ 131072` (what `ram_bootstrap` leaves on a
machine with at most 512 MB), `alloc_kpages(1)` returns; the result is 0
exactly when every frame of `[first_frame, last_frame)` is allocated, and then
the table is unchanged; otherwise the result is the kernel address of the
lowest-indexed free frame `i` of that range, frame `i` becomes allocated with
`not_last` cleared, and no other frame-table entry changes. -/
theorem alloc_one_first_fit (s : Frames) (h1 : 1 ≤ s.first_frame)
    (hl : s.last_frame ≤ 131072) :
    ∃ s1 va, alloc_kpages s 1 = Outcome.ok (s1, va) ∧
      (va = 0 ↔
        ∀ x, s.first_frame ≤ x → x < s.last_frame → (s.frame_table x).allocated = true) ∧
      (va = 0 → s1 = s) ∧
      (va ≠ 0 → ∃ i, va = PADDR_TO_KVADDR (i * PAGE_SIZE) ∧
        s.first_frame ≤ i ∧ i < s.last_frame ∧
        (s.frame_table i).allocated = false ∧
        (∀ x, s.first_frame ≤ x → x < i → (s.frame_table x).allocated = true) ∧
        s1.frame_table i = ⟨true, false⟩ ∧
        (∀ x, x ≠ i → s1.frame_table x = s.frame_table x) ∧
        s1.first_frame = s.first_frame ∧ s1.last_frame = s.last_frame) :=
  alloc_one_frame_first s h1 hl

/-- Witness for C14: the first allocation after the boot of the 64 KB
machine. -/
theorem alloc_one_first_fit_witness :
    1 ≤ boot0.first_frame ∧ boot0.last_frame ≤ 131072 ∧
    ∃ s1 va, alloc_kpages boot0 1 = Outcome.ok (s1, va) ∧
      (va = 0 ↔
        ∀ x, boot0.first_frame ≤ x → x < boot0.last_frame →
          (boot0.frame_table x).allocated = true) ∧
      (va = 0 → s1 = boot0) ∧
      (va ≠ 0 → ∃ i, va = PADDR_TO_KVADDR (i * PAGE_SIZE) ∧
        boot0.first_frame ≤ i ∧ i < boot0.last_frame ∧
        (boot0.frame_table i).allocated = false ∧
        (∀ x, boot0.first_frame ≤ x → x < i → (boot0.frame_table x).allocated = true) ∧
        s1.frame_table i = ⟨true, false⟩ ∧
        (∀ x, x ≠ i → s1.frame_table x = boot0.frame_table x) ∧
        s1.first_frame = boot0.first_frame ∧ s1.last_frame = boot0.last_frame) :=
  ⟨by decide, by decide, alloc_one_first_fit boot0 (by decide) (by decide)⟩

/-- C15: multi-frame allocation returns the first free run.  For `1 < n ≤
last_frame`, whenever `alloc_multiple_frames(n)` returns, either it reports
failure and leaves the table unchanged, or it returns the physical address of
a start index `i ≥ first_frame` such that frames `i .. i+n-1` were all free,
no index in `[first_frame, i)` starts a run of `n` free frames, afterwards
frames `i .. i+n-2` are allocated with `not_last` set, frame `i+n-1` is
allocated with `not_last` clear, and every other entry is unchanged. -/
theorem alloc_multiple_first_run (s : Frames) (n : Nat) (hn : 1 < n) (hn2 : n ≤ s.last_frame)
    (hl : s.last_frame < W32) (s1 : Frames) (paddr : Nat)
    (h : alloc_multiple_frames s n = Outcome.ok (s1, paddr)) :
    (s1 = s ∧ paddr = 0) ∨
    ∃ i, paddr = (i <<< PAGE_BITS) % W32 ∧ s.first_frame ≤ i ∧ i + n ≤ s.last_frame ∧
      (∀ k, k < n → (s.frame_table (i + k)).allocated = false) ∧
      (∀ x, s.first_frame ≤ x → x < i →
        ¬ ∀ k, k < n → (s.frame_table (x + k)).allocated = false) ∧
      (∀ k, k + 1 < n → s1.frame_table (i + k) = ⟨true, true⟩) ∧
      s1.frame_table (i + n - 1) = ⟨true, false⟩ ∧
      (∀ x, ¬ (i ≤ x ∧ x < i + n) → s1.frame_table x = s.frame_table x) ∧
      s1.first_frame = s.first_frame ∧ s1.last_frame = s.last_frame := by
  obtain ⟨i, j, hscan, hc⟩ := alloc_multiple_frames_cases s s1 n paddr h
  have elim : (s.last_frame + (W32 - n % W32)) % W32 = s.last_frame - n := by
    unfold W32 at *; omega
  rw [elim] at hscan
  rcases hc with ⟨_, hs, hp⟩ | ⟨hj, hp, e1, e2, htbl⟩
  · exact Or.inl ⟨hs, hp⟩
  · refine Or.inr ⟨i, hp, ?_⟩
    obtain ⟨hfree, _, hlt, hle⟩ := alloc_multi_scan_some s.frame_table (s.last_frame - n) n
      (by omega) _ _ _ _ _ hscan (by omega) (by omega) (by intro k hk; omega)
    have hfirst := alloc_multi_scan_first s.frame_table (s.last_frame - n) n s.first_frame
      (by omega) _ _ _ _ _ hscan (by omega) (by intro x h1 h2; omega)
    rw [hj] at hfree hlt
    have hil : i < s.last_frame - n := hlt (by omega)
    have eb : (i + n + (W32 - 1)) % W32 = i + n - 1 := by unfold W32 at *; omega
    rw [eb] at htbl
    obtain ⟨m1, m2⟩ := alloc_multi_mark_spec (i + n - 1) (by omega) n i
      s.frame_table (by omega) (by omega)
    rw [m1] at htbl
    refine ⟨hle, by omega, hfree, hfirst, ?_, ?_, ?_, e1, e2⟩
    · intro k hk
      rw [htbl, Function.update_noteq (by omega), m2, if_pos (by omega)]
    · rw [htbl, Function.update_same]
    · intro x hx
      rw [htbl, Function.update_noteq (by omega), m2, if_neg (by omega)]

/-- Witness for C15: three frames requested from the freshly booted 64 KB
machine. -/
theorem alloc_multiple_first_run_witness :
    1 < 3 ∧ 3 ≤ boot0.last_frame ∧ boot0.last_frame < W32 ∧
    alloc_multiple_frames boot0 3 = Outcome.ok (run1, 0x5000) ∧
    ((run1 = boot0 ∧ 0x5000 = 0) ∨
    ∃ i, 0x5000 = (i <<< PAGE_BITS) % W32 ∧ boot0.first_frame ≤ i ∧ i + 3 ≤ boot0.last_frame ∧
      (∀ k, k < 3 → (boot0.frame_table (i + k)).allocated = false) ∧
      (∀ x, boot0.first_frame ≤ x → x < i →
        ¬ ∀ k, k < 3 → (boot0.frame_table (x + k)).allocated = false) ∧
      (∀ k, k + 1 < 3 → run1.frame_table (i + k) = ⟨true, true⟩) ∧
      run1.frame_table (i + 3 - 1) = ⟨true, false⟩ ∧
      (∀ x, ¬ (i ≤ x ∧ x < i + 3) → run1.frame_table x = boot0.frame_table x) ∧
      run1.first_frame = boot0.first_frame ∧ run1.last_frame = boot0.last_frame) :=
  ⟨by decide, by decide, by decide, rfl,
    alloc_multiple_first_run boot0 3 (by decide) (by decide) (by decide) run1 0x5000 rfl⟩

/-- C16 fails on the code: after the boot of the 64 KB machine the managed
frames are 5..15 and all eleven are free, a run of 11 contiguous free frames
that ends at the last frame of memory; `alloc_kpages(11)` nevertheless returns
the zero sentinel and leaves the table unchanged, because the scan only
proceeds while `i < last_frame - npages`. -/
theorem alloc_misses_tail_run :
    boot0.first_frame = 5 ∧ boot0.last_frame = 16 ∧
    (∀ k, k < 11 → (boot0.frame_table (5 + k)).allocated = false) ∧
    alloc_kpages boot0 11 = Outcome.ok (boot0, 0) :=
  ⟨rfl, rfl, by decide, rfl⟩

/-- C17: free releases exactly one block.  In every state reachable from
`ram_bootstrap` through `alloc_kpages` and `free_kpages`, for every live
allocation of `n` frames starting at frame `i`: `n ≥ 1`, the frames
`i .. i+n-1` are allocated, `free_kpages` on its address returns, afterwards
those frames are marked free, and the frame-table entry of every frame
outside `i .. i+n-1` is unchanged. -/
theorem free_releases_block (ramsize firstfree : Nat) (raw : Nat → ft_entry) (s0 : Frames)
    (hboot : ram_bootstrap ramsize firstfree raw = Outcome.ok s0)
    (s : Frames) (L : List (Nat × Nat)) (hr : Reach s0 s L)
    (b : Nat × Nat) (hb : b ∈ L) :
    1 ≤ b.2 ∧
    (∀ k, k < b.2 → (s.frame_table (frameOf b.1 + k)).allocated = true) ∧
    ∃ s1, free_kpages s b.1 = Outcome.ok s1 ∧
      (∀ k, k < b.2 → (s1.frame_table (frameOf b.1 + k)).allocated = false) ∧
      (∀ x, ¬ (frameOf b.1 ≤ x ∧ x < frameOf b.1 + b.2) →
        s1.frame_table x = s.frame_table x) := by
  have hinv := reach_inv s0 (ram_bootstrap_last_frame ramsize firstfree raw s0 hboot) s L hr
  have hok := hinv.2.1 b hb
  obtain ⟨s1, hf, _, _, htbl⟩ := free_block_spec s b hinv.1 hok
  refine ⟨hok.2.1, fun k hk => by rw [hok.2.2.2 k hk], s1, hf, ?_, ?_⟩
  · intro k hk
    rw [htbl, if_pos (by omega)]
  · intro x hx
    rw [htbl, if_neg hx]

/-- Witness for C17: freeing the three-page block at frame 5 while the single
page at frame 8 is live. -/
theorem free_releases_block_witness :
    ram_bootstrap 65536 0x80004000 raw0 = Outcome.ok boot0 ∧
    Reach boot0 run2 [(0x80008000, 1), (0x80005000, 3)] ∧
    1 ≤ 3 ∧
    (∀ k, k < 3 → (run2.frame_table (frameOf 0x80005000 + k)).allocated = true) ∧
    ∃ s1, free_kpages run2 0x80005000 = Outcome.ok s1 ∧
      (∀ k, k < 3 → (s1.frame_table (frameOf 0x80005000 + k)).allocated = false) ∧
      (∀ x, ¬ (frameOf 0x80005000 ≤ x ∧ x < frameOf 0x80005000 + 3) →
        s1.frame_table x = run2.frame_table x) :=
  have hr : Reach boot0 run2 [(0x80008000, 1), (0x80005000, 3)] :=
    Reach.alloc run1 run2 [(0x80005000, 3)] 1 0x80008000
      (Reach.alloc boot0 run1 [] 3 0x80005000 Reach.boot (by decide) (by decide) rfl
        (by decide))
      (by decide) (by decide) rfl (by decide)
  ⟨rfl, hr,
    free_releases_block 65536 0x80004000 raw0 boot0 rfl run2
      [(0x80008000, 1), (0x80005000, 3)] hr (0x80005000, 3) (by decide)⟩

/-- Reuse after exhaustion when no request exceeds `last_frame`.  In every
state reachable from `ram_bootstrap` through `free_kpages` and `alloc_kpages`
calls for at most `last_frame` pages in which all frames of
`[first_frame, last_frame)` are allocated, `alloc_kpages(1)` returns 0, and for
every live allocation address `a`, `free_kpages(a)` returns and the following
`alloc_kpages(1)` returns `a`.  The bound on the requests is needed: a larger
request can be served with a block past `last_frame`. -/
theorem reuse_after_exhaustion (ramsize firstfree : Nat) (raw : Nat → ft_entry) (s0 : Frames)
    (hboot : ram_bootstrap ramsize firstfree raw = Outcome.ok s0)
    (s : Frames) (L : List (Nat × Nat)) (hr : Reach s0 s L)
    (hfull : ∀ x, s.first_frame ≤ x → x < s.last_frame → (s.frame_table x).allocated = true)
    (b : Nat × Nat) (hb : b ∈ L) :
    alloc_kpages s 1 = Outcome.ok (s, 0) ∧
    ∃ s1 s2, free_kpages s b.1 = Outcome.ok s1 ∧ alloc_kpages s1 1 = Outcome.ok (s2, b.1) := by
  have h0 := ram_bootstrap_last_frame ramsize firstfree raw s0 hboot
  have hinv := reach_inv s0 h0 s L hr
  have hok := hinv.2.1 b hb
  obtain ⟨lo, had, hp⟩ := reach_addr s0 h0 s L hr b hb
  obtain ⟨s1, hf, e1, e2, htbl⟩ := free_block_spec s b hinv.1 hok
  constructor
  · apply alloc_kpages_one_none
    cases hscan : alloc_one_scan s.frame_table (s.last_frame - s.first_frame) s.first_frame with
    | none => rfl
    | some i =>
      obtain ⟨a1, a2, a3, _⟩ := alloc_one_scan_some _ _ _ _ hscan
      have := hfull i a1 (by omega)
      rw [a3] at this
      cases this
  · generalize hc : frameOf b.1 = c at lo had hp htbl hok
    obtain ⟨_, q2, q3, _⟩ := hok
    have hscan : alloc_one_scan s1.frame_table (s1.last_frame - s1.first_frame) s1.first_frame
        = some c := by
      rw [e1, e2]
      apply alloc_one_scan_first _ _ _ _ lo (by omega)
      · rw [htbl, if_pos (by omega)]
      · intro x hx1 hx2
        rw [htbl, if_neg (by omega)]
        exact hfull x hx1 (by omega)
    refine ⟨s1, s1.set c ⟨true, false⟩, hf, ?_⟩
    rw [alloc_kpages_one_some s1 c hscan hp, ← had]

/-- Example for `reuse_after_exhaustion`: the 32 KB machine with both managed
frames allocated; frame 6 is freed and handed out again. -/
theorem reuse_after_exhaustion_witness :
    ram_bootstrap 32768 0x80005000 raw0 = Outcome.ok boot1 ∧
    Reach boot1 full1 [(0x80007000, 1), (0x80006000, 1)] ∧
    (∀ x, full1.first_frame ≤ x → x < full1.last_frame →
      (full1.frame_table x).allocated = true) ∧
    alloc_kpages full1 1 = Outcome.ok (full1, 0) ∧
    free_kpages full1 0x80006000 = Outcome.ok full1b ∧
    alloc_kpages full1b 1 = Outcome.ok (full1c, 0x80006000) ∧
    (alloc_kpages full1 1 = Outcome.ok (full1, 0) ∧
      ∃ s1 s2, free_kpages full1 0x80006000 = Outcome.ok s1 ∧
        alloc_kpages s1 1 = Outcome.ok (s2, 0x80006000)) :=
  have hr : Reach boot1 full1 [(0x80007000, 1), (0x80006000, 1)] :=
    Reach.alloc full1a full1 [(0x80006000, 1)] 1 0x80007000
      (Reach.alloc boot1 full1a [] 1 0x80006000 Reach.boot (by decide) (by decide) rfl
        (by decide))
      (by decide) (by decide) rfl (by decide)
  ⟨rfl, hr, full1_all_allocated, rfl, rfl, rfl,
    reuse_after_exhaustion 32768 0x80005000 raw0 boot1 rfl full1
      [(0x80007000, 1), (0x80006000, 1)] hr full1_all_allocated (0x80006000, 1) (by decide)⟩

/-- C19: bootstrap partition.  For every kernel end `firstfree` in kseg0 and
every RAM size for which `ram_bootstrap` does not panic, with `ram` the RAM
size capped at 512 MB: `first_frame` is `(firstpaddr + frame-table size rounded
up to a page) / PAGE_SIZE`, `last_frame` is `ram / PAGE_SIZE`, every frame
below `first_frame` is marked allocated with `not_last` clear, and every frame
in `[first_frame, ram / PAGE_SIZE)` is marked free. -/
theorem bootstrap_partition (ramsize firstfree : Nat) (raw : Nat → ft_entry) (s : Frames)
    (hk : MIPS_KSEG0 ≤ firstfree) (hw : firstfree < W32)
    (h : ram_bootstrap ramsize firstfree raw = Outcome.ok s) :
    s.first_frame =
      (firstfree - MIPS_KSEG0 + ROUNDUP (min ramsize (512 * 1024 * 1024) / PAGE_SIZE * 4) PAGE_SIZE)
        / PAGE_SIZE ∧
    s.last_frame = min ramsize (512 * 1024 * 1024) / PAGE_SIZE ∧
    (∀ x, x < s.first_frame → s.frame_table x = ⟨true, false⟩) ∧
    (∀ x, s.first_frame ≤ x → x < min ramsize (512 * 1024 * 1024) / PAGE_SIZE →
      (s.frame_table x).allocated = false) := by
  obtain ⟨a1, a2, _, _, a5, a6⟩ := ram_bootstrap_spec ramsize firstfree raw s hk hw h
  exact ⟨a1, a2, a5, fun x h1 h2 => a6 x h1 (by rw [a2]; exact h2)⟩

/-- Witness for C19: the boot of the 64 KB machine whose kernel ends at
16 KB. -/
theorem bootstrap_partition_witness :
    MIPS_KSEG0 ≤ 0x80004000 ∧ 0x80004000 < W32 ∧
    ram_bootstrap 65536 0x80004000 raw0 = Outcome.ok boot0 ∧
    boot0.first_frame = 5 ∧ boot0.last_frame = 16 ∧
    (boot0.first_frame =
      (0x80004000 - MIPS_KSEG0 + ROUNDUP (min 65536 (512 * 1024 * 1024) / PAGE_SIZE * 4) PAGE_SIZE)
        / PAGE_SIZE ∧
    boot0.last_frame = min 65536 (512 * 1024 * 1024) / PAGE_SIZE ∧
    (∀ x, x < boot0.first_frame → boot0.frame_table x = ⟨true, false⟩) ∧
    (∀ x, boot0.first_frame ≤ x → x < min 65536 (512 * 1024 * 1024) / PAGE_SIZE →
      (boot0.frame_table x).allocated = false)) :=
  ⟨by decide, by decide, rfl, rfl, rfl,
    bootstrap_partition 65536 0x80004000 raw0 boot0 (by decide) (by decide) rfl⟩

/-! ## Roll-back of a failed copy and destruction -/

theorem copy_outer_untouched (old : Nat → Option PTable) :
    ∀ (fuel i : Nat) (k : Kernel) (nw : PageDir) (k1 : Kernel) (nw1 : PageDir) (r : Nat),
      vm_copyPTE_outer old fuel i k nw = Outcome.ok (k1, nw1, r) →
      nw1.base = nw.base ∧ ∀ x, old x = none → nw1.slot x = nw.slot x := by
  intro fuel
  induction fuel with
  | zero =>
    intro i k nw k1 nw1 r h
    unfold vm_copyPTE_outer at h
    simp only [Outcome.ok.injEq, Prod.mk.injEq] at h
    obtain ⟨_, hn, _⟩ := h
    rw [← hn]
    exact ⟨rfl, fun _ _ => rfl⟩
  | succ n ih =>
    intro i k nw k1 nw1 r h
    unfold vm_copyPTE_outer at h
    cases ho : old i with
    | none =>
      rw [ho] at h
      simp only at h
      exact ih (i + 1) k nw k1 nw1 r h
    | some ot0 =>
      rw [ho] at h
      simp only at h
      cases hkm : kmalloc_page k with
      | panic e => rw [hkm] at h; cases h
      | diverge => rw [hkm] at h; cases h
      | ok p =>
        obtain ⟨ka, va⟩ := p
        rw [hkm] at h
        simp only at h
        cases hin : vm_copyPTE_inner ot0.entry va N_DESCRIPTORS 0 ka (ka.junk va) with
        | panic e => rw [hin] at h; cases h
        | diverge => rw [hin] at h; cases h
        | ok q =>
          obtain ⟨kb, t, r0⟩ := q
          rw [hin] at h
          have hupd : ∀ x, old x = none →
              Function.update nw.slot i (if va = 0 then none else some ⟨va, t⟩) x = nw.slot x := by
            intro x hx
            apply Function.update_noteq
            intro hxi
            rw [hxi, ho] at hx
            cases hx
          by_cases hr0 : r0 = 0
          · simp only [hr0, ne_eq, not_true_eq_false, if_false] at h
            obtain ⟨b1, b2⟩ := ih (i + 1) kb _ k1 nw1 r h
            exact ⟨b1, fun x hx => by rw [b2 x hx]; exact hupd x hx⟩
          · simp only [hr0, ne_eq, not_false_eq_true, if_true, Outcome.ok.injEq,
              Prod.mk.injEq] at h
            obtain ⟨_, hn, _⟩ := h
            rw [← hn]
            exact ⟨rfl, hupd⟩

theorem free_outer_none (d : Nat → Option PTable) :
    ∀ (fuel i : Nat) (k : Kernel), (∀ x, i ≤ x → x < i + fuel → d x = none) →
      vm_freePTE_outer d fuel i k = Outcome.ok k := by
  intro fuel
  induction fuel with
  | zero => intro i k _; rfl
  | succ n ih =>
    intro i k h
    unfold vm_freePTE_outer
    rw [h i (by omega) (by omega)]
    exact ih (i + 1) k (fun x h1 h2 => h x (by omega) (by omega))

theorem free_outer_single (d : Nat → Option PTable) (s : Nat) (t : PTable) (hd : d s = some t) :
    ∀ (fuel i : Nat) (k : Kernel), i ≤ s → s < i + fuel →
      (∀ x, i ≤ x → x < i + fuel → x ≠ s → d x = none) →
      vm_freePTE_outer d fuel i k = free_table t k := by
  intro fuel
  induction fuel with
  | zero => intro i k h1 h2; omega
  | succ n ih =>
    intro i k h1 h2 hn
    unfold vm_freePTE_outer
    by_cases hi : i = s
    · rw [hi, hd]
      simp only
      unfold free_table
      cases hin : vm_freePTE_inner t.entry N_DESCRIPTORS 0 k with
      | panic e => rfl
      | diverge => rfl
      | ok k1 =>
        simp only
        cases hk : kfree_page k1 t.addr with
        | panic e => rfl
        | diverge => rfl
        | ok k2 =>
          simp only
          exact free_outer_none d n (s + 1) k2 (fun x a b => hn x (by omega) (by omega) (by omega))
    · rw [hn i (by omega) (by omega) hi]
      exact ih (i + 1) k (by omega) (by omega) (fun x a b c => hn x (by omega) (by omega) c)

theorem as_copy_unwind (k : Kernel) (old : addrspace) (k1 : Kernel) (na : addrspace)
    (k2 : Kernel) (regs : List region) (npd : PageDir) (k3 : Kernel) (npd1 : PageDir) (r : Nat)
    (h1 : as_create k = Outcome.ok (k1, some na))
    (h2 : as_copy_regions old.as_regions k1 [] = (k2, regs, true))
    (h3 : na.as_pte = some npd)
    (h4 : vm_copyPTE k2 old.as_pte npd = Outcome.ok (k3, npd1, r)) (hr : r ≠ 0) :
    as_copy k old =
      match as_destroy k3
        (some ⟨old.as_heapStart, old.as_heapEnd, old.as_stack, regs, some npd1⟩) with
      | .ok k4 => .ok (k4, none, r)
      | .panic h => .panic h
      | .diverge => .diverge := by
  unfold as_copy
  rw [h1]
  simp only
  rw [h2]
  simp only
  rw [h3]
  simp only
  rw [h4]
  simp only [hr, ne_eq, not_false_eq_true, if_true]

theorem as_destroy_single (k : Kernel) (hs he st : Nat) (regs : List region) (pd : PageDir)
    (s : Nat) (t : PTable) (hlt : s < N_DESCRIPTORS) (hd : pd.slot s = some t)
    (hn : ∀ x, x < N_DESCRIPTORS → x ≠ s → pd.slot x = none) :
    as_destroy k (some ⟨hs, he, st, regs, some pd⟩) =
      match free_table t (as_destroy_regions regs k) with
      | .ok k1 =>
        match kfree_page k1 pd.base with
        | .ok k2 => .ok (kfree_small k2)
        | .panic h => .panic h
        | .diverge => .diverge
      | .panic h => .panic h
      | .diverge => .diverge := by
  unfold as_destroy
  simp only
  unfold vm_freePTE
  simp only
  rw [free_outer_single pd.slot s t hd N_DESCRIPTORS 0 _ (by omega) (by omega)
    (fun x _ h2 h3 => hn x (by omega) h3)]
  cases free_table t (as_destroy_regions regs k) with
  | panic e => rfl
  | diverge => rfl
  | ok k1 =>
    simp only

theorem low_copy_slots (K : Kernel)
    (h4 : vm_copyPTE_outer (fun i => if i = 513 then some parentTable else none)
      N_DESCRIPTORS 0 (lowRegions K).1 lowDir
        = Outcome.ok ((lowCopy K).1, (lowCopy K).2.1, ENOMEM)) :
    (lowCopy K).2.1.base = 0x8000a000 ∧
    ∀ x, x < N_DESCRIPTORS → x ≠ 513 → (lowCopy K).2.1.slot x = none := by
  obtain ⟨b1, b2⟩ := copy_outer_untouched _ _ _ _ _ _ _ _ h4
  refine ⟨b1, fun x hx hne => ?_⟩
  rw [b2 x (if_neg hne)]
  exact null_fill_spec N_DESCRIPTORS 0 _ x (by omega) (by omega)

theorem low_unwind (K : Kernel)
    (h1 : as_create K = Outcome.ok (lowCreate K, some ⟨0, 0, USERSTACK, [], some lowDir⟩))
    (h2 : as_copy_regions parentAs.as_regions (lowCreate K) []
      = ((lowRegions K).1, (lowRegions K).2.1, true))
    (h4 : vm_copyPTE_outer (fun i => if i = 513 then some parentTable else none)
      N_DESCRIPTORS 0 (lowRegions K).1 lowDir
        = Outcome.ok ((lowCopy K).1, (lowCopy K).2.1, ENOMEM))
    (hd : (lowCopy K).2.1.slot 513 = some (lowTable K)) :
    as_copy K parentAs =
      match lowInner K with
      | .ok k1 =>
        match kfree_page k1 (lowTable K).addr with
        | .ok k2 =>
          match kfree_page k2 0x8000a000 with
          | .ok k3 => .ok (kfree_small k3, none, ENOMEM)
          | .panic h => .panic h
          | .diverge => .diverge
        | .panic h => .panic h
        | .diverge => .diverge
      | .panic h => .panic h
      | .diverge => .diverge := by
  obtain ⟨hb, hn⟩ := low_copy_slots K h4
  rw [as_copy_unwind K parentAs _ _ _ _ lowDir _ _ ENOMEM h1 h2 rfl h4 (by decide),
    as_destroy_single _ _ _ _ _ _ 513 (lowTable K) (by decide) hd hn, hb]
  unfold free_table
  show (match (match (match lowInner K with
      | .ok k1 => kfree_page k1 (lowTable K).addr
      | .panic h => .panic h
      | .diverge => .diverge) with
    | .ok k1 =>
      (match kfree_page k1 0x8000a000 with
      | .ok k2 => Outcome.ok (kfree_small k2)
      | .panic h => .panic h
      | .diverge => .diverge)
    | .panic h => .panic h
    | .diverge => .diverge) with
    | .ok k4 => Outcome.ok (k4, none, ENOMEM)
    | .panic h => .panic h
    | .diverge => .diverge) = _
  cases lowInner K with
  | panic e => rfl
  | diverge => rfl
  | ok k1 =>
    simp only
    cases kfree_page k1 (lowTable K).addr with
    | panic e => rfl
    | diverge => rfl
    | ok k2 =>
      simp only
      cases kfree_page k2 0x8000a000 <;> rfl

/-- C11 fails on the code: the parent has three resident pages and only
frames 10, 11 and 12 are free.  `as_copy` takes frame 10 for the directory,
frame 11 for the second-level table and frame 12 for the first page; the
second page cannot be allocated and `vm_copyPTE` returns with the rest of the
new table never written.  `as_destroy` then walks that table.  When the
unwritten words read 0xdeadbeef the kernel halts on the double-free panic
instead of returning the out-of-memory error.  When the last unwritten word
reads 0x7600 (the parent's own entry for frame 7) `as_copy` returns `ENOMEM`
but frame 7, which backs the parent's first page, has been released. -/
theorem as_copy_rollback_frees_junk :
    (∀ x, x < 16 → ((lowKernel.frames.frame_table x).allocated = false ↔ 10 ≤ x ∧ x ≤ 12)) ∧
    as_copy lowKernel parentAs = Outcome.panic Halt.double_free ∧
    as_copy lowKernelStale parentAs = Outcome.ok (lowFinal lowKernelStale, none, ENOMEM) ∧
    pteFrame (parentTable.entry 0) = 7 ∧
    (lowKernelStale.frames.frame_table 7).allocated = true ∧
    ((lowFinal lowKernelStale).frames.frame_table 7).allocated = false := by
  refine ⟨by decide, ?_, ?_, by decide, by decide, by decide⟩
  · rw [low_unwind lowKernel rfl rfl rfl rfl]
    have h : lowInner lowKernel = Outcome.panic Halt.double_free := rfl
    rw [h]
  · rw [low_unwind lowKernelStale rfl rfl rfl rfl]
    have h1 : lowInner lowKernelStale
        = Outcome.ok (Outcome.get lowKernelStale (lowInner lowKernelStale)) := rfl
    rw [h1]
    simp only
    have h2 : kfree_page (Outcome.get lowKernelStale (lowInner lowKernelStale))
        (lowTable lowKernelStale).addr
        = Outcome.ok (Outcome.get lowKernelStale
            (kfree_page (Outcome.get lowKernelStale (lowInner lowKernelStale))
              (lowTable lowKernelStale).addr)) := rfl
    rw [h2]
    simp only
    have h3 : kfree_page (Outcome.get lowKernelStale
            (kfree_page (Outcome.get lowKernelStale (lowInner lowKernelStale))
              (lowTable lowKernelStale).addr)) 0x8000a000
        = Outcome.ok (Outcome.get lowKernelStale (kfree_page (Outcome.get lowKernelStale
            (kfree_page (Outcome.get lowKernelStale (lowInner lowKernelStale))
              (lowTable lowKernelStale).addr)) 0x8000a000)) := rfl
    rw [h3]
    rfl

theorem frameOf_ne_zero (va : Nat) (h : frameOf va < 131072) : va ≠ 0 := by
  intro hc
  rw [hc] at h
  unfold frameOf KVADDR_TO_PADDR W32 MIPS_KSEG0 PAGE_BITS at h
  rw [Nat.shiftRight_eq_div_pow] at h
  omega

theorem free_entry_spec (k : Kernel) (e : Nat) (he : e ≠ 0) (hlt : pteFrame e < 131072)
    (hal : k.frames.frame_table (pteFrame e) = ⟨true, false⟩) :
    ∃ k1, vm_freePTE_entry k e = Outcome.ok k1 ∧
      (k1.frames.frame_table (pteFrame e)).allocated = false ∧
      (∀ x, x ≠ pteFrame e → k1.frames.frame_table x = k.frames.frame_table x) ∧
      k1.frames.last_frame = k.frames.last_frame := by
  have hfe : pteFrame e = frameOf (PADDR_TO_KVADDR (e &&& PAGE_FRAME)) := rfl
  rw [hfe] at hlt hal
  have hva : PADDR_TO_KVADDR (e &&& PAGE_FRAME) ≠ 0 := frameOf_ne_zero _ hlt
  obtain ⟨f1, hf, b1, b2⟩ :=
    free_single_frame k.frames (PADDR_TO_KVADDR (e &&& PAGE_FRAME)) hva hal
  rw [← hfe] at b1 b2
  refine ⟨{ k with frames := f1 }, ?_, b1, b2, ?_⟩
  · unfold vm_freePTE_entry
    rw [if_pos he, hf]
  · exact (free_kpages_bounds k.frames f1 _ hf).2

theorem free_inner_spec (t : Nat → Nat) :
    ∀ (fuel j : Nat) (k : Kernel),
      (∀ y, j ≤ y → y < j + fuel → t y ≠ 0 →
        pteFrame (t y) < 131072 ∧ k.frames.frame_table (pteFrame (t y)) = ⟨true, false⟩) →
      (∀ y y2, j ≤ y → y < y2 → y2 < j + fuel → t y ≠ 0 → t y2 ≠ 0 →
        pteFrame (t y) ≠ pteFrame (t y2)) →
      ∃ k1, vm_freePTE_inner t fuel j k = Outcome.ok k1 ∧
        k1.frames.last_frame = k.frames.last_frame ∧
        (∀ x, (∃ y, j ≤ y ∧ y < j + fuel ∧ t y ≠ 0 ∧ pteFrame (t y) = x) →
          (k1.frames.frame_table x).allocated = false) ∧
        (∀ x, ¬ (∃ y, j ≤ y ∧ y < j + fuel ∧ t y ≠ 0 ∧ pteFrame (t y) = x) →
          k1.frames.frame_table x = k.frames.frame_table x) := by
  intro fuel
  induction fuel with
  | zero =>
    intro j k _ _
    refine ⟨k, rfl, rfl, ?_, fun _ _ => rfl⟩
    rintro x ⟨y, h1, h2, _⟩
    omega
  | succ n ih =>
    intro j k hpre hinj
    unfold vm_freePTE_inner
    by_cases hz : t j = 0
    · have he : vm_freePTE_entry k (t j) = Outcome.ok k := by
        unfold vm_freePTE_entry
        rw [if_neg (fun h => h hz)]
      rw [he]
      simp only
      obtain ⟨k1, e, e2, a1, a2⟩ := ih (j + 1) k
        (fun y h1 h2 => hpre y (by omega) (by omega))
        (fun y y2 h1 h2 h3 => hinj y y2 (by omega) h2 (by omega))
      refine ⟨k1, e, e2, ?_, ?_⟩
      · rintro x ⟨y, h1, h2, h3, h4⟩
        by_cases hy : y = j
        · rw [hy] at h3; exact absurd hz h3
        · exact a1 x ⟨y, by omega, by omega, h3, h4⟩
      · intro x hx
        apply a2
        rintro ⟨y, h1, h2, h3, h4⟩
        exact hx ⟨y, by omega, by omega, h3, h4⟩
    · obtain ⟨hlt, hal⟩ := hpre j (by omega) (by omega) hz
      obtain ⟨k0, hf, b1, b2, b3⟩ := free_entry_spec k (t j) hz hlt hal
      rw [hf]
      simp only
      obtain ⟨k1, e, e2, a1, a2⟩ := ih (j + 1) k0
        (fun y h1 h2 h3 => by
          obtain ⟨c1, c2⟩ := hpre y (by omega) (by omega) h3
          refine ⟨c1, ?_⟩
          rw [b2 _ (fun hc => hinj j y (by omega) (by omega) (by omega) hz h3 hc.symm)]
          exact c2)
        (fun y y2 h1 h2 h3 => hinj y y2 (by omega) h2 (by omega))
      refine ⟨k1, e, by rw [e2, b3], ?_, ?_⟩
      · rintro x ⟨y, h1, h2, h3, h4⟩
        by_cases hy : y = j
        · by_cases hlater : ∃ y2, j + 1 ≤ y2 ∧ y2 < j + 1 + n ∧ t y2 ≠ 0 ∧ pteFrame (t y2) = x
          · exact a1 x hlater
          · rw [a2 x hlater, ← h4, hy]
            exact b1
        · exact a1 x ⟨y, by omega, by omega, h3, h4⟩
      · intro x hx
        rw [a2 x (by
          rintro ⟨y, h1, h2, h3, h4⟩
          exact hx ⟨y, by omega, by omega, h3, h4⟩)]
        exact b2 x (fun hc => hx ⟨j, by omega, by omega, hz, hc.symm⟩)

theorem kfree_page_spec (k : Kernel) (va : Nat) (hlt : frameOf va < 131072)
    (hal : k.frames.frame_table (frameOf va) = ⟨true, false⟩) :
    ∃ k1, kfree_page k va = Outcome.ok k1 ∧
      (k1.frames.frame_table (frameOf va)).allocated = false ∧
      (∀ x, x ≠ frameOf va → k1.frames.frame_table x = k.frames.frame_table x) ∧
      k1.frames.last_frame = k.frames.last_frame := by
  obtain ⟨f1, hf, b1, b2⟩ := free_single_frame k.frames va (frameOf_ne_zero va hlt) hal
  refine ⟨{ k with frames := f1 }, ?_, b1, b2, (free_kpages_bounds k.frames f1 _ hf).2⟩
  unfold kfree_page
  rw [hf]

theorem free_outer_spec (d : Nat → Option PTable) :
    ∀ (fuel i : Nat) (k : Kernel),
      (∀ i2, i ≤ i2 → i2 < i + fuel → ∀ x, SlotFrames d i2 x →
        x < 131072 ∧ k.frames.frame_table x = ⟨true, false⟩) →
      (∀ i2 t, i ≤ i2 → i2 < i + fuel → d i2 = some t →
        (∀ j, j < N_DESCRIPTORS → t.entry j ≠ 0 → pteFrame (t.entry j) ≠ frameOf t.addr) ∧
        (∀ y y2, y < y2 → y2 < N_DESCRIPTORS → t.entry y ≠ 0 → t.entry y2 ≠ 0 →
          pteFrame (t.entry y) ≠ pteFrame (t.entry y2))) →
      (∀ i2 i3 x, i ≤ i2 → i2 < i3 → i3 < i + fuel → SlotFrames d i2 x → ¬ SlotFrames d i3 x) →
      ∃ k1, vm_freePTE_outer d fuel i k = Outcome.ok k1 ∧
        k1.frames.last_frame = k.frames.last_frame ∧
        (∀ x, (∃ i2, i ≤ i2 ∧ i2 < i + fuel ∧ SlotFrames d i2 x) →
          (k1.frames.frame_table x).allocated = false) ∧
        (∀ x, ¬ (∃ i2, i ≤ i2 ∧ i2 < i + fuel ∧ SlotFrames d i2 x) →
          k1.frames.frame_table x = k.frames.frame_table x) := by
  intro fuel
  induction fuel with
  | zero =>
    intro i k _ _ _
    refine ⟨k, rfl, rfl, ?_, fun _ _ => rfl⟩
    rintro x ⟨y, h1, h2, _⟩
    omega
  | succ n ih =>
    intro i k hpre hin hx
    unfold vm_freePTE_outer
    cases hd : d i with
    | none =>
      simp only
      obtain ⟨k1, e, e2, a1, a2⟩ := ih (i + 1) k
        (fun i2 h1 h2 => hpre i2 (by omega) (by omega))
        (fun i2 t h1 h2 => hin i2 t (by omega) (by omega))
        (fun i2 i3 x h1 h2 h3 => hx i2 i3 x (by omega) h2 (by omega))
      refine ⟨k1, e, e2, ?_, ?_⟩
      · rintro x ⟨i2, h1, h2, h3⟩
        by_cases hi : i2 = i
        · obtain ⟨t, ht, _⟩ := h3
          rw [hi, hd] at ht
          cases ht
        · exact a1 x ⟨i2, by omega, by omega, h3⟩
      · intro x hne
        apply a2
        rintro ⟨i2, h1, h2, h3⟩
        exact hne ⟨i2, by omega, by omega, h3⟩
    | some t =>
      simp only
      obtain ⟨hi1, hi2⟩ := hin i t (by omega) (by omega) hd
      obtain ⟨ka, ea, la, a1, a2⟩ := free_inner_spec t.entry N_DESCRIPTORS 0 k
        (fun y _ h2 h3 => hpre i (by omega) (by omega) _
          ⟨t, hd, Or.inr ⟨y, by omega, h3, rfl⟩⟩)
        (fun y y2 _ h2 h3 => hi2 y y2 h2 (by omega))
      rw [ea]
      simp only
      obtain ⟨q1, q2⟩ := hpre i (by omega) (by omega) (frameOf t.addr) ⟨t, hd, Or.inl rfl⟩
      have hta : ka.frames.frame_table (frameOf t.addr) = ⟨true, false⟩ := by
        rw [a2 _ (by
          rintro ⟨y, _, h2, h3, h4⟩
          exact hi1 y (by omega) h3 h4)]
        exact q2
      obtain ⟨kb, eb, b1, b2, lb⟩ := kfree_page_spec ka t.addr q1 hta
      rw [eb]
      simp only
      have hslot : ∀ x, ¬ SlotFrames d i x → kb.frames.frame_table x = k.frames.frame_table x := by
        intro x hne
        rw [b2 x (fun hc => hne ⟨t, hd, Or.inl hc.symm⟩),
          a2 x (by
            rintro ⟨y, _, h2, h3, h4⟩
            exact hne ⟨t, hd, Or.inr ⟨y, by omega, h3, h4⟩⟩)]
      have hfreed : ∀ x, SlotFrames d i x → (kb.frames.frame_table x).allocated = false := by
        rintro x ⟨t2, ht2, hc⟩
        rw [hd] at ht2
        simp only [Option.some.injEq] at ht2
        rw [← ht2] at hc
        by_cases hxa : x = frameOf t.addr
        · rw [hxa]; exact b1
        · rw [b2 x hxa]
          rcases hc with hc | ⟨y, h2, h3, h4⟩
          · exact absurd hc.symm hxa
          · exact a1 x ⟨y, by omega, by omega, h3, h4⟩
      obtain ⟨k1, e, e2, c1, c2⟩ := ih (i + 1) kb
        (fun i2 h1 h2 x hs => by
          obtain ⟨p1, p2⟩ := hpre i2 (by omega) (by omega) x hs
          refine ⟨p1, ?_⟩
          rw [hslot x (fun hc => hx i i2 x (by omega) (by omega) (by omega) hc hs)]
          exact p2)
        (fun i2 t h1 h2 => hin i2 t (by omega) (by omega))
        (fun i2 i3 x h1 h2 h3 => hx i2 i3 x (by omega) h2 (by omega))
      refine ⟨k1, e, by rw [e2, lb, la], ?_, ?_⟩
      · rintro x ⟨i2, h1, h2, h3⟩
        by_cases hlater : ∃ i3, i + 1 ≤ i3 ∧ i3 < i + 1 + n ∧ SlotFrames d i3 x
        · exact c1 x hlater
        · rw [c2 x hlater]
          by_cases hi : i2 = i
          · rw [hi] at h3
            exact hfreed x h3
          · exact absurd ⟨i2, by omega, by omega, h3⟩ hlater
      · intro x hne
        rw [c2 x (by
          rintro ⟨i2, h1, h2, h3⟩
          exact hne ⟨i2, by omega, by omega, h3⟩)]
        exact hslot x (fun hc => hne ⟨i, by omega, by omega, hc⟩)

theorem refFrame_table (pd : PageDir) (i : Nat) (t : PTable) (hi : i < N_DESCRIPTORS)
    (h : pd.slot i = some t) : refFrame pd (PtRef.table i) = some (frameOf t.addr) := by
  unfold refFrame
  simp only
  rw [if_pos hi, h]
  rfl

theorem refFrame_page (pd : PageDir) (i j : Nat) (t : PTable) (hi : i < N_DESCRIPTORS)
    (hj : j < N_DESCRIPTORS) (h : pd.slot i = some t) (he : t.entry j ≠ 0) :
    refFrame pd (PtRef.page i j) = some (pteFrame (t.entry j)) := by
  unfold refFrame
  simp only
  rw [if_pos ⟨hi, hj⟩, h]
  show (if t.entry j ≠ 0 then some (pteFrame (t.entry j)) else none) = _
  rw [if_pos he]

theorem refFrame_slot (pd : PageDir) (i x : Nat) (hi : i < N_DESCRIPTORS)
    (h : SlotFrames pd.slot i x) :
    ∃ r, refFrame pd r = some x ∧ (r = PtRef.table i ∨ ∃ j, r = PtRef.page i j) := by
  obtain ⟨t, ht, hc | ⟨j, hj, he, hx⟩⟩ := h
  · exact ⟨PtRef.table i, by rw [refFrame_table pd i t hi ht, hc], Or.inl rfl⟩
  · exact ⟨PtRef.page i j, by rw [refFrame_page pd i j t hi hj ht he, hx], Or.inr ⟨j, rfl⟩⟩

theorem refFrame_table_inv (pd : PageDir) (i c : Nat)
    (h : refFrame pd (PtRef.table i) = some c) :
    i < N_DESCRIPTORS ∧ ∃ t, pd.slot i = some t ∧ frameOf t.addr = c := by
  unfold refFrame at h
  simp only at h
  by_cases hi : i < N_DESCRIPTORS
  · rw [if_pos hi] at h
    cases hs : pd.slot i with
    | none => rw [hs] at h; cases h
    | some t =>
      rw [hs] at h
      simp only [Option.map_some', Option.some.injEq] at h
      exact ⟨hi, t, rfl, h⟩
  · rw [if_neg hi] at h; cases h

theorem refFrame_page_inv (pd : PageDir) (i j c : Nat)
    (h : refFrame pd (PtRef.page i j) = some c) :
    i < N_DESCRIPTORS ∧ j < N_DESCRIPTORS ∧
      ∃ t, pd.slot i = some t ∧ t.entry j ≠ 0 ∧ pteFrame (t.entry j) = c := by
  unfold refFrame at h
  simp only at h
  by_cases hi : i < N_DESCRIPTORS ∧ j < N_DESCRIPTORS
  · rw [if_pos hi] at h
    cases hs : pd.slot i with
    | none => rw [hs] at h; cases h
    | some t =>
      rw [hs] at h
      simp only [Option.some_bind] at h
      by_cases he : t.entry j ≠ 0
      · rw [if_pos he] at h
        simp only [Option.some.injEq] at h
        exact ⟨hi.1, hi.2, t, rfl, he, h⟩
      · rw [if_neg he] at h; cases h
  · rw [if_neg hi] at h; cases h

theorem refFrame_cases (pd : PageDir) (r : PtRef) (c : Nat) (h : refFrame pd r = some c) :
    c = frameOf pd.base ∨ ∃ i, i < N_DESCRIPTORS ∧ SlotFrames pd.slot i c := by
  cases r with
  | dir =>
    unfold refFrame at h
    simp only [Option.some.injEq] at h
    exact Or.inl h.symm
  | table i =>
    obtain ⟨hi, t, hs, hc⟩ := refFrame_table_inv pd i c h
    exact Or.inr ⟨i, hi, t, hs, Or.inl hc⟩
  | page i j =>
    obtain ⟨hi, hj, t, hs, he, hc⟩ := refFrame_page_inv pd i j c h
    exact Or.inr ⟨i, hi, t, hs, Or.inr ⟨j, hj, he, hc⟩⟩

theorem as_destroy_spec (k : Kernel) (a : addrspace) (pd : PageDir)
    (hpd : a.as_pte = some pd) (hl : k.frames.last_frame ≤ 131072)
    (hall : ∀ r c, refFrame pd r = some c →
      c < k.frames.last_frame ∧ k.frames.frame_table c = ⟨true, false⟩)
    (hinj : ∀ r1 r2 c, refFrame pd r1 = some c → refFrame pd r2 = some c → r1 = r2) :
    ∃ k1, as_destroy k (some a) = Outcome.ok k1 ∧
      (∀ r c, refFrame pd r = some c → (k1.frames.frame_table c).allocated = false) ∧
      (∀ x, (∀ r, refFrame pd r ≠ some x) →
        k1.frames.frame_table x = k.frames.frame_table x) := by
  have hreg : ∀ (L : List region) (k0 : Kernel),
      (as_destroy_regions L k0).frames = k0.frames := by
    intro L
    induction L with
    | nil => intro k0; rfl
    | cons r rs ih => intro k0; unfold as_destroy_regions; rw [ih]; rfl
  generalize hk0 : as_destroy_regions a.as_regions k = k0
  have hfr : k0.frames = k.frames := by rw [← hk0]; exact hreg _ _
  have hall0 : ∀ i, i < N_DESCRIPTORS → ∀ x, SlotFrames pd.slot i x →
      x < 131072 ∧ k0.frames.frame_table x = ⟨true, false⟩ := by
    intro i hi x hs
    obtain ⟨r, hr, _⟩ := refFrame_slot pd i x hi hs
    obtain ⟨p1, p2⟩ := hall r x hr
    rw [hfr]
    exact ⟨by omega, p2⟩
  obtain ⟨k1, e1, l1, a1, a2⟩ := free_outer_spec pd.slot N_DESCRIPTORS 0 k0
    (fun i _ h2 => hall0 i (by omega))
    (fun i t _ h2 hd => by
      have hi : i < N_DESCRIPTORS := by omega
      refine ⟨fun j hj he hc => ?_, fun y y2 hy hy2 he he2 hc => ?_⟩
      · have := hinj (PtRef.page i j) (PtRef.table i) _ (refFrame_page pd i j t hi hj hd he)
          (by rw [refFrame_table pd i t hi hd, hc])
        cases this
      · have := hinj (PtRef.page i y) (PtRef.page i y2) _
          (refFrame_page pd i y t hi (by omega) hd he)
          (by rw [refFrame_page pd i y2 t hi hy2 hd he2, hc])
        simp only [PtRef.page.injEq] at this
        omega)
    (fun i2 i3 x _ h2 h3 hs2 hs3 => by
      obtain ⟨r2, hr2, c2⟩ := refFrame_slot pd i2 x (by omega) hs2
      obtain ⟨r3, hr3, c3⟩ := refFrame_slot pd i3 x (by omega) hs3
      have := hinj r2 r3 x hr2 hr3
      rcases c2 with c2 | ⟨j2, c2⟩ <;> rcases c3 with c3 | ⟨j3, c3⟩ <;>
        rw [c2, c3] at this <;> first
          | (simp only [PtRef.table.injEq] at this; omega)
          | (simp only [PtRef.page.injEq] at this; omega)
          | cases this)
  have hbase : refFrame pd PtRef.dir = some (frameOf pd.base) := rfl
  obtain ⟨p1, p2⟩ := hall _ _ hbase
  have hnot : ¬ ∃ i2, 0 ≤ i2 ∧ i2 < 0 + N_DESCRIPTORS ∧ SlotFrames pd.slot i2 (frameOf pd.base) := by
    rintro ⟨i2, _, h2, hs⟩
    obtain ⟨r, hr, c⟩ := refFrame_slot pd i2 _ (by omega) hs
    have := hinj _ _ _ hbase hr
    rcases c with c | ⟨j, c⟩ <;> rw [c] at this <;> cases this
  have hb1 : k1.frames.frame_table (frameOf pd.base) = ⟨true, false⟩ := by
    rw [a2 _ hnot, hfr]; exact p2
  obtain ⟨k2, e2, b1, b2, _⟩ := kfree_page_spec k1 pd.base (by omega) hb1
  refine ⟨kfree_small k2, ?_, ?_, ?_⟩
  · unfold as_destroy
    simp only
    rw [hk0, hpd]
    unfold vm_freePTE
    simp only
    rw [e1]
    simp only
    rw [e2]
  · intro r c hr
    show (k2.frames.frame_table c).allocated = false
    by_cases hc : c = frameOf pd.base
    · rw [hc]; exact b1
    · rw [b2 c hc]
      rcases refFrame_cases pd r c hr with h | ⟨i, hi, hs⟩
      · exact absurd h hc
      · exact a1 c ⟨i, by omega, by omega, hs⟩
  · intro x hx
    show k2.frames.frame_table x = _
    rw [b2 x (fun hc => hx PtRef.dir (by rw [hbase, hc])),
      a2 x (by
        rintro ⟨i2, _, h2, hs⟩
        obtain ⟨r, hr, _⟩ := refFrame_slot pd i2 x (by omega) hs
        exact hx r hr), hfr]

theorem parent_refs (r : PtRef) (c : Nat) (h : refFrame parentDir r = some c) :
    (r = PtRef.dir ∧ c = 5) ∨ (r = PtRef.table 513 ∧ c = 6) ∨ (r = PtRef.page 513 0 ∧ c = 7) ∨
    (r = PtRef.page 513 1 ∧ c = 8) ∨ (r = PtRef.page 513 2 ∧ c = 9) := by
  have hs : ∀ i t, parentDir.slot i = some t → i = 513 ∧ t = parentTable := by
    intro i t ht
    have e : parentDir.slot i = if i = 513 then some parentTable else none := rfl
    rw [e] at ht
    by_cases hi : i = 513
    · rw [if_pos hi] at ht
      simp only [Option.some.injEq] at ht
      exact ⟨hi, ht.symm⟩
    · rw [if_neg hi] at ht; cases ht
  cases r with
  | dir =>
    have e : refFrame parentDir PtRef.dir = some 5 := by decide
    rw [e] at h
    simp only [Option.some.injEq] at h
    exact Or.inl ⟨rfl, h.symm⟩
  | table i =>
    obtain ⟨_, t, ht, hc⟩ := refFrame_table_inv parentDir i c h
    obtain ⟨hi, htt⟩ := hs i t ht
    rw [htt] at hc
    have e : frameOf parentTable.addr = 6 := by decide
    rw [e] at hc
    exact Or.inr (Or.inl ⟨by rw [hi], hc.symm⟩)
  | page i j =>
    obtain ⟨_, _, t, ht, he, hc⟩ := refFrame_page_inv parentDir i j c h
    obtain ⟨hi, htt⟩ := hs i t ht
    rw [htt] at hc he
    have e : parentTable.entry j
        = if j = 0 then 0x7600 else if j = 1 then 0x8200 else if j = 2 then 0x9600 else 0 := rfl
    rw [e] at hc he
    by_cases h0 : j = 0
    · rw [if_pos h0] at hc
      have e7 : pteFrame 0x7600 = 7 := by decide
      rw [e7] at hc
      exact Or.inr (Or.inr (Or.inl ⟨by rw [hi, h0], hc.symm⟩))
    · rw [if_neg h0] at hc he
      by_cases h1 : j = 1
      · rw [if_pos h1] at hc
        have e8 : pteFrame 0x8200 = 8 := by decide
        rw [e8] at hc
        exact Or.inr (Or.inr (Or.inr (Or.inl ⟨by rw [hi, h1], hc.symm⟩)))
      · rw [if_neg h1] at hc he
        by_cases h2 : j = 2
        · rw [if_pos h2] at hc
          have e9 : pteFrame 0x9600 = 9 := by decide
          rw [e9] at hc
          exact Or.inr (Or.inr (Or.inr (Or.inr ⟨by rw [hi, h2], hc.symm⟩)))
        · rw [if_neg h2] at he
          exact absurd rfl he

theorem parent_refs_allocated (r : PtRef) (c : Nat) (h : refFrame parentDir r = some c) :
    c < parentKernel.frames.last_frame ∧ parentKernel.frames.frame_table c = ⟨true, false⟩ := by
  rcases parent_refs r c h with ⟨_, hc⟩ | ⟨_, hc⟩ | ⟨_, hc⟩ | ⟨_, hc⟩ | ⟨_, hc⟩ <;>
    rw [hc] <;> exact ⟨by decide, rfl⟩

theorem parent_refs_distinct (r1 r2 : PtRef) (c : Nat) (h1 : refFrame parentDir r1 = some c)
    (h2 : refFrame parentDir r2 = some c) : r1 = r2 := by
  rcases parent_refs r1 c h1 with ⟨e1, c1⟩ | ⟨e1, c1⟩ | ⟨e1, c1⟩ | ⟨e1, c1⟩ | ⟨e1, c1⟩ <;>
    rcases parent_refs r2 c h2 with ⟨e2, c2⟩ | ⟨e2, c2⟩ | ⟨e2, c2⟩ | ⟨e2, c2⟩ | ⟨e2, c2⟩ <;>
    first
      | (exfalso; omega)
      | (rw [e1, e2])

/-- Destruction of a well-formed address space releases every frame exactly
once.  For an address space whose page table refers (directory page,
second-level tables, present entries of slots and indices below
`N_DESCRIPTORS`) to frames of the frame table that are allocated single
frames, no two references naming the same frame, `as_destroy` returns, so no
release meets a frame already free; afterwards every referenced frame is
marked free and the frame-table entry of every frame the page table does not
refer to is unchanged.  The hypothesis covers the table pages and the
directory page, not only the present entries: `vm_freePTE` releases them
too. -/
theorem as_destroy_releases (k : Kernel) (a : addrspace) (pd : PageDir)
    (hpd : a.as_pte = some pd) (hl : k.frames.last_frame ≤ 131072)
    (hall : ∀ r c, refFrame pd r = some c →
      c < k.frames.last_frame ∧ k.frames.frame_table c = ⟨true, false⟩)
    (hinj : ∀ r1 r2 c, refFrame pd r1 = some c → refFrame pd r2 = some c → r1 = r2) :
    ∃ k1, as_destroy k (some a) = Outcome.ok k1 ∧
      (∀ r c, refFrame pd r = some c → (k1.frames.frame_table c).allocated = false) ∧
      (∀ x, (∀ r, refFrame pd r ≠ some x) →
        k1.frames.frame_table x = k.frames.frame_table x) :=
  as_destroy_spec k a pd hpd hl hall hinj

/-- Example for `as_destroy_releases`: the parent with its directory in frame
5, its table in frame 6 and pages in frames 7, 8 and 9. -/
theorem as_destroy_releases_witness :
    parentAs.as_pte = some parentDir ∧ parentKernel.frames.last_frame ≤ 131072 ∧
    (refFrame parentDir PtRef.dir, refFrame parentDir (PtRef.table 513),
      refFrame parentDir (PtRef.page 513 0), refFrame parentDir (PtRef.page 513 1),
      refFrame parentDir (PtRef.page 513 2)) = (some 5, some 6, some 7, some 8, some 9) ∧
    (∀ r c, refFrame parentDir r = some c →
      c < parentKernel.frames.last_frame ∧ parentKernel.frames.frame_table c = ⟨true, false⟩) ∧
    (∀ r1 r2 c, refFrame parentDir r1 = some c → refFrame parentDir r2 = some c → r1 = r2) ∧
    ∃ k1, as_destroy parentKernel (some parentAs) = Outcome.ok k1 ∧
      (∀ r c, refFrame parentDir r = some c → (k1.frames.frame_table c).allocated = false) ∧
      (∀ x, (∀ r, refFrame parentDir r ≠ some x) →
        k1.frames.frame_table x = parentKernel.frames.frame_table x) :=
  ⟨rfl, by decide, by decide, parent_refs_allocated, parent_refs_distinct,
    as_destroy_releases parentKernel parentAs parentDir rfl (by decide)
      parent_refs_allocated parent_refs_distinct⟩

/-! ## Fault handler: mapping a page, and the page-table invariant -/

theorem zero_fill_spec : ∀ (fuel i : Nat) (t : Nat → Nat) (x : Nat),
    i ≤ x → x < i + fuel → zero_fill t fuel i x = 0
  | 0, i, t, x, h1, h2 => by omega
  | fuel + 1, i, t, x, h1, h2 => by
    rw [zero_fill]
    by_cases hx : x = i
    · have hb : ∀ (n j : Nat) (u : Nat → Nat), x < j → zero_fill u n j x = u x := by
        intro n
        induction n with
        | zero => intro j u _; rfl
        | succ m ih =>
          intro j u hj
          rw [zero_fill, ih (j + 1) _ (by omega)]
          exact Function.update_noteq (by omega) _ _
      rw [hb fuel (i + 1) _ (by omega), hx]
      exact Function.update_same _ _ _
    · exact zero_fill_spec fuel (i + 1) _ x (by omega) (by omega)

theorem alloc_kpages_one_total (s : Frames) : ∃ f va, alloc_kpages s 1 = Outcome.ok (f, va) := by
  cases hscan : alloc_one_scan s.frame_table (s.last_frame - s.first_frame) s.first_frame with
  | none => exact ⟨_, _, alloc_kpages_one_none s hscan⟩
  | some i =>
    by_cases hp : (i <<< PAGE_BITS) % W32 = 0
    · refine ⟨s.set i ⟨true, false⟩, 0, ?_⟩
      unfold alloc_kpages alloc_one_frame
      rw [if_neg (by omega)]
      simp only [ne_eq, not_true_eq_false, if_false, hscan, hp, if_true]
    · exact ⟨_, _, alloc_kpages_one_some s i hscan hp⟩

theorem kvaddr_paddr_mul (c : Nat) (hc : c ≤ 131072) :
    KVADDR_TO_PADDR (PADDR_TO_KVADDR (c * 4096)) = c * 4096 := by
  unfold KVADDR_TO_PADDR PADDR_TO_KVADDR W32 MIPS_KSEG0
  omega

theorem vm_addPTE_eq (k : Kernel) (pd : PageDir) (msb lsb dirty : Nat) (t : PTable)
    (ht : pd.slot msb = some t) (f : Frames) (va : Nat)
    (ha : alloc_kpages k.frames 1 = Outcome.ok (f, va)) :
    vm_addPTE k pd msb lsb dirty =
      if va = 0 then Outcome.ok ({ k with frames := f }, pd, ENOMEM)
      else Outcome.ok ({ k with frames := f, mem := bzero_page k.mem va },
        ⟨pd.base, Function.update pd.slot msb
          (some ⟨t.addr, Function.update t.entry lsb (new_entry va dirty)⟩)⟩, 0) := by
  unfold vm_addPTE
  rw [ha]
  simp only
  by_cases hva : va = 0
  · rw [if_pos hva, if_pos hva]
  · rw [if_neg hva, if_neg hva, ht]
    rfl

theorem vm_initPT_eq (k : Kernel) (pd : PageDir) (msb : Nat) (f : Frames) (va : Nat)
    (ha : alloc_kpages k.frames 1 = Outcome.ok (f, va)) :
    vm_initPT k pd msb =
      if va = 0 then
        Outcome.ok ({ k with frames := f }, ⟨pd.base, Function.update pd.slot msb none⟩, ENOMEM)
      else
        Outcome.ok ({ k with frames := f },
          ⟨pd.base, Function.update pd.slot msb
            (some ⟨va, zero_fill (k.junk va) N_DESCRIPTORS 0⟩)⟩, 0) := by
  unfold vm_initPT kmalloc_page
  rw [ha]

theorem new_entry_facts (f f1 : Frames) (va dirty : Nat) (hl : f.last_frame ≤ 131072)
    (ha : alloc_kpages f 1 = Outcome.ok (f1, va)) (hva : va ≠ 0)
    (hd : dirty = 0 ∨ dirty = TLBLO_DIRTY) :
    new_entry va dirty ≠ 0 ∧
    new_entry va dirty &&& TLBLO_VALID = TLBLO_VALID ∧
    new_entry va dirty &&& TLBLO_DIRTY = dirty ∧
    pteFrame (new_entry va dirty) = frameOf va ∧
    frameOf va < 131072 ∧
    (f.frame_table (frameOf va)).allocated = false ∧
    f1.frame_table (frameOf va) = ⟨true, false⟩ ∧
    (∀ x, x ≠ frameOf va → f1.frame_table x = f.frame_table x) := by
  obtain ⟨_, _, _, h4⟩ := alloc_one_page_spec f f1 va hl ha
  obtain ⟨c, c1, c2, c3, c4, c5, c6⟩ := h4 hva
  have hdd : dirty = dirty &&& TLBLO_DIRTY := by
    rcases hd with h | h <;> rw [h] <;> decide
  obtain ⟨e1, e2, _, e4, e5⟩ := entry_facts c dirty c1
  unfold new_entry
  rw [c2, c3, hdd]
  rw [← hdd] at e5 ⊢
  rw [← hdd] at e1 e2 e4
  exact ⟨e2, e4, by rw [e5], e1, c1, c4, c5, c6⟩

theorem vm_addPTE_ok (k : Kernel) (pd : PageDir) (msb lsb dirty : Nat) (t : PTable)
    (ht : pd.slot msb = some t) (f : Frames) (va : Nat)
    (ha : alloc_kpages k.frames 1 = Outcome.ok (f, va)) (hva : va ≠ 0) :
    ∃ k2 pd2, vm_addPTE k pd msb lsb dirty = Outcome.ok (k2, pd2, 0) ∧
      k2.frames = f ∧ k2.mem = bzero_page k.mem va ∧ k2.tlb = k.tlb ∧ k2.junk = k.junk ∧
      pd2.slot msb = some ⟨t.addr, Function.update t.entry lsb (new_entry va dirty)⟩ ∧
      ∀ x, x ≠ msb → pd2.slot x = pd.slot x :=
  ⟨{ k with frames := f, mem := bzero_page k.mem va },
    ⟨pd.base, Function.update pd.slot msb
      (some ⟨t.addr, Function.update t.entry lsb (new_entry va dirty)⟩)⟩,
    by rw [vm_addPTE_eq k pd msb lsb dirty t ht f va ha, if_neg hva], rfl, rfl, rfl, rfl,
    Function.update_same _ _ _, fun _ hx => Function.update_noteq hx _ _⟩

theorem vm_addPTE_fail (k : Kernel) (pd : PageDir) (msb lsb dirty : Nat) (t : PTable)
    (ht : pd.slot msb = some t) (f : Frames) (va : Nat)
    (ha : alloc_kpages k.frames 1 = Outcome.ok (f, va)) (hva : va = 0) :
    vm_addPTE k pd msb lsb dirty = Outcome.ok ({ k with frames := f }, pd, ENOMEM) := by
  rw [vm_addPTE_eq k pd msb lsb dirty t ht f va ha, if_pos hva]

theorem vm_initPT_ok (k : Kernel) (pd : PageDir) (msb : Nat) (f : Frames) (va : Nat)
    (ha : alloc_kpages k.frames 1 = Outcome.ok (f, va)) (hva : va ≠ 0) :
    ∃ k1 pd1 t1, vm_initPT k pd msb = Outcome.ok (k1, pd1, 0) ∧
      k1.frames = f ∧ k1.mem = k.mem ∧ k1.tlb = k.tlb ∧ k1.junk = k.junk ∧
      pd1.slot msb = some t1 ∧ t1.addr = va ∧ (∀ y, y < N_DESCRIPTORS → t1.entry y = 0) ∧
      ∀ x, x ≠ msb → pd1.slot x = pd.slot x := by
  refine ⟨{ k with frames := f },
    ⟨pd.base, Function.update pd.slot msb (some ⟨va, zero_fill (k.junk va) N_DESCRIPTORS 0⟩)⟩,
    ⟨va, zero_fill (k.junk va) N_DESCRIPTORS 0⟩, ?_, rfl, rfl, rfl, rfl,
    Function.update_same _ _ _, rfl, ?_, fun _ hx => Function.update_noteq hx _ _⟩
  · rw [vm_initPT_eq k pd msb f va ha, if_neg hva]
  · intro y hy
    dsimp only
    exact zero_fill_spec N_DESCRIPTORS 0 (k.junk va) y (by omega) (by omega)

theorem vm_initPT_fail (k : Kernel) (pd : PageDir) (msb : Nat) (f : Frames) (va : Nat)
    (ha : alloc_kpages k.frames 1 = Outcome.ok (f, va)) (hva : va = 0) :
    vm_initPT k pd msb =
      Outcome.ok ({ k with frames := f }, ⟨pd.base, Function.update pd.slot msb none⟩, ENOMEM) := by
  rw [vm_initPT_eq k pd msb f va ha, if_pos hva]

theorem fault_install_eq (k : Kernel) (a : addrspace) (pd : PageDir) (fa msb lsb : Nat)
    (t : PTable) (ht : pd.slot msb = some t) :
    fault_install k a pd fa msb lsb =
      Outcome.ok ({ k with tlb := (fa &&& TLBHI_VPAGE, t.entry lsb) :: k.tlb },
        some { a with as_pte := some pd }, 0) := by
  unfold fault_install
  simp only [ht]

theorem fault_ensure_present (k : Kernel) (a : addrspace) (pd : PageDir) (fa : Nat) (t : PTable)
    (ht : pd.slot (fault_msb fa) = some t) (he : t.entry (fault_lsb fa) ≠ 0) :
    fault_ensure k a pd fa =
      Outcome.ok ({ k with tlb := (fa &&& TLBHI_VPAGE, t.entry (fault_lsb fa)) :: k.tlb },
        some { a with as_pte := some pd }, 0) := by
  unfold fault_ensure
  simp only [ht, ne_eq, not_true_eq_false, if_false, he]
  exact fault_install_eq k a pd fa _ _ t ht

theorem fault_ensure_absent (k : Kernel) (a : addrspace) (pd : PageDir) (fa : Nat) (t : PTable)
    (r : region) (rs : List region) (hreg : a.as_regions = r :: rs)
    (ht : pd.slot (fault_msb fa) = some t) (he : t.entry (fault_lsb fa) = 0)
    (k2 : Kernel) (pd2 : PageDir) (res : Nat)
    (hadd : vm_addPTE k pd (fault_msb fa) (fault_lsb fa)
      (if r.flags &&& PF_W ≠ PF_W then 0 else TLBLO_DIRTY) = Outcome.ok (k2, pd2, res)) :
    fault_ensure k a pd fa =
      if fa ≥ (r.as_vbase + r.size * PAGE_SIZE % W32) % W32 ∧ fa < r.as_vbase then Outcome.diverge
      else if res ≠ 0 then Outcome.ok (k2, some { a with as_pte := some pd2 }, res)
      else fault_install k2 a pd2 fa (fault_msb fa) (fault_lsb fa) := by
  unfold fault_ensure
  simp only [ht, ne_eq, not_true_eq_false, if_false, he, if_true, hreg]
  by_cases hs : fa ≥ (r.as_vbase + r.size * PAGE_SIZE % W32) % W32 ∧ fa < r.as_vbase
  · rw [if_pos hs, if_pos hs]
  · rw [if_neg hs, if_neg hs]
    simp only [ne_eq] at hadd
    rw [hadd]
    simp only
    by_cases hr : ¬ res = 0
    · rw [if_pos hr, if_pos hr]
      unfold fault_rollback
      simp only [Bool.false_eq_true, if_false]
    · rw [if_neg hr, if_neg hr]

theorem fault_ensure_init_fail (k : Kernel) (a : addrspace) (pd : PageDir) (fa : Nat)
    (ht : pd.slot (fault_msb fa) = none) (k1 : Kernel) (pd1 : PageDir) (res : Nat)
    (hinit : vm_initPT k pd (fault_msb fa) = Outcome.ok (k1, pd1, res)) (hres : res ≠ 0) :
    fault_ensure k a pd fa = Outcome.ok (k1, some { a with as_pte := some pd1 }, res) := by
  unfold fault_ensure
  simp only [ht, hinit, ne_eq, hres, not_false_eq_true, if_true]

theorem fault_ensure_no_table (k : Kernel) (a : addrspace) (pd : PageDir) (fa : Nat)
    (r : region) (rs : List region) (hreg : a.as_regions = r :: rs)
    (ht : pd.slot (fault_msb fa) = none) (k1 : Kernel) (pd1 : PageDir)
    (hinit : vm_initPT k pd (fault_msb fa) = Outcome.ok (k1, pd1, 0))
    (t1 : PTable) (ht1 : pd1.slot (fault_msb fa) = some t1) (he1 : t1.entry (fault_lsb fa) = 0)
    (k2 : Kernel) (pd2 : PageDir) (res : Nat)
    (hadd : vm_addPTE k1 pd1 (fault_msb fa) (fault_lsb fa)
      (if r.flags &&& PF_W ≠ PF_W then 0 else TLBLO_DIRTY) = Outcome.ok (k2, pd2, res)) :
    fault_ensure k a pd fa =
      if fa ≥ (r.as_vbase + r.size * PAGE_SIZE % W32) % W32 ∧ fa < r.as_vbase then Outcome.diverge
      else if res ≠ 0 then
        match fault_rollback k2 pd2 (fault_msb fa) true with
        | .ok k3 => Outcome.ok (k3, some { a with as_pte := some pd2 }, res)
        | .panic h => .panic h
        | .diverge => .diverge
      else fault_install k2 a pd2 fa (fault_msb fa) (fault_lsb fa) := by
  unfold fault_ensure
  simp only [ht, hinit, ne_eq, not_true_eq_false, if_false, ht1, he1, if_true, hreg]
  by_cases hs : fa ≥ (r.as_vbase + r.size * PAGE_SIZE % W32) % W32 ∧ fa < r.as_vbase
  · rw [if_pos hs, if_pos hs]
  · rw [if_neg hs, if_neg hs]
    simp only [ne_eq] at hadd
    rw [hadd]

theorem fault_lsb_lt (fa : Nat) : fault_lsb fa < N_DESCRIPTORS := by
  unfold fault_lsb
  generalize KVADDR_TO_PADDR fa <<< 10 = y
  rw [Nat.shiftRight_eq_div_pow]
  unfold W32 N_DESCRIPTORS
  omega

theorem fault_msb_lt (fa : Nat) : fault_msb fa < N_DESCRIPTORS := by
  unfold fault_msb KVADDR_TO_PADDR
  rw [Nat.shiftRight_eq_div_pow]
  unfold W32 MIPS_KSEG0 N_DESCRIPTORS
  omega

theorem alloc_grow (k k1 : Kernel) (f : Frames) (va : Nat) (hl : k.frames.last_frame ≤ 131072)
    (ha : alloc_kpages k.frames 1 = Outcome.ok (f, va)) (hf : k1.frames = f)
    (hm : k1.mem = k.mem ∨ (va ≠ 0 ∧ k1.mem = bzero_page k.mem va)) : Grow k k1 := by
  obtain ⟨a1, a2, a3, a4⟩ := alloc_one_page_spec k.frames f va hl ha
  refine ⟨by rw [hf]; exact a1, by rw [hf]; exact a2, fun x hx => ⟨by rw [hf]; exact a3 x hx, ?_⟩⟩
  rcases hm with hm | ⟨hva, hm⟩
  · rw [hm]
  · obtain ⟨c, _, _, c3, c4, _⟩ := a4 hva
    rw [hm]
    unfold bzero_page
    apply Function.update_noteq
    intro hc
    rw [hc, c3, c4] at hx
    cases hx

theorem fault_dirty_cases (r : region) :
    (if r.flags &&& PF_W ≠ PF_W then 0 else TLBLO_DIRTY) = 0 ∨
    (if r.flags &&& PF_W ≠ PF_W then 0 else TLBLO_DIRTY) = TLBLO_DIRTY := by
  by_cases h : r.flags &&& PF_W ≠ PF_W
  · rw [if_pos h]; exact Or.inl rfl
  · rw [if_neg h]; exact Or.inr rfl

/-- What a successful `vm_addPTE` on the page table of `a` means for the
entries of the resulting address space `a1`. -/
theorem add_entry_ext (k k1 : Kernel) (a a1 : addrspace) (pd pd2 : PageDir) (t : PTable)
    (msb lsb va dirty : Nat) (f0 f : Frames)
    (hl : f0.last_frame ≤ 131072) (ha : alloc_kpages f0 1 = Outcome.ok (f, va)) (hva : va ≠ 0)
    (hd : dirty = 0 ∨ dirty = TLBLO_DIRTY)
    (hfree : ∀ c, (f0.frame_table c).allocated = false → (k.frames.frame_table c).allocated = false)
    (hkf : k1.frames = f)
    (hpd : a.as_pte = some pd) (hpd1 : a1.as_pte = some pd2)
    (hold : ∀ y, y < N_DESCRIPTORS → t.entry y ≠ 0 →
      ∃ t0, pd.slot msb = some t0 ∧ t0.entry y = t.entry y)
    (hs : pd2.slot msb = some ⟨t.addr, Function.update t.entry lsb (new_entry va dirty)⟩)
    (hrest : ∀ x, x ≠ msb → pd2.slot x = pd.slot x) :
    ∀ i j e, EntryOf a1 i j e →
      EntryOf a i j e ∨ (i = msb ∧ j = lsb ∧ e &&& TLBLO_VALID = TLBLO_VALID ∧
        Fresh k k1 (pteFrame e)) := by
  obtain ⟨n1, n2, _, n4, n5, n6, n7, _⟩ := new_entry_facts f0 f va dirty hl ha hva hd
  rintro i j e ⟨pd', t', h1, hi, hj, h2, h3, h4⟩
  rw [hpd1] at h1
  simp only [Option.some.injEq] at h1
  rw [← h1] at h2
  by_cases him : i = msb
  · rw [him, hs] at h2
    simp only [Option.some.injEq] at h2
    rw [← h2] at h3
    have h3' : Function.update t.entry lsb (new_entry va dirty) j = e := h3
    by_cases hjl : j = lsb
    · rw [hjl, Function.update_same] at h3'
      refine Or.inr ⟨him, hjl, ?_, ?_⟩
      · rw [← h3']; exact n2
      · rw [← h3', n4]
        exact ⟨n5, hfree _ n6, by rw [hkf]; exact n7⟩
    · rw [Function.update_noteq hjl] at h3'
      obtain ⟨t0, q1, q2⟩ := hold j hj (by rw [h3']; exact h4)
      exact Or.inl ⟨pd, t0, hpd, hi, hj, by rw [him]; exact q1, by rw [q2]; exact h3', h4⟩
  · rw [hrest i him] at h2
    exact Or.inl ⟨pd, t', hpd, hi, hj, h2, h3, h4⟩

theorem fault_ensure_ext (k : Kernel) (a : addrspace) (pd : PageDir) (fa : Nat) (r : region)
    (rs : List region) (hl : k.frames.last_frame ≤ 131072) (hpd : a.as_pte = some pd)
    (hreg : a.as_regions = r :: rs) (k1 : Kernel) (a1 : addrspace) (res : Nat)
    (h : fault_ensure k a pd fa = Outcome.ok (k1, some a1, res)) :
    (res = 0 ∨ res = ENOMEM) ∧
    (res = 0 → Grow k k1 ∧ ∀ i j e, EntryOf a1 i j e →
      EntryOf a i j e ∨ (i = fault_msb fa ∧ j = fault_lsb fa ∧
        e &&& TLBLO_VALID = TLBLO_VALID ∧ Fresh k k1 (pteFrame e))) := by
  have hne : ENOMEM ≠ 0 := by decide
  have hdc := fault_dirty_cases r
  obtain ⟨f, va, ha⟩ := alloc_kpages_one_total k.frames
  cases hs : pd.slot (fault_msb fa) with
  | some t =>
    by_cases he : t.entry (fault_lsb fa) = 0
    · by_cases hva : va = 0
      · have hadd := vm_addPTE_fail k pd (fault_msb fa) (fault_lsb fa)
          (if r.flags &&& PF_W ≠ PF_W then 0 else TLBLO_DIRTY) t hs f va ha hva
        rw [fault_ensure_absent k a pd fa t r rs hreg hs he _ _ _ hadd] at h
        by_cases hsp : fa ≥ (r.as_vbase + r.size * PAGE_SIZE % W32) % W32 ∧ fa < r.as_vbase
        · rw [if_pos hsp] at h; cases h
        · rw [if_neg hsp, if_pos hne] at h
          simp only [Outcome.ok.injEq, Prod.mk.injEq] at h
          exact ⟨Or.inr h.2.2.symm, fun h0 => absurd (h.2.2.trans h0) hne⟩
      · obtain ⟨k2, pd2, hadd, e1, e2, e3, _, e5, e6⟩ := vm_addPTE_ok k pd (fault_msb fa)
          (fault_lsb fa) (if r.flags &&& PF_W ≠ PF_W then 0 else TLBLO_DIRTY) t hs f va ha hva
        rw [fault_ensure_absent k a pd fa t r rs hreg hs he _ _ _ hadd] at h
        by_cases hsp : fa ≥ (r.as_vbase + r.size * PAGE_SIZE % W32) % W32 ∧ fa < r.as_vbase
        · rw [if_pos hsp] at h; cases h
        · rw [if_neg hsp, if_neg (fun hc => hc rfl), fault_install_eq k2 a pd2 fa _ _ _ e5] at h
          simp only [Outcome.ok.injEq, Prod.mk.injEq, Option.some.injEq] at h
          obtain ⟨hk, ha1, hres⟩ := h
          have hkf : k1.frames = f := by rw [← hk]; exact e1
          have hkm : k1.mem = bzero_page k.mem va := by rw [← hk]; exact e2
          have hp1 : a1.as_pte = some pd2 := by rw [← ha1]
          refine ⟨Or.inl hres.symm, fun _ => ⟨alloc_grow k k1 f va hl ha hkf (Or.inr ⟨hva, hkm⟩), ?_⟩⟩
          exact add_entry_ext k k1 a a1 pd pd2 t _ _ va _ k.frames f hl ha hva hdc
            (fun _ hc => hc) hkf hpd hp1 (fun y _ _ => ⟨t, hs, rfl⟩) e5 e6
    · rw [fault_ensure_present k a pd fa t hs he] at h
      simp only [Outcome.ok.injEq, Prod.mk.injEq, Option.some.injEq] at h
      obtain ⟨hk, ha1, hres⟩ := h
      have hp1 : a1.as_pte = some pd := by rw [← ha1]
      refine ⟨Or.inl hres.symm, fun _ => ⟨?_, ?_⟩⟩
      · rw [← hk]
        exact ⟨rfl, rfl, fun _ _ => ⟨rfl, rfl⟩⟩
      · rintro i j e ⟨pd', t', h1, hi, hj, h2, h3, h4⟩
        rw [hp1] at h1
        simp only [Option.some.injEq] at h1
        rw [← h1] at h2
        exact Or.inl ⟨pd, t', hpd, hi, hj, h2, h3, h4⟩
  | none =>
    by_cases hva : va = 0
    · have hinit := vm_initPT_fail k pd (fault_msb fa) f va ha hva
      rw [fault_ensure_init_fail k a pd fa hs _ _ _ hinit hne] at h
      simp only [Outcome.ok.injEq, Prod.mk.injEq] at h
      exact ⟨Or.inr h.2.2.symm, fun h0 => absurd (h.2.2.trans h0) hne⟩
    · obtain ⟨ka, pd1, t1, hinit, i1, i2, _, _, i5, _, i7, i6⟩ :=
        vm_initPT_ok k pd (fault_msb fa) f va ha hva
      have hz : t1.entry (fault_lsb fa) = 0 := i7 _ (fault_lsb_lt fa)
      rw [← i1] at ha
      have hga : Grow k ka := alloc_grow k ka ka.frames va hl ha rfl (Or.inl i2)
      have hla : ka.frames.last_frame ≤ 131072 := by rw [hga.2.1]; exact hl
      obtain ⟨f2, va2, ha2⟩ := alloc_kpages_one_total ka.frames
      by_cases hva2 : va2 = 0
      · have hadd := vm_addPTE_fail ka pd1 (fault_msb fa) (fault_lsb fa)
          (if r.flags &&& PF_W ≠ PF_W then 0 else TLBLO_DIRTY) t1 i5 f2 va2 ha2 hva2
        rw [fault_ensure_no_table k a pd fa r rs hreg hs ka pd1 hinit t1 i5 hz _ _ _ hadd] at h
        by_cases hsp : fa ≥ (r.as_vbase + r.size * PAGE_SIZE % W32) % W32 ∧ fa < r.as_vbase
        · rw [if_pos hsp] at h; cases h
        · rw [if_neg hsp, if_pos hne] at h
          cases hrb : fault_rollback { ka with frames := f2 } pd1 (fault_msb fa) true with
          | panic e => rw [hrb] at h; cases h
          | diverge => rw [hrb] at h; cases h
          | ok k3 =>
            rw [hrb] at h
            simp only [Outcome.ok.injEq, Prod.mk.injEq] at h
            exact ⟨Or.inr h.2.2.symm, fun h0 => absurd (h.2.2.trans h0) hne⟩
      · obtain ⟨k2, pd2, hadd, e1, e2, e3, _, e5, e6⟩ := vm_addPTE_ok ka pd1 (fault_msb fa)
          (fault_lsb fa) (if r.flags &&& PF_W ≠ PF_W then 0 else TLBLO_DIRTY) t1 i5 f2 va2
          ha2 hva2
        rw [fault_ensure_no_table k a pd fa r rs hreg hs ka pd1 hinit t1 i5 hz _ _ _ hadd] at h
        by_cases hsp : fa ≥ (r.as_vbase + r.size * PAGE_SIZE % W32) % W32 ∧ fa < r.as_vbase
        · rw [if_pos hsp] at h; cases h
        · rw [if_neg hsp, if_neg (fun hc => hc rfl), fault_install_eq k2 a pd2 fa _ _ _ e5] at h
          simp only [Outcome.ok.injEq, Prod.mk.injEq, Option.some.injEq] at h
          obtain ⟨hk, ha1, hres⟩ := h
          have hkf : k1.frames = f2 := by rw [← hk]; exact e1
          have hkm : k1.mem = bzero_page ka.mem va2 := by rw [← hk]; exact e2
          have hp1 : a1.as_pte = some pd2 := by rw [← ha1]
          have hgb : Grow ka k1 := alloc_grow ka k1 f2 va2 hla ha2 hkf (Or.inr ⟨hva2, hkm⟩)
          refine ⟨Or.inl hres.symm, fun _ => ⟨hga.trans hgb, ?_⟩⟩
          exact add_entry_ext k k1 a a1 pd pd2 t1 _ _
            va2 _ ka.frames f2 hla ha2 hva2 hdc (fun c hc => hga.free_of_free hc) hkf hpd hp1
            (fun y hy hne0 => absurd (i7 y hy) hne0)
            e5 (fun x hx => by rw [e6 x hx, i6 x hx])

theorem vm_fault_cases (k : Kernel) (a : addrspace) (faulttype : Int) (fa : Nat) :
    vm_fault k true (some a) faulttype fa = Outcome.ok (k, some a, EFAULT) ∨
    vm_fault k true (some a) faulttype fa = Outcome.ok (k, some a, EINVAL) ∨
    ∃ pd r rs, a.as_pte = some pd ∧ a.as_regions = r :: rs ∧
      vm_fault k true (some a) faulttype fa = fault_ensure k a pd (fa &&& PAGE_FRAME) := by
  unfold vm_fault
  generalize fa &&& PAGE_FRAME = x
  rw [if_neg (by decide)]
  by_cases h2 : fa = 0
  · rw [if_pos h2]; exact Or.inl rfl
  · rw [if_neg h2]
    by_cases h3 : faulttype = VM_FAULT_READONLY
    · rw [if_pos h3]; exact Or.inl rfl
    · rw [if_neg h3]
      by_cases h4 : faulttype ≠ VM_FAULT_READ ∧ faulttype ≠ VM_FAULT_WRITE
      · rw [if_pos h4]; exact Or.inr (Or.inl rfl)
      · rw [if_neg h4]
        simp only
        cases hregs : a.as_regions with
        | nil => exact Or.inl rfl
        | cons r rs =>
          simp only
          cases hpte : a.as_pte with
          | none => exact Or.inl rfl
          | some pd =>
            simp only
            by_cases h5 : (region_scan x (r :: rs)).isNone
                ∧ in_stack_window a.as_stack x = false
            · rw [if_pos h5]; exact Or.inl rfl
            · rw [if_neg h5]
              exact Or.inr (Or.inr ⟨pd, r, rs, rfl, rfl, rfl⟩)

theorem vm_fault_ext (k : Kernel) (a : addrspace) (faulttype : Int) (fa : Nat)
    (hl : k.frames.last_frame ≤ 131072) (k1 : Kernel) (a1 : addrspace) (res : Nat)
    (h : vm_fault k true (some a) faulttype fa = Outcome.ok (k1, some a1, res))
    (hres : res = 0 ∨ res = EFAULT) :
    Grow k k1 ∧ ∀ i j e, EntryOf a1 i j e →
      EntryOf a i j e ∨ (i = fault_msb (fa &&& PAGE_FRAME) ∧ j = fault_lsb (fa &&& PAGE_FRAME) ∧
        e &&& TLBLO_VALID = TLBLO_VALID ∧ Fresh k k1 (pteFrame e)) := by
  have hsame : ∀ c, vm_fault k true (some a) faulttype fa = Outcome.ok (k, some a, c) →
      Grow k k1 ∧ ∀ i j e, EntryOf a1 i j e →
        EntryOf a i j e ∨ (i = fault_msb (fa &&& PAGE_FRAME) ∧
          j = fault_lsb (fa &&& PAGE_FRAME) ∧
          e &&& TLBLO_VALID = TLBLO_VALID ∧ Fresh k k1 (pteFrame e)) := by
    intro c hc
    rw [hc] at h
    simp only [Outcome.ok.injEq, Prod.mk.injEq, Option.some.injEq] at h
    obtain ⟨hk, ha, _⟩ := h
    rw [← hk, ← ha]
    exact ⟨Grow.refl k, fun i j e he => Or.inl he⟩
  rcases vm_fault_cases k a faulttype fa with hc | hc | ⟨pd, r, rs, hpd, hreg, hc⟩
  · exact hsame _ hc
  · exact hsame _ hc
  · rw [hc] at h
    obtain ⟨b1, b2⟩ := fault_ensure_ext k a pd _ r rs hl hpd hreg k1 a1 res h
    have h0 : res = 0 := by
      rcases hres with h0 | h0
      · exact h0
      · rcases b1 with b1 | b1
        · exact b1
        · rw [h0] at b1
          exact absurd b1 (by decide)
    exact b2 h0

theorem Owned.grow {k k1 : Kernel} {a : addrspace} (h : Owned k a) (hg : Grow k k1) :
    Owned k1 a := by
  intro i j e he
  obtain ⟨h1, h2⟩ := h i j e he
  exact ⟨h1, by rw [(hg.2.2 _ h2).1]; exact h2⟩

theorem fresh_ne_owned {k k1 : Kernel} {b : addrspace} (hb : Owned k b) {i j e c : Nat}
    (he : EntryOf b i j e) (hc : Fresh k k1 c) : pteFrame e ≠ c := by
  intro h
  have h1 := (hb i j e he).2
  rw [h, hc.2.1] at h1
  cases h1

theorem inv_replace (k k1 : Kernel) (l1 l2 : List addrspace) (a a1 : addrspace) (i0 j0 : Nat)
    (hinv : PtInv k (l1 ++ a :: l2)) (hg : Grow k k1)
    (hext : ∀ i j e, EntryOf a1 i j e →
      EntryOf a i j e ∨ (i = i0 ∧ j = j0 ∧ e &&& TLBLO_VALID = TLBLO_VALID ∧
        Fresh k k1 (pteFrame e))) :
    PtInv k1 (l1 ++ a1 :: l2) := by
  obtain ⟨hl, hown, hpw⟩ := hinv
  rw [List.pairwise_append, List.pairwise_cons] at hpw
  obtain ⟨p1, ⟨p2, p3⟩, p4⟩ := hpw
  have hoa := hown a (by simp)
  have hsep : ∀ b, Owned k b → (∀ i j e i2 j2 e2, EntryOf b i j e → EntryOf a i2 j2 e2 →
      pteFrame e ≠ pteFrame e2) → Separate b a1 := by
    intro b hb hs i j e i2 j2 e2 he he2
    rcases hext i2 j2 e2 he2 with ho | ⟨_, _, _, hf⟩
    · exact hs i j e i2 j2 e2 he ho
    · exact fresh_ne_owned hb he hf
  refine ⟨by rw [hg.2.1]; exact hl, ?_, ?_⟩
  · intro b hb
    rcases List.mem_append.1 hb with hb | hb
    · obtain ⟨o1, o2⟩ := hown b (List.mem_append.2 (Or.inl hb))
      exact ⟨o1.grow hg, o2⟩
    · rcases List.mem_cons.1 hb with hb | hb
      · rw [hb]
        refine ⟨?_, ?_⟩
        · intro i j e he
          rcases hext i j e he with ho | ⟨_, _, hv, hf⟩
          · exact hoa.1.grow hg i j e ho
          · exact ⟨hv, by rw [hf.2.2]⟩
        · intro i j e i2 j2 e2 he he2 hfr
          rcases hext i j e he with ho | ⟨n1, n2, _, hf⟩
          · rcases hext i2 j2 e2 he2 with ho2 | ⟨_, _, _, hf2⟩
            · exact hoa.2 i j e i2 j2 e2 ho ho2 hfr
            · exact absurd hfr (fresh_ne_owned hoa.1 ho hf2)
          · rcases hext i2 j2 e2 he2 with ho2 | ⟨m1, m2, _, _⟩
            · exact absurd hfr.symm (fresh_ne_owned hoa.1 ho2 hf)
            · exact ⟨by rw [n1, m1], by rw [n2, m2]⟩
      · obtain ⟨o1, o2⟩ := hown b (List.mem_append.2 (Or.inr (List.mem_cons.2 (Or.inr hb))))
        exact ⟨o1.grow hg, o2⟩
  · rw [List.pairwise_append, List.pairwise_cons]
    refine ⟨p1, ⟨?_, p3⟩, ?_⟩
    · intro y hy
      have hy' := hown y (List.mem_append.2 (Or.inr (List.mem_cons.2 (Or.inr hy))))
      intro i j e i2 j2 e2 he he2 hfr
      exact hsep y hy'.1 (fun i j e i2 j2 e2 h1 h2 hc => p2 y hy i2 j2 e2 i j e h2 h1 hc.symm)
        i2 j2 e2 i j e he2 he hfr.symm
    · intro b hb y hy
      rcases List.mem_cons.1 hy with hy | hy
      · rw [hy]
        exact hsep b (hown b (List.mem_append.2 (Or.inl hb))).1
          (p4 b hb a (List.mem_cons.2 (Or.inl rfl)))
      · exact p4 b hb y (List.mem_cons.2 (Or.inr hy))

theorem inv_cons (k k1 : Kernel) (L : List addrspace) (new : addrspace)
    (hinv : PtInv k L) (hg : Grow k k1)
    (hnew : ∀ i j e, EntryOf new i j e →
      e &&& TLBLO_VALID = TLBLO_VALID ∧ Fresh k k1 (pteFrame e))
    (hna : NoAlias new) : PtInv k1 (new :: L) := by
  obtain ⟨hl, hown, hpw⟩ := hinv
  refine ⟨by rw [hg.2.1]; exact hl, ?_, ?_⟩
  · intro b hb
    rcases List.mem_cons.1 hb with hb | hb
    · rw [hb]
      refine ⟨fun i j e he => ?_, hna⟩
      obtain ⟨hv, hf⟩ := hnew i j e he
      exact ⟨hv, by rw [hf.2.2]⟩
    · obtain ⟨o1, o2⟩ := hown b hb
      exact ⟨o1.grow hg, o2⟩
  · rw [List.pairwise_cons]
    refine ⟨?_, hpw⟩
    intro y hy i j e i2 j2 e2 he he2 hfr
    exact fresh_ne_owned (hown y hy).1 he2 (hnew i j e he).2 hfr.symm

theorem entry_of_same_table {a a1 : addrspace} (h : a1.as_pte = a.as_pte) :
    ∀ i j e, EntryOf a1 i j e → EntryOf a i j e := by
  rintro i j e ⟨pd, t, h1, h2⟩
  exact ⟨pd, t, by rw [← h]; exact h1, h2⟩

theorem as_define_region_spec (k k1 : Kernel) (a a1 : addrspace) (vaddr memsize : Nat)
    (r w x : Int) (res : Nat)
    (h : as_define_region k (some a) vaddr memsize r w x = (k1, some a1, res)) :
    a1.as_pte = a.as_pte ∧ k1.frames = k.frames ∧ k1.mem = k.mem := by
  unfold as_define_region at h
  simp only at h
  by_cases hc : (vaddr + memsize) % W32 ≥ a.as_stack
  · rw [if_pos hc] at h
    simp only [Prod.mk.injEq, Option.some.injEq] at h
    obtain ⟨hk, ha, _⟩ := h
    rw [← hk, ← ha]
    exact ⟨rfl, rfl, rfl⟩
  · rw [if_neg hc] at h
    cases hm : kmalloc_small k with
    | mk k2 b =>
      obtain ⟨m1, m2, _⟩ := kmalloc_small_spec k k2 b hm
      rw [hm] at h
      cases b with
      | false =>
        simp only [Prod.mk.injEq, Option.some.injEq] at h
        obtain ⟨hk, ha, _⟩ := h
        rw [← hk, ← ha]
        exact ⟨rfl, m1, m2⟩
      | true =>
        simp only [Prod.mk.injEq, Option.some.injEq] at h
        obtain ⟨hk, ha, _⟩ := h
        rw [← hk, ← ha]
        exact ⟨rfl, m1, m2⟩

theorem as_prepare_load_spec (a a1 : addrspace) (res : Nat)
    (h : as_prepare_load (some a) = (some a1, res)) : a1.as_pte = a.as_pte := by
  unfold as_prepare_load at h
  simp only [Prod.mk.injEq, Option.some.injEq] at h
  rw [← h.1]

theorem as_complete_load_spec (k k1 : Kernel) (a a1 : addrspace) (res : Nat)
    (h : as_complete_load k (some a) = (k1, some a1, res)) :
    a1.as_pte = a.as_pte ∧ k1.frames = k.frames ∧ k1.mem = k.mem := by
  unfold as_complete_load at h
  simp only [Prod.mk.injEq, Option.some.injEq] at h
  obtain ⟨hk, ha, _⟩ := h
  rw [← hk, ← ha]
  exact ⟨rfl, rfl, rfl⟩

theorem grow_of_same {k k1 : Kernel} (hf : k1.frames = k.frames) (hm : k1.mem = k.mem) :
    Grow k k1 := by
  refine ⟨by rw [hf], by rw [hf], fun x _ => ⟨by rw [hf], by rw [hm]⟩⟩

theorem copy_entries_fresh (k : Kernel) (old : addrspace) (k1 : Kernel) (new : addrspace)
    (hl : k.frames.last_frame ≤ 131072)
    (h : as_copy k old = Outcome.ok (k1, some new, 0)) :
    Grow k k1 ∧
    (∀ i j e, EntryOf new i j e → e &&& TLBLO_VALID = TLBLO_VALID ∧ Fresh k k1 (pteFrame e)) ∧
    NoAlias new := by
  obtain ⟨g, _, _, _, _, opd, npd, ho, hn, sl, d1, d2⟩ := as_copy_spec k old k1 new hl h
  have hsrc : ∀ i j e, EntryOf new i j e → ∃ ot tn, opd.slot i = some ot ∧
      npd.slot i = some tn ∧ tn.entry j = e ∧ ot.entry j ≠ 0 ∧
      e &&& TLBLO_VALID = TLBLO_VALID ∧ Fresh k k1 (pteFrame e) := by
    rintro i j e ⟨pd, t, h1, hi, hj, h2, h3, h4⟩
    rw [hn] at h1
    simp only [Option.some.injEq] at h1
    rw [← h1] at h2
    obtain ⟨s1, s2⟩ := sl i hi
    cases hos : opd.slot i with
    | none =>
      rw [s1 hos] at h2
      cases h2
    | some ot =>
      obtain ⟨tn, t1, _, t3⟩ := s2 ot hos
      rw [h2] at t1
      simp only [Option.some.injEq] at t1
      obtain ⟨c1, c2⟩ := t3 j hj
      have hne : ot.entry j ≠ 0 := by
        intro hz
        have := c1 hz
        rw [← t1, h3] at this
        exact h4 this
      obtain ⟨_, f1, _, f3, _⟩ := c2 hne
      rw [← t1, h3] at f1 f3
      exact ⟨ot, t, rfl, h2, h3, hne, f3, f1⟩
  refine ⟨g, fun i j e he => ?_, ?_⟩
  · obtain ⟨_, _, _, _, _, _, hv, hf⟩ := hsrc i j e he
    exact ⟨hv, hf⟩
  · intro i j e i2 j2 e2 he he2 hfr
    obtain ⟨ot, tn, a1, a2, a3, a4, _, _⟩ := hsrc i j e he
    obtain ⟨ot2, tn2, b1, b2, b3, b4, _, _⟩ := hsrc i2 j2 e2 he2
    obtain ⟨_, _, _, hi, hj, _⟩ := he
    obtain ⟨_, _, _, hi2, hj2, _⟩ := he2
    rw [← a3, ← b3] at hfr
    rcases Nat.lt_trichotomy i i2 with hlt | heq | hgt
    · exact absurd hfr (d1 i i2 ot ot2 tn tn2 j j2 hlt hi2 a1 b1 a2 b2 hj hj2 a4 b4)
    · rw [← heq, a1] at b1
      rw [← heq, a2] at b2
      simp only [Option.some.injEq] at b1 b2
      rw [← b1] at b4
      rw [← b2] at hfr
      rcases Nat.lt_trichotomy j j2 with jlt | jeq | jgt
      · exact absurd hfr (d2 i ot tn j j2 hi a1 a2 jlt hj2 a4 b4)
      · exact ⟨heq, jeq⟩
      · exact absurd hfr.symm (d2 i ot tn j2 j hi a1 a2 jgt hj b4 a4)
    · exact absurd hfr.symm (d1 i2 i ot2 ot tn2 tn j2 j hgt hi b1 a1 b2 a2 hj2 hj b4 a4)

theorem vm_step_inv (s s1 : Kernel × List addrspace) (hs : VmStep s s1)
    (hinv : PtInv s.1 s.2) : PtInv s1.1 s1.2 := by
  cases hs with
  | create k k1 L a h =>
    obtain ⟨g, _, pd, hp, hnone⟩ := as_create_spec k k1 a hinv.1 h
    have hno : ∀ i j e, ¬ EntryOf a i j e := by
      rintro i j e ⟨pd', t, h1, hi, _, h2, _⟩
      rw [hp] at h1
      simp only [Option.some.injEq] at h1
      rw [← h1, hnone i hi] at h2
      cases h2
    exact inv_cons k k1 L a hinv g (fun i j e he => absurd he (hno i j e))
      (fun i j e _ _ _ he => absurd he (hno i j e))
  | define_region k k1 l1 l2 a a1 vaddr memsize r w x res h =>
    obtain ⟨h1, h2, h3⟩ := as_define_region_spec k k1 a a1 vaddr memsize r w x res h
    exact inv_replace k k1 l1 l2 a a1 0 0 hinv (grow_of_same h2 h3)
      (fun i j e he => Or.inl (entry_of_same_table h1 i j e he))
  | prepare_load k l1 l2 a a1 res h =>
    exact inv_replace k k l1 l2 a a1 0 0 hinv (Grow.refl k)
      (fun i j e he => Or.inl (entry_of_same_table (as_prepare_load_spec a a1 res h) i j e he))
  | complete_load k k1 l1 l2 a a1 res h =>
    obtain ⟨h1, h2, h3⟩ := as_complete_load_spec k k1 a a1 res h
    exact inv_replace k k1 l1 l2 a a1 0 0 hinv (grow_of_same h2 h3)
      (fun i j e he => Or.inl (entry_of_same_table h1 i j e he))
  | fault k k1 l1 l2 a a1 faulttype faultaddress res h hres =>
    obtain ⟨g, hext⟩ := vm_fault_ext k a faulttype faultaddress hinv.1 k1 a1 res h hres
    exact inv_replace k k1 l1 l2 a a1 _ _ hinv g hext
  | copy k k1 L a new hmem h =>
    obtain ⟨g, hn, hna⟩ := copy_entries_fresh k a k1 new hinv.1 h
    exact inv_cons k k1 L new hinv g hn hna

theorem vm_reach_inv (k0 : Kernel) (h0 : k0.frames.last_frame ≤ 131072)
    (s : Kernel × List addrspace) (hr : VmReach k0 s) : PtInv s.1 s.2 := by
  induction hr with
  | start => exact ⟨h0, fun a ha => absurd ha (List.not_mem_nil a), List.Pairwise.nil⟩
  | step s s1 _ hs ih => exact vm_step_inv s s1 hs ih

theorem page_floor (x : Nat) (hx : x < 4294967296) : x &&& PAGE_FRAME = x / 4096 * 4096 := by
  have hr : x % 4096 < 2 ^ 12 := by omega
  have hsplit : x = 2 ^ 12 * (x / 4096) + x % 4096 := by omega
  have hor := Nat.mul_add_lt_is_or hr (x / 4096)
  have h1 : x % 4096 &&& PAGE_FRAME = 0 := by
    have e : x % 4096 = x % 4096 &&& (2 ^ 12 - 1) := by
      rw [Nat.and_pow_two_sub_one_eq_mod]; omega
    rw [e, Nat.and_assoc]
    have : (2 ^ 12 - 1) &&& PAGE_FRAME = 0 := by decide
    rw [this, Nat.and_zero]
  have h2 : 2 ^ 12 * (x / 4096) &&& PAGE_FRAME = x / 4096 * 4096 := by
    have := and_page_frame_of_aligned (x / 4096) (by omega)
    rw [Nat.mul_comm] at this
    rw [show (2 : Nat) ^ 12 = 4096 from rfl, this, Nat.mul_comm]
  conv_lhs => rw [hsplit, hor]
  rw [Nat.and_distrib_right, h1, h2, Nat.or_zero]

theorem page_floor_ge (base x : Nat) (hx : x < W32) (hb : base &&& PAGE_FRAME = base)
    (hbx : base ≤ x) : base ≤ x &&& PAGE_FRAME ∧ x &&& PAGE_FRAME ≤ x := by
  have hx2 : x < 4294967296 := hx
  have hb2 : base < 4294967296 := by omega
  rw [page_floor x hx2]
  rw [page_floor base hb2] at hb
  omega

theorem vm_fault_enters (k : Kernel) (a : addrspace) (pd : PageDir) (r : region)
    (rs : List region) (faulttype : Int) (fa : Nat)
    (hft : faulttype = VM_FAULT_READ ∨ faulttype = VM_FAULT_WRITE) (ha0 : fa ≠ 0)
    (hpd : a.as_pte = some pd) (hreg : a.as_regions = r :: rs)
    (hscan : (region_scan (fa &&& PAGE_FRAME) (r :: rs)).isNone = false) :
    vm_fault k true (some a) faulttype fa = fault_ensure k a pd (fa &&& PAGE_FRAME) := by
  unfold vm_fault
  generalize fa &&& PAGE_FRAME = x at hscan ⊢
  have e1 : ¬ faulttype = VM_FAULT_READONLY := by
    rcases hft with h | h <;> rw [h] <;> decide
  have e2 : ¬ (faulttype ≠ VM_FAULT_READ ∧ faulttype ≠ VM_FAULT_WRITE) := by
    rcases hft with h | h
    · exact fun hc => hc.1 h
    · exact fun hc => hc.2 h
  rw [if_neg (by decide), if_neg ha0, if_neg e1, if_neg e2]
  simp only [hreg, hpd]
  rw [if_neg (by rw [hscan]; exact fun hc => Bool.noConfusion hc.1)]

/-- C13: page-table/frame-table invariant.  Start from a kernel state whose
frame table is as `ram_bootstrap` leaves it (at most 2^17 frames) and no
address space, and apply `as_create`, `as_define_region`, `as_prepare_load`,
`as_complete_load`, `vm_fault` returning 0 or `EFAULT`, and successful
`as_copy` in any order.  In every state so reached, every present entry of
every live address space has the valid bit set and references a frame marked
allocated, no two present entries of one address space reference the same
frame, and no present entry of one live address space references the frame of
a present entry of another. -/
theorem page_table_invariant (k0 : Kernel) (h0 : k0.frames.last_frame ≤ 131072)
    (k : Kernel) (L : List addrspace) (hr : VmReach k0 (k, L)) :
    (∀ a ∈ L, Owned k a ∧ NoAlias a) ∧ L.Pairwise Separate :=
  (vm_reach_inv k0 h0 (k, L) hr).2

/-- Witness for C13: on the freshly booted 64 KB machine, `as_create`, then
`as_define_region` of a text page at 0x400000, then a read fault at 0x400123;
the address space then has the present entry 0x7200 (frame 7) at slot 513,
index 0. -/
theorem page_table_invariant_witness :
    kern0.frames.last_frame ≤ 131072 ∧
    VmReach kern0 (stepFault.1, [stepAs2]) ∧
    entryAt (some stepAs2) 513 0 = some 0x7200 ∧
    ((∀ a ∈ [stepAs2], Owned stepFault.1 a ∧ NoAlias a) ∧ [stepAs2].Pairwise Separate) :=
  have hr : VmReach kern0 (stepFault.1, [stepAs2]) :=
    VmReach.step (stepDefine.1, [stepAs1]) (stepFault.1, [stepAs2])
      (VmReach.step (stepCreate.1, [stepAs0]) (stepDefine.1, [stepAs1])
        (VmReach.step (kern0, []) (stepCreate.1, [stepAs0]) VmReach.start
          (VmStep.create kern0 stepCreate.1 [] stepAs0 rfl))
        (VmStep.define_region stepCreate.1 stepDefine.1 [] [] stepAs0 stepAs1 0x400000 0x1000
          1 0 1 0 rfl))
      (VmStep.fault stepDefine.1 stepFault.1 [] [] stepAs1 stepAs2 VM_FAULT_READ 0x400123 0 rfl
        (Or.inl rfl))
  ⟨by decide, hr, by decide,
    page_table_invariant kern0 (by decide) stepFault.1 [stepAs2] hr⟩

/-- Counterexample to C20 as stated: the claim's own scenario (only region
(0x1000, 8192, R+W), write fault at 0x1000, page not mapped) on a machine
where frame 15 is free and no other.  The allocator has a free frame, yet
`vm_fault` returns `ENOMEM`: the second-level table takes frame 15 and no frame
is left for the page; no entry is installed. -/
theorem fault_one_free_frame_enomem :
    asW.as_regions = [regW] ∧ regW.flags &&& PF_W = PF_W ∧
    (regW.as_vbase ≤ 0x1000 ∧ 0x1000 < regW.as_vbase + regW.size) ∧
    entryAt (some asW) (fault_msb 0x1000) (fault_lsb 0x1000) = none ∧
    (kernFull.frames.first_frame ≤ 15 ∧ 15 < kernFull.frames.last_frame ∧
      (kernFull.frames.frame_table 15).allocated = false) ∧
    vm_fault kernFull true (some asW) VM_FAULT_WRITE 0x1000
      = Outcome.ok (faultW.1, faultW.2.1, ENOMEM) ∧
    entryAt faultW.2.1 (fault_msb 0x1000) (fault_lsb 0x1000) = some 0 :=
  ⟨rfl, by decide, by decide, by decide, by decide, rfl, by decide⟩

/-! ## Fault kinds outside the three known ones -/

theorem vm_fault_other_kind (k : Kernel) (curproc : Bool) (as : Option addrspace)
    (faulttype : Int) (fa : Nat)
    (hk : faulttype ≠ VM_FAULT_READ ∧ faulttype ≠ VM_FAULT_WRITE ∧
      faulttype ≠ VM_FAULT_READONLY) :
    vm_fault k curproc as faulttype fa =
      Outcome.ok (k, as, if curproc = false ∨ fa = 0 then EFAULT else EINVAL) := by
  unfold vm_fault
  generalize fa &&& PAGE_FRAME = x
  by_cases h1 : curproc = false
  · rw [if_pos h1, if_pos (Or.inl h1)]
  · rw [if_neg h1]
    by_cases h2 : fa = 0
    · rw [if_pos h2, if_pos (Or.inr h2)]
    · rw [if_neg h2, if_neg hk.2.2, if_pos ⟨hk.1, hk.2.1⟩, if_neg (not_or.mpr ⟨h1, h2⟩)]

/-- C21 (as amended): a fault kind that is none of read, write and
read-only-violation.  For every kernel state, address space (NULL included)
and faulting address, `vm_fault` returns without changing the kernel state or
the address space; the result is `EINVAL` when there is a current process and
the address is not 0, and `EFAULT` when `curproc` is NULL or the address is 0
(those two tests come before the `switch`). -/
theorem vm_fault_unknown_kind (k : Kernel) (curproc : Bool) (as : Option addrspace)
    (faulttype : Int) (fa : Nat)
    (hk : faulttype ≠ VM_FAULT_READ ∧ faulttype ≠ VM_FAULT_WRITE ∧
      faulttype ≠ VM_FAULT_READONLY) :
    vm_fault k curproc as faulttype fa =
      Outcome.ok (k, as, if curproc = false ∨ fa = 0 then EFAULT else EINVAL) :=
  vm_fault_other_kind k curproc as faulttype fa hk

/-- Witness for C21 (as amended): fault kind 7 at 0x400123 on `as2`. -/
theorem vm_fault_unknown_kind_witness :
    ((7 : Int) ≠ VM_FAULT_READ ∧ (7 : Int) ≠ VM_FAULT_WRITE ∧ (7 : Int) ≠ VM_FAULT_READONLY) ∧
    (if true = false ∨ 0x400123 = 0 then EFAULT else EINVAL) = EINVAL ∧
    vm_fault kern0 true (some as2) 7 0x400123 =
      Outcome.ok (kern0, some as2, if true = false ∨ 0x400123 = 0 then EFAULT else EINVAL) :=
  ⟨by decide, by decide, vm_fault_unknown_kind kern0 true (some as2) 7 0x400123 (by decide)⟩

/-- Counterexample to C21 as stated: fault kind 7 (none of read, write,
read-only-violation) at address 0 on `as2` returns `EFAULT`, not `EINVAL`; so
does the same kind at 0x400123 when there is no current process. -/
theorem unknown_kind_at_null_efault :
    ((7 : Int) ≠ VM_FAULT_READ ∧ (7 : Int) ≠ VM_FAULT_WRITE ∧ (7 : Int) ≠ VM_FAULT_READONLY) ∧
    vm_fault kern0 true (some as2) 7 0 = Outcome.ok (kern0, some as2, EFAULT) ∧
    vm_fault kern0 false (some as2) 7 0x400123 = Outcome.ok (kern0, some as2, EFAULT) ∧
    EFAULT ≠ EINVAL :=
  ⟨by decide, rfl, rfl, by decide⟩

/-! ## Bit layout of a page-table entry -/

theorem paddr_kvaddr_roundtrip (p : Nat) (hp : p < W32) :
    KVADDR_TO_PADDR (PADDR_TO_KVADDR p) = p := by
  unfold KVADDR_TO_PADDR PADDR_TO_KVADDR MIPS_KSEG0 W32 at *
  omega

theorem aligned_and_page_frame (p : Nat) (hp : p < W32) (hal : p % PAGE_SIZE = 0) :
    p &&& PAGE_FRAME = p := by
  unfold W32 at hp
  unfold PAGE_SIZE at hal
  rw [page_floor p hp]
  omega

theorem pte_layout (p d : Nat) (hp : p < W32) (hal : p % PAGE_SIZE = 0)
    (hd : d = 0 ∨ d = TLBLO_DIRTY) :
    new_entry (PADDR_TO_KVADDR p) d = (p &&& PAGE_FRAME) ||| d ||| TLBLO_VALID ∧
    new_entry (PADDR_TO_KVADDR p) d &&& PAGE_FRAME = p ∧
    new_entry (PADDR_TO_KVADDR p) d &&& TLBLO_DIRTY = d ∧
    new_entry (PADDR_TO_KVADDR p) d &&& TLBLO_VALID ≠ 0 ∧
    new_entry (PADDR_TO_KVADDR p) d ≠ 0 ∧
    PADDR_TO_KVADDR (new_entry (PADDR_TO_KVADDR p) d &&& PAGE_FRAME) = PADDR_TO_KVADDR p ∧
    pteFrame (new_entry (PADDR_TO_KVADDR p) d) = p / PAGE_SIZE := by
  have hdd : d = d &&& TLBLO_DIRTY := by
    rcases hd with h | h <;> rw [h] <;> decide
  have hpa := aligned_and_page_frame p hp hal
  have hne : new_entry (PADDR_TO_KVADDR p) d = (p &&& PAGE_FRAME) ||| d ||| TLBLO_VALID := by
    unfold new_entry
    rw [paddr_kvaddr_roundtrip p hp]
  have hf : new_entry (PADDR_TO_KVADDR p) d &&& PAGE_FRAME = p := by
    rw [hne, hdd, entry_and_frame, hpa]
  have hv : new_entry (PADDR_TO_KVADDR p) d &&& TLBLO_VALID = TLBLO_VALID := by
    rw [hne, hdd, entry_and_valid]
  refine ⟨hne, hf, ?_, ?_, ?_, by rw [hf], ?_⟩
  · rw [hne, hdd, entry_and_dirty, ← hdd]
  · rw [hv]; decide
  · rw [hne, hdd]; exact entry_ne_zero p d
  · unfold pteFrame
    rw [hf]
    unfold frameOf
    rw [paddr_kvaddr_roundtrip p hp, Nat.shiftRight_eq_div_pow]
    rfl

/-! ## Region definition and the load bracket -/

theorem rwx_eq (r w x : Int) :
    (let f0 := 0
     let f1 := if r ≠ 0 then f0 ||| PF_R else f0
     let f2 := if w ≠ 0 then f1 ||| PF_W else f1
     if x ≠ 0 then f2 ||| PF_X else f2) = rwx r w x := by
  unfold rwx
  by_cases hr : r = 0 <;> by_cases hw : w = 0 <;> by_cases hx : x = 0 <;>
    simp only [ne_eq, hr, hw, hx, not_false_eq_true, not_true_eq_false, if_true, if_false] <;>
    decide

/-- A successful `as_define_region`, written out. -/
theorem define_region_ok (k k1 : Kernel) (a a1 : addrspace) (vaddr memsize : Nat)
    (r w x : Int)
    (h : as_define_region k (some a) vaddr memsize r w x = (k1, some a1, 0)) :
    (vaddr + memsize) % W32 < a.as_stack ∧
    ∃ reg, a1.as_regions = reg :: a.as_regions ∧
      reg.as_vbase = vaddr &&& PAGE_FRAME ∧
      reg.size = (((memsize + (vaddr &&& (W32 - 1 - PAGE_FRAME))) % W32 + (PAGE_SIZE - 1)) % W32)
        &&& PAGE_FRAME ∧
      reg.flags = rwx r w x ∧ reg.oldFlags = rwx r w x ∧
      a1.as_heapStart = (reg.as_vbase + reg.size) % W32 ∧
      a1.as_heapEnd = (reg.as_vbase + reg.size) % W32 ∧
      a1.as_stack = a.as_stack ∧ a1.as_pte = a.as_pte := by
  unfold as_define_region at h
  simp only at h
  by_cases hc : (vaddr + memsize) % W32 ≥ a.as_stack
  · rw [if_pos hc] at h
    simp only [Prod.mk.injEq] at h
    exact absurd h.2.2 (by decide)
  · rw [if_neg hc] at h
    refine ⟨Nat.lt_of_not_le hc, ?_⟩
    cases hm : kmalloc_small k with
    | mk k2 b =>
      rw [hm] at h
      cases b with
      | false =>
        simp only [Prod.mk.injEq] at h
        exact absurd h.2.2 (by decide)
      | true =>
        simp only [Prod.mk.injEq, Option.some.injEq] at h
        obtain ⟨_, ha, _⟩ := h
        rw [← ha]
        have hf := rwx_eq r w x
        simp only at hf
        exact ⟨_, rfl, rfl, rfl, hf, hf, rfl, rfl, rfl, rfl⟩

/-- A failed `as_define_region` returns `ENOMEM` and the address space as it
was. -/
theorem define_region_err (k k1 : Kernel) (a a1 : addrspace) (vaddr memsize : Nat)
    (r w x : Int) (res : Nat)
    (h : as_define_region k (some a) vaddr memsize r w x = (k1, some a1, res))
    (hres : res ≠ 0) : res = ENOMEM ∧ a1 = a := by
  unfold as_define_region at h
  simp only at h
  by_cases hc : (vaddr + memsize) % W32 ≥ a.as_stack
  · rw [if_pos hc] at h
    simp only [Prod.mk.injEq, Option.some.injEq] at h
    exact ⟨h.2.2.symm, h.2.1.symm⟩
  · rw [if_neg hc] at h
    cases hm : kmalloc_small k with
    | mk k2 b =>
      rw [hm] at h
      cases b with
      | false =>
        simp only [Prod.mk.injEq, Option.some.injEq] at h
        exact ⟨h.2.2.symm, h.2.1.symm⟩
      | true =>
        simp only [Prod.mk.injEq, Option.some.injEq] at h
        exact absurd h.2.2.symm hres

/-- When the check passes and the heap has a node left, `as_define_region`
returns 0. -/
theorem define_region_total (k : Kernel) (a : addrspace) (vaddr memsize : Nat) (r w x : Int)
    (hc : (vaddr + memsize) % W32 < a.as_stack) (hh : k.heap ≠ 0) :
    ∃ k1 a1, as_define_region k (some a) vaddr memsize r w x = (k1, some a1, 0) := by
  unfold as_define_region
  simp only
  rw [if_neg (Nat.not_le_of_lt hc)]
  unfold kmalloc_small
  rw [if_neg hh]
  exact ⟨_, _, rfl⟩

theorem and_low_bits (v : Nat) : v &&& (W32 - 1 - PAGE_FRAME) = v % 4096 := by
  have e : W32 - 1 - PAGE_FRAME = 2 ^ 12 - 1 := by decide
  rw [e, Nat.and_pow_two_sub_one_eq_mod]

/-- The arithmetic of the alignment in `as_define_region` when nothing
wraps. -/
theorem define_region_align (vaddr memsize : Nat) (h : vaddr + memsize + PAGE_SIZE ≤ W32) :
    (vaddr &&& PAGE_FRAME = vaddr / PAGE_SIZE * PAGE_SIZE) ∧
    ((((memsize + (vaddr &&& (W32 - 1 - PAGE_FRAME))) % W32 + (PAGE_SIZE - 1)) % W32)
        &&& PAGE_FRAME
      = (memsize + vaddr % PAGE_SIZE + (PAGE_SIZE - 1)) / PAGE_SIZE * PAGE_SIZE) := by
  unfold PAGE_SIZE W32 at h
  have hv : vaddr < 4294967296 := by omega
  refine ⟨page_floor vaddr hv, ?_⟩
  rw [and_low_bits]
  unfold PAGE_SIZE W32
  have h1 : (memsize + vaddr % 4096) % 4294967296 = memsize + vaddr % 4096 :=
    Nat.mod_eq_of_lt (by omega)
  rw [h1]
  have h2 : (memsize + vaddr % 4096 + (4096 - 1)) % 4294967296
      = memsize + vaddr % 4096 + (4096 - 1) := Nat.mod_eq_of_lt (by omega)
  rw [h2]
  exact page_floor _ (by omega)

theorem define_region_aligned (k k1 : Kernel) (a a1 : addrspace) (vaddr memsize : Nat)
    (r w x : Int) (hs : a.as_stack + PAGE_SIZE ≤ W32) (hnw : vaddr + memsize < W32)
    (h : as_define_region k (some a) vaddr memsize r w x = (k1, some a1, 0)) :
    ∃ reg, a1.as_regions = reg :: a.as_regions ∧
      reg.as_vbase = vaddr / PAGE_SIZE * PAGE_SIZE ∧
      reg.as_vbase % PAGE_SIZE = 0 ∧ reg.size % PAGE_SIZE = 0 ∧
      reg.as_vbase ≤ vaddr ∧ vaddr + memsize ≤ reg.as_vbase + reg.size ∧
      reg.as_vbase + reg.size < vaddr + memsize + PAGE_SIZE := by
  obtain ⟨hc, reg, h1, h2, h3, _⟩ := define_region_ok k k1 a a1 vaddr memsize r w x h
  rw [Nat.mod_eq_of_lt hnw] at hc
  obtain ⟨e1, e2⟩ := define_region_align vaddr memsize (by omega)
  rw [e1] at h2
  rw [e2] at h3
  refine ⟨reg, h1, h2, ?_⟩
  rw [h2, h3]
  unfold PAGE_SIZE
  omega

theorem or_write_bits (f : Nat) :
    (f ||| PF_W) &&& PF_W = PF_W ∧ (f ||| PF_W) &&& PF_R = f &&& PF_R ∧
    (f ||| PF_W) &&& PF_X = f &&& PF_X := by
  refine ⟨?_, ?_, ?_⟩
  · rw [Nat.and_distrib_right, Nat.and_self]
    apply Nat.eq_of_testBit_eq
    intro i
    simp only [Nat.testBit_or, Nat.testBit_and]
    cases f.testBit i <;> cases PF_W.testBit i <;> rfl
  · rw [Nat.and_distrib_right]
    have : PF_W &&& PF_R = 0 := by decide
    rw [this, Nat.or_zero]
  · rw [Nat.and_distrib_right]
    have : PF_W &&& PF_X = 0 := by decide
    rw [this, Nat.or_zero]

/-- The region `as_prepare_load` leaves in place of `r`. -/
theorem prepare_region (r : region) :
    (if r.flags &&& PF_W ≠ PF_W then { r with flags := r.flags ||| PF_W } else r)
      = { r with flags := r.flags ||| PF_W } := by
  by_cases h : r.flags &&& PF_W ≠ PF_W
  · rw [if_pos h]
  · rw [if_neg h]
    have h1 : r.flags &&& PF_W = PF_W := not_not.mp h
    have h2 : r.flags ||| PF_W = r.flags := by
      apply Nat.eq_of_testBit_eq
      intro i
      have := congrArg (fun n => Nat.testBit n i) h1
      simp only [Nat.testBit_and] at this
      simp only [Nat.testBit_or]
      cases hf : r.flags.testBit i <;> cases hp : PF_W.testBit i <;> simp_all
    rw [h2]

theorem prepare_load_eq (a : addrspace) :
    as_prepare_load (some a) =
      (some { a with as_regions :=
        a.as_regions.map (fun r => { r with flags := r.flags ||| PF_W }) }, 0) := by
  unfold as_prepare_load
  simp only [prepare_region]

theorem prepare_load_regions (a : addrspace) :
    ∃ a1, as_prepare_load (some a) = (some a1, 0) ∧
      a1.as_regions.length = a.as_regions.length ∧
      (∀ (i : Nat) (r : region), a.as_regions[i]? = some r → ∃ r1 : region, a1.as_regions[i]? = some r1 ∧
        r1.flags &&& PF_W = PF_W ∧ r1.flags &&& PF_R = r.flags &&& PF_R ∧
        r1.flags &&& PF_X = r.flags &&& PF_X ∧ r1.oldFlags = r.oldFlags ∧
        r1.as_vbase = r.as_vbase ∧ r1.size = r.size) ∧
      a1.as_heapStart = a.as_heapStart ∧ a1.as_heapEnd = a.as_heapEnd ∧
      a1.as_stack = a.as_stack ∧ a1.as_pte = a.as_pte ∧
      as_prepare_load (some a1) = (some a1, 0) := by
  refine ⟨_, prepare_load_eq a, ?_, ?_, rfl, rfl, rfl, rfl, ?_⟩
  · simp only [List.length_map]
  · intro i r hr
    refine ⟨{ r with flags := r.flags ||| PF_W }, ?_, ?_⟩
    · simp only [List.getElem?_map, hr, Option.map_some']
    · obtain ⟨b1, b2, b3⟩ := or_write_bits r.flags
      exact ⟨b1, b2, b3, rfl, rfl, rfl⟩
  · rw [prepare_load_eq]
    simp only [List.map_map]
    have : ((fun r : region => { r with flags := r.flags ||| PF_W }) ∘
        (fun r : region => { r with flags := r.flags ||| PF_W }))
        = (fun r : region => { r with flags := r.flags ||| PF_W }) := by
      funext r
      simp only [Function.comp]
      have : (r.flags ||| PF_W) ||| PF_W = r.flags ||| PF_W := by
        rw [Nat.or_assoc, Nat.or_self]
      rw [this]
    rw [this]

theorem as_create_fields (k k1 : Kernel) (a : addrspace)
    (h : as_create k = Outcome.ok (k1, some a)) :
    a.as_regions = [] ∧ a.as_stack = USERSTACK := by
  unfold as_create at h
  cases hk : kmalloc_small k with
  | mk ka ok =>
    rw [hk] at h
    cases ok with
    | false => simp only [Outcome.ok.injEq, Prod.mk.injEq] at h; cases h.2
    | true =>
      simp only at h
      cases hal : alloc_kpages ka.frames 1 with
      | panic e => rw [hal] at h; cases h
      | diverge => rw [hal] at h; cases h
      | ok p =>
        obtain ⟨f, va⟩ := p
        rw [hal] at h
        simp only at h
        by_cases hva : va = 0
        · simp only [hva, if_true, Outcome.ok.injEq, Prod.mk.injEq] at h; cases h.2
        · simp only [hva, if_false, Outcome.ok.injEq, Prod.mk.injEq, Option.some.injEq] at h
          rw [← h.2]
          exact ⟨rfl, rfl⟩

/-- In a built address space every region still has the flags it was declared
with, and the stack top is `USERSTACK`. -/
theorem built_flags (a : addrspace) (hb : Built a) :
    (∀ r ∈ a.as_regions, r.flags = r.oldFlags) ∧ a.as_stack = USERSTACK := by
  induction hb with
  | create k k1 a h =>
    obtain ⟨h1, h2⟩ := as_create_fields k k1 a h
    rw [h1]
    exact ⟨fun r hr => absurd hr (List.not_mem_nil r), h2⟩
  | define a a1 _ hd ih =>
    cases hd with
    | mk k k1 _ _ vaddr memsize r w x h =>
      obtain ⟨_, reg, h1, _, _, h4, h5, _, _, h8, _⟩ :=
        define_region_ok k k1 a a1 vaddr memsize r w x h
      refine ⟨?_, by rw [h8]; exact ih.2⟩
      intro q hq
      rw [h1] at hq
      rcases List.mem_cons.mp hq with e | e
      · rw [e, h4, h5]
      · exact ih.1 q e

theorem load_bracket (k : Kernel) (a : addrspace)
    (hf : ∀ r ∈ a.as_regions, r.flags = r.oldFlags) :
    ∃ a1, as_prepare_load (some a) = (some a1, 0) ∧
      as_complete_load k (some a1) = ({ k with tlb := [] }, some a, 0) := by
  refine ⟨_, prepare_load_eq a, ?_⟩
  unfold as_complete_load
  simp only [List.map_map]
  have hm : a.as_regions.map ((fun r : region =>
      if r.flags = r.oldFlags then r else { r with flags := r.oldFlags }) ∘
      (fun r : region => { r with flags := r.flags ||| PF_W })) = a.as_regions := by
    conv_rhs => rw [← List.map_id a.as_regions]
    apply List.map_congr_left
    intro r hr
    have h1 := hf r hr
    simp only [Function.comp, id]
    by_cases h2 : r.flags ||| PF_W = r.oldFlags
    · rw [if_pos h2]
      cases r with
      | mk b s f o =>
        simp only at h1 h2 ⊢
        rw [h2, h1]
    · rw [if_neg h2]
      cases r with
      | mk b s f o =>
        simp only at h1 ⊢
        rw [h1]
  rw [hm]

/-- C23: `as_define_region` accepts regions that reach or pass the stack top.
On `as2` (stack top 0x80000000) the call with `vaddr = 0xFFFFF000`,
`memsize = 0x2000` returns 0 and stores the region (0xFFFFF000, 0x2000),
although `vaddr + memsize = 0x100001000` is above the stack top: the test
`vaddr + memsize >= as->as_stack` is made on the 32-bit sum, which wraps to
0x1000 (the heap bounds become 0x1000 as well).  The call with
`vaddr = 0x7FFFE001`, `memsize = 0x1FFE` (no wrap, request ending at
0x7FFFFFFF) returns 0 and stores the region (0x7FFFE000, 0x2000), whose end is
the stack top itself: the test is made before the alignment. -/
theorem define_region_past_stack_top :
    as2.as_stack = 0x80000000 ∧
    defineWrap.2.2 = 0 ∧
    defineWrap.2.1.map addrspace.as_regions
      = some (⟨0xFFFFF000, 0x2000, 6, 6⟩ :: as2.as_regions) ∧
    defineWrap.2.1.map addrspace.as_heapStart = some 0x1000 ∧
    ¬ (0xFFFFF000 + 0x2000 < as2.as_stack) ∧
    defineEdge.2.2 = 0 ∧
    defineEdge.2.1.map addrspace.as_regions
      = some (⟨0x7FFFE000, 0x2000, 6, 6⟩ :: as2.as_regions) ∧
    0x7FFFE001 + 0x1FFE < as2.as_stack ∧
    ¬ (0x7FFFE000 + 0x2000 < as2.as_stack) :=
  ⟨by decide, by decide, by decide, by decide, by decide, by decide, by decide, by decide,
    by decide⟩

/-- C24: region alignment.  For an address space whose stack top is at least
a page below the end of the 32-bit space (`as_create` sets 0x80000000) and a
request `vaddr`, `memsize` whose sum does not wrap, a call of
`as_define_region` that returns 0 stores a region whose base is `vaddr` rounded
down to a multiple of `PAGE_SIZE`, whose size is a multiple of `PAGE_SIZE`,
whose range contains `[vaddr, vaddr + memsize)`, and whose end exceeds
`vaddr + memsize` by less than `PAGE_SIZE`. -/
theorem define_region_alignment (k k1 : Kernel) (a a1 : addrspace) (vaddr memsize : Nat)
    (r w x : Int) (hs : a.as_stack + PAGE_SIZE ≤ W32) (hnw : vaddr + memsize < W32)
    (h : as_define_region k (some a) vaddr memsize r w x = (k1, some a1, 0)) :
    ∃ reg, a1.as_regions = reg :: a.as_regions ∧
      reg.as_vbase = vaddr / PAGE_SIZE * PAGE_SIZE ∧
      reg.as_vbase % PAGE_SIZE = 0 ∧ reg.size % PAGE_SIZE = 0 ∧
      reg.as_vbase ≤ vaddr ∧ vaddr + memsize ≤ reg.as_vbase + reg.size ∧
      reg.as_vbase + reg.size < vaddr + memsize + PAGE_SIZE :=
  define_region_aligned k k1 a a1 vaddr memsize r w x hs hnw h

/-- Witness for C24: `as_define_region(as2, 0x10234, 0x1000, 1, 0, 0)`
returns 0 and stores the region (0x10000, 0x2000). -/
theorem define_region_alignment_witness :
    as2.as_stack + PAGE_SIZE ≤ W32 ∧ 0x10234 + 0x1000 < W32 ∧
    as_define_region kern0 (some as2) 0x10234 0x1000 1 0 0
      = (defineLow.1, some defineLowAs, 0) ∧
    defineLowAs.as_regions = ⟨0x10000, 0x2000, 4, 4⟩ :: as2.as_regions ∧
    ∃ reg, defineLowAs.as_regions = reg :: as2.as_regions ∧
      reg.as_vbase = 0x10234 / PAGE_SIZE * PAGE_SIZE ∧
      reg.as_vbase % PAGE_SIZE = 0 ∧ reg.size % PAGE_SIZE = 0 ∧
      reg.as_vbase ≤ 0x10234 ∧ 0x10234 + 0x1000 ≤ reg.as_vbase + reg.size ∧
      reg.as_vbase + reg.size < 0x10234 + 0x1000 + PAGE_SIZE :=
  ⟨by decide, by decide, rfl, by decide,
    define_region_alignment kern0 defineLow.1 as2 defineLowAs 0x10234 0x1000 1 0 0
      (by decide) (by decide) rfl⟩

/-- C25: postcondition of a successful `as_define_region`.  The region list is
the new region followed by the previous list; the new region's `flags` and
`oldFlags` are both the R/W/X encoding of the three permission arguments; heap
start and heap end are both the 32-bit sum of the new region's base and size
(the plain sum when that is below 2^32), whatever the earlier regions are; the
stack top and the page table are unchanged. -/
theorem define_region_postcondition (k k1 : Kernel) (a a1 : addrspace) (vaddr memsize : Nat)
    (r w x : Int)
    (h : as_define_region k (some a) vaddr memsize r w x = (k1, some a1, 0)) :
    ∃ reg, a1.as_regions = reg :: a.as_regions ∧
      reg.flags = rwx r w x ∧ reg.oldFlags = rwx r w x ∧
      a1.as_heapStart = (reg.as_vbase + reg.size) % W32 ∧
      a1.as_heapEnd = (reg.as_vbase + reg.size) % W32 ∧
      (reg.as_vbase + reg.size < W32 →
        a1.as_heapStart = reg.as_vbase + reg.size ∧ a1.as_heapEnd = reg.as_vbase + reg.size) ∧
      a1.as_stack = a.as_stack ∧ a1.as_pte = a.as_pte :=
  have ⟨_, reg, h1, _, _, h4, h5, h6, h7, h8, h9⟩ :=
    define_region_ok k k1 a a1 vaddr memsize r w x h
  ⟨reg, h1, h4, h5, h6, h7,
    fun hlt => ⟨by rw [h6, Nat.mod_eq_of_lt hlt], by rw [h7, Nat.mod_eq_of_lt hlt]⟩, h8, h9⟩

/-- Witness for C25: `as_define_region(as2, 0x10234, 0x1000, 1, 0, 0)`.  The
new read-only region (0x10000, 0x2000) is put in front of the data and text
regions and the heap bounds become 0x12000, although the data region of `as2`
ends at 0x502000. -/
theorem define_region_postcondition_witness :
    as_define_region kern0 (some as2) 0x10234 0x1000 1 0 0
      = (defineLow.1, some defineLowAs, 0) ∧
    defineLowAs.as_regions = [⟨0x10000, 0x2000, 4, 4⟩, regData, regText] ∧
    rwx 1 0 0 = PF_R ∧
    defineLowAs.as_heapStart = 0x12000 ∧ defineLowAs.as_heapEnd = 0x12000 ∧
    regData.as_vbase + regData.size = 0x502000 ∧
    ∃ reg, defineLowAs.as_regions = reg :: as2.as_regions ∧
      reg.flags = rwx 1 0 0 ∧ reg.oldFlags = rwx 1 0 0 ∧
      defineLowAs.as_heapStart = (reg.as_vbase + reg.size) % W32 ∧
      defineLowAs.as_heapEnd = (reg.as_vbase + reg.size) % W32 ∧
      (reg.as_vbase + reg.size < W32 →
        defineLowAs.as_heapStart = reg.as_vbase + reg.size ∧
        defineLowAs.as_heapEnd = reg.as_vbase + reg.size) ∧
      defineLowAs.as_stack = as2.as_stack ∧ defineLowAs.as_pte = as2.as_pte :=
  ⟨rfl, by decide, by decide, by decide, by decide, by decide,
    define_region_postcondition kern0 defineLow.1 as2 defineLowAs 0x10234 0x1000 1 0 0 rfl⟩

/-- C26: load round trip.  For an address space built by `as_create` and any
number of successful `as_define_region` calls, `as_prepare_load` returns 0 and
`as_complete_load` on its result returns 0 with the address space exactly as it
was before `as_prepare_load`: every region has its base, size, `flags` and
`oldFlags` again. -/
theorem load_round_trip (k : Kernel) (a : addrspace) (hb : Built a) :
    ∃ a1, as_prepare_load (some a) = (some a1, 0) ∧
      as_complete_load k (some a1) = ({ k with tlb := [] }, some a, 0) :=
  load_bracket k a (built_flags a hb).1

/-- Witness for C26: the address space made by `as_create` and
`as_define_region(as, 0x400000, 0x1000, 1, 0, 1)` on the freshly booted
machine. -/
theorem load_round_trip_witness :
    Built stepAs1 ∧ stepAs1.as_regions = [⟨0x400000, 0x1000, 5, 5⟩] ∧
    ∃ a1, as_prepare_load (some stepAs1) = (some a1, 0) ∧
      as_complete_load stepDefine.1 (some a1)
        = ({ stepDefine.1 with tlb := [] }, some stepAs1, 0) :=
  have hb : Built stepAs1 :=
    Built.define stepAs0 stepAs1 (Built.create kern0 stepCreate.1 stepAs0 rfl)
      (Defines.mk stepCreate.1 stepDefine.1 stepAs0 stepAs1 0x400000 0x1000 1 0 1 rfl)
  ⟨hb, by decide, load_round_trip stepDefine.1 stepAs1 hb⟩

/-- C27: `as_prepare_load` on any address space returns 0; the region list
keeps its length, and the region at every position has write permission in
`flags`, the read and execute bits of `flags` it had, and its `oldFlags`, base
and size; heap bounds, stack top and page table are unchanged; a second
`as_prepare_load` changes nothing. -/
theorem prepare_load_forces_write (a : addrspace) :
    ∃ a1, as_prepare_load (some a) = (some a1, 0) ∧
      a1.as_regions.length = a.as_regions.length ∧
      (∀ (i : Nat) (r : region), a.as_regions[i]? = some r → ∃ r1 : region,
        a1.as_regions[i]? = some r1 ∧
        r1.flags &&& PF_W = PF_W ∧ r1.flags &&& PF_R = r.flags &&& PF_R ∧
        r1.flags &&& PF_X = r.flags &&& PF_X ∧ r1.oldFlags = r.oldFlags ∧
        r1.as_vbase = r.as_vbase ∧ r1.size = r.size) ∧
      a1.as_heapStart = a.as_heapStart ∧ a1.as_heapEnd = a.as_heapEnd ∧
      a1.as_stack = a.as_stack ∧ a1.as_pte = a.as_pte ∧
      as_prepare_load (some a1) = (some a1, 0) :=
  prepare_load_regions a

/-- Witness for C27: `as3`, whose regions have flags R, R+W and R+X; after
`as_prepare_load` they have R+W, R+W and R+W+X. -/
theorem prepare_load_forces_write_witness :
    as3.as_regions = [⟨0x600000, 0x1000, 4, 4⟩, ⟨0x500000, 0x2000, 6, 6⟩,
      ⟨0x400000, 0x1000, 5, 5⟩] ∧
    prepAs3.as_regions = [⟨0x600000, 0x1000, 6, 4⟩, ⟨0x500000, 0x2000, 6, 6⟩,
      ⟨0x400000, 0x1000, 7, 5⟩] ∧
    ∃ a1, as_prepare_load (some as3) = (some a1, 0) ∧
      a1.as_regions.length = as3.as_regions.length ∧
      (∀ (i : Nat) (r : region), as3.as_regions[i]? = some r → ∃ r1 : region,
        a1.as_regions[i]? = some r1 ∧
        r1.flags &&& PF_W = PF_W ∧ r1.flags &&& PF_R = r.flags &&& PF_R ∧
        r1.flags &&& PF_X = r.flags &&& PF_X ∧ r1.oldFlags = r.oldFlags ∧
        r1.as_vbase = r.as_vbase ∧ r1.size = r.size) ∧
      a1.as_heapStart = as3.as_heapStart ∧ a1.as_heapEnd = as3.as_heapEnd ∧
      a1.as_stack = as3.as_stack ∧ a1.as_pte = as3.as_pte ∧
      as_prepare_load (some a1) = (some a1, 0) :=
  ⟨by decide, by decide, prepare_load_forces_write as3⟩

/-! ## Invalidation of the TLB -/

theorem tlb_invalidate_below : ∀ (fuel i : Nat) (tlb : Nat → Nat × Nat) (x : Nat),
    x < i → tlb_invalidate tlb fuel i x = tlb x := by
  intro fuel
  induction fuel with
  | zero => intro i tlb x _; rfl
  | succ n ih =>
    intro i tlb x hx
    unfold tlb_invalidate
    rw [ih (i + 1) _ x (by omega)]
    exact Function.update_noteq (by omega) _ _

theorem tlb_invalidate_spec : ∀ (fuel i : Nat) (tlb : Nat → Nat × Nat) (x : Nat),
    (i ≤ x → x < i + fuel → tlb_invalidate tlb fuel i x = (TLBHI_INVALID x, TLBLO_INVALID)) ∧
    (i + fuel ≤ x → tlb_invalidate tlb fuel i x = tlb x) := by
  intro fuel
  induction fuel with
  | zero =>
    intro i tlb x
    exact ⟨fun h1 h2 => by omega, fun _ => rfl⟩
  | succ n ih =>
    intro i tlb x
    unfold tlb_invalidate
    refine ⟨fun h1 h2 => ?_, fun h1 => ?_⟩
    · by_cases hx : x = i
      · rw [hx, tlb_invalidate_below n (i + 1) _ i (by omega)]
        exact Function.update_same _ _ _
      · exact (ih (i + 1) _ x).1 (by omega) (by omega)
    · rw [(ih (i + 1) _ x).2 (by omega)]
      exact Function.update_noteq (by omega) _ _

theorem tlb_flush_slots (tlb : Nat → Nat × Nat) (a : addrspace) (i : Nat) (hi : i < NUM_TLB) :
    as_activate tlb (some a) i = (TLBHI_INVALID i, TLBLO_INVALID) ∧
    as_deactivate tlb (some a) i = (TLBHI_INVALID i, TLBLO_INVALID) ∧
    as_complete_load_tlb tlb (some a) i = (TLBHI_INVALID i, TLBLO_INVALID) ∧
    (as_activate tlb (some a) i).2 &&& TLBLO_VALID = 0 ∧
    (as_deactivate tlb (some a) i).2 &&& TLBLO_VALID = 0 ∧
    (as_complete_load_tlb tlb (some a) i).2 &&& TLBLO_VALID = 0 ∧
    as_activate tlb none = tlb ∧ as_deactivate tlb none = tlb := by
  have h := (tlb_invalidate_spec NUM_TLB 0 tlb i).1 (Nat.zero_le i) (by omega)
  have e1 : as_activate tlb (some a) i = (TLBHI_INVALID i, TLBLO_INVALID) := h
  have e2 : as_deactivate tlb (some a) i = (TLBHI_INVALID i, TLBLO_INVALID) := h
  have e3 : as_complete_load_tlb tlb (some a) i = (TLBHI_INVALID i, TLBLO_INVALID) := h
  have hz : TLBLO_INVALID &&& TLBLO_VALID = 0 := by decide
  refine ⟨e1, e2, e3, ?_, ?_, ?_, rfl, rfl⟩
  · rw [e1]; exact hz
  · rw [e2]; exact hz
  · rw [e3]; exact hz

/-- C28: full invalidation of the TLB.  For every TLB state and every slot
`i < NUM_TLB`: after `as_activate` or `as_deactivate` with a current address
space, and after `as_complete_load` on an address space, slot `i` holds the
pair `(TLBHI_INVALID(i), TLBLO_INVALID())`, whose valid bit is clear; when the
current process has no address space, `as_activate` and `as_deactivate` leave
the TLB as it is. -/
theorem tlb_full_invalidation (tlb : Nat → Nat × Nat) (a : addrspace) (i : Nat)
    (hi : i < NUM_TLB) :
    as_activate tlb (some a) i = (TLBHI_INVALID i, TLBLO_INVALID) ∧
    as_deactivate tlb (some a) i = (TLBHI_INVALID i, TLBLO_INVALID) ∧
    as_complete_load_tlb tlb (some a) i = (TLBHI_INVALID i, TLBLO_INVALID) ∧
    (as_activate tlb (some a) i).2 &&& TLBLO_VALID = 0 ∧
    (as_deactivate tlb (some a) i).2 &&& TLBLO_VALID = 0 ∧
    (as_complete_load_tlb tlb (some a) i).2 &&& TLBLO_VALID = 0 ∧
    as_activate tlb none = tlb ∧ as_deactivate tlb none = tlb :=
  tlb_flush_slots tlb a i hi

/-- Witness for C28: the last slot, 63, of a TLB whose slots all hold valid
translations; after `as_activate` on `as2` it holds (0x8003F000, 0). -/
theorem tlb_full_invalidation_witness :
    (63 : Nat) < NUM_TLB ∧ (tlbBusy 63).2 &&& TLBLO_VALID = TLBLO_VALID ∧
    TLBHI_INVALID 63 = 0x8003F000 ∧ TLBLO_INVALID = 0 ∧
    as_activate tlbBusy (some as2) 63 = (TLBHI_INVALID 63, TLBLO_INVALID) ∧
    (as_activate tlbBusy (some as2) 63).2 &&& TLBLO_VALID = 0 :=
  have h := tlb_full_invalidation tlbBusy as2 63 (by decide)
  ⟨by decide, by decide, by decide, rfl, h.1, h.2.2.2.1⟩

/-! ## The translation a successful fault installs -/

/-- The frame field of any entry is the physical address of the frame the
entry references. -/
theorem pte_frame_field (e : Nat) : e &&& PAGE_FRAME = pteFrame e * PAGE_SIZE := by
  have hlt : e &&& PAGE_FRAME < 4294967296 :=
    Nat.lt_of_le_of_lt Nat.and_le_right (by decide)
  have hal : (e &&& PAGE_FRAME) % 4096 = 0 := by
    have e1 : (e &&& PAGE_FRAME) % 4096 = (e &&& PAGE_FRAME) &&& (2 ^ 12 - 1) := by
      rw [Nat.and_pow_two_sub_one_eq_mod]
    have e2 : PAGE_FRAME &&& (2 ^ 12 - 1) = 0 := by decide
    rw [e1, Nat.and_assoc, e2, Nat.and_zero]
  unfold pteFrame frameOf KVADDR_TO_PADDR PADDR_TO_KVADDR PAGE_BITS PAGE_SIZE
  generalize e &&& PAGE_FRAME = q at hlt hal ⊢
  rw [Nat.shiftRight_eq_div_pow]
  unfold MIPS_KSEG0 W32
  omega

theorem fault_ensure_tlb (k : Kernel) (a : addrspace) (pd : PageDir) (fa : Nat) (r : region)
    (rs : List region) (hl : k.frames.last_frame ≤ 131072)
    (hreg : a.as_regions = r :: rs) (k1 : Kernel) (as1 : Option addrspace)
    (h : fault_ensure k a pd fa = Outcome.ok (k1, as1, 0)) :
    ∃ a1 e, as1 = some a1 ∧ k1.tlb = (fa &&& TLBHI_VPAGE, e) :: k.tlb ∧
      EntryOf a1 (fault_msb fa) (fault_lsb fa) e := by
  have hne : ENOMEM ≠ 0 := by decide
  have hdc := fault_dirty_cases r
  obtain ⟨f, va, ha⟩ := alloc_kpages_one_total k.frames
  cases hs : pd.slot (fault_msb fa) with
  | some t =>
    by_cases he : t.entry (fault_lsb fa) = 0
    · by_cases hva : va = 0
      · have hadd := vm_addPTE_fail k pd (fault_msb fa) (fault_lsb fa)
          (if r.flags &&& PF_W ≠ PF_W then 0 else TLBLO_DIRTY) t hs f va ha hva
        rw [fault_ensure_absent k a pd fa t r rs hreg hs he _ _ _ hadd] at h
        by_cases hsp : fa ≥ (r.as_vbase + r.size * PAGE_SIZE % W32) % W32 ∧ fa < r.as_vbase
        · rw [if_pos hsp] at h; cases h
        · rw [if_neg hsp, if_pos hne] at h
          simp only [Outcome.ok.injEq, Prod.mk.injEq] at h
          exact absurd h.2.2 hne
      · obtain ⟨k2, pd2, hadd, _, _, e3, _, e5, _⟩ := vm_addPTE_ok k pd (fault_msb fa)
          (fault_lsb fa) (if r.flags &&& PF_W ≠ PF_W then 0 else TLBLO_DIRTY) t hs f va ha hva
        obtain ⟨n1, _⟩ := new_entry_facts k.frames f va _ hl ha hva hdc
        rw [fault_ensure_absent k a pd fa t r rs hreg hs he _ _ _ hadd] at h
        by_cases hsp : fa ≥ (r.as_vbase + r.size * PAGE_SIZE % W32) % W32 ∧ fa < r.as_vbase
        · rw [if_pos hsp] at h; cases h
        · rw [if_neg hsp, if_neg (fun hc => hc rfl), fault_install_eq k2 a pd2 fa _ _ _ e5] at h
          simp only [Outcome.ok.injEq, Prod.mk.injEq] at h
          obtain ⟨hk, ha1, _⟩ := h
          refine ⟨_, _, ha1.symm, by rw [← hk, ← e3], pd2, _, rfl, fault_msb_lt fa,
            fault_lsb_lt fa, e5, rfl, ?_⟩
          have hu : (⟨t.addr, Function.update t.entry (fault_lsb fa)
              (new_entry va (if r.flags &&& PF_W ≠ PF_W then 0 else TLBLO_DIRTY))⟩ : PTable).entry
              (fault_lsb fa)
              = new_entry va (if r.flags &&& PF_W ≠ PF_W then 0 else TLBLO_DIRTY) :=
            Function.update_same _ _ _
          rw [hu]
          exact n1
    · rw [fault_ensure_present k a pd fa t hs he] at h
      simp only [Outcome.ok.injEq, Prod.mk.injEq] at h
      obtain ⟨hk, ha1, _⟩ := h
      exact ⟨_, _, ha1.symm, by rw [← hk], pd, t, rfl, fault_msb_lt fa, fault_lsb_lt fa, hs,
        rfl, he⟩
  | none =>
    by_cases hva : va = 0
    · have hinit := vm_initPT_fail k pd (fault_msb fa) f va ha hva
      rw [fault_ensure_init_fail k a pd fa hs _ _ _ hinit hne] at h
      simp only [Outcome.ok.injEq, Prod.mk.injEq] at h
      exact absurd h.2.2 hne
    · obtain ⟨ka, pd1, t1, hinit, i1, i2, i3, _, i5, _, i7, _⟩ :=
        vm_initPT_ok k pd (fault_msb fa) f va ha hva
      have hz : t1.entry (fault_lsb fa) = 0 := i7 _ (fault_lsb_lt fa)
      rw [← i1] at ha
      have hga : Grow k ka := alloc_grow k ka ka.frames va hl ha rfl (Or.inl i2)
      have hla : ka.frames.last_frame ≤ 131072 := by rw [hga.2.1]; exact hl
      obtain ⟨f2, va2, ha2⟩ := alloc_kpages_one_total ka.frames
      by_cases hva2 : va2 = 0
      · have hadd := vm_addPTE_fail ka pd1 (fault_msb fa) (fault_lsb fa)
          (if r.flags &&& PF_W ≠ PF_W then 0 else TLBLO_DIRTY) t1 i5 f2 va2 ha2 hva2
        rw [fault_ensure_no_table k a pd fa r rs hreg hs ka pd1 hinit t1 i5 hz _ _ _ hadd] at h
        by_cases hsp : fa ≥ (r.as_vbase + r.size * PAGE_SIZE % W32) % W32 ∧ fa < r.as_vbase
        · rw [if_pos hsp] at h; cases h
        · rw [if_neg hsp, if_pos hne] at h
          cases hrb : fault_rollback { ka with frames := f2 } pd1 (fault_msb fa) true with
          | panic e => rw [hrb] at h; cases h
          | diverge => rw [hrb] at h; cases h
          | ok k3 =>
            rw [hrb] at h
            simp only [Outcome.ok.injEq, Prod.mk.injEq] at h
            exact absurd h.2.2 hne
      · obtain ⟨k2, pd2, hadd, _, _, e3, _, e5, _⟩ := vm_addPTE_ok ka pd1 (fault_msb fa)
          (fault_lsb fa) (if r.flags &&& PF_W ≠ PF_W then 0 else TLBLO_DIRTY) t1 i5 f2 va2
          ha2 hva2
        obtain ⟨n1, _⟩ := new_entry_facts ka.frames f2 va2 _ hla ha2 hva2 hdc
        rw [fault_ensure_no_table k a pd fa r rs hreg hs ka pd1 hinit t1 i5 hz _ _ _ hadd] at h
        by_cases hsp : fa ≥ (r.as_vbase + r.size * PAGE_SIZE % W32) % W32 ∧ fa < r.as_vbase
        · rw [if_pos hsp] at h; cases h
        · rw [if_neg hsp, if_neg (fun hc => hc rfl), fault_install_eq k2 a pd2 fa _ _ _ e5] at h
          simp only [Outcome.ok.injEq, Prod.mk.injEq] at h
          obtain ⟨hk, ha1, _⟩ := h
          refine ⟨_, _, ha1.symm, by rw [← hk, ← i3, ← e3], pd2, _, rfl, fault_msb_lt fa,
            fault_lsb_lt fa, e5, rfl, ?_⟩
          have hu : (⟨t1.addr, Function.update t1.entry (fault_lsb fa)
              (new_entry va2 (if r.flags &&& PF_W ≠ PF_W then 0 else TLBLO_DIRTY))⟩ : PTable).entry
              (fault_lsb fa)
              = new_entry va2 (if r.flags &&& PF_W ≠ PF_W then 0 else TLBLO_DIRTY) :=
            Function.update_same _ _ _
          rw [hu]
          exact n1

/-- A fault that returns 0 had a current process and an address space. -/
theorem vm_fault_zero_args (k : Kernel) (curproc : Bool) (as as1 : Option addrspace)
    (faulttype : Int) (fa : Nat) (k1 : Kernel)
    (h : vm_fault k curproc as faulttype fa = Outcome.ok (k1, as1, 0)) :
    curproc = true ∧ ∃ a, as = some a := by
  have n1 : EFAULT ≠ 0 := by decide
  have n2 : EINVAL ≠ 0 := by decide
  unfold vm_fault at h
  generalize fa &&& PAGE_FRAME = x at h
  by_cases h1 : curproc = false
  · rw [if_pos h1] at h
    simp only [Outcome.ok.injEq, Prod.mk.injEq] at h
    exact absurd h.2.2 n1
  · rw [if_neg h1] at h
    refine ⟨by cases curproc; exact absurd rfl h1; rfl, ?_⟩
    by_cases h2 : fa = 0
    · rw [if_pos h2] at h
      simp only [Outcome.ok.injEq, Prod.mk.injEq] at h
      exact absurd h.2.2 n1
    · rw [if_neg h2] at h
      by_cases h3 : faulttype = VM_FAULT_READONLY
      · rw [if_pos h3] at h
        simp only [Outcome.ok.injEq, Prod.mk.injEq] at h
        exact absurd h.2.2 n1
      · rw [if_neg h3] at h
        by_cases h4 : faulttype ≠ VM_FAULT_READ ∧ faulttype ≠ VM_FAULT_WRITE
        · rw [if_pos h4] at h
          simp only [Outcome.ok.injEq, Prod.mk.injEq] at h
          exact absurd h.2.2 n2
        · cases as with
          | none =>
            rw [if_neg h4] at h
            simp only [Outcome.ok.injEq, Prod.mk.injEq] at h
            exact absurd h.2.2 n1
          | some a => exact ⟨a, rfl⟩

theorem vm_fault_tlb (k : Kernel) (curproc : Bool) (as as1 : Option addrspace)
    (faulttype : Int) (fa : Nat) (k1 : Kernel)
    (hl : k.frames.last_frame ≤ 131072) (hown : ∀ a, as = some a → Owned k a)
    (h : vm_fault k curproc as faulttype fa = Outcome.ok (k1, as1, 0)) :
    ∃ a1 e, as1 = some a1 ∧ k1.tlb = (fa &&& 0xFFFFF000, e) :: k.tlb ∧
      EntryOf a1 (fault_msb (fa &&& PAGE_FRAME)) (fault_lsb (fa &&& PAGE_FRAME)) e ∧
      e &&& TLBLO_VALID = TLBLO_VALID ∧ e &&& PAGE_FRAME = pteFrame e * PAGE_SIZE ∧
      (k1.frames.frame_table (pteFrame e)).allocated = true := by
  obtain ⟨hcp, a, has⟩ := vm_fault_zero_args k curproc as as1 faulttype fa k1 h
  rw [hcp, has] at h
  have hmask : (fa &&& PAGE_FRAME) &&& TLBHI_VPAGE = fa &&& 0xFFFFF000 := by
    rw [Nat.and_assoc]
    have : PAGE_FRAME &&& TLBHI_VPAGE = 0xFFFFF000 := by decide
    rw [this]
  rcases vm_fault_cases k a faulttype fa with hc | hc | ⟨pd, r, rs, hpd, hreg, hc⟩
  · rw [hc] at h
    simp only [Outcome.ok.injEq, Prod.mk.injEq] at h
    exact absurd h.2.2 (by decide)
  · rw [hc] at h
    simp only [Outcome.ok.injEq, Prod.mk.injEq] at h
    exact absurd h.2.2 (by decide)
  · have h2 := h
    rw [hc] at h2
    obtain ⟨a1, e, ha1, ht, hent⟩ := fault_ensure_tlb k a pd _ r rs hl hreg k1 as1 h2
    rw [ha1] at h
    obtain ⟨hg, hext⟩ := vm_fault_ext k a faulttype fa hl k1 a1 0 h (Or.inl rfl)
    rw [hmask] at ht
    refine ⟨a1, e, ha1, ht, hent, ?_, pte_frame_field e, ?_⟩
    · rcases hext _ _ _ hent with ho | ⟨_, _, hv, _⟩
      · exact (hown a has _ _ _ ho).1
      · exact hv
    · rcases hext _ _ _ hent with ho | ⟨_, _, _, hf⟩
      · exact ((hown a has).grow hg _ _ _ ho).2
      · rw [hf.2.2]

/-- The translation installed by a fault on a well-formed address space.  Let
the frame table have at most 131072 frames and let every present entry of the
faulting address space have the valid bit and reference an allocated frame
(the page-table invariant).  Whenever `vm_fault` returns 0, the log of pairs
handed to `tlb_random` has grown by exactly one pair; its entry-high is
`faultaddress & 0xFFFFF000`, its entry-low is the present page-table entry of
the faulting page, which has the valid bit set and whose frame field is the
physical address of a frame marked allocated.  For an entry that was present
before the fault the last part rests on the invariant. -/
theorem fault_installs_translation (k : Kernel) (curproc : Bool) (as as1 : Option addrspace)
    (faulttype : Int) (fa : Nat) (k1 : Kernel)
    (hl : k.frames.last_frame ≤ 131072) (hown : ∀ a, as = some a → Owned k a)
    (h : vm_fault k curproc as faulttype fa = Outcome.ok (k1, as1, 0)) :
    ∃ a1 e, as1 = some a1 ∧ k1.tlb = (fa &&& 0xFFFFF000, e) :: k.tlb ∧
      EntryOf a1 (fault_msb (fa &&& PAGE_FRAME)) (fault_lsb (fa &&& PAGE_FRAME)) e ∧
      e &&& TLBLO_VALID = TLBLO_VALID ∧ e &&& PAGE_FRAME = pteFrame e * PAGE_SIZE ∧
      (k1.frames.frame_table (pteFrame e)).allocated = true :=
  vm_fault_tlb k curproc as as1 faulttype fa k1 hl hown h

theorem owned_as2 (k : Kernel) : Owned k as2 := by
  rintro i j e ⟨pd, t, h1, _, _, h2, _⟩
  have hp : pd = ⟨0x80004000, fun _ => none⟩ := by
    have : as2.as_pte = some ⟨0x80004000, fun _ => none⟩ := rfl
    rw [this] at h1
    exact (Option.some.inj h1).symm
  rw [hp] at h2
  cases h2

/-- Example for `fault_installs_translation`: the read fault at 0x400123 on
`as2` (no page resident) on the freshly booted machine; the pair
(0x400000, 0x6600) is installed (frame 6, valid, and dirty because the head
region of `as2` is writable). -/
theorem fault_installs_translation_witness :
    kern0.frames.last_frame ≤ 131072 ∧ Owned kern0 as2 ∧
    vm_fault kern0 true (some as2) VM_FAULT_READ 0x400123
      = Outcome.ok (faultText.1, faultText.2.1, 0) ∧
    faultText.1.tlb = [(0x400000, 0x6600)] ∧
    ∃ a1 e, faultText.2.1 = some a1 ∧
      faultText.1.tlb = (0x400123 &&& 0xFFFFF000, e) :: kern0.tlb ∧
      EntryOf a1 (fault_msb (0x400123 &&& PAGE_FRAME)) (fault_lsb (0x400123 &&& PAGE_FRAME)) e ∧
      e &&& TLBLO_VALID = TLBLO_VALID ∧ e &&& PAGE_FRAME = pteFrame e * PAGE_SIZE ∧
      (faultText.1.frames.frame_table (pteFrame e)).allocated = true :=
  ⟨by decide, owned_as2 kern0, rfl, by decide,
    fault_installs_translation kern0 true (some as2) faultText.2.1 VM_FAULT_READ 0x400123
      faultText.1 (by decide)
      (fun a ha => by rw [← Option.some.inj ha]; exact owned_as2 kern0) rfl⟩

/-! ## Read-only regions after the load -/

/-- C22: the writable translation made during the load is installed again
after it.  On the freshly booted machine: `as_create`, then
`as_define_region(as, 0x400000, 0x1000, 1, 0, 1)` (text, not writable), then
`as_prepare_load`, a write fault at 0x400000 that maps the page with the entry
0x7600 (frame 7, dirty, valid), then `as_complete_load`, which restores the
region flags to R+X and empties the TLB but leaves the page-table entry as it
is.  A later read fault at 0x400000 and a later write fault at 0x400abc both
return 0 and install the pair (0x400000, 0x7600), whose dirty bit is set. -/
theorem load_translation_stays_writable :
    stepAs1.as_regions = [⟨0x400000, 0x1000, 5, 5⟩] ∧ 5 &&& PF_W = 0 ∧
    loadPrep.2 = 0 ∧ loadAs1.as_regions = [⟨0x400000, 0x1000, 7, 5⟩] ∧
    vm_fault stepDefine.1 true (some loadAs1) VM_FAULT_WRITE 0x400000
      = Outcome.ok (loadFault.1, some loadAs2, 0) ∧
    entryAt (some loadAs2) (fault_msb 0x400000) (fault_lsb 0x400000) = some 0x7600 ∧
    loadDone.2.2 = 0 ∧ loadDone.2.1.map addrspace.as_regions = some [⟨0x400000, 0x1000, 5, 5⟩] ∧
    loadDone.1.tlb = [] ∧
    entryAt (some loadAs3) (fault_msb 0x400000) (fault_lsb 0x400000) = some 0x7600 ∧
    vm_fault loadDone.1 true (some loadAs3) VM_FAULT_READ 0x400000
      = Outcome.ok (laterRead.1, laterRead.2.1, 0) ∧
    laterRead.1.tlb = [(0x400000, 0x7600)] ∧
    vm_fault loadDone.1 true (some loadAs3) VM_FAULT_WRITE 0x400abc
      = Outcome.ok (laterWrite.1, laterWrite.2.1, 0) ∧
    laterWrite.1.tlb = [(0x400000, 0x7600)] ∧
    0x7600 &&& TLBLO_DIRTY = TLBLO_DIRTY ∧ TLBLO_DIRTY ≠ 0 :=
  ⟨by decide, by decide, rfl, by decide, rfl, by decide, rfl, by decide, rfl, by decide, rfl,
    by decide, rfl, by decide, by decide, by decide⟩

/-! ## Faults that pass region location -/

/-- A read or write fault at a non-zero address that passes region location
goes on to the mapping part of `vm_fault`. -/
theorem vm_fault_located (k : Kernel) (a : addrspace) (pd : PageDir) (r : region)
    (rs : List region) (faulttype : Int) (fa : Nat)
    (hft : faulttype = VM_FAULT_READ ∨ faulttype = VM_FAULT_WRITE) (ha0 : fa ≠ 0)
    (hpd : a.as_pte = some pd) (hreg : a.as_regions = r :: rs)
    (hloc : (region_scan (fa &&& PAGE_FRAME) a.as_regions).isNone = false ∨
      in_stack_window a.as_stack (fa &&& PAGE_FRAME) = true) :
    vm_fault k true (some a) faulttype fa = fault_ensure k a pd (fa &&& PAGE_FRAME) := by
  unfold vm_fault
  generalize fa &&& PAGE_FRAME = x at hloc ⊢
  have e1 : ¬ faulttype = VM_FAULT_READONLY := by
    rcases hft with h | h <;> rw [h] <;> decide
  have e2 : ¬ (faulttype ≠ VM_FAULT_READ ∧ faulttype ≠ VM_FAULT_WRITE) := by
    rcases hft with h | h
    · exact fun hc => hc.1 h
    · exact fun hc => hc.2 h
  rw [if_neg (by decide), if_neg ha0, if_neg e1, if_neg e2]
  rw [hreg] at hloc
  simp only [hreg, hpd]
  rw [if_neg]
  rintro ⟨c1, c2⟩
  rcases hloc with h | h
  · rw [c1] at h; cases h
  · rw [c2] at h; cases h

theorem addrspace_same_pte (a : addrspace) (pd : PageDir) (hpd : a.as_pte = some pd) :
    ({ a with as_pte := some pd } : addrspace) = a := by
  cases a with
  | mk h1 h2 s rg p =>
    simp only at hpd
    rw [hpd]

theorem fault_present_again (k : Kernel) (a : addrspace) (pd : PageDir) (r : region)
    (rs : List region) (t : PTable) (faulttype : Int) (fa : Nat)
    (hft : faulttype = VM_FAULT_READ ∨ faulttype = VM_FAULT_WRITE) (ha0 : fa ≠ 0)
    (hpd : a.as_pte = some pd) (hreg : a.as_regions = r :: rs)
    (hloc : (region_scan (fa &&& PAGE_FRAME) a.as_regions).isNone = false ∨
      in_stack_window a.as_stack (fa &&& PAGE_FRAME) = true)
    (ht : pd.slot (fault_msb (fa &&& PAGE_FRAME)) = some t)
    (he : t.entry (fault_lsb (fa &&& PAGE_FRAME)) ≠ 0) :
    vm_fault k true (some a) faulttype fa =
      Outcome.ok ({ k with tlb := (fa &&& 0xFFFFF000, t.entry (fault_lsb (fa &&& PAGE_FRAME)))
        :: k.tlb }, some a, 0) := by
  rw [vm_fault_located k a pd r rs faulttype fa hft ha0 hpd hreg hloc,
    fault_ensure_present k a pd _ t ht he, addrspace_same_pte a pd hpd]
  have hmask : (fa &&& PAGE_FRAME) &&& TLBHI_VPAGE = fa &&& 0xFFFFF000 := by
    rw [Nat.and_assoc]
    have : PAGE_FRAME &&& TLBHI_VPAGE = 0xFFFFF000 := by decide
    rw [this]
  rw [hmask]

/-- C31: fault idempotence.  A read or write fault at a non-zero address that
passes region location (its page is in a region or in the stack window) and
whose page-table entry is present returns 0; the kernel state is what it was
except that the pair (`faultaddress & 0xFFFFF000`, the recorded entry) has
been handed to `tlb_random`, so no frame and no table is allocated and the
frame table is unchanged; the address space, page table included, is
unchanged. -/
theorem fault_idempotent (k : Kernel) (a : addrspace) (pd : PageDir) (r : region)
    (rs : List region) (t : PTable) (faulttype : Int) (fa : Nat)
    (hft : faulttype = VM_FAULT_READ ∨ faulttype = VM_FAULT_WRITE) (ha0 : fa ≠ 0)
    (hpd : a.as_pte = some pd) (hreg : a.as_regions = r :: rs)
    (hloc : (region_scan (fa &&& PAGE_FRAME) a.as_regions).isNone = false ∨
      in_stack_window a.as_stack (fa &&& PAGE_FRAME) = true)
    (ht : pd.slot (fault_msb (fa &&& PAGE_FRAME)) = some t)
    (he : t.entry (fault_lsb (fa &&& PAGE_FRAME)) ≠ 0) :
    vm_fault k true (some a) faulttype fa =
      Outcome.ok ({ k with tlb := (fa &&& 0xFFFFF000, t.entry (fault_lsb (fa &&& PAGE_FRAME)))
        :: k.tlb }, some a, 0) :=
  fault_present_again k a pd r rs t faulttype fa hft ha0 hpd hreg hloc ht he

/-- Witness for C31: a read fault at 0x401234 on the parent address space,
whose page 0x401000 is resident with entry 0x8200. -/
theorem fault_idempotent_witness :
    (0x401234 : Nat) ≠ 0 ∧ parentAs.as_pte = some parentDir ∧
    (region_scan (0x401234 &&& PAGE_FRAME) parentAs.as_regions).isNone = false ∧
    parentDir.slot (fault_msb (0x401234 &&& PAGE_FRAME)) = some parentTable ∧
    parentTable.entry (fault_lsb (0x401234 &&& PAGE_FRAME)) = 0x8200 ∧
    vm_fault parentKernel true (some parentAs) VM_FAULT_READ 0x401234 =
      Outcome.ok ({ parentKernel with tlb :=
        (0x401234 &&& 0xFFFFF000, parentTable.entry (fault_lsb (0x401234 &&& PAGE_FRAME)))
          :: parentKernel.tlb }, some parentAs, 0) :=
  ⟨by decide, rfl, by decide, rfl, by decide,
    fault_idempotent parentKernel parentAs parentDir ⟨0x400000, 0x3000, 6, 6⟩ [] parentTable
      VM_FAULT_READ 0x401234 (Or.inl rfl) (by decide) rfl rfl (Or.inl (by decide)) rfl
      (by decide)⟩

/-! ## The mapping part of a fault: success, the stack window, the permission loop -/

/-- The mapping part of `vm_fault` returns 0 when the permission loop leaves
at the head region and the allocator has a free frame (two when the
second-level table is missing); an entry that had to be created takes its
dirty bit from the head region. -/
theorem fault_ensure_succeeds (k : Kernel) (a : addrspace) (pd : PageDir) (x : Nat)
    (r : region) (rs : List region)
    (h1 : 1 ≤ k.frames.first_frame) (hl : k.frames.last_frame ≤ 131072)
    (hreg : a.as_regions = r :: rs)
    (hsp : ¬ (x ≥ (r.as_vbase + r.size * PAGE_SIZE % W32) % W32 ∧ x < r.as_vbase))
    (hfree : ((∃ t, pd.slot (fault_msb x) = some t) ∧
        ∃ c, k.frames.first_frame ≤ c ∧ c < k.frames.last_frame ∧
          (k.frames.frame_table c).allocated = false) ∨
      ∃ c d, c ≠ d ∧ k.frames.first_frame ≤ c ∧ c < k.frames.last_frame ∧
        k.frames.first_frame ≤ d ∧ d < k.frames.last_frame ∧
        (k.frames.frame_table c).allocated = false ∧
        (k.frames.frame_table d).allocated = false) :
    ∃ k1 a1 pd1 t1, fault_ensure k a pd x = Outcome.ok (k1, some a1, 0) ∧
      a1.as_pte = some pd1 ∧ pd1.slot (fault_msb x) = some t1 ∧ t1.entry (fault_lsb x) ≠ 0 ∧
      ((∀ t, pd.slot (fault_msb x) = some t → t.entry (fault_lsb x) = 0) →
        t1.entry (fault_lsb x) &&& TLBLO_DIRTY
          = (if r.flags &&& PF_W ≠ PF_W then 0 else TLBLO_DIRTY)) := by
  have hdc := fault_dirty_cases r
  obtain ⟨f, va, hav, hzero, _, hsome⟩ := alloc_one_frame_first k.frames h1 hl
  have hone : ∃ c, k.frames.first_frame ≤ c ∧ c < k.frames.last_frame ∧
      (k.frames.frame_table c).allocated = false := by
    rcases hfree with ⟨_, c, c1, c2, c3⟩ | ⟨c, _, _, c1, c2, _, _, c3, _⟩
    · exact ⟨c, c1, c2, c3⟩
    · exact ⟨c, c1, c2, c3⟩
  have hva : va ≠ 0 := by
    intro hc
    obtain ⟨c, c1, c2, c3⟩ := hone
    have := hzero.1 hc c c1 c2
    rw [c3] at this
    cases this
  cases hs : pd.slot (fault_msb x) with
  | some t =>
    by_cases he : t.entry (fault_lsb x) = 0
    · obtain ⟨k2, pd2, hadd, _, _, _, _, e5, _⟩ := vm_addPTE_ok k pd (fault_msb x)
        (fault_lsb x) (if r.flags &&& PF_W ≠ PF_W then 0 else TLBLO_DIRTY) t hs f va hav hva
      obtain ⟨n1, _, n3, _⟩ := new_entry_facts k.frames f va _ hl hav hva hdc
      have hu : (⟨t.addr, Function.update t.entry (fault_lsb x)
          (new_entry va (if r.flags &&& PF_W ≠ PF_W then 0 else TLBLO_DIRTY))⟩ : PTable).entry
          (fault_lsb x)
          = new_entry va (if r.flags &&& PF_W ≠ PF_W then 0 else TLBLO_DIRTY) :=
        Function.update_same _ _ _
      have heq := fault_ensure_absent k a pd x t r rs hreg hs he _ _ _ hadd
      rw [if_neg hsp, if_neg (fun hc => hc rfl), fault_install_eq k2 a pd2 x _ _ _ e5] at heq
      refine ⟨_, _, pd2, _, heq, rfl, e5, ?_, fun _ => ?_⟩
      · rw [hu]; exact n1
      · rw [hu]; exact n3
    · exact ⟨_, _, pd, t, fault_ensure_present k a pd x t hs he, rfl, hs, he,
        fun hz => absurd (hz t rfl) he⟩
  | none =>
    obtain ⟨ka, pd1, t1, hinit, i1, i2, _, _, i5, _, i7, _⟩ :=
      vm_initPT_ok k pd (fault_msb x) f va hav hva
    obtain ⟨i, _, _, _, hi3, _, hi5, hi6, hi7, hi8⟩ := hsome hva
    have htwo : ∃ c, f.first_frame ≤ c ∧ c < f.last_frame ∧
        (f.frame_table c).allocated = false := by
      rcases hfree with ⟨⟨t, ht⟩, _⟩ | ⟨c, d, hcd, c1, c2, d1, d2, c3, d3⟩
      · rw [hs] at ht; cases ht
      · by_cases hci : c = i
        · exact ⟨d, by omega, by omega, by rw [hi6 d (by omega)]; exact d3⟩
        · exact ⟨c, by omega, by omega, by rw [hi6 c hci]; exact c3⟩
    rw [← i1] at htwo hi7 hi8
    obtain ⟨f2, va2, hav2, hzero2, _, _⟩ :=
      alloc_one_frame_first ka.frames (by omega) (by omega)
    have hva2 : va2 ≠ 0 := by
      intro hc
      obtain ⟨c, c1, c2, c3⟩ := htwo
      have := hzero2.1 hc c c1 c2
      rw [c3] at this
      cases this
    obtain ⟨k2, pd2, hadd, _, _, _, _, e5, _⟩ := vm_addPTE_ok ka pd1 (fault_msb x)
      (fault_lsb x) (if r.flags &&& PF_W ≠ PF_W then 0 else TLBLO_DIRTY) t1 i5 f2 va2 hav2 hva2
    obtain ⟨n1, _, n3, _⟩ := new_entry_facts ka.frames f2 va2 _ (by omega) hav2 hva2 hdc
    have hu : (⟨t1.addr, Function.update t1.entry (fault_lsb x)
        (new_entry va2 (if r.flags &&& PF_W ≠ PF_W then 0 else TLBLO_DIRTY))⟩ : PTable).entry
        (fault_lsb x)
        = new_entry va2 (if r.flags &&& PF_W ≠ PF_W then 0 else TLBLO_DIRTY) :=
      Function.update_same _ _ _
    have heq := fault_ensure_no_table k a pd x r rs hreg hs ka pd1 hinit t1 i5
      (i7 _ (fault_lsb_lt x)) _ _ _ hadd
    rw [if_neg hsp, if_neg (fun hc => hc rfl), fault_install_eq k2 a pd2 x _ _ _ e5] at heq
    refine ⟨_, _, pd2, _, heq, rfl, e5, ?_, fun _ => ?_⟩
    · rw [hu]; exact n1
    · rw [hu]; exact n3

theorem stack_fault_success (k : Kernel) (a : addrspace) (pd : PageDir) (r : region)
    (rs : List region) (faulttype : Int) (fa : Nat)
    (h1 : 1 ≤ k.frames.first_frame) (hl : k.frames.last_frame ≤ 131072)
    (hft : faulttype = VM_FAULT_READ ∨ faulttype = VM_FAULT_WRITE) (ha0 : fa ≠ 0)
    (hpd : a.as_pte = some pd) (hreg : a.as_regions = r :: rs)
    (hwin : in_stack_window a.as_stack (fa &&& PAGE_FRAME) = true)
    (hsp : ¬ ((fa &&& PAGE_FRAME) ≥ (r.as_vbase + r.size * PAGE_SIZE % W32) % W32 ∧
      (fa &&& PAGE_FRAME) < r.as_vbase))
    (hfree : ((∃ t, pd.slot (fault_msb (fa &&& PAGE_FRAME)) = some t) ∧
        ∃ c, k.frames.first_frame ≤ c ∧ c < k.frames.last_frame ∧
          (k.frames.frame_table c).allocated = false) ∨
      ∃ c d, c ≠ d ∧ k.frames.first_frame ≤ c ∧ c < k.frames.last_frame ∧
        k.frames.first_frame ≤ d ∧ d < k.frames.last_frame ∧
        (k.frames.frame_table c).allocated = false ∧
        (k.frames.frame_table d).allocated = false) :
    ∃ k1 a1 pd1 t1, vm_fault k true (some a) faulttype fa = Outcome.ok (k1, some a1, 0) ∧
      a1.as_pte = some pd1 ∧ pd1.slot (fault_msb (fa &&& PAGE_FRAME)) = some t1 ∧
      t1.entry (fault_lsb (fa &&& PAGE_FRAME)) ≠ 0 := by
  rw [vm_fault_located k a pd r rs faulttype fa hft ha0 hpd hreg (Or.inr hwin)]
  obtain ⟨k1, a1, pd1, t1, e1, e2, e3, e4, _⟩ :=
    fault_ensure_succeeds k a pd _ r rs h1 hl hreg hsp hfree
  exact ⟨k1, a1, pd1, t1, e1, e2, e3, e4⟩

/-- C32 (as amended): a fault in the stack window needs no region of its own,
but the address space must have a region.  For an address space with a page
directory and a non-empty region list, a read or write fault at a non-zero
address whose page is inside the window `vm_fault` tests passes region
location; when the permission loop leaves at the head region and the allocator
has a free frame (two if the second-level table of the page is missing),
`vm_fault` returns 0 and the entry of the page is present. -/
theorem stack_fault_serviced (k : Kernel) (a : addrspace) (pd : PageDir) (r : region)
    (rs : List region) (faulttype : Int) (fa : Nat)
    (h1 : 1 ≤ k.frames.first_frame) (hl : k.frames.last_frame ≤ 131072)
    (hft : faulttype = VM_FAULT_READ ∨ faulttype = VM_FAULT_WRITE) (ha0 : fa ≠ 0)
    (hpd : a.as_pte = some pd) (hreg : a.as_regions = r :: rs)
    (hwin : in_stack_window a.as_stack (fa &&& PAGE_FRAME) = true)
    (hsp : ¬ ((fa &&& PAGE_FRAME) ≥ (r.as_vbase + r.size * PAGE_SIZE % W32) % W32 ∧
      (fa &&& PAGE_FRAME) < r.as_vbase))
    (hfree : ((∃ t, pd.slot (fault_msb (fa &&& PAGE_FRAME)) = some t) ∧
        ∃ c, k.frames.first_frame ≤ c ∧ c < k.frames.last_frame ∧
          (k.frames.frame_table c).allocated = false) ∨
      ∃ c d, c ≠ d ∧ k.frames.first_frame ≤ c ∧ c < k.frames.last_frame ∧
        k.frames.first_frame ≤ d ∧ d < k.frames.last_frame ∧
        (k.frames.frame_table c).allocated = false ∧
        (k.frames.frame_table d).allocated = false) :
    ∃ k1 a1 pd1 t1, vm_fault k true (some a) faulttype fa = Outcome.ok (k1, some a1, 0) ∧
      a1.as_pte = some pd1 ∧ pd1.slot (fault_msb (fa &&& PAGE_FRAME)) = some t1 ∧
      t1.entry (fault_lsb (fa &&& PAGE_FRAME)) ≠ 0 :=
  stack_fault_success k a pd r rs faulttype fa h1 hl hft ha0 hpd hreg hwin hsp hfree

/-- Witness for C32 (as amended): write fault at 0x7FFFFFF0 on `as2` on the
freshly booted machine, where frames 5 and 6 are free; no region of `as2`
contains the page. -/
theorem stack_fault_serviced_witness :
    1 ≤ kern0.frames.first_frame ∧ kern0.frames.last_frame ≤ 131072 ∧
    (0x7FFFFFF0 : Nat) ≠ 0 ∧ as2.as_regions = regData :: [regText] ∧
    region_scan (0x7FFFFFF0 &&& PAGE_FRAME) as2.as_regions = none ∧
    in_stack_window as2.as_stack (0x7FFFFFF0 &&& PAGE_FRAME) = true ∧
    (kern0.frames.frame_table 5).allocated = false ∧
    (kern0.frames.frame_table 6).allocated = false ∧
    vm_fault kern0 true (some as2) VM_FAULT_WRITE 0x7FFFFFF0
      = Outcome.ok (faultStack.1, faultStack.2.1, 0) ∧
    ∃ k1 a1 pd1 t1, vm_fault kern0 true (some as2) VM_FAULT_WRITE 0x7FFFFFF0
        = Outcome.ok (k1, some a1, 0) ∧
      a1.as_pte = some pd1 ∧ pd1.slot (fault_msb (0x7FFFFFF0 &&& PAGE_FRAME)) = some t1 ∧
      t1.entry (fault_lsb (0x7FFFFFF0 &&& PAGE_FRAME)) ≠ 0 :=
  ⟨by decide, by decide, by decide, rfl, by decide, by decide, by decide, by decide, rfl,
    stack_fault_serviced kern0 as2 ⟨0x80004000, fun _ => none⟩ regData [regText]
      VM_FAULT_WRITE 0x7FFFFFF0 (by decide) (by decide) (Or.inr rfl) (by decide) rfl rfl
      (by decide) (by decide)
      (Or.inr ⟨5, 6, by decide, by decide, by decide, by decide, by decide, by decide,
        by decide⟩)⟩

/-- Counterexample to C32 as stated: on the freshly booted machine (frames 5
and 6 free), a write fault at 0x7FFFFFF0, inside the stack window, on an
address space whose region list is empty returns `EFAULT`; nothing is
changed. -/
theorem stack_fault_without_region :
    asEmpty.as_regions = [] ∧
    in_stack_window asEmpty.as_stack (0x7FFFFFF0 &&& PAGE_FRAME) = true ∧
    (kern0.frames.frame_table 5).allocated = false ∧
    (kern0.frames.frame_table 6).allocated = false ∧
    vm_fault kern0 true (some asEmpty) VM_FAULT_WRITE 0x7FFFFFF0
      = Outcome.ok (kern0, some asEmpty, EFAULT) ∧ EFAULT ≠ 0 :=
  ⟨rfl, by decide, by decide, by decide, rfl, by decide⟩

/-- C34: the lowest of the sixteen pages below the stack top is rejected.  On
`as2` (stack top 0x80000000, so the sixteen pages start at 0x7FFF0000, and no
region near them), read faults at 0x7FFF0000 and at 0x7FFF0FFF return
`EFAULT` and change nothing: the page-aligned address equals
`as_stack - 16 * PAGE_SIZE` and the test is the strict
`faultaddress > as->as_stack - stack_size`.  A read fault at 0x7FFF1000, in
the next page, returns 0. -/
theorem stack_window_misses_lowest_page :
    as2.as_stack - 16 * PAGE_SIZE = 0x7FFF0000 ∧
    region_scan (0x7FFF0000 &&& PAGE_FRAME) as2.as_regions = none ∧
    region_scan (0x7FFF0FFF &&& PAGE_FRAME) as2.as_regions = none ∧
    in_stack_window as2.as_stack (0x7FFF0000 &&& PAGE_FRAME) = false ∧
    vm_fault kern0 true (some as2) VM_FAULT_READ 0x7FFF0000
      = Outcome.ok (kern0, some as2, EFAULT) ∧
    vm_fault kern0 true (some as2) VM_FAULT_READ 0x7FFF0FFF
      = Outcome.ok (kern0, some as2, EFAULT) ∧
    vm_fault kern0 true (some as2) VM_FAULT_READ 0x7FFF1000
      = Outcome.ok (faultWindowLow.1, faultWindowLow.2.1, 0) :=
  ⟨by decide, by decide, by decide, by decide, rfl, rfl, rfl⟩

/-- C37: a stack page is mapped read-only when the head region is not
writable.  On `asTextHead` (regions: text R+X at the head, then data R+W), a
write fault at 0x7FFFFFF0, in the stack window and in no region, with the page
unmapped, returns 0 and creates the entry 0x6200: frame 6, valid, dirty bit
clear.  The dirty value comes from the flags of the head of the region list;
the stack branch of region location holds only the comment `dirty`. -/
theorem stack_page_not_writable :
    asTextHead.as_regions = [regText, regData] ∧ regText.flags &&& PF_W = 0 ∧
    region_scan (0x7FFFFFF0 &&& PAGE_FRAME) asTextHead.as_regions = none ∧
    in_stack_window asTextHead.as_stack (0x7FFFFFF0 &&& PAGE_FRAME) = true ∧
    entryAt (some asTextHead) (fault_msb 0x7FFFF000) (fault_lsb 0x7FFFF000) = none ∧
    vm_fault kern0 true (some asTextHead) VM_FAULT_WRITE 0x7FFFFFF0
      = Outcome.ok (faultStackRo.1, faultStackRo.2.1, 0) ∧
    entryAt faultStackRo.2.1 (fault_msb 0x7FFFF000) (fault_lsb 0x7FFFF000) = some 0x6200 ∧
    0x6200 &&& TLBLO_DIRTY = 0 ∧
    faultStackRo.1.tlb = [(0x7FFFF000, 0x6200)] :=
  ⟨rfl, by decide, by decide, by decide, by decide, rfl, by decide, by decide, by decide⟩

/-- C38: the permission loop of `vm_fault` can spin for ever.  On `asSpin`
(head region at 0x10000000 of 255 pages, then a one-page region at
0x0F800000), a write fault at 0x0F800000 is located in the second region; its
page is unmapped, so the permission loop starts at the head region, for which
`as_vbase + size * PAGE_SIZE` wraps to 0x0F000000; the test
`faultaddress >= 0x0F000000 && faultaddress < 0x10000000` holds and the
`continue` repeats it on the same node: `vm_fault` does not return. -/
theorem permission_loop_spins :
    asSpin.as_regions = [regBig, regSmall] ∧
    region_scan (0x0F800000 &&& PAGE_FRAME) asSpin.as_regions = some regSmall ∧
    (regBig.as_vbase + regBig.size * PAGE_SIZE % W32) % W32 = 0x0F000000 ∧
    ((0x0F800000 : Nat) ≥ (regBig.as_vbase + regBig.size * PAGE_SIZE % W32) % W32 ∧
      0x0F800000 < regBig.as_vbase) ∧
    vm_fault kern0 true (some asSpin) VM_FAULT_WRITE 0x0F800000 = Outcome.diverge :=
  ⟨rfl, by decide, by decide, by decide, rfl⟩

/-! ## Regions are not checked for overlap -/

theorem define_region_code (k : Kernel) (a : addrspace) (vaddr memsize : Nat) (r w x : Int) :
    (as_define_region k (some a) vaddr memsize r w x).2.2
      = (if (vaddr + memsize) % W32 ≥ a.as_stack ∨ k.heap = 0 then ENOMEM else 0) := by
  unfold as_define_region
  simp only
  by_cases hc : (vaddr + memsize) % W32 ≥ a.as_stack
  · rw [if_pos hc, if_pos (Or.inl hc)]
  · rw [if_neg hc]
    unfold kmalloc_small
    by_cases hh : k.heap = 0
    · rw [if_pos hh, if_pos (Or.inr hh)]
    · rw [if_neg hh, if_neg (not_or.mpr ⟨hc, hh⟩)]

theorem define_region_accepts (k : Kernel) (a : addrspace) (vaddr memsize : Nat) (r w x : Int)
    (h : (as_define_region k (some a) vaddr memsize r w x).2.2 = 0) :
    ∃ a1 reg, (as_define_region k (some a) vaddr memsize r w x).2.1 = some a1 ∧
      a1.as_regions = reg :: a.as_regions ∧ reg.as_vbase = vaddr &&& PAGE_FRAME := by
  rw [define_region_code] at h
  by_cases hc : (vaddr + memsize) % W32 ≥ a.as_stack ∨ k.heap = 0
  · rw [if_pos hc] at h
    exact absurd h (by decide)
  · obtain ⟨h1, h2⟩ := not_or.mp hc
    unfold as_define_region kmalloc_small
    simp only
    rw [if_neg h1, if_neg h2]
    exact ⟨_, _, rfl, rfl, rfl⟩

/-- C33: `as_define_region` does not look at the regions already defined.  Its
result code is `ENOMEM` when the 32-bit sum `vaddr + memsize` is at or above
the stack top or the heap has no node left, and 0 otherwise, so it is the same
on any two address spaces with the same stack top; when it is 0 the new
region is put in front of the region list, which is kept whole, whether or not
the ranges overlap. -/
theorem define_region_no_overlap_check (k : Kernel) (a : addrspace) (vaddr memsize : Nat)
    (r w x : Int) :
    (as_define_region k (some a) vaddr memsize r w x).2.2
      = (if (vaddr + memsize) % W32 ≥ a.as_stack ∨ k.heap = 0 then ENOMEM else 0) ∧
    (∀ b : addrspace, b.as_stack = a.as_stack →
      (as_define_region k (some b) vaddr memsize r w x).2.2
        = (as_define_region k (some a) vaddr memsize r w x).2.2) ∧
    ((as_define_region k (some a) vaddr memsize r w x).2.2 = 0 →
      ∃ a1 reg, (as_define_region k (some a) vaddr memsize r w x).2.1 = some a1 ∧
        a1.as_regions = reg :: a.as_regions ∧ reg.as_vbase = vaddr &&& PAGE_FRAME) :=
  ⟨define_region_code k a vaddr memsize r w x,
    fun b hb => by rw [define_region_code, define_region_code, hb],
    define_region_accepts k a vaddr memsize r w x⟩

/-- Witness for C33: on `as2`, whose text region is (0x400000, 0x1000), the
request (0x400800, 0x1000) is accepted; the list then holds the new region
(0x400000, 0x2000) and the text region it overlaps. -/
theorem define_region_no_overlap_check_witness :
    defineOverlap.2.2 = 0 ∧
    defineOverlap.2.1.map addrspace.as_regions
      = some [⟨0x400000, 0x2000, 6, 6⟩, regData, regText] ∧
    (regText.as_vbase = 0x400000 ∧ regText.size = 0x1000) ∧
    ((as_define_region kern0 (some as2) 0x400800 0x1000 1 1 0).2.2 = 0 →
      ∃ a1 reg, (as_define_region kern0 (some as2) 0x400800 0x1000 1 1 0).2.1 = some a1 ∧
        a1.as_regions = reg :: as2.as_regions ∧ reg.as_vbase = 0x400800 &&& PAGE_FRAME) :=
  ⟨by decide, by decide, by decide,
    (define_region_no_overlap_check kern0 as2 0x400800 0x1000 1 1 0).2.2⟩

/-! ## Page-table indices -/

/-- The two indices `vm_fault` computes, in terms of the faulting address. -/
theorem fault_index_bits (v : Nat) :
    fault_msb v = (v / 4194304 + 512) % 1024 ∧ fault_lsb v = v / 4096 % 1024 := by
  unfold fault_msb fault_lsb KVADDR_TO_PADDR MIPS_KSEG0
  rw [Nat.shiftRight_eq_div_pow, Nat.shiftRight_eq_div_pow, Nat.shiftLeft_eq]
  unfold W32
  omega

theorem fault_msb_flipped (v : Nat) : fault_msb v ≠ v >>> 22 := by
  rw [(fault_index_bits v).1, Nat.shiftRight_eq_div_pow]
  omega

theorem fault_lsb_field (v : Nat) : fault_lsb v = (v >>> 12) &&& 0x3FF := by
  rw [(fault_index_bits v).2, Nat.shiftRight_eq_div_pow]
  have e : (0x3FF : Nat) = 2 ^ 10 - 1 := by decide
  rw [e, Nat.and_pow_two_sub_one_eq_mod]

/-- C35: the directory index is not bits 22..31 of the faulting address.  For
every address `v` the index `msb` that `vm_fault` computes is
`(v / 2^22 + 512) mod 1024` and differs from `v >> 22`: it is taken from
`KVADDR_TO_PADDR(v) = v - 0x80000000`, so its top bit is the complement of
bit 31 of `v`.  For 0x400000 it is 513 where `v >> 22` is 1, for 0x7FFFF000 it
is 1023 where `v >> 22` is 511.  The entry index `lsb` is bits 12..21 of
`v`. -/
theorem directory_index_top_bit_flipped (v : Nat) :
    fault_msb v = (v / 4194304 + 512) % 1024 ∧ fault_msb v ≠ v >>> 22 ∧
    fault_lsb v = (v >>> 12) &&& 0x3FF ∧
    fault_msb 0x400000 = 513 ∧ 0x400000 >>> 22 = 1 ∧
    fault_msb 0x7FFFF000 = 1023 ∧ 0x7FFFF000 >>> 22 = 511 :=
  ⟨(fault_index_bits v).1, fault_msb_flipped v, fault_lsb_field v, by decide, by decide,
    by decide, by decide⟩

theorem fault_index_inj (v1 v2 : Nat) (h1 : v1 < W32) (h2 : v2 < W32)
    (a1 : v1 % PAGE_SIZE = 0) (a2 : v2 % PAGE_SIZE = 0)
    (hm : fault_msb v1 = fault_msb v2) (hl : fault_lsb v1 = fault_lsb v2) : v1 = v2 := by
  rw [(fault_index_bits v1).1, (fault_index_bits v2).1] at hm
  rw [(fault_index_bits v1).2, (fault_index_bits v2).2] at hl
  unfold W32 at h1 h2
  unfold PAGE_SIZE at a1 a2
  omega

/-- C36: the indices of `vm_fault` stay inside the tables and separate pages.
For page-aligned 32-bit addresses `v1` and `v2`, with
`pbase = KVADDR_TO_PADDR(v)`, `msb = pbase >> 22` and `lsb = (pbase << 10) >> 22`
in 32 bits: both indices of both addresses are below `N_DESCRIPTORS`, and equal
index pairs come from equal addresses. -/
theorem fault_index_injective (v1 v2 : Nat) (h1 : v1 < W32) (h2 : v2 < W32)
    (a1 : v1 % PAGE_SIZE = 0) (a2 : v2 % PAGE_SIZE = 0) :
    fault_msb v1 < N_DESCRIPTORS ∧ fault_lsb v1 < N_DESCRIPTORS ∧
    fault_msb v2 < N_DESCRIPTORS ∧ fault_lsb v2 < N_DESCRIPTORS ∧
    (fault_msb v1 = fault_msb v2 → fault_lsb v1 = fault_lsb v2 → v1 = v2) :=
  ⟨fault_msb_lt v1, fault_lsb_lt v1, fault_msb_lt v2, fault_lsb_lt v2,
    fault_index_inj v1 v2 h1 h2 a1 a2⟩

/-- Witness for C36: the pages 0x400000 and 0x80400000, which differ in bit
31 only, get the directory indices 513 and 1. -/
theorem fault_index_injective_witness :
    (0x400000 : Nat) < W32 ∧ (0x80400000 : Nat) < W32 ∧
    0x400000 % PAGE_SIZE = 0 ∧ 0x80400000 % PAGE_SIZE = 0 ∧
    (fault_msb 0x400000, fault_lsb 0x400000) = (513, 0) ∧
    (fault_msb 0x80400000, fault_lsb 0x80400000) = (1, 0) ∧
    (fault_msb 0x400000 < N_DESCRIPTORS ∧ fault_lsb 0x400000 < N_DESCRIPTORS ∧
      fault_msb 0x80400000 < N_DESCRIPTORS ∧ fault_lsb 0x80400000 < N_DESCRIPTORS ∧
      (fault_msb 0x400000 = fault_msb 0x80400000 → fault_lsb 0x400000 = fault_lsb 0x80400000 →
        0x400000 = 0x80400000)) :=
  ⟨by decide, by decide, by decide, by decide, by decide, by decide,
    fault_index_injective 0x400000 0x80400000 (by decide) (by decide) (by decide) (by decide)⟩

/-! ## Requests for more frames than the machine has -/

/-- C39: `alloc_multiple_frames` leaves the frame table when `npages` exceeds
`last_frame`.  On the freshly booted 64 KB machine (`first_frame = 5`,
`last_frame = 16`, frames 5..15 free) with memory past the table reading as
zero, `alloc_multiple_frames(17)` computes the limit `last_frame - npages` as
`2^32 - 1`, counts the entries 5..21 as free, marks all seventeen allocated and
returns the physical address 0x5000: entries 16..21 lie past the end of the
table, and the result is not 0 although only 11 frames are managed. -/
theorem alloc_multiple_overruns_table :
    boot0.first_frame = 5 ∧ boot0.last_frame = 16 ∧
    (boot0.last_frame + (W32 - 17 % W32)) % W32 = 4294967295 ∧
    17 > boot0.last_frame - boot0.first_frame ∧
    alloc_multiple_frames boot0 17 = Outcome.ok (overRun.1, overRun.2) ∧
    overRun.2 = 0x5000 ∧
    (boot0.frame_table 16, boot0.frame_table 21) = (⟨false, false⟩, ⟨false, false⟩) ∧
    (overRun.1.frame_table 15, overRun.1.frame_table 16, overRun.1.frame_table 20,
      overRun.1.frame_table 21) = (⟨true, true⟩, ⟨true, true⟩, ⟨true, true⟩, ⟨true, false⟩) ∧
    overRun.1.last_frame = 16 :=
  ⟨by decide, by decide, by decide, by decide, rfl, by decide, by decide, by decide, by decide⟩

/-- C40: a successful `alloc_kpages` can hand out frames past `last_frame`.
The frame table `boot0` is what `ram_bootstrap` leaves on the 64 KB machine
(`first_frame = 5`, `last_frame = 16`); it is a reachable state.  There
`alloc_kpages(17)` returns the non-zero address 0x80005000, the kernel address
of frame 5, for the seventeen frames 5..21, of which 16..21 are not below
`last_frame`. -/
theorem alloc_kpages_past_last_frame :
    ram_bootstrap 65536 0x80004000 raw0 = Outcome.ok boot0 ∧
    Reach boot0 boot0 [] ∧
    boot0.first_frame = 5 ∧ boot0.last_frame = 16 ∧
    alloc_kpages boot0 17 = Outcome.ok (overAlloc.1, overAlloc.2) ∧
    overAlloc.2 = 0x80005000 ∧ overAlloc.2 = PADDR_TO_KVADDR (5 * PAGE_SIZE) ∧
    frameOf overAlloc.2 = 5 ∧
    ¬ (frameOf overAlloc.2 + 16 < boot0.last_frame) ∧
    overAlloc.1.frame_table (frameOf overAlloc.2 + 16) = ⟨true, false⟩ :=
  ⟨rfl, Reach.boot, by decide, by decide, rfl, by decide, by decide, by decide, by decide,
    by decide⟩

/-! ## Reuse after exhaustion with a block past the frame table -/

theorem packed_all_allocated (x : Nat) (h1 : packed.1.first_frame ≤ x)
    (h2 : x < packed.1.last_frame) : (packed.1.frame_table x).allocated = true := by
  have e1 : packed.1.first_frame = 5 := by decide
  have e2 : packed.1.last_frame = 16 := by decide
  rw [e1] at h1
  rw [e2] at h2
  have : x = 5 ∨ x = 6 ∨ x = 7 ∨ x = 8 ∨ x = 9 ∨ x = 10 ∨ x = 11 ∨ x = 12 ∨ x = 13 ∨ x = 14
      ∨ x = 15 := by omega
  rcases this with h | h | h | h | h | h | h | h | h | h | h <;> subst h <;> decide

/-- C18: reuse after exhaustion fails once a block past `last_frame` is live.
On the 64 KB machine (`first_frame = 5`, `last_frame = 16`) eleven
`alloc_kpages(1)` take the frames 5..15 and `alloc_kpages(17)` then returns
0x80010000 for the seventeen entries 16..32, all past the end of the frame
table.  In that state every frame of `[first_frame, last_frame)` is allocated,
`alloc_kpages(1)` returns 0 and 0x80010000 is a live allocation address, yet
after `free_kpages(0x80010000)` the call `alloc_kpages(1)` returns 0 again,
not 0x80010000: the scan of `alloc_one_frame` stops at `last_frame`. -/
theorem reuse_fails_past_last_frame :
    ram_bootstrap 65536 0x80004000 raw0 = Outcome.ok boot0 ∧
    alloc_seq [1, 1, 1, 1, 1, 1, 1, 1, 1, 1, 1, 17] boot0 = Outcome.ok (packed.1, packed.2) ∧
    packed.2 = [0x80005000, 0x80006000, 0x80007000, 0x80008000, 0x80009000, 0x8000a000,
      0x8000b000, 0x8000c000, 0x8000d000, 0x8000e000, 0x8000f000, 0x80010000] ∧
    (packed.1.first_frame = 5 ∧ packed.1.last_frame = 16) ∧
    (∀ x, packed.1.first_frame ≤ x → x < packed.1.last_frame →
      (packed.1.frame_table x).allocated = true) ∧
    alloc_kpages packed.1 1 = Outcome.ok (packed.1, 0) ∧
    (frameOf 0x80010000 = 16 ∧ packed.1.frame_table 16 = ⟨true, true⟩ ∧
      packed.1.frame_table 32 = ⟨true, false⟩) ∧
    free_kpages packed.1 0x80010000 = Outcome.ok packedFreed ∧
    ((packedFreed.frame_table 16).allocated = false ∧
      (packedFreed.frame_table 32).allocated = false) ∧
    alloc_kpages packedFreed 1 = Outcome.ok (packedFreed, 0) :=
  ⟨rfl, rfl, by decide, by decide, packed_all_allocated, rfl, by decide, rfl, by decide, rfl⟩

/-! ## Destruction after a fault that ran out of frames -/

theorem free_inner_zero (t : Nat → Nat) :
    ∀ (fuel j : Nat) (k : Kernel), (∀ y, j ≤ y → y < j + fuel → t y = 0) →
      vm_freePTE_inner t fuel j k = Outcome.ok k := by
  intro fuel
  induction fuel with
  | zero => intro j k _; rfl
  | succ n ih =>
    intro j k h
    unfold vm_freePTE_inner
    have h0 : vm_freePTE_entry k (t j) = Outcome.ok k := by
      unfold vm_freePTE_entry
      rw [if_neg (fun hc => hc (h j (by omega) (by omega)))]
    rw [h0]
    exact ih (j + 1) k (fun y h1 h2 => h y (by omega) (by omega))

theorem two_fault_shape :
    twoFault.2.1 = some ⟨0x401000, 0x401000, USERSTACK, [regText], some twoDir⟩ := rfl

theorem two_dir_table : twoDir.slot 513 = some twoTable := by
  unfold twoDir
  dsimp only
  exact Function.update_same _ _ _

theorem two_dir_others (x : Nat) (hx : x < N_DESCRIPTORS) (hne : x ≠ 513) :
    twoDir.slot x = none := by
  unfold twoDir
  dsimp only
  rw [Function.update_noteq hne]
  exact null_fill_spec N_DESCRIPTORS 0 _ x (by omega) (by omega)

theorem two_table_zero (y : Nat) (hy : y < N_DESCRIPTORS) : twoTable.entry y = 0 := by
  unfold twoTable
  dsimp only
  exact zero_fill_spec N_DESCRIPTORS 0 _ y (by omega) (by omega)

theorem two_no_entry (i j e : Nat) :
    ¬ EntryOf ⟨0x401000, 0x401000, USERSTACK, [regText], some twoDir⟩ i j e := by
  rintro ⟨pd, t, hpd, hi, hj, hs, he, hne⟩
  cases hpd
  by_cases h : i = 513
  · rw [h, two_dir_table] at hs
    cases hs
    exact hne (he ▸ two_table_zero j hj)
  · rw [two_dir_others i hi h] at hs
    cases hs

theorem free_table_zero (t : PTable) (k : Kernel)
    (hz : ∀ y, y < N_DESCRIPTORS → t.entry y = 0) : free_table t k = kfree_page k t.addr := by
  unfold free_table
  rw [free_inner_zero t.entry N_DESCRIPTORS 0 k (fun y _ h2 => hz y (by omega))]

theorem two_table_free :
    free_table twoTable (as_destroy_regions [regText] twoFault.1)
      = Outcome.panic Halt.double_free :=
  (free_table_zero twoTable _ two_table_zero).trans rfl

theorem two_destroy :
    as_destroy twoFault.1 (some ⟨0x401000, 0x401000, USERSTACK, [regText], some twoDir⟩)
      = Outcome.panic Halt.double_free := by
  rw [as_destroy_single twoFault.1 _ _ _ _ twoDir 513 twoTable (by decide) two_dir_table
    two_dir_others, two_table_free]

/-- C12: `as_destroy` after a fault that ran out of frames.  On the 64 KB
machine with frames 14 and 15 free, `as_create` puts the directory in frame 14
and `as_define_region` adds a text region; a read fault at 0x400123 creates
the second-level table in frame 15, finds no frame for the page, releases the
table and returns `ENOMEM`, leaving the pointer to the table in directory slot
513.  The address space then has no present page-table entry, so its present
entries trivially reference pairwise distinct allocated frames, yet
`as_destroy` halts with the double-free panic: `vm_freePTE` follows the
pointer and calls `kfree` on the table in frame 15, which is already free. -/
theorem destroy_after_failed_fault_panics :
    as_create kernTwo = Outcome.ok (twoCreate.1, twoCreate.2) ∧
    twoDefine.2.2 = 0 ∧
    vm_fault twoDefine.1 true twoDefine.2.1 VM_FAULT_READ 0x400123
      = Outcome.ok (twoFault.1, twoFault.2.1, ENOMEM) ∧
    twoFault.2.1 = some ⟨0x401000, 0x401000, USERSTACK, [regText], some twoDir⟩ ∧
    (twoDir.base = 0x8000e000 ∧ slotAddr twoFault.2.1 513 = some 0x8000f000) ∧
    (∀ i j e, ¬ EntryOf ⟨0x401000, 0x401000, USERSTACK, [regText], some twoDir⟩ i j e) ∧
    (twoFault.1.frames.frame_table 14 = ⟨true, false⟩ ∧
      (twoFault.1.frames.frame_table 15).allocated = false) ∧
    as_destroy twoFault.1 twoFault.2.1 = Outcome.panic Halt.double_free :=
  ⟨rfl, by decide, rfl, rfl, ⟨rfl, by decide⟩, two_no_entry, by decide,
    two_fault_shape ▸ two_destroy⟩

/-! ## A fault after the roll-back of a copy -/

theorem low_stale_copy :
    as_copy lowKernelStale parentAs = Outcome.ok (lowFinal lowKernelStale, none, ENOMEM) := by
  rw [low_unwind lowKernelStale rfl rfl rfl rfl]
  have h1 : lowInner lowKernelStale
      = Outcome.ok (Outcome.get lowKernelStale (lowInner lowKernelStale)) := rfl
  rw [h1]
  simp only
  have h2 : kfree_page (Outcome.get lowKernelStale (lowInner lowKernelStale))
      (lowTable lowKernelStale).addr
      = Outcome.ok (Outcome.get lowKernelStale
          (kfree_page (Outcome.get lowKernelStale (lowInner lowKernelStale))
            (lowTable lowKernelStale).addr)) := rfl
  rw [h2]
  simp only
  have h3 : kfree_page (Outcome.get lowKernelStale
          (kfree_page (Outcome.get lowKernelStale (lowInner lowKernelStale))
            (lowTable lowKernelStale).addr)) 0x8000a000
      = Outcome.ok (Outcome.get lowKernelStale (kfree_page (Outcome.get lowKernelStale
          (kfree_page (Outcome.get lowKernelStale (lowInner lowKernelStale))
            (lowTable lowKernelStale).addr)) 0x8000a000)) := rfl
  rw [h3]
  rfl

theorem stale_fault_eq :
    vm_fault (lowFinal lowKernelStale) true (some parentAs) VM_FAULT_READ 0x400123
      = Outcome.ok (staleFault.1, some parentAs, 0) :=
  (fault_present_again (lowFinal lowKernelStale) parentAs
    ⟨0x80005000, fun i => if i = 513 then some parentTable else none⟩
    ⟨0x400000, 0x3000, 6, 6⟩ [] parentTable VM_FAULT_READ 0x400123 (Or.inl rfl) (by decide)
    rfl rfl (Or.inl (by decide)) rfl (by decide)).trans rfl

/-- C29: a fault that installs a translation to a released frame.  The parent
has its first page in frame 7 (entry 0x7600).  The `as_copy` of the parent on
`lowKernelStale` runs out of frames, returns `ENOMEM` and its roll-back
releases frame 7.  A read fault at 0x400123 on the parent then returns 0 and
hands the pair (0x400000, 0x7600) to `tlb_random`: the entry is the page-table
entry of the page and has the valid bit, but frame 7, which its frame field
names, is marked free, and the next `alloc_kpages(1)` returns 0x80007000, the
same frame. -/
theorem fault_installs_released_frame :
    as_copy lowKernelStale parentAs = Outcome.ok (lowFinal lowKernelStale, none, ENOMEM) ∧
    (lowKernelStale.frames.frame_table 7).allocated = true ∧
    vm_fault (lowFinal lowKernelStale) true (some parentAs) VM_FAULT_READ 0x400123
      = Outcome.ok (staleFault.1, some parentAs, 0) ∧
    staleFault.1.tlb = (0x400000, 0x7600) :: (lowFinal lowKernelStale).tlb ∧
    entryAt (some parentAs) (fault_msb 0x400000) (fault_lsb 0x400000) = some 0x7600 ∧
    (0x7600 &&& TLBLO_VALID = TLBLO_VALID ∧ 0x7600 &&& PAGE_FRAME = 7 * PAGE_SIZE ∧
      pteFrame 0x7600 = 7) ∧
    (staleFault.1.frames.frame_table 7).allocated = false ∧
    alloc_kpages staleFault.1.frames 1 = Outcome.ok (staleNext.1, 0x80007000) ∧
    frameOf 0x80007000 = 7 :=
  ⟨low_stale_copy, by decide, stale_fault_eq, rfl, by decide, by decide, by decide, rfl,
    by decide⟩

/-! ## A second copy after the roll-back of the first -/

theorem pair_copy_slots :
    pairCopy.2.1.base = 0x8000a000 ∧
    ∀ x, x < N_DESCRIPTORS → x ≠ 513 → pairCopy.2.1.slot x = none := by
  have h4 : vm_copyPTE_outer (fun i => if i = 513 then some pairTable else none)
      N_DESCRIPTORS 0 pairRegions.1 lowDir
        = Outcome.ok (pairCopy.1, pairCopy.2.1, ENOMEM) := rfl
  obtain ⟨b1, b2⟩ := copy_outer_untouched _ _ _ _ _ _ _ _ h4
  refine ⟨b1, fun x hx hne => ?_⟩
  rw [b2 x (if_neg hne)]
  exact null_fill_spec N_DESCRIPTORS 0 _ x (by omega) (by omega)

theorem pair_unwind :
    as_copy pairKernel pairAs =
      match pairInner with
      | .ok k1 =>
        match kfree_page k1 pairChild.addr with
        | .ok k2 =>
          match kfree_page k2 0x8000a000 with
          | .ok k3 => .ok (kfree_small k3, none, ENOMEM)
          | .panic h => .panic h
          | .diverge => .diverge
        | .panic h => .panic h
        | .diverge => .diverge
      | .panic h => .panic h
      | .diverge => .diverge := by
  have h1 : as_create pairKernel
      = Outcome.ok (lowCreate pairKernel, some ⟨0, 0, USERSTACK, [], some lowDir⟩) := rfl
  have h2 : as_copy_regions pairAs.as_regions (lowCreate pairKernel) []
      = (pairRegions.1, pairRegions.2.1, true) := rfl
  have h4 : vm_copyPTE pairRegions.1 pairAs.as_pte lowDir
      = Outcome.ok (pairCopy.1, pairCopy.2.1, ENOMEM) := rfl
  have hd : pairCopy.2.1.slot 513 = some pairChild := rfl
  obtain ⟨hb, hn⟩ := pair_copy_slots
  rw [as_copy_unwind pairKernel pairAs _ _ _ _ lowDir _ _ ENOMEM h1 h2 rfl h4 (by decide),
    as_destroy_single _ _ _ _ _ _ 513 pairChild (by decide) hd hn, hb]
  unfold free_table
  show (match (match (match pairInner with
      | .ok k1 => kfree_page k1 pairChild.addr
      | .panic h => .panic h
      | .diverge => .diverge) with
    | .ok k1 =>
      (match kfree_page k1 0x8000a000 with
      | .ok k2 => Outcome.ok (kfree_small k2)
      | .panic h => .panic h
      | .diverge => .diverge)
    | .panic h => .panic h
    | .diverge => .diverge) with
    | .ok k4 => Outcome.ok (k4, none, ENOMEM)
    | .panic h => .panic h
    | .diverge => .diverge) = _
  cases pairInner with
  | panic e => rfl
  | diverge => rfl
  | ok k1 =>
    simp only
    cases kfree_page k1 pairChild.addr with
    | panic e => rfl
    | diverge => rfl
    | ok k2 =>
      simp only
      cases kfree_page k2 0x8000a000 <;> rfl

theorem pair_first_copy :
    as_copy pairKernel pairAs = Outcome.ok (pairFinal, none, ENOMEM) := by
  rw [pair_unwind]
  have h1 : pairInner = Outcome.ok (Outcome.get pairKernel pairInner) := rfl
  rw [h1]
  simp only
  have h2 : kfree_page (Outcome.get pairKernel pairInner) pairChild.addr
      = Outcome.ok (Outcome.get pairKernel
          (kfree_page (Outcome.get pairKernel pairInner) pairChild.addr)) := rfl
  rw [h2]
  simp only
  have h3 : kfree_page (Outcome.get pairKernel
          (kfree_page (Outcome.get pairKernel pairInner) pairChild.addr)) 0x8000a000
      = Outcome.ok (Outcome.get pairKernel (kfree_page (Outcome.get pairKernel
          (kfree_page (Outcome.get pairKernel pairInner) pairChild.addr)) 0x8000a000)) := rfl
  rw [h3]
  rfl

theorem pair_second_copy :
    as_copy pairFinal pairAs = Outcome.ok (pairSecond.1, pairSecond.2.1, 0) := rfl

/-- C4: a successful `as_copy` that overwrites a page of its source.  The
parent has two resident pages, in frames 13 and 14, both allocated; frames 10,
11 and 12 are free and every byte of frame `f` holds `f`.  A first `as_copy`
of the parent runs out of frames at the second page and returns `ENOMEM`; its
roll-back walks the unwritten words of the new table, finds 0xd600 and
releases frame 13, the parent's first page.  A second `as_copy` of the parent
then succeeds: the directory takes frame 10, the table frame 11, the copy of
the first page frame 12, and the copy of the second page frame 13, which is
cleared and filled from frame 14.  The clone's second entry is 0xd600, the
same frame as the parent's first entry, and frame 13, which held 13 in every
byte at the time of the call, holds 14 afterwards. -/
theorem as_copy_overwrites_source :
    (∀ x, x < 16 → ((pairKernel.frames.frame_table x).allocated = false ↔ 10 ≤ x ∧ x ≤ 12)) ∧
    (entryAt (some pairAs) 513 0 = some 0xd600 ∧ entryAt (some pairAs) 513 1 = some 0xe600 ∧
      pteFrame 0xd600 = 13 ∧ pteFrame 0xe600 = 14) ∧
    as_copy pairKernel pairAs = Outcome.ok (pairFinal, none, ENOMEM) ∧
    (pairFinal.frames.frame_table 13).allocated = false ∧
    as_copy pairFinal pairAs = Outcome.ok (pairSecond.1, pairSecond.2.1, 0) ∧
    pairSecond.2.1.isSome = true ∧
    (entryAt pairSecond.2.1 513 0 = some 0xc600 ∧ entryAt pairSecond.2.1 513 1 = some 0xd600) ∧
    (pairFinal.mem 13 0, pairFinal.mem 13 4095) = (13, 13) ∧
    (pairSecond.1.mem 13 0, pairSecond.1.mem 13 4095) = (14, 14) :=
  ⟨by decide, by decide, pair_first_copy, by decide, pair_second_copy, by decide, by decide,
    by decide, by decide⟩

/-! ## The entry the code builds and the frame it recovers -/

theorem copy_inner_step (old : Nat → Nat) (va fuel j : Nat) (k : Kernel) (t : Nat → Nat)
    (f : Frames) (nf : Nat) (ho : old j ≠ 0)
    (ha : alloc_kpages k.frames 1 = Outcome.ok (f, nf)) (hnf : nf ≠ 0) (hva : va ≠ 0) :
    vm_copyPTE_inner old va (fuel + 1) j k t =
      vm_copyPTE_inner old va fuel (j + 1)
        { k with frames := f,
                 mem := memmove_page (bzero_page k.mem nf) nf
                   (PADDR_TO_KVADDR (old j &&& PAGE_FRAME)) }
        (Function.update t j
          ((KVADDR_TO_PADDR nf &&& PAGE_FRAME) ||| (old j &&& TLBLO_DIRTY) ||| TLBLO_VALID)) := by
  rw [vm_copyPTE_inner, if_neg ho, ha]
  simp only
  rw [if_neg hnf, if_neg hva]

theorem copy_inner_returns (old : Nat → Nat) (va : Nat) (hva : va ≠ 0) :
    ∀ (fuel j : Nat) (k : Kernel) (t : Nat → Nat),
      ∃ k1 t1 r, vm_copyPTE_inner old va fuel j k t = Outcome.ok (k1, t1, r) ∧
        ∀ x, x < j → t1 x = t x := by
  intro fuel
  induction fuel with
  | zero => intro j k t; exact ⟨k, t, 0, rfl, fun _ _ => rfl⟩
  | succ n ih =>
    intro j k t
    by_cases ho : old j = 0
    · obtain ⟨k1, t1, r, h, hk⟩ := ih (j + 1) k (Function.update t j 0)
      refine ⟨k1, t1, r, ?_, fun x hx => ?_⟩
      · rw [vm_copyPTE_inner, if_pos ho, if_neg hva, h]
      · rw [hk x (by omega)]
        exact Function.update_noteq (by omega) _ _
    · obtain ⟨f, nf, ha⟩ := alloc_kpages_one_total k.frames
      by_cases hnf : nf = 0
      · refine ⟨{ k with frames := f }, t, ENOMEM, ?_, fun _ _ => rfl⟩
        rw [vm_copyPTE_inner, if_neg ho, ha]
        simp only
        rw [if_pos hnf]
      · rw [copy_inner_step old va n j k t f nf ho ha hnf hva]
        obtain ⟨k1, t1, r, h, hk⟩ := ih (j + 1) _ (Function.update t j
          ((KVADDR_TO_PADDR nf &&& PAGE_FRAME) ||| (old j &&& TLBLO_DIRTY) ||| TLBLO_VALID))
        refine ⟨k1, t1, r, h, fun x hx => ?_⟩
        rw [hk x (by omega)]
        exact Function.update_noteq (by omega) _ _

theorem copy_inner_builds (old : Nat → Nat) (va fuel j : Nat) (k : Kernel) (t : Nat → Nat)
    (f : Frames) (nf : Nat) (ho : old j ≠ 0)
    (ha : alloc_kpages k.frames 1 = Outcome.ok (f, nf)) (hnf : nf ≠ 0) (hva : va ≠ 0) :
    ∃ k1 t1 r, vm_copyPTE_inner old va (fuel + 1) j k t = Outcome.ok (k1, t1, r) ∧
      t1 j = (KVADDR_TO_PADDR nf &&& PAGE_FRAME) ||| (old j &&& TLBLO_DIRTY) ||| TLBLO_VALID := by
  rw [copy_inner_step old va fuel j k t f nf ho ha hnf hva]
  obtain ⟨k1, t1, r, h, hk⟩ := copy_inner_returns old va hva fuel (j + 1) _ (Function.update t j
    ((KVADDR_TO_PADDR nf &&& PAGE_FRAME) ||| (old j &&& TLBLO_DIRTY) ||| TLBLO_VALID))
  refine ⟨k1, t1, r, h, ?_⟩
  rw [hk j (by omega)]
  exact Function.update_same _ _ _

theorem free_entry_eq (k : Kernel) (e p : Nat) (he : e ≠ 0) (hf : e &&& PAGE_FRAME = p) :
    (∀ f, free_kpages k.frames (PADDR_TO_KVADDR p) = Outcome.ok f →
      vm_freePTE_entry k e = Outcome.ok { k with frames := f }) ∧
    (∀ h, free_kpages k.frames (PADDR_TO_KVADDR p) = Outcome.panic h →
      vm_freePTE_entry k e = Outcome.panic h) := by
  constructor
  · intro f h1
    unfold vm_freePTE_entry
    rw [if_pos he, hf, h1]
  · intro h h1
    unfold vm_freePTE_entry
    rw [if_pos he, hf, h1]

theorem add_pte_builds (k : Kernel) (pd : PageDir) (msb lsb d : Nat) (t : PTable)
    (ht : pd.slot msb = some t) (f : Frames) (va : Nat)
    (ha : alloc_kpages k.frames 1 = Outcome.ok (f, va)) (hva : va ≠ 0) :
    ∃ k2 pd2 t2, vm_addPTE k pd msb lsb d = Outcome.ok (k2, pd2, 0) ∧
      pd2.slot msb = some t2 ∧ t2.addr = t.addr ∧
      t2.entry lsb = (KVADDR_TO_PADDR va &&& PAGE_FRAME) ||| d ||| TLBLO_VALID ∧
      ∀ y, y ≠ lsb → t2.entry y = t.entry y := by
  obtain ⟨k2, pd2, hadd, _, _, _, _, hs, _⟩ := vm_addPTE_ok k pd msb lsb d t ht f va ha hva
  exact ⟨k2, pd2, _, hadd, hs, rfl, Function.update_same _ _ _,
    fun y hy => Function.update_noteq hy _ _⟩

/-- C30: bit layout of the entry the code builds.  Let `p` be a page-aligned
32-bit frame address, `d` be 0 or `TLBLO_DIRTY`, and
`e = (p & PAGE_FRAME) | d | TLBLO_VALID`.  Then `e & PAGE_FRAME = p`,
`e & TLBLO_DIRTY = d`, `e & TLBLO_VALID != 0` and `e != 0`.  `vm_addPTE`, called
with dirty value `d` when `alloc_kpages(1)` hands it the frame at `p`, returns
0 and the table word at `lsb` is `e`.  The inner loop of `vm_copyPTE`, at a
present source entry with dirty field `d` when `alloc_kpages(1)` hands it the
frame at `p`, returns with the new table word at that index equal to `e`.
`vm_freePTE`, at the entry `e`, calls `free_kpages(PADDR_TO_KVADDR(p))`, and the
inner loop of `vm_copyPTE`, at the source entry `e`, copies the page at
`PADDR_TO_KVADDR(p)` and carries the dirty value `d` over. -/
theorem pte_built_and_recovered (p d : Nat) (hp : p < W32) (hal : p % PAGE_SIZE = 0)
    (hd : d = 0 ∨ d = TLBLO_DIRTY) :
    (((p &&& PAGE_FRAME) ||| d ||| TLBLO_VALID) &&& PAGE_FRAME = p ∧
      ((p &&& PAGE_FRAME) ||| d ||| TLBLO_VALID) &&& TLBLO_DIRTY = d ∧
      ((p &&& PAGE_FRAME) ||| d ||| TLBLO_VALID) &&& TLBLO_VALID ≠ 0 ∧
      (p &&& PAGE_FRAME) ||| d ||| TLBLO_VALID ≠ 0 ∧
      pteFrame ((p &&& PAGE_FRAME) ||| d ||| TLBLO_VALID) = p / PAGE_SIZE) ∧
    (∀ (k : Kernel) (pd : PageDir) (msb lsb : Nat) (t : PTable) (f : Frames),
      pd.slot msb = some t →
      alloc_kpages k.frames 1 = Outcome.ok (f, PADDR_TO_KVADDR p) → PADDR_TO_KVADDR p ≠ 0 →
      ∃ k2 pd2 t2, vm_addPTE k pd msb lsb d = Outcome.ok (k2, pd2, 0) ∧
        pd2.slot msb = some t2 ∧
        t2.entry lsb = (p &&& PAGE_FRAME) ||| d ||| TLBLO_VALID) ∧
    (∀ (old : Nat → Nat) (va fuel j : Nat) (k : Kernel) (t : Nat → Nat) (f : Frames),
      old j ≠ 0 → old j &&& TLBLO_DIRTY = d → va ≠ 0 →
      alloc_kpages k.frames 1 = Outcome.ok (f, PADDR_TO_KVADDR p) → PADDR_TO_KVADDR p ≠ 0 →
      ∃ k1 t1 r, vm_copyPTE_inner old va (fuel + 1) j k t = Outcome.ok (k1, t1, r) ∧
        t1 j = (p &&& PAGE_FRAME) ||| d ||| TLBLO_VALID) ∧
    (∀ (k : Kernel),
      (∀ f, free_kpages k.frames (PADDR_TO_KVADDR p) = Outcome.ok f →
        vm_freePTE_entry k ((p &&& PAGE_FRAME) ||| d ||| TLBLO_VALID)
          = Outcome.ok { k with frames := f }) ∧
      (∀ h, free_kpages k.frames (PADDR_TO_KVADDR p) = Outcome.panic h →
        vm_freePTE_entry k ((p &&& PAGE_FRAME) ||| d ||| TLBLO_VALID) = Outcome.panic h)) ∧
    (∀ (old : Nat → Nat) (va fuel j : Nat) (k : Kernel) (t : Nat → Nat) (f : Frames) (nf : Nat),
      old j = (p &&& PAGE_FRAME) ||| d ||| TLBLO_VALID → va ≠ 0 →
      alloc_kpages k.frames 1 = Outcome.ok (f, nf) → nf ≠ 0 →
      vm_copyPTE_inner old va (fuel + 1) j k t =
        vm_copyPTE_inner old va fuel (j + 1)
          { k with frames := f,
                   mem := memmove_page (bzero_page k.mem nf) nf (PADDR_TO_KVADDR p) }
          (Function.update t j ((KVADDR_TO_PADDR nf &&& PAGE_FRAME) ||| d ||| TLBLO_VALID))) := by
  obtain ⟨hne, hf, hdty, hv, hnz, _, hpf⟩ := pte_layout p d hp hal hd
  rw [hne] at hf hdty hv hnz hpf
  have hkp := paddr_kvaddr_roundtrip p hp
  refine ⟨⟨hf, hdty, hv, hnz, hpf⟩, ?_, ?_, fun k => free_entry_eq k _ p hnz hf, ?_⟩
  · intro k pd msb lsb t f ht ha hva
    obtain ⟨k2, pd2, t2, hadd, hs, _, he, _⟩ :=
      add_pte_builds k pd msb lsb d t ht f (PADDR_TO_KVADDR p) ha hva
    rw [hkp] at he
    exact ⟨k2, pd2, t2, hadd, hs, he⟩
  · intro old va fuel j k t f ho hod hva ha hnf
    obtain ⟨k1, t1, r, h, he⟩ :=
      copy_inner_builds old va fuel j k t f (PADDR_TO_KVADDR p) ho ha hnf hva
    rw [hkp, hod] at he
    exact ⟨k1, t1, r, h, he⟩
  · intro old va fuel j k t f nf ho hva ha hnf
    have hoz : old j ≠ 0 := by rw [ho]; exact hnz
    have h := copy_inner_step old va fuel j k t f nf hoz ha hnf hva
    rw [ho, hf, hdty] at h
    exact h

/-- Witness for C30: frame address 0xa000 with the dirty bit, on the parent's
machine, where frame 10 is the first free frame; `vm_addPTE` stores 0xa600 in
the fourth word of the parent's table, and the inner loop of `vm_copyPTE`
stores 0xa600 for the parent's first entry 0x7600. -/
theorem pte_built_and_recovered_witness :
    (0xa000 : Nat) < W32 ∧ 0xa000 % PAGE_SIZE = 0 ∧
    (0xa000 &&& PAGE_FRAME) ||| TLBLO_DIRTY ||| TLBLO_VALID = 0xa600 ∧
    parentDir.slot 513 = some parentTable ∧
    alloc_kpages parentKernel.frames 1
      = Outcome.ok ((Outcome.get (emptyTable, 0) (alloc_kpages parentKernel.frames 1)).1,
          PADDR_TO_KVADDR 0xa000) ∧
    (parentTable.entry 0 = 0x7600 ∧ 0x7600 &&& TLBLO_DIRTY = TLBLO_DIRTY) ∧
    (∃ k2 pd2 t2, vm_addPTE parentKernel parentDir 513 3 TLBLO_DIRTY = Outcome.ok (k2, pd2, 0) ∧
      pd2.slot 513 = some t2 ∧
      t2.entry 3 = (0xa000 &&& PAGE_FRAME) ||| TLBLO_DIRTY ||| TLBLO_VALID) ∧
    ∃ k1 t1 r, vm_copyPTE_inner parentTable.entry 0x8000b000 (1023 + 1) 0 parentKernel
        (fun _ => 0) = Outcome.ok (k1, t1, r) ∧
      t1 0 = (0xa000 &&& PAGE_FRAME) ||| TLBLO_DIRTY ||| TLBLO_VALID :=
  have h := pte_built_and_recovered 0xa000 TLBLO_DIRTY (by decide) (by decide) (Or.inr rfl)
  ⟨by decide, by decide, by decide, rfl, rfl, by decide,
    h.2.1 parentKernel parentDir 513 3 parentTable _ rfl rfl (by decide),
    h.2.2.1 parentTable.entry 0x8000b000 1023 0 parentKernel (fun _ => 0) _ (by decide)
      (by decide) (by decide) rfl (by decide)⟩

/-! ## A fault that maps a zeroed page -/

theorem zero_dir_none (x : Nat) (hx : x < N_DESCRIPTORS) : zeroDir.slot x = none := by
  unfold zeroDir
  dsimp only
  exact null_fill_spec N_DESCRIPTORS 0 _ x (by omega) (by omega)

theorem zero_dir_unmapped (t : PTable)
    (h : zeroDir.slot (fault_msb (0x1000 &&& PAGE_FRAME)) = some t) :
    t.entry (fault_lsb (0x1000 &&& PAGE_FRAME)) = 0 := by
  rw [zero_dir_none _ (fault_msb_lt _)] at h
  cases h

theorem zero_dir_tables (t : PTable)
    (h : zeroDir.slot (fault_msb (0x1000 &&& PAGE_FRAME)) = some t) :
    (zeroDefine.1.frames.frame_table (frameOf t.addr)).allocated = true := by
  rw [zero_dir_none _ (fault_msb_lt _)] at h
  cases h

theorem vm_addPTE_ok_base (k : Kernel) (pd : PageDir) (msb lsb dirty : Nat) (t : PTable)
    (ht : pd.slot msb = some t) (f : Frames) (va : Nat)
    (ha : alloc_kpages k.frames 1 = Outcome.ok (f, va)) (hva : va ≠ 0) :
    ∃ k2 pd2, vm_addPTE k pd msb lsb dirty = Outcome.ok (k2, pd2, 0) ∧
      k2.frames = f ∧ k2.mem = bzero_page k.mem va ∧ pd2.base = pd.base ∧
      pd2.slot msb = some ⟨t.addr, Function.update t.entry lsb (new_entry va dirty)⟩ :=
  ⟨{ k with frames := f, mem := bzero_page k.mem va },
    ⟨pd.base, Function.update pd.slot msb
      (some ⟨t.addr, Function.update t.entry lsb (new_entry va dirty)⟩)⟩,
    by rw [vm_addPTE_eq k pd msb lsb dirty t ht f va ha, if_neg hva], rfl, rfl, rfl,
    Function.update_same _ _ _⟩

theorem vm_initPT_ok_base (k : Kernel) (pd : PageDir) (msb : Nat) (f : Frames) (va : Nat)
    (ha : alloc_kpages k.frames 1 = Outcome.ok (f, va)) (hva : va ≠ 0) :
    ∃ k1 pd1 t1, vm_initPT k pd msb = Outcome.ok (k1, pd1, 0) ∧
      k1.frames = f ∧ k1.mem = k.mem ∧ pd1.base = pd.base ∧
      pd1.slot msb = some t1 ∧ t1.addr = va ∧ (∀ y, y < N_DESCRIPTORS → t1.entry y = 0) := by
  refine ⟨{ k with frames := f },
    ⟨pd.base, Function.update pd.slot msb (some ⟨va, zero_fill (k.junk va) N_DESCRIPTORS 0⟩)⟩,
    ⟨va, zero_fill (k.junk va) N_DESCRIPTORS 0⟩, ?_, rfl, rfl, rfl,
    Function.update_same _ _ _, rfl, ?_⟩
  · rw [vm_initPT_eq k pd msb f va ha, if_neg hva]
  · intro y hy
    dsimp only
    exact zero_fill_spec N_DESCRIPTORS 0 (k.junk va) y (by omega) (by omega)

theorem vm_fault_maps_apart (k : Kernel) (a : addrspace) (r : region) (pd : PageDir)
    (faulttype : Int) (fa : Nat)
    (h1 : 1 ≤ k.frames.first_frame) (hl : k.frames.last_frame ≤ 131072)
    (hreg : a.as_regions = [r]) (hw : r.flags &&& PF_W = PF_W)
    (hal : r.as_vbase &&& PAGE_FRAME = r.as_vbase) (hpd : a.as_pte = some pd)
    (hft : faulttype = VM_FAULT_READ ∨ faulttype = VM_FAULT_WRITE)
    (ha0 : fa ≠ 0) (ha : fa < W32) (hin : r.as_vbase ≤ fa ∧ fa - r.as_vbase < r.size)
    (hunm : ∀ t, pd.slot (fault_msb (fa &&& PAGE_FRAME)) = some t →
      t.entry (fault_lsb (fa &&& PAGE_FRAME)) = 0)
    (hdir : (k.frames.frame_table (frameOf pd.base)).allocated = true)
    (htab : ∀ t, pd.slot (fault_msb (fa &&& PAGE_FRAME)) = some t →
      (k.frames.frame_table (frameOf t.addr)).allocated = true)
    (hfree : ((∃ t, pd.slot (fault_msb (fa &&& PAGE_FRAME)) = some t) ∧
        ∃ x, k.frames.first_frame ≤ x ∧ x < k.frames.last_frame ∧
          (k.frames.frame_table x).allocated = false) ∨
      ∃ x y, x ≠ y ∧ k.frames.first_frame ≤ x ∧ x < k.frames.last_frame ∧
        k.frames.first_frame ≤ y ∧ y < k.frames.last_frame ∧
        (k.frames.frame_table x).allocated = false ∧
        (k.frames.frame_table y).allocated = false) :
    ∃ k1 a1 pd1 t1, vm_fault k true (some a) faulttype fa = Outcome.ok (k1, some a1, 0) ∧
      a1.as_pte = some pd1 ∧ pd1.base = pd.base ∧
      pd1.slot (fault_msb (fa &&& PAGE_FRAME)) = some t1 ∧
      t1.entry (fault_lsb (fa &&& PAGE_FRAME)) ≠ 0 ∧
      t1.entry (fault_lsb (fa &&& PAGE_FRAME)) &&& TLBLO_DIRTY = TLBLO_DIRTY ∧
      t1.entry (fault_lsb (fa &&& PAGE_FRAME)) &&& TLBLO_VALID = TLBLO_VALID ∧
      (k.frames.frame_table (pteFrame (t1.entry (fault_lsb (fa &&& PAGE_FRAME))))).allocated
        = false ∧
      k1.frames.frame_table (pteFrame (t1.entry (fault_lsb (fa &&& PAGE_FRAME)))) = ⟨true, false⟩ ∧
      pteFrame (t1.entry (fault_lsb (fa &&& PAGE_FRAME))) ≠ frameOf pd1.base ∧
      pteFrame (t1.entry (fault_lsb (fa &&& PAGE_FRAME))) ≠ frameOf t1.addr ∧
      (k1.frames.frame_table (frameOf pd1.base)).allocated = true ∧
      (k1.frames.frame_table (frameOf t1.addr)).allocated = true ∧
      ∀ off, k1.mem (pteFrame (t1.entry (fault_lsb (fa &&& PAGE_FRAME)))) off = 0 := by
  obtain ⟨g1, g2⟩ := page_floor_ge r.as_vbase fa ha hal hin.1
  have hscan : (region_scan (fa &&& PAGE_FRAME) [r]).isNone = false := by
    unfold region_scan
    rw [if_pos ⟨g1, by omega⟩]
    rfl
  rw [vm_fault_enters k a pd r [] faulttype fa hft ha0 hpd hreg hscan]
  generalize fa &&& PAGE_FRAME = x at g1 g2 hunm htab hfree ⊢
  have hsp : ¬ (x ≥ (r.as_vbase + r.size * PAGE_SIZE % W32) % W32 ∧ x < r.as_vbase) :=
    fun hc => by omega
  have hd : (if r.flags &&& PF_W ≠ PF_W then 0 else TLBLO_DIRTY) = TLBLO_DIRTY :=
    if_neg (fun hc => hc hw)
  obtain ⟨f, va, hav, hzero, _, hsome⟩ := alloc_one_frame_first k.frames h1 hl
  have hone : ∃ c, k.frames.first_frame ≤ c ∧ c < k.frames.last_frame ∧
      (k.frames.frame_table c).allocated = false := by
    rcases hfree with ⟨_, c, c1, c2, c3⟩ | ⟨c, _, _, c1, c2, _, _, c3, _⟩
    · exact ⟨c, c1, c2, c3⟩
    · exact ⟨c, c1, c2, c3⟩
  have hva : va ≠ 0 := by
    intro hc
    obtain ⟨c, c1, c2, c3⟩ := hone
    have := hzero.1 hc c c1 c2
    rw [c3] at this
    cases this
  have hneq : ∀ (s : Frames) (c d : Nat), (s.frame_table c).allocated = false →
      (s.frame_table d).allocated = true → c ≠ d := by
    intro s c d hc hdd hcd
    rw [hcd, hdd] at hc
    cases hc
  cases hs : pd.slot (fault_msb x) with
  | some t =>
    obtain ⟨k2, pd2, hadd, e1, e2, e3, e5⟩ := vm_addPTE_ok_base k pd (fault_msb x)
      (fault_lsb x) (if r.flags &&& PF_W ≠ PF_W then 0 else TLBLO_DIRTY) t hs f va hav hva
    have heq := fault_ensure_absent k a pd x t r [] hreg hs (hunm t hs) _ _ _ hadd
    rw [if_neg hsp, if_neg (fun hc => hc rfl), fault_install_eq k2 a pd2 x _ _ _ e5] at heq
    rw [hd] at e5
    obtain ⟨n1, n2, n3, n4, _, n6, n7, n8⟩ :=
      new_entry_facts k.frames f va TLBLO_DIRTY hl hav hva (Or.inr rfl)
    have he : (⟨t.addr, Function.update t.entry (fault_lsb x) (new_entry va TLBLO_DIRTY)⟩ :
        PTable).entry (fault_lsb x) = new_entry va TLBLO_DIRTY := Function.update_same _ _ _
    have hdf : frameOf va ≠ frameOf pd.base := hneq _ _ _ n6 hdir
    have htf : frameOf va ≠ frameOf t.addr := hneq _ _ _ n6 (htab t hs)
    refine ⟨_, _, pd2, _, heq, rfl, e3, e5, ?_⟩
    rw [he, n4, e3, e1]
    refine ⟨n1, n3, n2, n6, n7, hdf, htf, ?_, ?_, fun off => ?_⟩
    · rw [n8 _ (Ne.symm hdf)]; exact hdir
    · rw [n8 _ (Ne.symm htf)]; exact htab t hs
    · show k2.mem (frameOf va) off = 0
      rw [e2]
      unfold bzero_page
      rw [Function.update_same]
  | none =>
    obtain ⟨ka, pd1, t1, hinit, i1, i2, i3, i5, i6, i7⟩ :=
      vm_initPT_ok_base k pd (fault_msb x) f va hav hva
    obtain ⟨i, _, _, _, hi3, _, hi5, hi6, hi7, hi8⟩ := hsome hva
    have htwo : ∃ c, f.first_frame ≤ c ∧ c < f.last_frame ∧
        (f.frame_table c).allocated = false := by
      rcases hfree with ⟨⟨t, ht⟩, _⟩ | ⟨c, d, hcd, c1, c2, d1, d2, c3, d3⟩
      · rw [hs] at ht; cases ht
      · by_cases hci : c = i
        · exact ⟨d, by omega, by omega, by rw [hi6 d (by omega)]; exact d3⟩
        · exact ⟨c, by omega, by omega, by rw [hi6 c hci]; exact c3⟩
    have hga : Grow k ka := alloc_grow k ka f va hl hav i1 (Or.inl i2)
    obtain ⟨_, _, _, _, _, m6, m7, m8⟩ :=
      new_entry_facts k.frames f va TLBLO_DIRTY hl hav hva (Or.inr rfl)
    rw [← i1] at htwo hi7 hi8 m7 m8
    obtain ⟨f2, va2, hav2, hzero2, _, _⟩ :=
      alloc_one_frame_first ka.frames (by omega) (by omega)
    have hva2 : va2 ≠ 0 := by
      intro hc
      obtain ⟨c, c1, c2, c3⟩ := htwo
      have := hzero2.1 hc c c1 c2
      rw [c3] at this
      cases this
    obtain ⟨k2, pd2, hadd, e1, e2, e3, e5⟩ := vm_addPTE_ok_base ka pd1 (fault_msb x)
      (fault_lsb x) (if r.flags &&& PF_W ≠ PF_W then 0 else TLBLO_DIRTY) t1 i5 f2 va2 hav2 hva2
    have heq := fault_ensure_no_table k a pd x r [] hreg hs ka pd1 hinit t1 i5
      (i7 _ (fault_lsb_lt x)) _ _ _ hadd
    rw [if_neg hsp, if_neg (fun hc => hc rfl), fault_install_eq k2 a pd2 x _ _ _ e5] at heq
    rw [hd] at e5
    obtain ⟨n1, n2, n3, n4, _, n6, n7, n8⟩ :=
      new_entry_facts ka.frames f2 va2 TLBLO_DIRTY (by omega) hav2 hva2 (Or.inr rfl)
    have he : (⟨t1.addr, Function.update t1.entry (fault_lsb x) (new_entry va2 TLBLO_DIRTY)⟩ :
        PTable).entry (fault_lsb x) = new_entry va2 TLBLO_DIRTY := Function.update_same _ _ _
    have hdirka : (ka.frames.frame_table (frameOf pd.base)).allocated = true := by
      rw [(hga.2.2 _ hdir).1]; exact hdir
    have htabka : (ka.frames.frame_table (frameOf va)).allocated = true := by rw [m7]
    have hdf : frameOf va2 ≠ frameOf pd.base := hneq _ _ _ n6 hdirka
    have htf : frameOf va2 ≠ frameOf va := hneq _ _ _ n6 htabka
    refine ⟨_, _, pd2, _, heq, rfl, e3.trans i3, e5, ?_⟩
    rw [he, n4, e3, i3, e1, i6]
    refine ⟨n1, n3, n2, hga.free_of_free n6, n7, hdf, htf, ?_, ?_, fun off => ?_⟩
    · rw [n8 _ (Ne.symm hdf)]; exact hdirka
    · rw [n8 _ (Ne.symm htf)]; exact htabka
    · show k2.mem (frameOf va2) off = 0
      rw [e2]
      unfold bzero_page
      rw [Function.update_same]

/-- C20 (as amended): write-fault scenario, generalised.  Frame table as
`ram_bootstrap` leaves it; address space whose only region is writable and
page-aligned and whose directory page is an allocated frame; read or write
fault at a non-zero 32-bit address inside the region whose page is not mapped;
the second-level table for the page, if there is one, lies in an allocated
frame.  If that table exists and the allocator has a free frame, or the
allocator has two free frames, then `vm_fault` returns 0, the entry for the
page is present with the dirty and valid bits set, its frame was free before
and is allocated now, it is neither the frame of the directory nor that of the
table, which are both allocated, and every byte of it is zero. -/
theorem fault_maps_zeroed_page (k : Kernel) (a : addrspace) (r : region) (pd : PageDir)
    (faulttype : Int) (fa : Nat)
    (h1 : 1 ≤ k.frames.first_frame) (hl : k.frames.last_frame ≤ 131072)
    (hreg : a.as_regions = [r]) (hw : r.flags &&& PF_W = PF_W)
    (hal : r.as_vbase &&& PAGE_FRAME = r.as_vbase) (hpd : a.as_pte = some pd)
    (hft : faulttype = VM_FAULT_READ ∨ faulttype = VM_FAULT_WRITE)
    (ha0 : fa ≠ 0) (ha : fa < W32) (hin : r.as_vbase ≤ fa ∧ fa - r.as_vbase < r.size)
    (hunm : ∀ t, pd.slot (fault_msb (fa &&& PAGE_FRAME)) = some t →
      t.entry (fault_lsb (fa &&& PAGE_FRAME)) = 0)
    (hdir : (k.frames.frame_table (frameOf pd.base)).allocated = true)
    (htab : ∀ t, pd.slot (fault_msb (fa &&& PAGE_FRAME)) = some t →
      (k.frames.frame_table (frameOf t.addr)).allocated = true)
    (hfree : ((∃ t, pd.slot (fault_msb (fa &&& PAGE_FRAME)) = some t) ∧
        ∃ x, k.frames.first_frame ≤ x ∧ x < k.frames.last_frame ∧
          (k.frames.frame_table x).allocated = false) ∨
      ∃ x y, x ≠ y ∧ k.frames.first_frame ≤ x ∧ x < k.frames.last_frame ∧
        k.frames.first_frame ≤ y ∧ y < k.frames.last_frame ∧
        (k.frames.frame_table x).allocated = false ∧
        (k.frames.frame_table y).allocated = false) :
    ∃ k1 a1 pd1 t1, vm_fault k true (some a) faulttype fa = Outcome.ok (k1, some a1, 0) ∧
      a1.as_pte = some pd1 ∧ pd1.base = pd.base ∧
      pd1.slot (fault_msb (fa &&& PAGE_FRAME)) = some t1 ∧
      t1.entry (fault_lsb (fa &&& PAGE_FRAME)) ≠ 0 ∧
      t1.entry (fault_lsb (fa &&& PAGE_FRAME)) &&& TLBLO_DIRTY = TLBLO_DIRTY ∧
      t1.entry (fault_lsb (fa &&& PAGE_FRAME)) &&& TLBLO_VALID = TLBLO_VALID ∧
      (k.frames.frame_table (pteFrame (t1.entry (fault_lsb (fa &&& PAGE_FRAME))))).allocated
        = false ∧
      k1.frames.frame_table (pteFrame (t1.entry (fault_lsb (fa &&& PAGE_FRAME)))) = ⟨true, false⟩ ∧
      pteFrame (t1.entry (fault_lsb (fa &&& PAGE_FRAME))) ≠ frameOf pd1.base ∧
      pteFrame (t1.entry (fault_lsb (fa &&& PAGE_FRAME))) ≠ frameOf t1.addr ∧
      (k1.frames.frame_table (frameOf pd1.base)).allocated = true ∧
      (k1.frames.frame_table (frameOf t1.addr)).allocated = true ∧
      ∀ off, k1.mem (pteFrame (t1.entry (fault_lsb (fa &&& PAGE_FRAME)))) off = 0 :=
  vm_fault_maps_apart k a r pd faulttype fa h1 hl hreg hw hal hpd hft ha0 ha hin hunm hdir htab
    hfree

/-- Witness for C20 (as amended): region (0x1000, 8192, R+W), write fault at
0x1000 on the address space `as_create` and `as_define_region` build on the
freshly booted machine: the directory is in frame 5, frames 6 and 7 are free;
the table takes frame 6 and the page frame 7 (entry 0x7600). -/
theorem fault_maps_zeroed_page_witness :
    as_create kern0 = Outcome.ok (stepCreate.1, some stepAs0) ∧
    as_define_region stepCreate.1 (some stepAs0) 0x1000 0x2000 1 1 0
      = (zeroDefine.1, some zeroAs, 0) ∧
    1 ≤ zeroDefine.1.frames.first_frame ∧ zeroDefine.1.frames.last_frame ≤ 131072 ∧
    zeroAs.as_regions = [regW] ∧ regW.flags &&& PF_W = PF_W ∧
    regW.as_vbase &&& PAGE_FRAME = regW.as_vbase ∧
    (0x1000 : Nat) ≠ 0 ∧ 0x1000 < W32 ∧
    (regW.as_vbase ≤ 0x1000 ∧ 0x1000 - regW.as_vbase < regW.size) ∧
    (frameOf zeroDir.base = 5 ∧ (zeroDefine.1.frames.frame_table 5).allocated = true) ∧
    (zeroDefine.1.frames.frame_table 6).allocated = false ∧
    (zeroDefine.1.frames.frame_table 7).allocated = false ∧
    entryAt zeroFault.2.1 (fault_msb 0x1000) (fault_lsb 0x1000) = some 0x7600 ∧
    ∃ k1 a1 pd1 t1, vm_fault zeroDefine.1 true (some zeroAs) VM_FAULT_WRITE 0x1000
        = Outcome.ok (k1, some a1, 0) ∧
      a1.as_pte = some pd1 ∧ pd1.base = zeroDir.base ∧
      pd1.slot (fault_msb (0x1000 &&& PAGE_FRAME)) = some t1 ∧
      t1.entry (fault_lsb (0x1000 &&& PAGE_FRAME)) ≠ 0 ∧
      t1.entry (fault_lsb (0x1000 &&& PAGE_FRAME)) &&& TLBLO_DIRTY = TLBLO_DIRTY ∧
      t1.entry (fault_lsb (0x1000 &&& PAGE_FRAME)) &&& TLBLO_VALID = TLBLO_VALID ∧
      (zeroDefine.1.frames.frame_table
        (pteFrame (t1.entry (fault_lsb (0x1000 &&& PAGE_FRAME))))).allocated = false ∧
      k1.frames.frame_table (pteFrame (t1.entry (fault_lsb (0x1000 &&& PAGE_FRAME))))
        = ⟨true, false⟩ ∧
      pteFrame (t1.entry (fault_lsb (0x1000 &&& PAGE_FRAME))) ≠ frameOf pd1.base ∧
      pteFrame (t1.entry (fault_lsb (0x1000 &&& PAGE_FRAME))) ≠ frameOf t1.addr ∧
      (k1.frames.frame_table (frameOf pd1.base)).allocated = true ∧
      (k1.frames.frame_table (frameOf t1.addr)).allocated = true ∧
      ∀ off, k1.mem (pteFrame (t1.entry (fault_lsb (0x1000 &&& PAGE_FRAME)))) off = 0 :=
  ⟨rfl, rfl, by decide, by decide, rfl, by decide, by decide, by decide, by decide, by decide,
    by decide, by decide, by decide, by decide,
    fault_maps_zeroed_page zeroDefine.1 zeroAs regW zeroDir VM_FAULT_WRITE 0x1000
      (by decide) (by decide) rfl (by decide) (by decide) rfl (Or.inr rfl) (by decide)
      (by decide) (by decide) zero_dir_unmapped (by decide) zero_dir_tables
      (Or.inr ⟨6, 7, by decide, by decide, by decide, by decide, by decide, by decide,
        by decide⟩)⟩

end Vm
